import Mathlib

/-!
# A shallow embedding of the side-scroller's simulation core

Source: `src/GameScene.h`, `src/GameScene.cpp` (and `src/Game.cpp` for
`getRenderSize`).

Conventions of the embedding

* C++ `float` values are rationals (`ℚ`) and every comparison and branch of
  the source is kept.  The rounding of binary32 arithmetic is the function
  `f32` (round to nearest, ties to even).  It is applied wherever a statement
  below depends on it: the literals `0.45f` and `0.08f`, the pointer
  positions and the swipe test of `handleEvent`, `refreshZoomFromViewport`,
  the rounded transform `toScreenRect32`, and the rounded tick `update32`.
  The simulation tick has two readings: `update` in exact arithmetic, and
  `update32`, in which every sum, difference and product of the tick is
  rounded.  The statements about the collision resolver and the landing (C2,
  C3) are about `update32`; a statement about `update` whose truth in the
  source depends on rounding carries the margins that make the two agree.
* C++ `int` values are `Int`.
* Member functions become functions from the scene state to the scene state.
* `std::rand()` is process-wide state.  A function that may draw random
  numbers takes the stream `rnd : Nat → ℚ` of the values `frand01()` returns
  during that call (`rnd 0` is the first draw).
* `m_game->getRenderSize(w, h)` is the environment.  A function that queries
  it takes `rs : Option (Int × Int)`: `none` when `m_game` is null, otherwise
  the pair written into `w` and `h`.
* The tuning members of `GameScene.h` that are never assigned after their
  default initialiser (`groundY`, `gravity`, ...) are constants, and so is the
  level catalog, which only `buildLevels` (called once by the constructor)
  writes.
-/

namespace BullRun

/-! ## Data model (`GameScene.h`) -/

/-- The `SDL_FRect` record. -/
structure FRect where
  x : ℚ := 0
  y : ℚ := 0
  w : ℚ := 0
  h : ℚ := 0
deriving DecidableEq, Repr

/-- The `enum class ObstacleType`. -/
inductive ObstacleType where
  | JumpOver
  | DuckUnder
deriving DecidableEq, Repr

/-- The `struct Obstacle`. -/
structure Obstacle where
  rect : FRect := {}
  type : ObstacleType := ObstacleType.JumpOver
deriving DecidableEq, Repr

/-- The `struct LevelDef` with its default member initialisers. -/
structure LevelDef where
  length : ℚ := 4000
  bullSpeedBonus : ℚ := 0
  obstacleCount : Int := 12
  obstacleSpacing : ℚ := 260
deriving DecidableEq, Repr

/-- World tuning, `GameScene.h` line 54. -/
def groundY : ℚ := 460
/-- World tuning, `GameScene.h` line 55. -/
def gravity : ℚ := 2200
/-- World tuning, `GameScene.h` line 56. -/
def moveSpeed : ℚ := 420
/-- World tuning, `GameScene.h` line 57. -/
def jumpVelocity : ℚ := -900
/-- Chaser tuning, `GameScene.h` line 60. -/
def bullBaseSpeed : ℚ := 260
/-- Scaling state, `GameScene.h` line 71. -/
def targetPlayerScreenRatio : ℚ := 1 / 4
/-- Scaling state, `GameScene.h` line 72. -/
def playerStandHeight : ℚ := 92
/-- Gesture tuning, `GameScene.h` line 126. -/
def swipeThresholdPx : ℚ := 48

/-- The mutable members of `class GameScene` (textures left out: they are
only read by `render`). -/
structure GameScene where
  camX : ℚ := 0
  goalX : ℚ := 0
  viewportW : Int := 960
  viewportH : Int := 540
  screenGroundY : ℚ := 460
  zoomScale : ℚ := 1
  levelIndex : Int := 0
  waitingForEnter : Bool := false
  hudLevelText : String := ""
  overlayText : String := ""
  player : FRect := {}
  vx : ℚ := 0
  vy : ℚ := 0
  onGround : Bool := false
  ducking : Bool := false
  bull : FRect := {}
  bullSpeed : ℚ := 0
  obstacles : List Obstacle := []
  playerAnimT : ℚ := 0
  bullAnimT : ℚ := 0
  leftHeld : Bool := false
  rightHeld : Bool := false
  duckHeld : Bool := false
  jumpPressed : Bool := false
  gestureActive : Bool := false
  gestureSwiped : Bool := false
  touchRunHeld : Bool := false
  touchDuckHeld : Bool := false
  gestureStartX : ℚ := 0
  gestureStartY : ℚ := 0
  gestureCurX : ℚ := 0
  gestureCurY : ℚ := 0

/-- The key codes `handleEvent` distinguishes; every other `SDL_Keycode` is
`other`. -/
inductive Keycode where
  | SDLK_LEFT | SDLK_a | SDLK_RIGHT | SDLK_d | SDLK_DOWN | SDLK_s
  | SDLK_UP | SDLK_w | SDLK_SPACE | SDLK_RETURN | other
deriving DecidableEq, Repr

/-- The value of `SDL_BUTTON_LEFT`. -/
def SDL_BUTTON_LEFT : Nat := 1

/-- The `SDL_Event` union, by its `type` tag, with the fields the scene
reads: key symbol and repeat flag, normalised finger position, mouse button
and pixel position. -/
inductive Event where
  | keyDown (sym : Keycode) (rep : Bool)
  | keyUp (sym : Keycode)
  | fingerDown (x y : ℚ)
  | fingerMotion (x y : ℚ)
  | fingerUp (x y : ℚ)
  | mouseButtonDown (button : Nat) (x y : Int)
  | mouseButtonUp (button : Nat) (x y : Int)
  | mouseMotion (x y : Int)
  | other
deriving DecidableEq, Repr

/-! ## Binary32 rounding

The type `float` of the source is IEEE 754 binary32: 24 significant bits,
least normal exponent -126, round to nearest with ties to even.  Values of
magnitude `2 ^ 128` and above (overflow to infinity) are outside the model. -/

/-- Rounding of a rational to the nearest integer, ties to the even one. -/
def roundEven (q : ℚ) : Int :=
  if q - ⌊q⌋ < 1 / 2 then ⌊q⌋
  else if 1 / 2 < q - ⌊q⌋ then ⌊q⌋ + 1
  else if ⌊q⌋ % 2 = 0 then ⌊q⌋ else ⌊q⌋ + 1

/-- The exponent of the unit in the last place of the binary32 values around
`q`: 23 below the binary exponent of `q`, and -149 in the subnormal range. -/
def ulpExp (q : ℚ) : Int := max (Int.log 2 |q|) (-126) - 23

/-- The binary32 value a real result `q` is rounded to. -/
def f32 (q : ℚ) : ℚ := (roundEven (q / 2 ^ ulpExp q) : ℚ) * 2 ^ ulpExp q

/-! ## Static helpers (`GameScene.cpp` lines 40-99) -/

/-- The overlap test `AABB`, lines 42-45. -/
def AABB (a b : FRect) : Bool :=
  !(decide (a.x + a.w ≤ b.x) || decide (b.x + b.w ≤ a.x) ||
    decide (a.y + a.h ≤ b.y) || decide (b.y + b.h ≤ a.y))

/-- The solidity rule `isSolidForPlayer`, lines 50-54. -/
def isSolidForPlayer (o : Obstacle) (ducking : Bool) : Bool :=
  if o.type = ObstacleType.JumpOver then true
  else if o.type = ObstacleType.DuckUnder then !ducking
  else true

/-- The helper `getInputPosPixels`, lines 76-93, read in exact arithmetic:
the pixel position of a pointer event for a render size `rw × rh`. -/
def getInputPosPixels (e : Event) (rw rh : Int) : ℚ × ℚ :=
  match e with
  | Event.fingerDown x y => (x * (rw : ℚ), y * (rh : ℚ))
  | Event.fingerMotion x y => (x * (rw : ℚ), y * (rh : ℚ))
  | Event.fingerUp x y => (x * (rw : ℚ), y * (rh : ℚ))
  | Event.mouseButtonDown _ x y => ((x : ℚ), (y : ℚ))
  | Event.mouseButtonUp _ x y => ((x : ℚ), (y : ℚ))
  | Event.mouseMotion x y => ((x : ℚ), (y : ℚ))
  | _ => (0, 0)

/-- The helper `getInputPosPixels`, lines 76-93, as binary32 arithmetic
evaluates it: the conversions of the render size and of the mouse position
and the two products are rounded. -/
def getInputPosPixels32 (e : Event) (rw rh : Int) : ℚ × ℚ :=
  match e with
  | Event.fingerDown x y => (f32 (x * f32 (rw : ℚ)), f32 (y * f32 (rh : ℚ)))
  | Event.fingerMotion x y => (f32 (x * f32 (rw : ℚ)), f32 (y * f32 (rh : ℚ)))
  | Event.fingerUp x y => (f32 (x * f32 (rw : ℚ)), f32 (y * f32 (rh : ℚ)))
  | Event.mouseButtonDown _ x y => (f32 (x : ℚ), f32 (y : ℚ))
  | Event.mouseButtonUp _ x y => (f32 (x : ℚ), f32 (y : ℚ))
  | Event.mouseMotion x y => (f32 (x : ℚ), f32 (y : ℚ))
  | _ => (0, 0)

/-- The helper `clearTouchHeld`, lines 95-99, applied to the four members it
is always called with. -/
def clearTouchHeld (s : GameScene) : GameScene :=
  let s := if s.touchRunHeld then { s with rightHeld := false, touchRunHeld := false } else s
  if s.touchDuckHeld then { s with duckHeld := false, touchDuckHeld := false } else s

/-- The integer `std::clamp(v, lo, hi)`. -/
def clampInt (v lo hi : Int) : Int :=
  if v < lo then lo else if hi < v then hi else v

/-- The float `std::clamp(v, lo, hi)`. -/
def clampF (v lo hi : ℚ) : ℚ :=
  if v < lo then lo else if hi < v then hi else v

/-! ## Level catalog and obstacle generation (lines 134-221) -/

/-- The body of the `buildLevels` loop for index `i`, lines 139-144. -/
def levelDefOf (i : Nat) : LevelDef :=
  { length := 3200 + (i : ℚ) * 450
    bullSpeedBonus := (i : ℚ) * 18
    obstacleCount := 10 + (i : Int) * 2
    obstacleSpacing := max 170 (270 - (i : ℚ) * 9) }

/-- The catalog `buildLevels` leaves in `levels`, lines 134-146. -/
def buildLevels : List LevelDef :=
  (List.range 10).map levelDefOf

/-- The member `levels` after construction. -/
def levels : List LevelDef := buildLevels

/-- The state of the `generateObstacles` loop: the cursor `x`, the obstacles
pushed so far and the number of `frand01()` calls made so far. -/
structure GenState where
  x : ℚ
  obstacles : List Obstacle
  calls : Nat
deriving DecidableEq, Repr

/-- The cursor after lines 197-198 of an iteration: the old cursor advanced
by the spacing plus the jitter of the first draw. -/
def generateCursor (d : LevelDef) (rnd : Nat → ℚ) (st : GenState) : ℚ :=
  let jitter := (rnd st.calls - 1 / 2) * 120
  st.x + (d.obstacleSpacing + jitter)

/-- The obstacle an iteration builds, lines 200-217: a bar when the second
draw is below the literal `0.45f` (the binary32 value nearest to 45/100),
else a ground block, at the advanced cursor. -/
def generateCandidate (d : LevelDef) (rnd : Nat → ℚ) (st : GenState) : Obstacle :=
  let x := generateCursor d rnd st
  let makeDuck := decide (rnd (st.calls + 1) < f32 (45 / 100))
  if makeDuck then
    { type := ObstacleType.DuckUnder
      rect := { w := 140, h := 24, x := x, y := (groundY - 92) + 22 } }
  else
    { type := ObstacleType.JumpOver
      rect := { w := 58, h := 48, x := x, y := groundY - 48 } }

/-- One iteration of the `generateObstacles` loop, lines 197-219. -/
def generateStep (d : LevelDef) (rnd : Nat → ℚ) (st : GenState) : GenState :=
  let o := generateCandidate d rnd st
  { x := generateCursor d rnd st
    obstacles := if o.rect.x < d.length - 220 then st.obstacles ++ [o] else st.obstacles
    calls := st.calls + 2 }

/-- The loop state `generateObstacles` starts from, lines 192-195. -/
def genStart : GenState := { x := 520, obstacles := [], calls := 0 }

/-- The `for` loop of `generateObstacles` run for `n` more iterations. -/
def generateLoop (d : LevelDef) (rnd : Nat → ℚ) : Nat → GenState → GenState
  | 0, st => st
  | n + 1, st => generateLoop d rnd n (generateStep d rnd st)

/-- The final loop state of `generateObstacles`, lines 191-221. -/
def generateRun (d : LevelDef) (rnd : Nat → ℚ) : GenState :=
  generateLoop d rnd d.obstacleCount.toNat genStart

/-- The obstacle list `generateObstacles` leaves in `obstacles`. -/
def generateObstacles (d : LevelDef) (rnd : Nat → ℚ) : List Obstacle :=
  (generateRun d rnd).obstacles

/-- The obstacle iteration `k` of the `generateObstacles` loop builds, before
the test of line 219 decides whether to keep it. -/
def generateCandidateAt (d : LevelDef) (rnd : Nat → ℚ) (k : Nat) : Obstacle :=
  generateCandidate d rnd (generateLoop d rnd k genStart)

/-- The method `startLevel`, lines 148-187.  The read `levels[levelIndex]`
follows the clamp; `getD` with the default record stands for a read outside
the vector. -/
def GameScene.startLevel (s : GameScene) (idx : Int) (rnd : Nat → ℚ) : GameScene :=
  let levelIndex := clampInt idx 0 ((levels.length : Int) - 1)
  let d : LevelDef := levels.getD levelIndex.toNat {}
  let playerX : ℚ := 120
  let playerH : ℚ := 92
  let s : GameScene :=
    { s with
      levelIndex := levelIndex
      waitingForEnter := false
      goalX := d.length
      player := { s.player with x := playerX, h := playerH, y := groundY - playerH }
      vx := 0
      vy := 0
      onGround := true
      ducking := false
      bull := { s.bull with x := playerX - 260, y := groundY - s.bull.h }
      bullSpeed := bullBaseSpeed + d.bullSpeedBonus
      camX := 0
      obstacles := generateObstacles d rnd
      hudLevelText := "Level " ++ toString (levelIndex + 1) ++ " / " ++ toString (levels.length : Int)
      overlayText := ""
      playerAnimT := 0
      bullAnimT := 0
      gestureActive := false
      gestureSwiped := false }
  clearTouchHeld s

/-- The method `restartLevel`, line 189. -/
def GameScene.restartLevel (s : GameScene) (rnd : Nat → ℚ) : GameScene :=
  s.startLevel s.levelIndex rnd

/-! ## Input events (lines 223-334) -/

/-- The render size a pointer handler works with: the locals `rw`, `rh`
start from `w0`, `h0` and are overwritten by `getRenderSize` when `m_game`
is not null. -/
def renderSizeOr (rs : Option (Int × Int)) (w0 h0 : Int) : Int × Int :=
  match rs with
  | none => (w0, h0)
  | some p => p

/-- The `switch` of the `SDL_KEYDOWN` branch, lines 226-249. -/
def GameScene.keyDown (s : GameScene) (sym : Keycode) (rnd : Nat → ℚ) : GameScene :=
  match sym with
  | Keycode.SDLK_LEFT => { s with leftHeld := true }
  | Keycode.SDLK_a => { s with leftHeld := true }
  | Keycode.SDLK_RIGHT => { s with rightHeld := true }
  | Keycode.SDLK_d => { s with rightHeld := true }
  | Keycode.SDLK_DOWN => { s with duckHeld := true }
  | Keycode.SDLK_s => { s with duckHeld := true }
  | Keycode.SDLK_UP => { s with jumpPressed := true }
  | Keycode.SDLK_w => { s with jumpPressed := true }
  | Keycode.SDLK_SPACE => { s with jumpPressed := true }
  | Keycode.SDLK_RETURN =>
    if s.waitingForEnter then
      let next := s.levelIndex + 1
      if next ≥ (levels.length : Int) then s.startLevel 0 rnd
      else s.startLevel next rnd
    else s
  | Keycode.other => s

/-- The `switch` of the `SDL_KEYUP` branch, lines 253-264. -/
def GameScene.keyUp (s : GameScene) (sym : Keycode) : GameScene :=
  match sym with
  | Keycode.SDLK_LEFT => { s with leftHeld := false }
  | Keycode.SDLK_a => { s with leftHeld := false }
  | Keycode.SDLK_RIGHT => { s with rightHeld := false }
  | Keycode.SDLK_d => { s with rightHeld := false }
  | Keycode.SDLK_DOWN => { s with duckHeld := false }
  | Keycode.SDLK_s => { s with duckHeld := false }
  | _ => s

/-- The local `isPointerDown`, lines 270-272. -/
def isPointerDown (e : Event) : Bool :=
  match e with
  | Event.fingerDown _ _ => true
  | Event.mouseButtonDown button _ _ => decide (button = SDL_BUTTON_LEFT)
  | _ => false

/-- The local `isPointerUp`, lines 274-276. -/
def isPointerUp (e : Event) : Bool :=
  match e with
  | Event.fingerUp _ _ => true
  | Event.mouseButtonUp button _ _ => decide (button = SDL_BUTTON_LEFT)
  | _ => false

/-- The local `isPointerMove`, lines 278-280. -/
def isPointerMove (e : Event) : Bool :=
  match e with
  | Event.fingerMotion _ _ => true
  | Event.mouseMotion _ _ => true
  | _ => false

/-- The body of `if (isPointerDown)`, lines 283-297. -/
def GameScene.pointerDown (s : GameScene) (e : Event) (rs : Option (Int × Int)) : GameScene :=
  let r := renderSizeOr rs 960 540
  let s := if 0 < r.1 ∧ 0 < r.2 then { s with viewportW := r.1, viewportH := r.2 } else s
  let pos := getInputPosPixels e r.1 r.2
  let s := { s with gestureStartX := pos.1, gestureStartY := pos.2 }
  let s := { s with gestureCurX := s.gestureStartX, gestureCurY := s.gestureStartY }
  let s := { s with gestureActive := true, gestureSwiped := false }
  let s := clearTouchHeld s
  { s with rightHeld := true, touchRunHeld := true }

/-- The body of `if (gestureActive && isPointerMove)`, lines 301-324, with
the rounding of its float operations: the pointer position, the difference
`dy`, and the product of the literal `0.08f` with the converted height. -/
def GameScene.pointerMove (s : GameScene) (e : Event) (rs : Option (Int × Int)) : GameScene :=
  let r := renderSizeOr rs 960 540
  let s := if 0 < r.1 ∧ 0 < r.2 then { s with viewportW := r.1, viewportH := r.2 } else s
  let pos := getInputPosPixels32 e r.1 r.2
  let s := { s with gestureCurX := pos.1, gestureCurY := pos.2 }
  let dy := f32 (s.gestureCurY - s.gestureStartY)
  let absDy := |dy|
  let thresh := max swipeThresholdPx (f32 (f32 (8 / 100) * f32 (r.2 : ℚ)))
  if !s.gestureSwiped && decide (absDy ≥ thresh) then
    let s := { s with gestureSwiped := true }
    if dy < 0 then { s with jumpPressed := true }
    else { s with duckHeld := true, touchDuckHeld := true }
  else s

/-- The local `thresh` of the pointer-move branch, line 310: the larger of
`swipeThresholdPx` and the float product `0.08f * (float)rh`, `rh` being the
render height the handler works with. -/
def swipeThreshold (rs : Option (Int × Int)) : ℚ :=
  max swipeThresholdPx (f32 (f32 (8 / 100) * f32 ((renderSizeOr rs 960 540).2 : ℚ)))

/-- The local `dy` of the pointer-move branch, line 307: the float difference
of the new pointer height and the height at which the gesture started. -/
def GameScene.swipeDy (s : GameScene) (e : Event) (rs : Option (Int × Int)) : ℚ :=
  f32 ((getInputPosPixels32 e (renderSizeOr rs 960 540).1 (renderSizeOr rs 960 540).2).2
    - s.gestureStartY)

/-- The body of `if (gestureActive && isPointerUp)`, lines 328-332. -/
def GameScene.pointerUp (s : GameScene) : GameScene :=
  clearTouchHeld { s with gestureActive := false, gestureSwiped := false }

/-- The method `handleEvent`, lines 223-334. -/
def GameScene.handleEvent (s : GameScene) (e : Event) (rs : Option (Int × Int))
    (rnd : Nat → ℚ) : GameScene :=
  let s :=
    match e with
    | Event.keyDown sym false => s.keyDown sym rnd
    | _ => s
  let s :=
    match e with
    | Event.keyUp sym => s.keyUp sym
    | _ => s
  let s := if isPointerDown e then s.pointerDown e rs else s
  let s := if s.gestureActive && isPointerMove e then s.pointerMove e rs else s
  if s.gestureActive && isPointerUp e then s.pointerUp else s

/-- The key-down part of `handleEvent`, lines 225-250, on its own. -/
def GameScene.keyDownPart (s : GameScene) (e : Event) (rnd : Nat → ℚ) : GameScene :=
  match e with
  | Event.keyDown sym false => s.keyDown sym rnd
  | _ => s

/-- The key-up part of `handleEvent`, lines 252-265, on its own. -/
def GameScene.keyUpPart (s : GameScene) (e : Event) : GameScene :=
  match e with
  | Event.keyUp sym => s.keyUp sym
  | _ => s

/-- The pointer part of `handleEvent`, lines 270-333, on its own. -/
def GameScene.pointerPart (s : GameScene) (e : Event) (rs : Option (Int × Int)) : GameScene :=
  let s := if isPointerDown e then s.pointerDown e rs else s
  let s := if s.gestureActive && isPointerMove e then s.pointerMove e rs else s
  if s.gestureActive && isPointerUp e then s.pointerUp else s

/-! ## Per-tick simulation (lines 336-500, 679-709) -/

/-- Lines 338-340 of `applyInput`: horizontal velocity from the held
intents. -/
def GameScene.inputHorizontal (s : GameScene) : GameScene :=
  let s := { s with vx := 0 }
  let s := if s.leftHeld then { s with vx := s.vx - moveSpeed } else s
  if s.rightHeld then { s with vx := s.vx + moveSpeed } else s

/-- The test box of the stand-up check, lines 353-358: the player at height
`newH = 92` with the same feet. -/
def GameScene.standTest (s : GameScene) : FRect :=
  let oldH := s.player.h
  let newH : ℚ := 92
  { s.player with y := s.player.y - (newH - oldH), h := newH }

/-- The flag `blocked` of the stand-up check, lines 360-364. -/
def GameScene.standBlocked (s : GameScene) : Bool :=
  s.obstacles.any fun o => isSolidForPlayer o false && AABB s.standTest o.rect

/-- Lines 343-372 of `applyInput`: the duck transition. -/
def GameScene.inputDuck (s : GameScene) : GameScene :=
  if s.duckHeld && s.onGround then
    if !s.ducking then
      let oldH := s.player.h
      { s with
        ducking := true
        player := { s.player with h := 56, y := s.player.y + (oldH - 56) } }
    else s
  else
    if s.ducking then
      if !s.standBlocked then
        { s with ducking := false, player := { s.player with h := 92, y := s.standTest.y } }
      else s
    else s

/-- Lines 375-378 of `applyInput`: the jump. -/
def GameScene.inputJump (s : GameScene) : GameScene :=
  if s.jumpPressed && s.onGround && !s.ducking then
    { s with vy := jumpVelocity, onGround := false }
  else s

/-- The method `applyInput`, lines 336-379. -/
def GameScene.applyInput (s : GameScene) : GameScene :=
  ((s.inputHorizontal).inputDuck).inputJump

/-- The body of the horizontal resolution loop, lines 408-412. -/
def resolveXStep (ducking : Bool) (vx : ℚ) (p : FRect) (o : Obstacle) : FRect :=
  if !isSolidForPlayer o ducking then p
  else if !AABB p o.rect then p
  else if vx > 0 then { p with x := o.rect.x - p.w }
  else { p with x := o.rect.x + o.rect.w }

/-- What the vertical resolution loop updates: `player`, `vy`, `onGround`. -/
structure YState where
  player : FRect
  vy : ℚ
  onGround : Bool
deriving DecidableEq, Repr

/-- The body of the vertical resolution loop, lines 421-451. -/
def resolveYStep (ducking : Bool) (prevY prevBottom : ℚ) (st : YState) (o : Obstacle) : YState :=
  if !isSolidForPlayer o ducking then st
  else if !AABB st.player o.rect then st
  else
    let oTop := o.rect.y
    let oBottom := o.rect.y + o.rect.h
    let pTop := st.player.y
    let pBottom := st.player.y + st.player.h
    if st.vy > 0 then
      if decide (prevBottom ≤ oTop + 1 / 2) && decide (pBottom ≥ oTop) then
        { player := { st.player with y := oTop - st.player.h }, vy := 0, onGround := true }
      else st
    else if st.vy < 0 then
      if decide (prevY ≥ oBottom - 1 / 2) && decide (pTop ≤ oBottom) then
        { st with player := { st.player with y := oBottom }, vy := 0 }
      else st
    else
      if prevBottom ≤ oTop + 2 then
        { st with player := { st.player with y := oTop - st.player.h }, onGround := true }
      else
        { st with player := { st.player with y := oBottom } }

/-- Lines 391-396 of `update`: animation timers and gravity. -/
def GameScene.integrate (s : GameScene) (dt : ℚ) : GameScene :=
  { s with
    playerAnimT := s.playerAnimT + dt
    bullAnimT := s.bullAnimT + dt
    vy := s.vy + gravity * dt }

/-- Lines 403-414 of `update`: move X, clamp to the left boundary, resolve X
collisions. -/
def GameScene.moveX (s : GameScene) (dt : ℚ) : GameScene :=
  let p : FRect := { s.player with x := s.player.x + s.vx * dt }
  let p : FRect := if p.x < 30 then { p with x := 30 } else p
  let p : FRect :=
    if s.vx ≠ 0 then s.obstacles.foldl (resolveXStep s.ducking s.vx) p else p
  { s with player := p }

/-- Lines 417-452 of `update`: move Y, reset `onGround`, resolve Y collisions
against the vertical position `prevY`, `prevBottom` saved before the move. -/
def GameScene.moveY (s : GameScene) (dt prevY prevBottom : ℚ) : GameScene :=
  let p : FRect := { s.player with y := s.player.y + s.vy * dt }
  let r := s.obstacles.foldl (resolveYStep s.ducking prevY prevBottom)
    { player := p, vy := s.vy, onGround := false }
  { s with player := r.player, vy := r.vy, onGround := r.onGround }

/-- Lines 455-460 of `update`: clamp to the world ground line. -/
def GameScene.worldGround (s : GameScene) : GameScene :=
  let floorY := groundY - s.player.h
  if s.player.y ≥ floorY then
    { s with player := { s.player with y := floorY }, vy := 0, onGround := true }
  else s

/-- Lines 463-464 of `update`: the chaser advances. -/
def GameScene.bullChase (s : GameScene) (dt : ℚ) : GameScene :=
  { s with bull := { s.bull with x := s.bull.x + s.bullSpeed * dt, y := groundY - s.bull.h } }

/-- Lines 467-470 of `update`: camera follow. -/
def GameScene.cameraFollow (s : GameScene) : GameScene :=
  let viewportWorldWidth := (s.viewportW : ℚ) / max (1 / 100) s.zoomScale
  let targetCam := s.player.x - viewportWorldWidth * (3 / 10)
  let maxCam := max 0 (s.goalX - viewportWorldWidth)
  { s with camX := clampF targetCam 0 maxCam }

/-- The player after lines 389-452 of `update`: input, gravity, horizontal
move and resolution, vertical move and resolution.  `prevY` and `prevBottom`
are read after `applyInput` and before the moves. -/
def GameScene.resolvePlayer (s : GameScene) (dt : ℚ) : GameScene :=
  let s := (s.applyInput).integrate dt
  (s.moveX dt).moveY dt s.player.y (s.player.y + s.player.h)

/-- The player after lines 389-460 of `update`: the resolved player clamped
to the world ground line. -/
def GameScene.movePlayer (s : GameScene) (dt : ℚ) : GameScene :=
  (s.resolvePlayer dt).worldGround

/-- The movement part of `update`, lines 389-470: the player moves, the
chaser advances, the camera follows. -/
def GameScene.moveWorld (s : GameScene) (dt : ℚ) : GameScene :=
  ((s.movePlayer dt).bullChase dt).cameraFollow

/-- The method `intersects`, lines 479-481. -/
def GameScene.intersects (_s : GameScene) (a b : FRect) : Bool :=
  AABB a b

/-- The condition of `checkCaught`, line 484. -/
def GameScene.caught (s : GameScene) : Bool :=
  s.intersects s.bull s.player || decide (s.bull.x + s.bull.w ≥ s.player.x + 8)

/-- The method `checkCaught`, lines 483-487. -/
def GameScene.checkCaught (s : GameScene) (rnd : Nat → ℚ) : GameScene :=
  if s.caught then s.restartLevel rnd else s

/-- The method `checkGoalReached`, lines 489-500. -/
def GameScene.checkGoalReached (s : GameScene) : GameScene :=
  if decide (s.player.x ≥ s.goalX) && !s.waitingForEnter then
    let nextHuman := s.levelIndex + 2
    let hasNext := decide (nextHuman ≤ (levels.length : Int))
    { s with
      waitingForEnter := true
      overlayText :=
        if hasNext then "Press ENTER to begin Level " ++ toString nextHuman
        else "Press ENTER to restart" }
  else s

/-- The method `refreshZoomFromViewport`, lines 690-700 (its first parameter
is unused), with the rounding of every float operation: the conversion of
the height, the product with the ratio 0.25f, the quotient, the product
with the literal `0.08f` and the difference. -/
def GameScene.refreshZoomFromViewport (s : GameScene) (_viewportW viewportH : Int) : GameScene :=
  let vh : ℚ := f32 ((max 1 viewportH : Int) : ℚ)
  let desiredScreenHeight := f32 (vh * targetPlayerScreenRatio)
  let baseHeight := max 1 playerStandHeight
  let computedZoom := f32 (desiredScreenHeight / baseHeight)
  let s := { s with zoomScale := clampF computedZoom (1 / 2) (7 / 2) }
  let padding := max 36 (f32 (vh * f32 (8 / 100)))
  let grounded := f32 (vh - padding)
  { s with screenGroundY := clampF grounded 0 vh }

/-- The method `syncViewportMetrics`, lines 679-688. -/
def GameScene.syncViewportMetrics (s : GameScene) (rs : Option (Int × Int)) : GameScene :=
  let r := renderSizeOr rs s.viewportW s.viewportH
  let w := if r.1 ≤ 0 then 960 else r.1
  let h := if r.2 ≤ 0 then 540 else r.2
  let s := { s with viewportW := w, viewportH := h }
  s.refreshZoomFromViewport s.viewportW s.viewportH

/-- The method `update`, lines 381-477. -/
def GameScene.update (s : GameScene) (dt : ℚ) (rs : Option (Int × Int))
    (rnd : Nat → ℚ) : GameScene :=
  let s := s.syncViewportMetrics rs
  if s.waitingForEnter then { s with jumpPressed := false }
  else
    let s := s.moveWorld dt
    let s := s.checkCaught rnd
    let s := s.checkGoalReached
    { s with jumpPressed := false }

/-! ## Per-tick simulation in binary32

The tick as the machine computes it: the same statements as above, with
every sum, difference and product rounded to binary32 (no fused
multiply-add).  The viewport synchronisation, the jump, the goal latch and
the level restart contain no arithmetic on the members the resolver reads
and are those of the exact tick. -/

/-- The overlap test `AABB`, lines 42-45, as the machine evaluates it: each
of the four sums is rounded to binary32 before it is compared. -/
def AABB32 (a b : FRect) : Bool :=
  !(decide (f32 (a.x + a.w) ≤ b.x) || decide (f32 (b.x + b.w) ≤ a.x) ||
    decide (f32 (a.y + a.h) ≤ b.y) || decide (f32 (b.y + b.h) ≤ a.y))

/-- Lines 338-340 of `applyInput` in binary32. -/
def GameScene.inputHorizontal32 (s : GameScene) : GameScene :=
  let s := { s with vx := 0 }
  let s := if s.leftHeld then { s with vx := f32 (s.vx - moveSpeed) } else s
  if s.rightHeld then { s with vx := f32 (s.vx + moveSpeed) } else s

/-- The test box of the stand-up check, lines 353-358, in binary32. -/
def GameScene.standTest32 (s : GameScene) : FRect :=
  let oldH := s.player.h
  let newH : ℚ := 92
  { s.player with y := f32 (s.player.y - f32 (newH - oldH)), h := newH }

/-- The flag `blocked` of the stand-up check, lines 360-364, in binary32. -/
def GameScene.standBlocked32 (s : GameScene) : Bool :=
  s.obstacles.any fun o => isSolidForPlayer o false && AABB32 s.standTest32 o.rect

/-- Lines 343-372 of `applyInput` in binary32: the duck transition. -/
def GameScene.inputDuck32 (s : GameScene) : GameScene :=
  if s.duckHeld && s.onGround then
    if !s.ducking then
      let oldH := s.player.h
      { s with
        ducking := true
        player := { s.player with h := 56, y := f32 (s.player.y + f32 (oldH - 56)) } }
    else s
  else
    if s.ducking then
      if !s.standBlocked32 then
        { s with ducking := false, player := { s.player with h := 92, y := s.standTest32.y } }
      else s
    else s

/-- The method `applyInput`, lines 336-379, in binary32. -/
def GameScene.applyInput32 (s : GameScene) : GameScene :=
  ((s.inputHorizontal32).inputDuck32).inputJump

/-- The body of the horizontal resolution loop, lines 408-412, in binary32. -/
def resolveXStep32 (ducking : Bool) (vx : ℚ) (p : FRect) (o : Obstacle) : FRect :=
  if !isSolidForPlayer o ducking then p
  else if !AABB32 p o.rect then p
  else if vx > 0 then { p with x := f32 (o.rect.x - p.w) }
  else { p with x := f32 (o.rect.x + o.rect.w) }

/-- The body of the vertical resolution loop, lines 421-451, in binary32. -/
def resolveYStep32 (ducking : Bool) (prevY prevBottom : ℚ) (st : YState) (o : Obstacle) :
    YState :=
  if !isSolidForPlayer o ducking then st
  else if !AABB32 st.player o.rect then st
  else
    let oTop := o.rect.y
    let oBottom := f32 (o.rect.y + o.rect.h)
    let pTop := st.player.y
    let pBottom := f32 (st.player.y + st.player.h)
    if st.vy > 0 then
      if decide (prevBottom ≤ f32 (oTop + 1 / 2)) && decide (pBottom ≥ oTop) then
        { player := { st.player with y := f32 (oTop - st.player.h) }, vy := 0, onGround := true }
      else st
    else if st.vy < 0 then
      if decide (prevY ≥ f32 (oBottom - 1 / 2)) && decide (pTop ≤ oBottom) then
        { st with player := { st.player with y := oBottom }, vy := 0 }
      else st
    else
      if prevBottom ≤ f32 (oTop + 2) then
        { st with player := { st.player with y := f32 (oTop - st.player.h) }, onGround := true }
      else
        { st with player := { st.player with y := oBottom } }

/-- Lines 391-396 of `update` in binary32: animation timers and gravity. -/
def GameScene.integrate32 (s : GameScene) (dt : ℚ) : GameScene :=
  { s with
    playerAnimT := f32 (s.playerAnimT + dt)
    bullAnimT := f32 (s.bullAnimT + dt)
    vy := f32 (s.vy + f32 (gravity * dt)) }

/-- Lines 403-414 of `update` in binary32: move X, clamp to the left
boundary, resolve X collisions. -/
def GameScene.moveX32 (s : GameScene) (dt : ℚ) : GameScene :=
  let p : FRect := { s.player with x := f32 (s.player.x + f32 (s.vx * dt)) }
  let p : FRect := if p.x < 30 then { p with x := 30 } else p
  let p : FRect :=
    if s.vx ≠ 0 then s.obstacles.foldl (resolveXStep32 s.ducking s.vx) p else p
  { s with player := p }

/-- Lines 417-452 of `update` in binary32: move Y, reset `onGround`, resolve
Y collisions against the saved `prevY`, `prevBottom`. -/
def GameScene.moveY32 (s : GameScene) (dt prevY prevBottom : ℚ) : GameScene :=
  let p : FRect := { s.player with y := f32 (s.player.y + f32 (s.vy * dt)) }
  let r := s.obstacles.foldl (resolveYStep32 s.ducking prevY prevBottom)
    { player := p, vy := s.vy, onGround := false }
  { s with player := r.player, vy := r.vy, onGround := r.onGround }

/-- Lines 455-460 of `update` in binary32: clamp to the world ground line. -/
def GameScene.worldGround32 (s : GameScene) : GameScene :=
  let floorY := f32 (groundY - s.player.h)
  if s.player.y ≥ floorY then
    { s with player := { s.player with y := floorY }, vy := 0, onGround := true }
  else s

/-- Lines 463-464 of `update` in binary32: the chaser advances. -/
def GameScene.bullChase32 (s : GameScene) (dt : ℚ) : GameScene :=
  { s with bull := { s.bull with x := f32 (s.bull.x + f32 (s.bullSpeed * dt)),
                                 y := f32 (groundY - s.bull.h) } }

/-- Lines 467-470 of `update` in binary32: camera follow. -/
def GameScene.cameraFollow32 (s : GameScene) : GameScene :=
  let viewportWorldWidth := f32 (f32 (s.viewportW : ℚ) / max (f32 (1 / 100)) s.zoomScale)
  let targetCam := f32 (s.player.x - f32 (viewportWorldWidth * f32 (3 / 10)))
  let maxCam := max 0 (f32 (s.goalX - viewportWorldWidth))
  { s with camX := clampF targetCam 0 maxCam }

/-- The player after lines 389-452 of `update` in binary32. -/
def GameScene.resolvePlayer32 (s : GameScene) (dt : ℚ) : GameScene :=
  let s := (s.applyInput32).integrate32 dt
  (s.moveX32 dt).moveY32 dt s.player.y (f32 (s.player.y + s.player.h))

/-- The player after lines 389-460 of `update` in binary32. -/
def GameScene.movePlayer32 (s : GameScene) (dt : ℚ) : GameScene :=
  (s.resolvePlayer32 dt).worldGround32

/-- The movement part of `update`, lines 389-470, in binary32. -/
def GameScene.moveWorld32 (s : GameScene) (dt : ℚ) : GameScene :=
  ((s.movePlayer32 dt).bullChase32 dt).cameraFollow32

/-- The condition of `checkCaught`, line 484, in binary32. -/
def GameScene.caught32 (s : GameScene) : Bool :=
  AABB32 s.bull s.player || decide (f32 (s.bull.x + s.bull.w) ≥ f32 (s.player.x + 8))

/-- The method `checkCaught`, lines 483-487, in binary32. -/
def GameScene.checkCaught32 (s : GameScene) (rnd : Nat → ℚ) : GameScene :=
  if s.caught32 then s.restartLevel rnd else s

/-- The method `update`, lines 381-477, in binary32. -/
def GameScene.update32 (s : GameScene) (dt : ℚ) (rs : Option (Int × Int))
    (rnd : Nat → ℚ) : GameScene :=
  let s := s.syncViewportMetrics rs
  if s.waitingForEnter then { s with jumpPressed := false }
  else
    let s := s.moveWorld32 dt
    let s := s.checkCaught32 rnd
    let s := s.checkGoalReached
    { s with jumpPressed := false }

/-- Lines 403-404 of `update` in binary32: the player rectangle after the
horizontal move and the clamp to the left boundary. -/
def GameScene.xMoved32 (s : GameScene) (dt : ℚ) : FRect :=
  let p : FRect := { s.player with x := f32 (s.player.x + f32 (s.vx * dt)) }
  if p.x < 30 then { p with x := 30 } else p

/-- Line 417 of `update` in binary32: the player rectangle after the
vertical move. -/
def GameScene.yMoved32 (s : GameScene) (dt : ℚ) : FRect :=
  { s.player with y := f32 (s.player.y + f32 (s.vy * dt)) }

/-! ## World-to-screen transform (lines 702-709) and construction -/

/-- The method `toScreenRect`, lines 702-709, read in exact arithmetic. -/
def GameScene.toScreenRect (s : GameScene) (world : FRect) : FRect :=
  { x := (world.x - s.camX) * s.zoomScale
    w := world.w * s.zoomScale
    h := world.h * s.zoomScale
    y := s.screenGroundY + (world.y - groundY) * s.zoomScale }

/-- The method `toScreenRect`, lines 702-709, as binary32 arithmetic
evaluates it: every difference, product and sum is rounded. -/
def GameScene.toScreenRect32 (s : GameScene) (world : FRect) : FRect :=
  { x := f32 (f32 (world.x - s.camX) * s.zoomScale)
    w := f32 (world.w * s.zoomScale)
    h := f32 (world.h * s.zoomScale)
    y := f32 (s.screenGroundY + f32 (f32 (world.y - groundY) * s.zoomScale)) }

/-- The state the constructor leaves, lines 101-124: player and bull
colliders sized, then `startLevel(0)`. -/
def GameScene.init (rnd : Nat → ℚ) : GameScene :=
  let s : GameScene := {}
  let s := { s with player := { s.player with w := 44, h := 92, x := 120, y := groundY - 92 } }
  let s := { s with bull := { s.bull with w := 86, h := 62 } }
  s.startLevel 0 rnd

/-! ## Options scene (`OptionsScene.h`, `OptionsScene.cpp`) -/

/-- The enum `PointerAction` of `OptionsScene.h`, line 36. -/
inductive PointerAction where
  | None
  | Fullscreen
  | ResPrev
  | ResNext
  | Back
deriving DecidableEq, Repr

/-- The members of `OptionsScene`, lines 17-39 of `OptionsScene.h`; `m_game`
records whether the game pointer is non-null. -/
structure OptionsScene where
  m_game : Bool := false
  m_resIndex : Int := 0
  m_pointerDown : Bool := false
  m_pointerAction : PointerAction := PointerAction.None
deriving DecidableEq, Repr

/-- The constant `RES_COUNT`, line 20 of `OptionsScene.h`. -/
def RES_COUNT : Int := 5

/-- The table `m_resolutions`, lines 21-27 of `OptionsScene.h`. -/
def m_resolutions : List (Int × Int) :=
  [(1024, 576), (1280, 720), (1600, 900), (1920, 1080), (2560, 1440)]

/-- The table `m_resLabels`, lines 28-34 of `OptionsScene.h`. -/
def m_resLabels : List String :=
  ["Compact (1024 x 576)", "Standard (1280 x 720)", "Large (1600 x 900)",
    "Full HD (1920 x 1080)", "QHD (2560 x 1440)"]

/-- The keys the options scene tells apart, lines 105-124. -/
inductive OptionsKeycode where
  | SDLK_f | SDLK_r | SDLK_RIGHT | SDLK_LEFT | SDLK_ESCAPE | other
deriving DecidableEq, Repr

/-- The SDL events the options scene tells apart.  Finger events carry
normalised coordinates, mouse events a button and pixel coordinates. -/
inductive OptionsEvent where
  | keyDown (sym : OptionsKeycode) (rep : Bool)
  | fingerDown (x y : ℚ)
  | fingerUp (x y : ℚ)
  | mouseButtonDown (button : Nat) (x y : Int)
  | mouseButtonUp (button : Nat) (x y : Int)
  | other

/-- The helper `isPointerDownEvent`, lines 11-14. -/
def isPointerDownEvent (e : OptionsEvent) : Bool :=
  match e with
  | OptionsEvent.fingerDown _ _ => true
  | OptionsEvent.mouseButtonDown button _ _ => decide (button = SDL_BUTTON_LEFT)
  | _ => false

/-- The helper `isPointerUpEvent`, lines 16-19. -/
def isPointerUpEvent (e : OptionsEvent) : Bool :=
  match e with
  | OptionsEvent.fingerUp _ _ => true
  | OptionsEvent.mouseButtonUp button _ _ => decide (button = SDL_BUTTON_LEFT)
  | _ => false

/-- The helper `extractPointerPosition`, lines 21-45: the pixel position of a
pointer event, `none` where the function returns false. -/
def extractPointerPosition (e : OptionsEvent) (rw rh : Int) : Option (ℚ × ℚ) :=
  let rw := if rw ≤ 0 then 1 else rw
  let rh := if rh ≤ 0 then 1 else rh
  match e with
  | OptionsEvent.fingerDown x y => some (x * (rw : ℚ), y * (rh : ℚ))
  | OptionsEvent.fingerUp x y => some (x * (rw : ℚ), y * (rh : ℚ))
  | OptionsEvent.mouseButtonDown _ x y => some ((x : ℚ), (y : ℚ))
  | OptionsEvent.mouseButtonUp _ x y => some ((x : ℚ), (y : ℚ))
  | _ => none

/-- The helper `contains`, lines 47-49. -/
def contains (r : FRect) (px py : ℚ) : Bool :=
  decide (px ≥ r.x) && decide (px ≤ r.x + r.w) && decide (py ≥ r.y) && decide (py ≤ r.y + r.h)

/-- The struct `OptionsLayout`, lines 51-56. -/
structure OptionsLayout where
  fullscreenRect : FRect := {}
  resPrevRect : FRect := {}
  resNextRect : FRect := {}
  backRect : FRect := {}

/-- The helper `buildLayout`, lines 58-81. -/
def buildLayout (screenW screenH : Int) : OptionsLayout :=
  let screenW := if screenW ≤ 0 then 1 else screenW
  let screenH := if screenH ≤ 0 then 1 else screenH
  let panelX : ℚ := (screenW : ℚ) * (1 / 2) - 260
  let panelY : ℚ := (screenH : ℚ) * (1 / 2) - 170
  let panelW : ℚ := 520
  let modeBox : FRect := { x := panelX, y := panelY + 86, w := panelW, h := 36 }
  let resBox : FRect := { x := panelX, y := panelY + 132, w := panelW, h := 36 }
  let presetBox : FRect := { x := panelX, y := panelY + 176, w := panelW, h := 32 }
  let resArea : FRect :=
    { x := resBox.x, y := resBox.y - 6, w := resBox.w
      h := (presetBox.y + presetBox.h + 6) - (resBox.y - 6) }
  let resPrevRect : FRect := { resArea with w := resArea.w * (1 / 2) }
  let hintBox : FRect := { x := panelX, y := panelY + 236, w := panelW, h := 80 }
  { fullscreenRect := { x := modeBox.x, y := modeBox.y - 6, w := modeBox.w, h := modeBox.h + 12 }
    resPrevRect := resPrevRect
    resNextRect := { resPrevRect with x := resPrevRect.x + resPrevRect.w }
    backRect := hintBox }

/-- The method `hitTestAction`, lines 206-214. -/
def hitTestAction (px py : ℚ) (screenW screenH : Int) : PointerAction :=
  let layout := buildLayout screenW screenH
  if contains layout.fullscreenRect px py then PointerAction.Fullscreen
  else if contains layout.resPrevRect px py then PointerAction.ResPrev
  else if contains layout.resNextRect px py then PointerAction.ResNext
  else if contains layout.backRect px py then PointerAction.Back
  else PointerAction.None

/-- The method `cycleResolution`, lines 87-92.  `%` is the C++ remainder,
which truncates towards zero; `applyResolutionAtIndex` writes no member. -/
def OptionsScene.cycleResolution (s : OptionsScene) (delta : Int) : OptionsScene :=
  if !s.m_game then s
  else { s with m_resIndex := Int.tmod (s.m_resIndex + RES_COUNT + delta) RES_COUNT }

/-- The read `m_resolutions[m_resIndex]` of `applyResolutionAtIndex`, lines
96-97: the pair passed to `setWindowedResolution`, `none` for an index
outside the table. -/
def OptionsScene.applyResolutionAtIndex (s : OptionsScene) : Option (Int × Int) :=
  if s.m_resIndex < 0 then none else m_resolutions[s.m_resIndex.toNat]?

/-- The read `m_resLabels[m_resIndex]` of `render`, line 168: `none` for an
index outside the table. -/
def OptionsScene.presetLabel (s : OptionsScene) : Option String :=
  if s.m_resIndex < 0 then none else m_resLabels[s.m_resIndex.toNat]?

/-- The method `executeAction`, lines 216-234, on the members of the scene
(`toggleFullscreen` and `requestScene` act on the game only). -/
def OptionsScene.executeAction (s : OptionsScene) (action : PointerAction) : OptionsScene :=
  match action with
  | PointerAction.ResPrev => s.cycleResolution (-1)
  | PointerAction.ResNext => s.cycleResolution 1
  | _ => s

/-- The method `handlePointerEvent`, lines 175-204, for the render size
`rs` that `getRenderSize` returns. -/
def OptionsScene.handlePointerEvent (s : OptionsScene) (e : OptionsEvent) (rs : Int × Int) :
    OptionsScene :=
  let pointerDown := isPointerDownEvent e
  let pointerUp := isPointerUpEvent e
  if !pointerDown && !pointerUp then s
  else
    match extractPointerPosition e rs.1 rs.2 with
    | none => s
    | some (px, py) =>
      let s :=
        if pointerDown then
          let action := hitTestAction px py rs.1 rs.2
          if action ≠ PointerAction.None then
            { s with m_pointerDown := true, m_pointerAction := action }
          else { s with m_pointerDown := false, m_pointerAction := PointerAction.None }
        else s
      if pointerUp then
        let action := hitTestAction px py rs.1 rs.2
        let s := if s.m_pointerDown && decide (action = s.m_pointerAction) then
          s.executeAction action else s
        { s with m_pointerDown := false, m_pointerAction := PointerAction.None }
      else s

/-- The `switch` of the key-down branch of `handleEvent`, lines 105-125, on
the members of the scene. -/
def OptionsScene.keyDown (s : OptionsScene) (sym : OptionsKeycode) : OptionsScene :=
  match sym with
  | OptionsKeycode.SDLK_r => s.cycleResolution 1
  | OptionsKeycode.SDLK_RIGHT => s.cycleResolution 1
  | OptionsKeycode.SDLK_LEFT => s.cycleResolution (-1)
  | _ => s

/-- The method `OptionsScene::handleEvent`, lines 101-129. -/
def OptionsScene.handleEvent (s : OptionsScene) (e : OptionsEvent) (rs : Int × Int) :
    OptionsScene :=
  if !s.m_game then s
  else
    let s :=
      match e with
      | OptionsEvent.keyDown sym false => s.keyDown sym
      | _ => s
    s.handlePointerEvent e rs

/-- The method `OptionsScene::update`, lines 131-133. -/
def OptionsScene.update (s : OptionsScene) (_dt : ℚ) : OptionsScene := s

/-- The state the constructor leaves, line 85. -/
def OptionsScene.init (game : Bool) : OptionsScene := { m_game := game }

/-- The states of the options scene: the constructor's state and every state
that follows through `handleEvent`, `update` and direct `cycleResolution`
calls with `delta` 1 or −1. -/
inductive OptionsReachable : OptionsScene → Prop where
  | init (game : Bool) : OptionsReachable (OptionsScene.init game)
  | event (s : OptionsScene) (e : OptionsEvent) (rs : Int × Int)
      (hs : OptionsReachable s) : OptionsReachable (s.handleEvent e rs)
  | tick (s : OptionsScene) (dt : ℚ) (hs : OptionsReachable s) : OptionsReachable (s.update dt)
  | cycle (s : OptionsScene) (delta : Int) (hd : delta = 1 ∨ delta = -1)
      (hs : OptionsReachable s) : OptionsReachable (s.cycleResolution delta)

/-- The index `m_resIndex` lies inside the two tables of five entries. -/
def ResIndexInRange (s : OptionsScene) : Prop :=
  0 ≤ s.m_resIndex ∧ s.m_resIndex ≤ 4

/-! ## Zoom helpers (`Zoom.h`, `Zoom.cpp`) -/

/-- A random stream that always draws `1 / 2` (zero jitter, ground blocks). -/
def rndHalf : Nat → ℚ := fun _ => 1 / 2

/-- A running scene in which the right intent is held by a key: `rightHeld`
is set, no gesture is active and no hold is gesture-owned. -/
def keyHeldRight : GameScene :=
  { goalX := 3200
    player := { x := 120, y := 368, w := 44, h := 92 }
    bull := { x := -140, y := 398, w := 86, h := 62 }
    bullSpeed := 260
    onGround := true
    rightHeld := true }

/-- A running scene one step short of the goal of level 0, right held. -/
def nearGoal : GameScene :=
  { goalX := 3200
    player := { x := 3199, y := 368, w := 44, h := 92 }
    bull := { x := 2000, y := 398, w := 86, h := 62 }
    bullSpeed := 260
    onGround := true
    rightHeld := true }

/-- A scene of the last level waiting for the confirm input. -/
def waitingLast : GameScene :=
  { goalX := 7250
    levelIndex := 9
    waitingForEnter := true
    player := { x := 7252, y := 368, w := 44, h := 92 }
    bull := { x := 6000, y := 398, w := 86, h := 62 }
    bullSpeed := 422
    onGround := true }

/-- The key-held scene with duck held and jump pressed in the same tick. -/
def duckJump : GameScene :=
  { keyHeldRight with duckHeld := true, jumpPressed := true }

/-- A running scene of level 0 in the middle of a pointer gesture that began
at pixel (200, 100): the gesture owns the right hold and has not swiped. -/
def gestureHeld : GameScene :=
  { goalX := 3200
    player := { x := 120, y := 368, w := 44, h := 92 }
    bull := { x := -140, y := 398, w := 86, h := 62 }
    bullSpeed := 260
    onGround := true
    rightHeld := true
    touchRunHeld := true
    gestureActive := true
    gestureStartX := 200
    gestureStartY := 100
    gestureCurX := 200
    gestureCurY := 100 }

/-- The scene `nearGoal` with the player on the goal line of level 0. -/
def atGoal : GameScene :=
  { nearGoal with player := { nearGoal.player with x := 3200 } }

/-- The scene `keyHeldRight` after `refreshZoomFromViewport` for a viewport
960 wide and 452 high. -/
def narrowView : GameScene := keyHeldRight.refreshZoomFromViewport 960 452

/-- A gesture in a viewport 1280 wide and 720 high that began at the binary32
height `5557453 / 2 ^ 17 = 42.4000015...`, not yet swiped. -/
def gestureTall : GameScene :=
  { gestureHeld with
    viewportW := 1280
    viewportH := 720
    gestureStartY := 5557453 / 131072
    gestureCurY := 5557453 / 131072 }

/-- A ground block of a level layout at cursor `x`. -/
def blockAt (x : ℚ) : Obstacle :=
  { rect := { x := x, y := 412, w := 58, h := 48 }, type := ObstacleType.JumpOver }

/-- The layout `generateObstacles` builds for level 0 when every draw is 1/2
(no jitter, no bar): nine ground blocks 270 apart. -/
def levelZeroCourse : List Obstacle :=
  [blockAt 790, blockAt 1060, blockAt 1330, blockAt 1600, blockAt 1870, blockAt 2140,
    blockAt 2410, blockAt 2680, blockAt 2950]

/-- A state of level 0 on the layout `levelZeroCourse`: the player runs right
on the ground, 6 units short of the first block; the chaser is 340 behind. -/
def runUp : GameScene :=
  { goalX := 3200
    player := { x := 740, y := 368, w := 44, h := 92 }
    bull := { x := 400, y := 398, w := 86, h := 62 }
    bullSpeed := 260
    onGround := true
    rightHeld := true
    obstacles := levelZeroCourse }

/-- A state of level 0 on the layout `levelZeroCourse`: the player stands at
rest on top of the first block, no input held. -/
def restOnCourse : GameScene :=
  { goalX := 3200
    player := { x := 780, y := 320, w := 44, h := 92 }
    bull := { x := 400, y := 398, w := 86, h := 62 }
    bullSpeed := 260
    onGround := true
    obstacles := levelZeroCourse }

/-- A state of level 0 on the layout `levelZeroCourse`: the player is in the
air above the first block, near the apex of a jump. -/
def aboveCourse : GameScene :=
  { goalX := 3200
    player := { x := 780, y := 200, w := 44, h := 92 }
    bull := { x := 400, y := 398, w := 86, h := 62 }
    bullSpeed := 260
    obstacles := levelZeroCourse }

/-- The state `restOnCourse` with the player ducked and the duck input
released. -/
def duckedOnCourse : GameScene :=
  { restOnCourse with player := { x := 780, y := 356, w := 44, h := 56 }, ducking := true }

/-- A state that is not on a generated layout: the ducking player stands
between two bars 44 − 2 ^ (-14) apart, its left edge on the right edge of the
first, its right edge `2 ^ (-14)` inside the second; right is held, duck is
released. -/
def wedged : GameScene :=
  { goalX := 3200
    player := { x := 16384001 / 16384, y := 404, w := 44, h := 56 }
    bull := { x := 400, y := 398, w := 86, h := 62 }
    bullSpeed := 260
    onGround := true
    ducking := true
    rightHeld := true
    obstacles :=
      [{ rect := { x := 14090241 / 16384, y := 390, w := 140, h := 24 },
         type := ObstacleType.DuckUnder },
       { rect := { x := 1044, y := 390, w := 140, h := 24 }, type := ObstacleType.DuckUnder }] }

/-! ## Predicates used by the statements -/

/-- The scene with its viewport metrics replaced: what `syncViewportMetrics`
may change. -/
def GameScene.withView (s : GameScene) (w h : Int) (z g : ℚ) : GameScene :=
  { s with viewportW := w, viewportH := h, zoomScale := z, screenGroundY := g }

/-- The members no movement stage of `update` writes. -/
structure SameRun (s t : GameScene) : Prop where
  levelIndex : t.levelIndex = s.levelIndex
  waitingForEnter : t.waitingForEnter = s.waitingForEnter
  goalX : t.goalX = s.goalX
  viewportW : t.viewportW = s.viewportW
  viewportH : t.viewportH = s.viewportH
  zoomScale : t.zoomScale = s.zoomScale
  screenGroundY : t.screenGroundY = s.screenGroundY
  obstacles : t.obstacles = s.obstacles
  bullSpeed : t.bullSpeed = s.bullSpeed
  leftHeld : t.leftHeld = s.leftHeld
  rightHeld : t.rightHeld = s.rightHeld
  duckHeld : t.duckHeld = s.duckHeld
  jumpPressed : t.jumpPressed = s.jumpPressed
  overlayText : t.overlayText = s.overlayText
  hudLevelText : t.hudLevelText = s.hudLevelText

/-- The streams `frand01` can produce: every draw lies in `[0, 1]`. -/
def Draws (rnd : Nat → ℚ) : Prop :=
  ∀ i, 0 ≤ rnd i ∧ rnd i ≤ 1

/-- The states of the scene: the constructor's state and every state that
follows through `handleEvent` and `update` calls, for any event, frame time
and render size, with draws in `[0, 1]`. -/
inductive Reachable : GameScene → Prop where
  | init (rnd : Nat → ℚ) (hd : Draws rnd) : Reachable (GameScene.init rnd)
  | event (s : GameScene) (e : Event) (rs : Option (Int × Int)) (rnd : Nat → ℚ)
      (hd : Draws rnd) (hs : Reachable s) : Reachable (s.handleEvent e rs rnd)
  | tick (s : GameScene) (dt : ℚ) (rs : Option (Int × Int)) (rnd : Nat → ℚ)
      (hd : Draws rnd) (hs : Reachable s) : Reachable (s.update dt rs rnd)

/-- The shape of an obstacle `generateObstacles` places: at `x ≥ 630`, a bar
of 140 by 24 at `y = 390` or a ground block of 58 by 48 at `y = 412`. -/
def Generated (o : Obstacle) : Prop :=
  630 ≤ o.rect.x
    ∧ ((o.type = ObstacleType.DuckUnder ∧ o.rect.w = 140 ∧ o.rect.h = 24 ∧ o.rect.y = 390)
      ∨ (o.type = ObstacleType.JumpOver ∧ o.rect.w = 58 ∧ o.rect.h = 48 ∧ o.rect.y = 412))

/-- The facts every reachable state satisfies. -/
structure WellFormed (s : GameScene) : Prop where
  levelIndex_lo : 0 ≤ s.levelIndex
  levelIndex_hi : s.levelIndex ≤ 9
  goalX : s.goalX = 3200 + 450 * (s.levelIndex : ℚ)
  bullSpeed : s.bullSpeed = 260 + 18 * (s.levelIndex : ℚ)
  width : s.player.w = 44
  height : s.player.h = if s.ducking then 56 else 92
  feet : s.player.y + s.player.h ≤ groundY
  left : 30 ≤ s.player.x
  bullSize : s.bull.w = 86 ∧ s.bull.h = 62
  obstacles : ∀ o ∈ s.obstacles, Generated o

/-- The simulation members: what the input handlers other than the confirm
key leave alone. -/
structure SameWorld (s t : GameScene) : Prop where
  player : t.player = s.player
  vx : t.vx = s.vx
  vy : t.vy = s.vy
  onGround : t.onGround = s.onGround
  ducking : t.ducking = s.ducking
  bull : t.bull = s.bull
  bullSpeed : t.bullSpeed = s.bullSpeed
  obstacles : t.obstacles = s.obstacles
  levelIndex : t.levelIndex = s.levelIndex
  waitingForEnter : t.waitingForEnter = s.waitingForEnter
  goalX : t.goalX = s.goalX
  camX : t.camX = s.camX
  overlayText : t.overlayText = s.overlayText
  hudLevelText : t.hudLevelText = s.hudLevelText

/-- The members of a state the resolver reads are binary32 values. -/
structure OnGrid (s : GameScene) : Prop where
  playerX : f32 s.player.x = s.player.x
  playerY : f32 s.player.y = s.player.y
  obstacles : ∀ o ∈ s.obstacles, f32 o.rect.x = o.rect.x

/-- What the horizontal loop needs of an obstacle: a binary32 left edge at
`x ≥ 44`, clear of the player at `x0` (on the left in exact arithmetic), and
too wide to fit between `x0` and the moved position `xm`. -/
def FitsNotX (x0 xm y w h : ℚ) (j : FRect) : Prop :=
  f32 j.x = j.x ∧ 44 ≤ j.x
    ∧ (x0 + w ≤ j.x ∨ f32 (j.x + j.w) ≤ x0 ∨ f32 (y + h) ≤ j.y ∨ f32 (j.y + j.h) ≤ y)
    ∧ ¬ (x0 + w ≤ j.x ∧ f32 (j.x + j.w) ≤ xm)
    ∧ ¬ (f32 (j.x + j.w) ≤ x0 ∧ f32 (xm + w) ≤ j.x)

/-- What the vertical loop needs of an obstacle: clear of the player before
the move (beside it, or under its feet by the rounded test), and not wholly
above the highest position `yU` the player takes. -/
def FitsNotY (x w prevBottom yU : ℚ) (j : FRect) : Prop :=
  (f32 (x + w) ≤ j.x ∨ f32 (j.x + j.w) ≤ x ∨ prevBottom ≤ j.y)
    ∧ ¬ (prevBottom ≤ j.y ∧ f32 (j.y + j.h) ≤ yU)

/-! ## Binary32 rounding: evaluation and error bounds -/

theorem roundEven_err (q : ℚ) : |(roundEven q : ℚ) - q| ≤ 1 / 2 := by
  have h1 := Int.floor_le q
  have h2 := Int.lt_floor_add_one q
  unfold roundEven
  split_ifs with a b c
  · rw [abs_le]; constructor <;> linarith
  · rw [abs_le]; push_cast; constructor <;> linarith
  · rw [abs_le]; constructor <;> linarith
  · rw [abs_le]; push_cast; constructor <;> linarith

theorem roundEven_of_near (q : ℚ) (n : Int) (h : |q - n| < 1 / 2) : roundEven q = n := by
  have e := roundEven_err q
  rw [abs_lt] at h
  rw [abs_le] at e
  have h3 : |((roundEven q - n : Int) : ℚ)| < 1 := by
    rw [abs_lt]; push_cast; constructor <;> linarith [h.1, h.2, e.1, e.2]
  have h4 : |roundEven q - n| < 1 := by exact_mod_cast h3
  have := Int.abs_lt_one_iff.mp h4
  omega

theorem roundEven_intCast (n : Int) : roundEven (n : ℚ) = n :=
  roundEven_of_near _ n (by simp)

theorem ulpExp_of_bounds (q : ℚ) (e : Int) (he : -126 ≤ e) (h1 : (2 : ℚ) ^ e ≤ |q|)
    (h2 : |q| < (2 : ℚ) ^ (e + 1)) : ulpExp q = e - 23 := by
  have hpos : 0 < |q| := lt_of_lt_of_le (by positivity) h1
  have a : e ≤ Int.log 2 |q| := (Int.zpow_le_iff_le_log (by norm_num) hpos).mp (by exact_mod_cast h1)
  have b : Int.log 2 |q| < e + 1 := (Int.lt_zpow_iff_log_lt (by norm_num) hpos).mp (by exact_mod_cast h2)
  unfold ulpExp
  have : Int.log 2 |q| = e := by omega
  rw [this, max_eq_left he]

theorem f32_zero : f32 0 = 0 := by
  unfold f32
  simp [roundEven]

/-- Evaluation: a value whose scaling by `2 ^ k` has a 24-bit integer part -/
theorem f32_of_scaled (q : ℚ) (k : Nat) (n : Int) (hk : k ≤ 149)
    (h1 : (2 : ℚ) ^ 23 ≤ |q| * 2 ^ k) (h2 : |q| * 2 ^ k < 2 ^ 24)
    (hn : |q * 2 ^ k - n| < 1 / 2) : f32 q = n / 2 ^ k := by
  have hu : ulpExp q = -(k : Int) := by
    have := ulpExp_of_bounds q (23 - k) (by omega) ?_ ?_
    · rw [this]; ring
    · rw [zpow_sub₀ (by norm_num), zpow_natCast]
      rw [div_le_iff₀ (by positivity)]
      exact_mod_cast h1
    · have : (23 - (k : Int) + 1) = 24 - k := by ring
      rw [this, zpow_sub₀ (by norm_num), zpow_natCast, lt_div_iff₀ (by positivity)]
      exact_mod_cast h2
  unfold f32
  rw [hu, zpow_neg, zpow_natCast, div_inv_eq_mul, roundEven_of_near _ n hn]
  rfl



theorem roundEven_tie (q : ℚ) (h : |(roundEven q : ℚ) - q| = 1 / 2) : roundEven q % 2 = 0 := by
  have h1 := Int.floor_le q
  have h2 := Int.lt_floor_add_one q
  revert h
  unfold roundEven
  split_ifs with a b c
  · intro h
    rw [abs_eq (by norm_num)] at h
    rcases h with h | h <;> linarith
  · intro h
    rw [abs_eq (by norm_num)] at h
    push_cast at h
    rcases h with h | h <;> linarith
  · intro _; exact c
  · intro _; omega

theorem roundEven_unique (q : ℚ) (n : Int) (h : |(n : ℚ) - q| ≤ 1 / 2)
    (ht : |(n : ℚ) - q| = 1 / 2 → n % 2 = 0) : roundEven q = n := by
  have e := roundEven_err q
  have t := roundEven_tie q
  by_cases hn : |(n : ℚ) - q| < 1 / 2
  · exact roundEven_of_near q n (by rw [abs_sub_comm]; exact hn)
  · have hn2 : |(n : ℚ) - q| = 1 / 2 := le_antisymm h (not_lt.mp hn)
    have hev := ht hn2
    by_cases hr : |(roundEven q : ℚ) - q| < 1 / 2
    · -- then n is within 1 of roundEven q but not equal in distance
      rw [abs_lt] at hr
      rw [abs_eq (by norm_num)] at hn2
      have h3 : |((roundEven q - n : Int) : ℚ)| < 1 := by
        rw [abs_lt]; push_cast
        rcases hn2 with h | h <;> constructor <;> linarith [hr.1, hr.2]
      have h4 : |roundEven q - n| < 1 := by exact_mod_cast h3
      have := Int.abs_lt_one_iff.mp h4
      omega
    · have hr2 : |(roundEven q : ℚ) - q| = 1 / 2 := le_antisymm e (not_lt.mp hr)
      have tev := t hr2
      rw [abs_eq (by norm_num)] at hn2 hr2
      have h3 : |((roundEven q - n : Int) : ℚ)| < 2 := by
        rw [abs_lt]; push_cast
        rcases hn2 with h | h <;> rcases hr2 with g | g <;> constructor <;> linarith
      have h4 : |roundEven q - n| < 2 := by exact_mod_cast h3
      rw [abs_lt] at h4
      omega

theorem roundEven_neg (q : ℚ) : roundEven (-q) = -roundEven q := by
  apply roundEven_unique
  · have := roundEven_err q
    push_cast
    rw [show -(roundEven q : ℚ) - -q = -((roundEven q : ℚ) - q) by ring, abs_neg]
    exact this
  · intro h
    push_cast at h
    rw [show -(roundEven q : ℚ) - -q = -((roundEven q : ℚ) - q) by ring, abs_neg] at h
    have := roundEven_tie q h
    omega

theorem ulpExp_neg (q : ℚ) : ulpExp (-q) = ulpExp q := by
  unfold ulpExp; rw [abs_neg]

theorem f32_neg (q : ℚ) : f32 (-q) = -f32 q := by
  unfold f32
  rw [ulpExp_neg, neg_div, roundEven_neg]
  push_cast; ring

theorem ulpExp_ge (q : ℚ) : -149 ≤ ulpExp q := by
  unfold ulpExp
  have := le_max_right (Int.log 2 |q|) (-126)
  omega

/-- Half a unit in the last place bounds the rounding error. -/
theorem f32_err_ulp (q : ℚ) : |f32 q - q| ≤ 2 ^ ulpExp q / 2 := by
  have hp : (0 : ℚ) < 2 ^ ulpExp q := by positivity
  have e := roundEven_err (q / 2 ^ ulpExp q)
  unfold f32
  have : (roundEven (q / 2 ^ ulpExp q) : ℚ) * 2 ^ ulpExp q - q
      = ((roundEven (q / 2 ^ ulpExp q) : ℚ) - q / 2 ^ ulpExp q) * 2 ^ ulpExp q := by
    field_simp
  rw [this, abs_mul, abs_of_pos hp]
  calc _ ≤ 1 / 2 * (2 : ℚ) ^ ulpExp q := by gcongr
    _ = _ := by ring

/-- Relative error of rounding a value of the normal range. -/
theorem f32_err (q : ℚ) (hq : (1 : ℚ) / 2 ^ 126 ≤ |q|) : |f32 q - q| ≤ |q| / 2 ^ 24 := by
  have hpos : 0 < |q| := lt_of_lt_of_le (by positivity) hq
  have h1 : (-126 : Int) ≤ Int.log 2 |q| := by
    apply (Int.zpow_le_iff_le_log (by norm_num) hpos).mp
    rw [zpow_neg]
    have : ((2 : Nat) : ℚ) ^ (126 : Int) = 2 ^ 126 := by norm_cast
    rw [this, inv_eq_one_div]
    exact hq
  have h2 : ((2 : Nat) : ℚ) ^ Int.log 2 |q| ≤ |q| := Int.zpow_log_le_self (by norm_num) hpos
  have hu : ulpExp q = Int.log 2 |q| - 23 := by
    unfold ulpExp; rw [max_eq_left h1]
  have e := f32_err_ulp q
  rw [hu, zpow_sub₀ (by norm_num)] at e
  have h3 : (2 : ℚ) ^ Int.log 2 |q| ≤ |q| := by exact_mod_cast h2
  calc |f32 q - q| ≤ (2 : ℚ) ^ Int.log 2 |q| / 2 ^ (23 : Int) / 2 := e
    _ = (2 : ℚ) ^ Int.log 2 |q| / 2 ^ 24 := by norm_num; ring
    _ ≤ |q| / 2 ^ 24 := by gcongr

/-- Values on the grid `2 ^ (-k)` with a 24-bit numerator are binary32 values. -/
theorem f32_of_grid (m : Int) (k : Nat) (hk : k ≤ 149) (hm : |m| < 2 ^ 24) :
    f32 ((m : ℚ) / 2 ^ k) = (m : ℚ) / 2 ^ k := by
  by_cases h0 : m = 0
  · subst h0; simp [f32_zero]
  have hq : (0 : ℚ) < |(m : ℚ) / 2 ^ k| := by
    rw [abs_pos]; exact div_ne_zero (by exact_mod_cast h0) (by positivity)
  have hlt : |(m : ℚ) / 2 ^ k| < ((2 : Nat) : ℚ) ^ ((24 : Int) - k) := by
    rw [abs_div, abs_of_pos (show (0 : ℚ) < 2 ^ k by positivity), zpow_sub₀ (by norm_num),
      zpow_natCast]
    have : |(m : ℚ)| < 2 ^ 24 := by exact_mod_cast hm
    push_cast
    have h24 : ((2 : ℚ) ^ (24 : Int)) = 2 ^ 24 := by norm_cast
    rw [h24]
    gcongr
  have hlog : Int.log 2 |(m : ℚ) / 2 ^ k| < 24 - k :=
    (Int.lt_zpow_iff_log_lt (by norm_num) hq).mp hlt
  have hu : ulpExp ((m : ℚ) / 2 ^ k) ≤ -(k : Int) := by
    unfold ulpExp
    have : max (Int.log 2 |(m : ℚ) / 2 ^ k|) (-126) ≤ 23 - (k : Int) := max_le (by omega) (by omega)
    omega
  obtain ⟨j, hj⟩ : ∃ j : Nat, ulpExp ((m : ℚ) / 2 ^ k) = -((k : Int) + j) :=
    ⟨(-(k : Int) - ulpExp ((m : ℚ) / 2 ^ k)).toNat, by omega⟩
  unfold f32
  rw [hj]
  have hx : (m : ℚ) / 2 ^ k / 2 ^ (-((k : Int) + j)) = ((m * 2 ^ j : Int) : ℚ) := by
    rw [zpow_neg, div_inv_eq_mul]
    have : ((2 : ℚ) ^ ((k : Int) + j)) = 2 ^ k * 2 ^ j := by
      rw [zpow_add₀ (by norm_num), zpow_natCast, zpow_natCast]
    rw [this]; push_cast; field_simp; ring
  rw [hx, roundEven_intCast, zpow_neg]
  have : ((2 : ℚ) ^ ((k : Int) + j)) = 2 ^ k * 2 ^ j := by
    rw [zpow_add₀ (by norm_num), zpow_natCast, zpow_natCast]
  rw [this]; push_cast; field_simp; ring

theorem f32_intCast (n : Int) (h : |n| < 2 ^ 24) : f32 (n : ℚ) = n := by
  have := f32_of_grid n 0 (by norm_num) h
  simpa using this

/-- Rounding moves a value of the normal range by at most one part in `2 ^ 24`. -/
theorem f32_between (q : ℚ) (hq : (1 : ℚ) / 2 ^ 126 ≤ q) :
    q - q / 2 ^ 24 ≤ f32 q ∧ f32 q ≤ q + q / 2 ^ 24 := by
  have hpos : 0 < q := lt_of_lt_of_le (by positivity) hq
  have h := f32_err q (by rw [abs_of_pos hpos]; exact hq)
  rw [abs_of_pos hpos, abs_le] at h
  constructor <;> linarith [h.1, h.2]

theorem f32_half_le (q : ℚ) (hq : 1 ≤ q) : q / 2 ≤ f32 q := by
  have h := (f32_between q (le_trans (by norm_num) hq)).1
  have : q / 2 ^ 24 ≤ q / 2 := by
    apply div_le_div_of_nonneg_left (by linarith) (by norm_num) (by norm_num)
  linarith

/-- Evaluation at a tie: the scaled value lies half-way between two integers
and rounds to the even one. -/
theorem f32_of_tie (q : ℚ) (k : Nat) (n : Int) (hk : k ≤ 149)
    (h1 : (2 : ℚ) ^ 23 ≤ |q| * 2 ^ k) (h2 : |q| * 2 ^ k < 2 ^ 24)
    (hn : |(n : ℚ) - q * 2 ^ k| = 1 / 2) (he : n % 2 = 0) : f32 q = n / 2 ^ k := by
  have hu : ulpExp q = -(k : Int) := by
    have := ulpExp_of_bounds q (23 - k) (by omega) ?_ ?_
    · rw [this]; ring
    · rw [zpow_sub₀ (by norm_num), zpow_natCast]
      rw [div_le_iff₀ (by positivity)]
      exact_mod_cast h1
    · have : (23 - (k : Int) + 1) = 24 - k := by ring
      rw [this, zpow_sub₀ (by norm_num), zpow_natCast, lt_div_iff₀ (by positivity)]
      exact_mod_cast h2
  unfold f32
  rw [hu, zpow_neg, zpow_natCast, div_inv_eq_mul,
    roundEven_unique _ n (le_of_eq hn) (fun _ => he)]
  rfl

/-- The rounding error is at most one part in `2 ^ 24` of the value, and at
most `2 ^ (-150)` in the subnormal range. -/
theorem f32_err_abs (q : ℚ) : |f32 q - q| ≤ max (|q| / 2 ^ 24) (1 / 2 ^ 150) := by
  by_cases hq : (1 : ℚ) / 2 ^ 126 ≤ |q|
  · exact le_trans (f32_err q hq) (le_max_left _ _)
  · by_cases h0 : q = 0
    · subst h0
      rw [f32_zero]
      simp
    · have hpos : 0 < |q| := abs_pos.mpr h0
      have hlt : |q| < ((2 : Nat) : ℚ) ^ (-126 : Int) := by
        rw [zpow_neg]
        have : ((2 : Nat) : ℚ) ^ (126 : Int) = 2 ^ 126 := by norm_cast
        rw [this, inv_eq_one_div]
        exact not_le.mp hq
      have hlog : Int.log 2 |q| < -126 := (Int.lt_zpow_iff_log_lt (by norm_num) hpos).mp hlt
      have hu : ulpExp q = -149 := by
        unfold ulpExp
        rw [max_eq_right (le_of_lt hlog)]
        norm_num
      have e := f32_err_ulp q
      rw [hu] at e
      refine le_trans e (le_trans (le_of_eq ?_) (le_max_right _ _))
      rw [zpow_neg]
      have : (2 : ℚ) ^ (149 : Int) = 2 ^ 149 := by norm_cast
      rw [this]
      norm_num

/-- The literal `0.08f` is `5368709 / 2 ^ 26`, a little below 8/100. -/
theorem f32_swipe_literal : f32 (8 / 100) = 5368709 / 67108864 := by
  have h := f32_of_scaled (8 / 100) 27 10737418 (by norm_num)
    (by norm_num [abs_of_nonneg]) (by norm_num [abs_of_nonneg]) (by norm_num [abs_lt])
  rw [h]
  norm_num

/-! ## Frame lemmas: what each stage leaves alone -/

theorem SameRun.refl (s : GameScene) : SameRun s s := by
  constructor <;> rfl

theorem SameRun.trans {s t u : GameScene} (h₁ : SameRun s t) (h₂ : SameRun t u) : SameRun s u := by
  constructor
  · exact h₂.levelIndex.trans h₁.levelIndex
  · exact h₂.waitingForEnter.trans h₁.waitingForEnter
  · exact h₂.goalX.trans h₁.goalX
  · exact h₂.viewportW.trans h₁.viewportW
  · exact h₂.viewportH.trans h₁.viewportH
  · exact h₂.zoomScale.trans h₁.zoomScale
  · exact h₂.screenGroundY.trans h₁.screenGroundY
  · exact h₂.obstacles.trans h₁.obstacles
  · exact h₂.bullSpeed.trans h₁.bullSpeed
  · exact h₂.leftHeld.trans h₁.leftHeld
  · exact h₂.rightHeld.trans h₁.rightHeld
  · exact h₂.duckHeld.trans h₁.duckHeld
  · exact h₂.jumpPressed.trans h₁.jumpPressed
  · exact h₂.overlayText.trans h₁.overlayText
  · exact h₂.hudLevelText.trans h₁.hudLevelText

theorem inputHorizontal_sameRun (s : GameScene) : SameRun s s.inputHorizontal := by
  unfold GameScene.inputHorizontal
  cases h1 : s.leftHeld <;> cases h2 : s.rightHeld <;> constructor <;> simp [h1, h2]

theorem inputDuck_sameRun (s : GameScene) : SameRun s s.inputDuck := by
  unfold GameScene.inputDuck
  split
  · split
    · constructor <;> rfl
    · exact SameRun.refl s
  · split
    · split
      · constructor <;> rfl
      · exact SameRun.refl s
    · exact SameRun.refl s

theorem inputJump_sameRun (s : GameScene) : SameRun s s.inputJump := by
  unfold GameScene.inputJump
  split
  · constructor <;> rfl
  · exact SameRun.refl s

theorem applyInput_sameRun (s : GameScene) : SameRun s s.applyInput :=
  ((inputHorizontal_sameRun s).trans (inputDuck_sameRun _)).trans (inputJump_sameRun _)

theorem integrate_sameRun (s : GameScene) (dt : ℚ) : SameRun s (s.integrate dt) := by
  constructor <;> rfl

theorem moveX_sameRun (s : GameScene) (dt : ℚ) : SameRun s (s.moveX dt) := by
  constructor <;> rfl

theorem moveY_sameRun (s : GameScene) (dt a b : ℚ) : SameRun s (s.moveY dt a b) := by
  constructor <;> rfl

theorem worldGround_sameRun (s : GameScene) : SameRun s s.worldGround := by
  unfold GameScene.worldGround
  dsimp only
  split
  · constructor <;> rfl
  · exact SameRun.refl s

theorem movePlayer_sameRun (s : GameScene) (dt : ℚ) : SameRun s (s.movePlayer dt) := by
  unfold GameScene.movePlayer GameScene.resolvePlayer
  exact ((((applyInput_sameRun s).trans (integrate_sameRun _ dt)).trans
    (moveX_sameRun _ dt)).trans (moveY_sameRun _ dt _ _)).trans (worldGround_sameRun _)

theorem bullChase_sameRun (s : GameScene) (dt : ℚ) : SameRun s (s.bullChase dt) := by
  constructor <;> rfl

theorem cameraFollow_sameRun (s : GameScene) : SameRun s s.cameraFollow := by
  constructor <;> rfl

theorem moveWorld_sameRun (s : GameScene) (dt : ℚ) : SameRun s (s.moveWorld dt) := by
  unfold GameScene.moveWorld
  exact ((movePlayer_sameRun s dt).trans (bullChase_sameRun _ dt)).trans (cameraFollow_sameRun _)

/-! ## Input handling -/

theorem clearTouchHeld_eq (s : GameScene) :
    clearTouchHeld s =
      { s with
        rightHeld := s.rightHeld && !s.touchRunHeld
        duckHeld := s.duckHeld && !s.touchDuckHeld
        touchRunHeld := false
        touchDuckHeld := false } := by
  unfold clearTouchHeld
  cases s
  dsimp only
  split <;> split <;> simp_all

theorem pointerDown_marks (s : GameScene) (e : Event) (rs : Option (Int × Int)) :
    (s.pointerDown e rs).gestureActive = true ∧ (s.pointerDown e rs).touchRunHeld = true
      ∧ (s.pointerDown e rs).rightHeld = true := by
  refine ⟨?_, rfl, rfl⟩
  show (clearTouchHeld _).gestureActive = true
  rw [clearTouchHeld_eq]

theorem pointerUp_rightHeld (s : GameScene) :
    (s.pointerUp).rightHeld = (s.rightHeld && !s.touchRunHeld) := by
  unfold GameScene.pointerUp
  rw [clearTouchHeld_eq]

theorem handleEvent_of_pointerDown (s : GameScene) (e : Event) (rs : Option (Int × Int))
    (rnd : Nat → ℚ) (h : isPointerDown e = true) :
    s.handleEvent e rs rnd = s.pointerDown e rs := by
  cases e <;> simp_all [GameScene.handleEvent, isPointerDown, isPointerMove, isPointerUp]

theorem handleEvent_of_pointerUp (s : GameScene) (e : Event) (rs : Option (Int × Int))
    (rnd : Nat → ℚ) (h : isPointerUp e = true) :
    s.handleEvent e rs rnd = if s.gestureActive then s.pointerUp else s := by
  cases e <;> simp_all [GameScene.handleEvent, isPointerDown, isPointerMove, isPointerUp]

theorem handleEvent_keyDown (s : GameScene) (sym : Keycode) (rs : Option (Int × Int))
    (rnd : Nat → ℚ) :
    s.handleEvent (Event.keyDown sym false) rs rnd = s.keyDown sym rnd := by
  simp [GameScene.handleEvent, isPointerDown, isPointerMove, isPointerUp]

/-! ## Level start -/

theorem levels_length : levels.length = 10 := rfl

theorem clampInt_of_mem {v lo hi : Int} (h₁ : lo ≤ v) (h₂ : v ≤ hi) : clampInt v lo hi = v := by
  unfold clampInt
  rw [if_neg (not_lt.mpr h₁), if_neg (not_lt.mpr h₂)]

theorem clampInt_bounds (v : Int) {lo hi : Int} (h : lo ≤ hi) :
    lo ≤ clampInt v lo hi ∧ clampInt v lo hi ≤ hi := by
  unfold clampInt
  split
  · exact ⟨le_refl _, h⟩
  · split
    · exact ⟨h, le_refl _⟩
    · constructor <;> omega

/-- The level record `startLevel idx` reads. -/
theorem startLevel_fields (s : GameScene) (idx : Int) (rnd : Nat → ℚ) :
    let t := s.startLevel idx rnd
    let d := levels.getD (clampInt idx 0 9).toNat {}
    t.levelIndex = clampInt idx 0 9 ∧ t.waitingForEnter = false ∧ t.goalX = d.length
      ∧ t.player = { x := 120, y := groundY - 92, w := s.player.w, h := 92 }
      ∧ t.vx = 0 ∧ t.vy = 0 ∧ t.onGround = true ∧ t.ducking = false
      ∧ t.bull = { x := 120 - 260, y := groundY - s.bull.h, w := s.bull.w, h := s.bull.h }
      ∧ t.bullSpeed = bullBaseSpeed + d.bullSpeedBonus ∧ t.camX = 0
      ∧ t.obstacles = generateObstacles d rnd ∧ t.gestureActive = false
      ∧ t.viewportW = s.viewportW ∧ t.zoomScale = s.zoomScale := by
  unfold GameScene.startLevel
  rw [clearTouchHeld_eq]
  exact ⟨rfl, rfl, rfl, rfl, rfl, rfl, rfl, rfl, rfl, rfl, rfl, rfl, rfl, rfl, rfl⟩

theorem levels_getD_length_ge (n : Nat) : 3200 ≤ (levels.getD n {}).length := by
  by_cases h : n < 10
  · interval_cases n <;> simp [levels, buildLevels, levelDefOf, List.range, List.range.loop]
  · have : levels.length ≤ n := by rw [levels_length]; omega
    rw [List.getD_eq_default _ _ this]
    norm_num

theorem checkGoalReached_sameMove (s : GameScene) :
    (s.checkGoalReached).player = s.player ∧ (s.checkGoalReached).camX = s.camX
      ∧ (s.checkGoalReached).goalX = s.goalX ∧ (s.checkGoalReached).viewportW = s.viewportW
      ∧ (s.checkGoalReached).zoomScale = s.zoomScale ∧ (s.checkGoalReached).levelIndex = s.levelIndex
      ∧ (s.checkGoalReached).bull = s.bull ∧ (s.checkGoalReached).vx = s.vx
      ∧ (s.checkGoalReached).vy = s.vy ∧ (s.checkGoalReached).onGround = s.onGround
      ∧ (s.checkGoalReached).ducking = s.ducking ∧ (s.checkGoalReached).obstacles = s.obstacles := by
  unfold GameScene.checkGoalReached
  split
  · exact ⟨rfl, rfl, rfl, rfl, rfl, rfl, rfl, rfl, rfl, rfl, rfl, rfl⟩
  · exact ⟨rfl, rfl, rfl, rfl, rfl, rfl, rfl, rfl, rfl, rfl, rfl, rfl⟩

theorem checkGoalReached_of_short (s : GameScene) (h : s.player.x < s.goalX) :
    s.checkGoalReached = s := by
  unfold GameScene.checkGoalReached
  rw [if_neg]
  simp [not_le.mpr h]

theorem syncViewportMetrics_keeps (s : GameScene) (rs : Option (Int × Int)) :
    (s.syncViewportMetrics rs).waitingForEnter = s.waitingForEnter
      ∧ (s.syncViewportMetrics rs).levelIndex = s.levelIndex
      ∧ (s.syncViewportMetrics rs).player = s.player
      ∧ (s.syncViewportMetrics rs).obstacles = s.obstacles
      ∧ (s.syncViewportMetrics rs).ducking = s.ducking :=
  ⟨rfl, rfl, rfl, rfl, rfl⟩

theorem update_of_running (s : GameScene) (dt : ℚ) (rs : Option (Int × Int)) (rnd : Nat → ℚ)
    (hw : s.waitingForEnter = false) :
    s.update dt rs rnd =
      { ((((s.syncViewportMetrics rs).moveWorld dt).checkCaught rnd).checkGoalReached) with
        jumpPressed := false } := by
  unfold GameScene.update
  have : (s.syncViewportMetrics rs).waitingForEnter = false := hw
  simp only [this]
  rfl

theorem update_of_waiting (s : GameScene) (dt : ℚ) (rs : Option (Int × Int)) (rnd : Nat → ℚ)
    (hw : s.waitingForEnter = true) :
    s.update dt rs rnd = { (s.syncViewportMetrics rs) with jumpPressed := false } := by
  unfold GameScene.update
  have : (s.syncViewportMetrics rs).waitingForEnter = true := hw
  simp only [this]
  rfl

theorem clampF_bounds (v : ℚ) {lo hi : ℚ} (h : lo ≤ hi) :
    lo ≤ clampF v lo hi ∧ clampF v lo hi ≤ hi := by
  unfold clampF
  split
  · exact ⟨le_refl _, h⟩
  · split
    · exact ⟨h, le_refl _⟩
    · constructor <;> linarith

theorem inputHorizontal_player (s : GameScene) : (s.inputHorizontal).player = s.player := by
  unfold GameScene.inputHorizontal
  cases h1 : s.leftHeld <;> cases h2 : s.rightHeld <;> simp [h1, h2]

theorem inputJump_player (s : GameScene) : (s.inputJump).player = s.player := by
  unfold GameScene.inputJump
  split <;> rfl

theorem inputHorizontal_ducking (s : GameScene) :
    (s.inputHorizontal).ducking = s.ducking ∧ (s.inputHorizontal).duckHeld = s.duckHeld
      ∧ (s.inputHorizontal).onGround = s.onGround
      ∧ (s.inputHorizontal).obstacles = s.obstacles := by
  unfold GameScene.inputHorizontal
  cases h1 : s.leftHeld <;> cases h2 : s.rightHeld <;> simp [h1, h2]

theorem inputJump_ducking (s : GameScene) : (s.inputJump).ducking = s.ducking := by
  unfold GameScene.inputJump
  split <;> rfl

/-- The three outcomes of the duck transition: nothing changes, the player
enters the duck at height 56, or stands up at height 92; the feet, `x` and
`w` stay in each. -/
theorem inputDuck_cases (s : GameScene) :
    ((s.inputDuck).player.y + (s.inputDuck).player.h = s.player.y + s.player.h
      ∧ (s.inputDuck).player.x = s.player.x ∧ (s.inputDuck).player.w = s.player.w)
    ∧ (((s.inputDuck).ducking = s.ducking ∧ (s.inputDuck).player = s.player)
      ∨ (s.ducking = false ∧ (s.inputDuck).ducking = true ∧ (s.inputDuck).player.h = 56)
      ∨ (s.ducking = true ∧ (s.inputDuck).ducking = false ∧ (s.inputDuck).player.h = 92)) := by
  unfold GameScene.inputDuck
  split
  · split
    · rename_i hd
      refine ⟨⟨?_, rfl, rfl⟩, Or.inr (Or.inl ⟨by simpa using hd, rfl, rfl⟩)⟩
      show s.player.y + (s.player.h - 56) + 56 = s.player.y + s.player.h
      ring
    · exact ⟨⟨rfl, rfl, rfl⟩, Or.inl ⟨rfl, rfl⟩⟩
  · split
    · rename_i hd
      split
      · refine ⟨⟨?_, rfl, rfl⟩, Or.inr (Or.inr ⟨hd, rfl, rfl⟩)⟩
        show s.player.y - (92 - s.player.h) + 92 = s.player.y + s.player.h
        ring
      · exact ⟨⟨rfl, rfl, rfl⟩, Or.inl ⟨rfl, rfl⟩⟩
    · exact ⟨⟨rfl, rfl, rfl⟩, Or.inl ⟨rfl, rfl⟩⟩

/-! ## Gesture ownership, solidity, feet and camera (C1, C7, C8, C9) -/

/-- C1 (gesture ownership), as the code behaves: from every state in which
the right intent is held (`rightHeld = true`, no gesture active, no
gesture-owned hold), a pointer-down followed by a pointer-up ends with
`rightHeld = false`.  The pointer-down tags the single `rightHeld` flag as
gesture-owned and the pointer-up clears it, so the key hold does not
survive the release. -/
theorem pointer_release_drops_key_hold (s : GameScene) (e₁ e₂ : Event)
    (rs₁ rs₂ : Option (Int × Int)) (rnd₁ rnd₂ : Nat → ℚ)
    (_hk : s.rightHeld = true) (_hg : s.gestureActive = false) (_ht : s.touchRunHeld = false)
    (h₁ : isPointerDown e₁ = true) (h₂ : isPointerUp e₂ = true) :
    ((s.handleEvent e₁ rs₁ rnd₁).handleEvent e₂ rs₂ rnd₂).rightHeld = false := by
  rw [handleEvent_of_pointerDown s e₁ rs₁ rnd₁ h₁, handleEvent_of_pointerUp _ e₂ rs₂ rnd₂ h₂]
  obtain ⟨ha, ht, hr⟩ := pointerDown_marks s e₁ rs₁
  rw [if_pos ha, pointerUp_rightHeld, ht, hr]
  rfl

/-- C1 at a concrete input: the right key is held, a finger goes down at the
screen centre and is lifted again; the right intent is lost. -/
theorem pointer_release_drops_key_hold_witness :
    keyHeldRight.rightHeld = true ∧ keyHeldRight.gestureActive = false
      ∧ keyHeldRight.touchRunHeld = false
      ∧ ((keyHeldRight.handleEvent (Event.fingerDown (1 / 2) (1 / 2)) none rndHalf).handleEvent
          (Event.fingerUp (1 / 2) (1 / 2)) none rndHalf).rightHeld = false :=
  ⟨rfl, rfl, rfl,
    pointer_release_drops_key_hold keyHeldRight (Event.fingerDown (1 / 2) (1 / 2))
      (Event.fingerUp (1 / 2) (1 / 2)) none none rndHalf rndHalf rfl rfl rfl rfl rfl⟩

/-- C7 (solidity predicate): an obstacle of kind `JumpOver` is solid under
both duck states, and an obstacle of kind `DuckUnder` is solid exactly when
the player is not ducking. -/
theorem isSolidForPlayer_spec (r : FRect) (ducking : Bool) :
    isSolidForPlayer { rect := r, type := ObstacleType.JumpOver } ducking = true
      ∧ isSolidForPlayer { rect := r, type := ObstacleType.DuckUnder } ducking = !ducking := by
  simp [isSolidForPlayer]

/-- C8 (feet invariance): `applyInput` leaves the feet coordinate
`player.y + player.h`, `player.x` and `player.w` unchanged; and either the
duck state and the whole rectangle are unchanged, or the player enters the
duck with height 56, or stands back up with height 92. -/
theorem applyInput_keeps_feet (s : GameScene) :
    ((s.applyInput).player.y + (s.applyInput).player.h = s.player.y + s.player.h
      ∧ (s.applyInput).player.x = s.player.x ∧ (s.applyInput).player.w = s.player.w)
    ∧ (((s.applyInput).ducking = s.ducking ∧ (s.applyInput).player = s.player)
      ∨ (s.ducking = false ∧ (s.applyInput).ducking = true ∧ (s.applyInput).player.h = 56)
      ∨ (s.ducking = true ∧ (s.applyInput).ducking = false ∧ (s.applyInput).player.h = 92)) := by
  unfold GameScene.applyInput
  rw [inputJump_player, inputJump_ducking]
  have h := inputDuck_cases s.inputHorizontal
  rw [inputHorizontal_player, (inputHorizontal_ducking s).1] at h
  exact h

theorem checkCaught_of_free (s : GameScene) (rnd : Nat → ℚ) (h : s.caught = false) :
    s.checkCaught rnd = s := by
  unfold GameScene.checkCaught
  rw [h]
  rfl

theorem checkCaught_of_caught (s : GameScene) (rnd : Nat → ℚ) (h : s.caught = true) :
    s.checkCaught rnd = s.startLevel s.levelIndex rnd := by
  unfold GameScene.checkCaught
  rw [h]
  rfl

/-- C6 (level advance): with `levelIndex` in `0..9`, a non-repeat Return
key-down while `waitingForEnter` is set starts level `(levelIndex + 1) mod 10`
(so index 9 wraps to 0); while `waitingForEnter` is clear it leaves the whole
state unchanged. -/
theorem return_key_advances_level (s : GameScene) (rs : Option (Int × Int)) (rnd : Nat → ℚ)
    (h0 : 0 ≤ s.levelIndex) (h9 : s.levelIndex ≤ 9) :
    (s.waitingForEnter = true →
      s.handleEvent (Event.keyDown Keycode.SDLK_RETURN false) rs rnd =
          s.startLevel ((s.levelIndex + 1) % 10) rnd
        ∧ (s.handleEvent (Event.keyDown Keycode.SDLK_RETURN false) rs rnd).levelIndex =
          (s.levelIndex + 1) % 10)
    ∧ (s.waitingForEnter = false →
      s.handleEvent (Event.keyDown Keycode.SDLK_RETURN false) rs rnd = s) := by
  rw [handleEvent_keyDown]
  constructor
  · intro hw
    have hstart : s.keyDown Keycode.SDLK_RETURN rnd = s.startLevel ((s.levelIndex + 1) % 10) rnd := by
      show (if s.waitingForEnter then _ else s) = _
      rw [if_pos hw, levels_length]
      by_cases hlast : s.levelIndex = 9
      · rw [if_pos (by rw [hlast]; decide), hlast]
        rfl
      · have hlt : s.levelIndex + 1 < 10 := by omega
        rw [if_neg (by push_cast; omega), Int.emod_eq_of_lt (by omega) hlt]
    refine ⟨hstart, ?_⟩
    rw [hstart]
    have hm0 : 0 ≤ (s.levelIndex + 1) % 10 := Int.emod_nonneg _ (by decide)
    have hm9 : (s.levelIndex + 1) % 10 ≤ 9 := by
      have := Int.emod_lt_of_pos (s.levelIndex + 1) (show (0 : Int) < 10 by decide)
      omega
    rw [(startLevel_fields s _ rnd).1, clampInt_of_mem hm0 hm9]
  · intro hw
    show (if s.waitingForEnter then _ else s) = s
    rw [hw]
    rfl

/-- C6 at concrete inputs: Return on the waiting last level starts level 0,
Return on a running scene changes nothing. -/
theorem return_key_advances_level_witness :
    (0 : Int) ≤ waitingLast.levelIndex ∧ waitingLast.levelIndex ≤ 9
      ∧ waitingLast.waitingForEnter = true
      ∧ (waitingLast.handleEvent (Event.keyDown Keycode.SDLK_RETURN false) none rndHalf).levelIndex = 0
      ∧ keyHeldRight.waitingForEnter = false
      ∧ keyHeldRight.handleEvent (Event.keyDown Keycode.SDLK_RETURN false) none rndHalf
          = keyHeldRight :=
  ⟨by decide, by decide, rfl,
    ((return_key_advances_level waitingLast none rndHalf (by decide) (by decide)).1 rfl).2,
    rfl,
    (return_key_advances_level keyHeldRight none rndHalf (by decide) (by decide)).2 rfl⟩

/-! ## Obstacle generation (C10) -/

theorem levels_getD (i : Nat) (hi : i < 10) : levels.getD i {} = levelDefOf i := by
  interval_cases i <;> rfl

theorem generateStep_calls (d : LevelDef) (rnd : Nat → ℚ) (st : GenState) :
    (generateStep d rnd st).calls = st.calls + 2 := rfl

/-- One iteration either keeps the list or appends one obstacle whose `x` is
below `length − 220`. -/
theorem generateStep_obstacles (d : LevelDef) (rnd : Nat → ℚ) (st : GenState) :
    (generateStep d rnd st).obstacles = st.obstacles
      ∨ ∃ o : Obstacle, o.rect.x < d.length - 220
          ∧ (generateStep d rnd st).obstacles = st.obstacles ++ [o] := by
  unfold generateStep
  dsimp only
  split
  · rename_i h
    exact Or.inr ⟨_, h, rfl⟩
  · exact Or.inl rfl

theorem generateLoop_eq_iterate (d : LevelDef) (rnd : Nat → ℚ) (n : Nat) :
    ∀ st : GenState, generateLoop d rnd n st = (generateStep d rnd)^[n] st := by
  induction n with
  | zero => intro st; rfl
  | succ n ih => intro st; exact ih _

theorem generateLoop_calls (d : LevelDef) (rnd : Nat → ℚ) (n : Nat) :
    ∀ st : GenState, (generateLoop d rnd n st).calls = st.calls + 2 * n := by
  induction n with
  | zero => intro st; rfl
  | succ n ih =>
    intro st
    show (generateLoop d rnd n (generateStep d rnd st)).calls = _
    rw [ih, generateStep_calls]
    omega

theorem generateLoop_bound (d : LevelDef) (rnd : Nat → ℚ) (n : Nat) :
    ∀ st : GenState, (∀ o ∈ st.obstacles, o.rect.x < d.length - 220) →
      ∀ o ∈ (generateLoop d rnd n st).obstacles, o.rect.x < d.length - 220 := by
  induction n with
  | zero => intro st h; exact h
  | succ n ih =>
    intro st h
    apply ih
    rcases generateStep_obstacles d rnd st with hs | ⟨o, ho, hs⟩
    · rw [hs]; exact h
    · rw [hs]
      intro o' ho'
      rcases List.mem_append.mp ho' with hm | hm
      · exact h o' hm
      · rw [List.mem_singleton.mp hm]; exact ho

theorem generateLoop_length (d : LevelDef) (rnd : Nat → ℚ) (n : Nat) :
    ∀ st : GenState, (generateLoop d rnd n st).obstacles.length ≤ st.obstacles.length + n := by
  induction n with
  | zero => intro st; exact le_refl _
  | succ n ih =>
    intro st
    have h1 := ih (generateStep d rnd st)
    have h2 : (generateStep d rnd st).obstacles.length ≤ st.obstacles.length + 1 := by
      rcases generateStep_obstacles d rnd st with hs | ⟨o, -, hs⟩
      · rw [hs]; omega
      · rw [hs, List.length_append]; rfl
    show (generateLoop d rnd n (generateStep d rnd st)).obstacles.length ≤ _
    omega

/-- C10 (obstacle generation bound): for every catalog level `i < 10` and
every stream of draws, the level has `obstacleCount = 10 + 2·i` and
`length = 3200 + 450·i`, `generateObstacles` runs its loop body exactly
`10 + 2·i` times (making `2·(10 + 2·i)` calls of `frand01`), every obstacle
it keeps has `rect.x < length(i) − 220`, and it keeps at most `10 + 2·i`
obstacles. -/
theorem generateObstacles_bound (i : Nat) (hi : i < 10) (rnd : Nat → ℚ) :
    (levels.getD i {}).obstacleCount = 10 + 2 * (i : Int)
      ∧ (levels.getD i {}).length = 3200 + 450 * (i : ℚ)
      ∧ generateRun (levels.getD i {}) rnd
          = (generateStep (levels.getD i {}) rnd)^[10 + 2 * i] genStart
      ∧ (generateRun (levels.getD i {}) rnd).calls = 2 * (10 + 2 * i)
      ∧ (∀ o ∈ generateObstacles (levels.getD i {}) rnd,
          o.rect.x < (3200 + 450 * (i : ℚ)) - 220)
      ∧ (generateObstacles (levels.getD i {}) rnd).length ≤ 10 + 2 * i := by
  rw [levels_getD i hi]
  have hcount : (levelDefOf i).obstacleCount = 10 + 2 * (i : Int) := by
    show (10 : Int) + (i : Int) * 2 = _
    ring
  have hlen : (levelDefOf i).length = 3200 + 450 * (i : ℚ) := by
    show (3200 : ℚ) + (i : ℚ) * 450 = _
    ring
  have hn : (levelDefOf i).obstacleCount.toNat = 10 + 2 * i := by
    rw [hcount]; omega
  refine ⟨hcount, hlen, ?_, ?_, ?_, ?_⟩
  · unfold generateRun
    rw [hn, generateLoop_eq_iterate]
  · unfold generateRun
    rw [hn, generateLoop_calls]
    show 0 + 2 * (10 + 2 * i) = _
    omega
  · unfold generateObstacles generateRun
    rw [← hlen]
    exact generateLoop_bound _ rnd _ _ (fun o ho => absurd ho (List.not_mem_nil o))
  · unfold generateObstacles generateRun
    rw [hn]
    have := generateLoop_length (levelDefOf i) rnd (10 + 2 * i) genStart
    simpa [genStart] using this

/-- C10 at a concrete input: level index 3 with every draw `1 / 2`. -/
theorem generateObstacles_bound_witness :
    (3 : Nat) < 10
      ∧ (generateRun (levels.getD 3 {}) rndHalf).calls = 32
      ∧ (∀ o ∈ generateObstacles (levels.getD 3 {}) rndHalf, o.rect.x < (3200 + 450 * ((3 : Nat) : ℚ)) - 220)
      ∧ (generateObstacles (levels.getD 3 {}) rndHalf).length ≤ 16 :=
  have h := generateObstacles_bound 3 (by decide) rndHalf
  ⟨by decide, h.2.2.2.1, h.2.2.2.2.1, h.2.2.2.2.2⟩

/-! ## Collision resolution -/

theorem AABB_false_iff (a b : FRect) :
    AABB a b = false ↔
      (a.x + a.w ≤ b.x ∨ b.x + b.w ≤ a.x ∨ a.y + a.h ≤ b.y ∨ b.y + b.h ≤ a.y) := by
  unfold AABB
  simp only [Bool.not_eq_false', Bool.or_eq_true, decide_eq_true_eq]
  tauto

theorem AABB_true_iff (a b : FRect) :
    AABB a b = true ↔
      (b.x < a.x + a.w ∧ a.x < b.x + b.w ∧ b.y < a.y + a.h ∧ a.y < b.y + b.h) := by
  rw [← Bool.not_eq_false, AABB_false_iff]
  simp only [not_or, not_le]

theorem isSolidForPlayer_standing (o : Obstacle) : isSolidForPlayer o false = true := by
  unfold isSolidForPlayer
  split
  · rfl
  · split <;> rfl

theorem isSolidForPlayer_mono (o : Obstacle) (dk : Bool) (h : isSolidForPlayer o true = true) :
    isSolidForPlayer o dk = true := by
  cases dk
  · exact isSolidForPlayer_standing o
  · exact h

/-- The duck transition keeps the player clear of every solid obstacle: the
duck shrinks the standing box, and the stand-up is guarded by the clearance
test. -/
theorem inputDuck_clear (s : GameScene) (o : Obstacle) (ho : o ∈ s.obstacles)
    (hh : s.player.h = if s.ducking then 56 else 92)
    (hpre : isSolidForPlayer o s.ducking = true → AABB s.player o.rect = false) :
    isSolidForPlayer o (s.inputDuck).ducking = true → AABB (s.inputDuck).player o.rect = false := by
  unfold GameScene.inputDuck
  split
  · split
    · rename_i hd
      have hd' : s.ducking = false := by simpa using hd
      rw [hd'] at hh hpre
      intro hs
      have h0 := hpre (isSolidForPlayer_mono o false hs)
      rw [AABB_false_iff] at h0 ⊢
      simp only [if_false, Bool.false_eq_true] at hh
      show s.player.x + s.player.w ≤ o.rect.x ∨ o.rect.x + o.rect.w ≤ s.player.x
        ∨ s.player.y + (s.player.h - 56) + 56 ≤ o.rect.y
        ∨ o.rect.y + o.rect.h ≤ s.player.y + (s.player.h - 56)
      rcases h0 with h | h | h | h
      · exact Or.inl h
      · exact Or.inr (Or.inl h)
      · exact Or.inr (Or.inr (Or.inl (by linarith)))
      · exact Or.inr (Or.inr (Or.inr (by rw [hh]; linarith)))
    · exact hpre
  · split
    · split
      · rename_i hb
        intro _
        have hb' : s.standBlocked = false := by simpa using hb
        unfold GameScene.standBlocked at hb'
        rw [List.any_eq_false] at hb'
        have := hb' o ho
        rw [isSolidForPlayer_standing, Bool.true_and] at this
        have ht : AABB s.standTest o.rect = false := by simpa using this
        rw [AABB_false_iff] at ht ⊢
        exact ht
      · exact hpre
    · exact hpre

theorem applyInput_clear (s : GameScene) (o : Obstacle) (ho : o ∈ s.obstacles)
    (hh : s.player.h = if s.ducking then 56 else 92)
    (hpre : isSolidForPlayer o s.ducking = true → AABB s.player o.rect = false) :
    isSolidForPlayer o (s.applyInput).ducking = true →
      AABB (s.applyInput).player o.rect = false := by
  unfold GameScene.applyInput
  rw [inputJump_player, inputJump_ducking]
  obtain ⟨hd, -, -, hobs⟩ := inputHorizontal_ducking s
  apply inputDuck_clear
  · rw [hobs]; exact ho
  · rw [inputHorizontal_player, hd]; exact hh
  · rw [inputHorizontal_player, hd]; exact hpre

theorem resolveXStep_spec (dk : Bool) (vx : ℚ) (p : FRect) (o : Obstacle) :
    (resolveXStep dk vx p o).y = p.y ∧ (resolveXStep dk vx p o).w = p.w
      ∧ (resolveXStep dk vx p o).h = p.h
      ∧ (isSolidForPlayer o dk = true → AABB (resolveXStep dk vx p o) o.rect = false) := by
  unfold resolveXStep
  split
  · rename_i hs
    exact ⟨rfl, rfl, rfl, fun h => by simp [h] at hs⟩
  · split
    · rename_i ha
      exact ⟨rfl, rfl, rfl, fun _ => by simpa using ha⟩
    · split
      · refine ⟨rfl, rfl, rfl, fun _ => ?_⟩
        rw [AABB_false_iff]
        left
        show o.rect.x - p.w + p.w ≤ o.rect.x
        linarith
      · refine ⟨rfl, rfl, rfl, fun _ => ?_⟩
        rw [AABB_false_iff]
        right; left
        exact le_refl _

theorem applyInput_feet (s : GameScene) :
    (s.applyInput).player.y + (s.applyInput).player.h = s.player.y + s.player.h
      ∧ (s.applyInput).player.x = s.player.x ∧ (s.applyInput).player.w = s.player.w := by
  unfold GameScene.applyInput
  rw [inputJump_player]
  have h := (inputDuck_cases s.inputHorizontal).1
  rw [inputHorizontal_player] at h
  exact h

theorem worldGround_player (s : GameScene) :
    (s.worldGround).player =
      (if s.player.y ≥ groundY - s.player.h then
        { s.player with y := groundY - s.player.h } else s.player)
    ∧ (s.worldGround).ducking = s.ducking ∧ (s.worldGround).obstacles = s.obstacles := by
  unfold GameScene.worldGround
  dsimp only
  split
  · exact ⟨rfl, rfl, rfl⟩
  · exact ⟨rfl, rfl, rfl⟩

theorem syncViewportMetrics_eq_withView (s : GameScene) (rs : Option (Int × Int)) :
    ∃ (w h : Int) (z g : ℚ), s.syncViewportMetrics rs = s.withView w h z g :=
  ⟨_, _, _, _, rfl⟩

theorem inputHorizontal_withView (s : GameScene) (w h : Int) (z g : ℚ) :
    (s.withView w h z g).inputHorizontal = (s.inputHorizontal).withView w h z g := by
  unfold GameScene.inputHorizontal GameScene.withView
  dsimp only
  split <;> split <;> rfl

theorem inputDuck_withView (s : GameScene) (w h : Int) (z g : ℚ) :
    (s.withView w h z g).inputDuck = (s.inputDuck).withView w h z g := by
  unfold GameScene.inputDuck
  have h1 : (s.withView w h z g).duckHeld = s.duckHeld := rfl
  have h2 : (s.withView w h z g).onGround = s.onGround := rfl
  have h3 : (s.withView w h z g).ducking = s.ducking := rfl
  have h4 : (s.withView w h z g).standBlocked = s.standBlocked := rfl
  rw [h1, h2, h3, h4]
  split
  · split <;> rfl
  · split
    · split <;> rfl
    · rfl

theorem inputJump_withView (s : GameScene) (w h : Int) (z g : ℚ) :
    (s.withView w h z g).inputJump = (s.inputJump).withView w h z g := by
  unfold GameScene.inputJump
  have h1 : (s.withView w h z g).jumpPressed = s.jumpPressed := rfl
  have h2 : (s.withView w h z g).onGround = s.onGround := rfl
  have h3 : (s.withView w h z g).ducking = s.ducking := rfl
  rw [h1, h2, h3]
  split <;> rfl

theorem worldGround_withView (s : GameScene) (w h : Int) (z g : ℚ) :
    (s.withView w h z g).worldGround = (s.worldGround).withView w h z g := by
  unfold GameScene.worldGround
  have h1 : (s.withView w h z g).player = s.player := rfl
  dsimp only
  rw [h1]
  split <;> rfl

theorem integrate_withView (s : GameScene) (dt : ℚ) (w h : Int) (z g : ℚ) :
    (s.withView w h z g).integrate dt = (s.integrate dt).withView w h z g := rfl

theorem moveX_withView (s : GameScene) (dt : ℚ) (w h : Int) (z g : ℚ) :
    (s.withView w h z g).moveX dt = (s.moveX dt).withView w h z g := rfl

theorem moveY_withView (s : GameScene) (dt a b : ℚ) (w h : Int) (z g : ℚ) :
    (s.withView w h z g).moveY dt a b = (s.moveY dt a b).withView w h z g := rfl

theorem resolvePlayer_eq (s : GameScene) (dt : ℚ) :
    s.resolvePlayer dt =
      (((s.applyInput).integrate dt).moveX dt).moveY dt (s.applyInput).player.y
        ((s.applyInput).player.y + (s.applyInput).player.h) := by
  generalize ha : s.applyInput = a
  unfold GameScene.resolvePlayer
  rw [ha]
  rfl

theorem applyInput_withView (s : GameScene) (w h : Int) (z g : ℚ) :
    (s.withView w h z g).applyInput = (s.applyInput).withView w h z g := by
  unfold GameScene.applyInput
  rw [inputHorizontal_withView, inputDuck_withView, inputJump_withView]

/-- The player phases do not read the viewport metrics. -/
theorem movePlayer_withView (s : GameScene) (dt : ℚ) (w h : Int) (z g : ℚ) :
    (s.withView w h z g).movePlayer dt = (s.movePlayer dt).withView w h z g := by
  unfold GameScene.movePlayer
  rw [resolvePlayer_eq, resolvePlayer_eq, applyInput_withView]
  generalize s.applyInput = a
  have hp : (a.withView w h z g).player = a.player := rfl
  rw [hp, integrate_withView, moveX_withView, moveY_withView, worldGround_withView]

/-- What the movement part of a tick leaves of the player, the chaser, the
obstacles and the catch test does not depend on the viewport sync. -/
theorem moveWorld_sync (s : GameScene) (dt : ℚ) (rs : Option (Int × Int)) :
    ((s.syncViewportMetrics rs).moveWorld dt).player = (s.movePlayer dt).player
      ∧ ((s.syncViewportMetrics rs).moveWorld dt).ducking = (s.movePlayer dt).ducking
      ∧ ((s.syncViewportMetrics rs).moveWorld dt).obstacles = s.obstacles
      ∧ ((s.syncViewportMetrics rs).moveWorld dt).onGround = (s.movePlayer dt).onGround
      ∧ ((s.syncViewportMetrics rs).moveWorld dt).vy = (s.movePlayer dt).vy
      ∧ ((s.syncViewportMetrics rs).moveWorld dt).vx = (s.movePlayer dt).vx
      ∧ ((s.syncViewportMetrics rs).moveWorld dt).caught = (s.moveWorld dt).caught := by
  obtain ⟨w, h, z, g, hs⟩ := syncViewportMetrics_eq_withView s rs
  rw [hs]
  unfold GameScene.moveWorld
  rw [movePlayer_withView]
  generalize hm : s.movePlayer dt = m
  have ho : m.obstacles = s.obstacles := by rw [← hm]; exact (movePlayer_sameRun s dt).obstacles
  refine ⟨rfl, rfl, ho, rfl, rfl, rfl, ?_⟩
  unfold GameScene.caught GameScene.intersects
  have hb : (((m.withView w h z g).bullChase dt).cameraFollow).bull
      = ((m.bullChase dt).cameraFollow).bull := rfl
  have hp : (((m.withView w h z g).bullChase dt).cameraFollow).player
      = ((m.bullChase dt).cameraFollow).player := rfl
  rw [hb, hp]

theorem generateCandidate_x (d : LevelDef) (rnd : Nat → ℚ) (st : GenState) :
    (generateCandidate d rnd st).rect.x = generateCursor d rnd st := by
  unfold generateCandidate
  dsimp only
  split <;> rfl

theorem generateCursor_lower (d : LevelDef) (rnd : Nat → ℚ) (st : GenState)
    (hr : ∀ i, 0 ≤ rnd i) : st.x + (d.obstacleSpacing - 60) ≤ generateCursor d rnd st := by
  unfold generateCursor
  dsimp only
  have := hr st.calls
  linarith

/-- With non-negative draws and a spacing of at least 170 the cursor never
falls below 520 and every kept obstacle starts at `x ≥ 630`. -/
theorem generateLoop_lower (d : LevelDef) (rnd : Nat → ℚ) (hsp : 170 ≤ d.obstacleSpacing)
    (hr : ∀ i, 0 ≤ rnd i) (n : Nat) :
    ∀ st : GenState, 520 ≤ st.x → (∀ o ∈ st.obstacles, 630 ≤ o.rect.x) →
      520 ≤ (generateLoop d rnd n st).x ∧ ∀ o ∈ (generateLoop d rnd n st).obstacles, 630 ≤ o.rect.x := by
  induction n with
  | zero => intro st hx ho; exact ⟨hx, ho⟩
  | succ n ih =>
    intro st hx ho
    have hc := generateCursor_lower d rnd st hr
    apply ih (generateStep d rnd st)
    · show 520 ≤ generateCursor d rnd st
      linarith
    · intro o' ho'
      unfold generateStep at ho'
      dsimp only at ho'
      split at ho'
      · rcases List.mem_append.mp ho' with hm | hm
        · exact ho o' hm
        · rw [List.mem_singleton.mp hm, generateCandidate_x]
          linarith
      · exact ho o' ho'

theorem levels_getD_spacing (n : Nat) : 170 ≤ (levels.getD n {}).obstacleSpacing := by
  by_cases h : n < 10
  · rw [levels_getD n h]
    exact le_max_left _ _
  · have : levels.length ≤ n := by rw [levels_length]; omega
    rw [List.getD_eq_default _ _ this]
    norm_num

/-- The start state is clear of every obstacle of its fresh layout. -/
theorem startLevel_clear (s : GameScene) (idx : Int) (rnd : Nat → ℚ) (hw : s.player.w = 44)
    (hr : ∀ i, 0 ≤ rnd i) :
    ∀ o ∈ (s.startLevel idx rnd).obstacles, AABB (s.startLevel idx rnd).player o.rect = false := by
  obtain ⟨-, -, -, hp, -, -, -, -, -, -, -, hobs, -⟩ := startLevel_fields s idx rnd
  rw [hp, hobs]
  intro o ho
  have hlow := (generateLoop_lower _ rnd (levels_getD_spacing _) hr _ genStart
    (by show (520 : ℚ) ≤ 520; exact le_refl _)
    (fun o ho => absurd ho (List.not_mem_nil o))).2 o ho
  rw [AABB_false_iff]
  left
  show (120 : ℚ) + s.player.w ≤ o.rect.x
  rw [hw]
  linarith

theorem foldl_resolveXStep_keeps (dk : Bool) (vx : ℚ) (l : List Obstacle) :
    ∀ p : FRect, (l.foldl (resolveXStep dk vx) p).y = p.y
      ∧ (l.foldl (resolveXStep dk vx) p).w = p.w ∧ (l.foldl (resolveXStep dk vx) p).h = p.h := by
  induction l with
  | nil => intro p; exact ⟨rfl, rfl, rfl⟩
  | cons o l ih =>
    intro p
    obtain ⟨h1, h2, h3, -⟩ := resolveXStep_spec dk vx p o
    obtain ⟨i1, i2, i3⟩ := ih (resolveXStep dk vx p o)
    exact ⟨i1.trans h1, i2.trans h2, i3.trans h3⟩

theorem resolveYStep_keeps (dk : Bool) (a b : ℚ) (st : YState) (o : Obstacle) :
    (resolveYStep dk a b st o).player.x = st.player.x
      ∧ (resolveYStep dk a b st o).player.w = st.player.w
      ∧ (resolveYStep dk a b st o).player.h = st.player.h := by
  unfold resolveYStep
  dsimp only
  split
  · exact ⟨rfl, rfl, rfl⟩
  · split
    · exact ⟨rfl, rfl, rfl⟩
    · split
      · split <;> exact ⟨rfl, rfl, rfl⟩
      · split
        · split <;> exact ⟨rfl, rfl, rfl⟩
        · split <;> exact ⟨rfl, rfl, rfl⟩

theorem foldl_resolveYStep_keeps (dk : Bool) (a b : ℚ) (l : List Obstacle) :
    ∀ st : YState, (l.foldl (resolveYStep dk a b) st).player.x = st.player.x
      ∧ (l.foldl (resolveYStep dk a b) st).player.w = st.player.w
      ∧ (l.foldl (resolveYStep dk a b) st).player.h = st.player.h := by
  induction l with
  | nil => intro st; exact ⟨rfl, rfl, rfl⟩
  | cons o l ih =>
    intro st
    obtain ⟨h1, h2, h3⟩ := resolveYStep_keeps dk a b st o
    obtain ⟨i1, i2, i3⟩ := ih (resolveYStep dk a b st o)
    exact ⟨i1.trans h1, i2.trans h2, i3.trans h3⟩

theorem moveX_keeps (s : GameScene) (dt : ℚ) :
    (s.moveX dt).player.y = s.player.y ∧ (s.moveX dt).player.w = s.player.w
      ∧ (s.moveX dt).player.h = s.player.h := by
  unfold GameScene.moveX
  dsimp only
  split
  · obtain ⟨h1, h2, h3⟩ := foldl_resolveXStep_keeps s.ducking s.vx s.obstacles
      (if s.player.x + s.vx * dt < 30 then
        { x := 30, y := s.player.y, w := s.player.w, h := s.player.h }
       else { x := s.player.x + s.vx * dt, y := s.player.y, w := s.player.w, h := s.player.h })
    rw [h1, h2, h3]
    split <;> exact ⟨rfl, rfl, rfl⟩
  · split <;> exact ⟨rfl, rfl, rfl⟩

theorem moveY_keeps (s : GameScene) (dt a b : ℚ) :
    (s.moveY dt a b).player.x = s.player.x ∧ (s.moveY dt a b).player.w = s.player.w
      ∧ (s.moveY dt a b).player.h = s.player.h := by
  unfold GameScene.moveY
  dsimp only
  exact foldl_resolveYStep_keeps s.ducking a b s.obstacles _

/-- The movement of a tick never changes the player's width, and its height
only in `applyInput`. -/
theorem movePlayer_size (s : GameScene) (dt : ℚ) :
    (s.movePlayer dt).player.w = s.player.w
      ∧ (s.movePlayer dt).player.h = (s.applyInput).player.h := by
  unfold GameScene.movePlayer
  rw [(worldGround_player _).1, resolvePlayer_eq]
  obtain ⟨-, -, hw⟩ := applyInput_feet s
  rw [← hw]
  generalize s.applyInput = a
  obtain ⟨-, hx2, hx3⟩ := moveX_keeps (a.integrate dt) dt
  obtain ⟨-, hy2, hy3⟩ := moveY_keeps ((a.integrate dt).moveX dt) dt a.player.y
    (a.player.y + a.player.h)
  have hw' : (((a.integrate dt).moveX dt).moveY dt a.player.y (a.player.y + a.player.h)).player.w
      = a.player.w := hy2.trans hx2
  have hh' : (((a.integrate dt).moveX dt).moveY dt a.player.y (a.player.y + a.player.h)).player.h
      = a.player.h := hy3.trans hx3
  split
  · exact ⟨hw', hh'⟩
  · exact ⟨hw', hh'⟩

/-! ## Landing -/

theorem resolveYStep_of_away (dk : Bool) (a b : ℚ) (st : YState) (o : Obstacle)
    (h : st.player.x + st.player.w ≤ o.rect.x ∨ o.rect.x + o.rect.w ≤ st.player.x) :
    resolveYStep dk a b st o = st := by
  have hA : AABB st.player o.rect = false := by
    rw [AABB_false_iff]
    rcases h with h | h
    · exact Or.inl h
    · exact Or.inr (Or.inl h)
  unfold resolveYStep
  split
  · rfl
  · rw [if_pos (by simp [hA])]

theorem foldl_resolveYStep_away (dk : Bool) (a b : ℚ) (l : List Obstacle) (st : YState)
    (h : ∀ o ∈ l, st.player.x + st.player.w ≤ o.rect.x ∨ o.rect.x + o.rect.w ≤ st.player.x) :
    l.foldl (resolveYStep dk a b) st = st := by
  induction l with
  | nil => rfl
  | cons o l ih =>
    rw [List.foldl_cons, resolveYStep_of_away dk a b st o (h o (List.mem_cons_self _ _))]
    exact ih (fun o' ho' => h o' (List.mem_cons_of_mem _ ho'))

/-- The vertical loop for a player that fell from rest on top of `o` into
`o`, every other obstacle being clear of the player's horizontal range: the
player is put back on top of `o`, with `vy = 0` and `onGround` set. -/
theorem landing_fold (dk : Bool) (l₁ l₂ : List Obstacle) (o : Obstacle) (p : FRect)
    (vy y0 : ℚ) (hsolid : isSolidForPlayer o dk = true) (hvy : 0 < vy)
    (haway : ∀ o' ∈ l₁ ++ l₂, p.x + p.w ≤ o'.rect.x ∨ o'.rect.x + o'.rect.w ≤ p.x)
    (hrest : y0 + p.h = o.rect.y)
    (hxov : o.rect.x < p.x + p.w ∧ p.x < o.rect.x + o.rect.w)
    (hpy : y0 < p.y) (hnt : p.y < o.rect.y + o.rect.h) :
    (l₁ ++ o :: l₂).foldl (resolveYStep dk y0 (y0 + p.h))
        { player := p, vy := vy, onGround := false }
      = { player := { p with y := o.rect.y - p.h }, vy := 0, onGround := true } := by
  rw [List.foldl_append, List.foldl_cons]
  rw [foldl_resolveYStep_away dk _ _ l₁ _
    (fun o' ho' => haway o' (List.mem_append_left _ ho'))]
  have hstep : resolveYStep dk y0 (y0 + p.h) { player := p, vy := vy, onGround := false } o
      = { player := { p with y := o.rect.y - p.h }, vy := 0, onGround := true } := by
    have hA : AABB p o.rect = true := by
      rw [AABB_true_iff]
      exact ⟨hxov.1, hxov.2, by linarith, hnt⟩
    unfold resolveYStep
    rw [if_neg (by simp [hsolid]), if_neg (by simp [hA])]
    dsimp only
    rw [if_pos hvy, if_pos (by
      simp only [Bool.and_eq_true, decide_eq_true_eq]
      constructor <;> linarith)]
  rw [hstep]
  exact foldl_resolveYStep_away dk _ _ l₂ _
    (fun o' ho' => haway o' (List.mem_append_right _ ho'))

/-- With no input held and the player standing, `applyInput` only resets
`vx`. -/
theorem applyInput_idle (s : GameScene) (hduck : s.ducking = false)
    (hin : s.leftHeld = false ∧ s.rightHeld = false ∧ s.duckHeld = false
      ∧ s.jumpPressed = false) :
    s.applyInput = { s with vx := 0 } := by
  obtain ⟨hl, hr, hd, hj⟩ := hin
  have h1 : s.inputHorizontal = { s with vx := 0 } := by
    unfold GameScene.inputHorizontal
    dsimp only
    rw [hl, hr]
    rfl
  have h2 : ({ s with vx := 0 } : GameScene).inputDuck = { s with vx := 0 } := by
    unfold GameScene.inputDuck
    dsimp only
    rw [hd, hduck]
    rfl
  have h3 : ({ s with vx := 0 } : GameScene).inputJump = { s with vx := 0 } := by
    unfold GameScene.inputJump
    dsimp only
    rw [hj]
    rfl
  unfold GameScene.applyInput
  rw [h1, h2, h3]

/-- The player phases of an idle tick on top of an obstacle. -/
theorem movePlayer_landing (s : GameScene) (dt : ℚ) (o : Obstacle) (l₁ l₂ : List Obstacle)
    (hobs : s.obstacles = l₁ ++ o :: l₂)
    (haway : ∀ o' ∈ l₁ ++ l₂,
      s.player.x + s.player.w ≤ o'.rect.x ∨ o'.rect.x + o'.rect.w ≤ s.player.x)
    (hrest : s.player.y + s.player.h = o.rect.y)
    (hxov : o.rect.x < s.player.x + s.player.w ∧ s.player.x < o.rect.x + o.rect.w)
    (hduck : s.ducking = false) (hvy : s.vy = 0)
    (hin : s.leftHeld = false ∧ s.rightHeld = false ∧ s.duckHeld = false
      ∧ s.jumpPressed = false)
    (hx : 30 ≤ s.player.x) (htop : o.rect.y ≤ groundY)
    (hdt : 0 < dt) (hfall : gravity * dt * dt < o.rect.h + s.player.h) :
    (s.movePlayer dt).onGround = true ∧ (s.movePlayer dt).player.y = s.player.y := by
  have hg : (0 : ℚ) < gravity * dt := mul_pos (by norm_num [gravity]) hdt
  have hgg : (0 : ℚ) < gravity * dt * dt := mul_pos hg hdt
  unfold GameScene.movePlayer
  rw [resolvePlayer_eq, applyInput_idle s hduck hin]
  -- the horizontal phase leaves the player where it is
  have hmx : ((({ s with vx := 0 } : GameScene).integrate dt).moveX dt).player = s.player := by
    unfold GameScene.moveX GameScene.integrate
    dsimp only
    rw [if_neg (by simp), if_neg (by rw [zero_mul, add_zero]; exact not_lt.mpr hx)]
    rw [zero_mul, add_zero]
  -- the vertical phase lands the player back on the obstacle
  have hmy : (((({ s with vx := 0 } : GameScene).integrate dt).moveX dt).moveY dt s.player.y
        (s.player.y + s.player.h))
      = { ((({ s with vx := 0 } : GameScene).integrate dt).moveX dt) with
          player := { s.player with y := o.rect.y - s.player.h }, vy := 0, onGround := true } := by
    unfold GameScene.moveY
    dsimp only
    rw [hmx]
    have hobs' : ((({ s with vx := 0 } : GameScene).integrate dt).moveX dt).obstacles
        = l₁ ++ o :: l₂ := hobs
    have hd' : ((({ s with vx := 0 } : GameScene).integrate dt).moveX dt).ducking = false := hduck
    have hv' : ((({ s with vx := 0 } : GameScene).integrate dt).moveX dt).vy
        = gravity * dt := by
      show s.vy + gravity * dt = _
      rw [hvy, zero_add]
    rw [hobs', hd', hv']
    have hfold := landing_fold false l₁ l₂ o { s.player with y := s.player.y + gravity * dt * dt }
      (gravity * dt) s.player.y (isSolidForPlayer_standing o) hg haway hrest hxov
      (by show s.player.y < s.player.y + gravity * dt * dt; linarith)
      (by show s.player.y + gravity * dt * dt < o.rect.y + o.rect.h; linarith)
    rw [hfold]
  rw [hmy]
  -- the floor clamp does not move it
  unfold GameScene.worldGround
  dsimp only
  split
  · refine ⟨rfl, ?_⟩
    show groundY - s.player.h = s.player.y
    rename_i hfl
    have : groundY - s.player.h ≤ o.rect.y - s.player.h := hfl
    linarith
  · refine ⟨rfl, ?_⟩
    show o.rect.y - s.player.h = s.player.y
    linarith

/-! ## Level catalog and level start (C11, C18) -/

theorem buildLevels_getElem? (i : Nat) (hi : i < 10) : buildLevels[i]? = some (levelDefOf i) := by
  interval_cases i <;> rfl

/-- C11 (level catalog): `buildLevels` produces exactly 10 level
definitions, and for every `i < 10` entry `i` has `length = 3200 + 450·i`,
chaser speed bonus `18·i`, `obstacleCount = 10 + 2·i` and
`obstacleSpacing = max(170, 270 − 9·i)`. -/
theorem buildLevels_catalog (i : Nat) (hi : i < 10) :
    buildLevels.length = 10
      ∧ buildLevels[i]? = some
          { length := 3200 + 450 * (i : ℚ)
            bullSpeedBonus := 18 * (i : ℚ)
            obstacleCount := 10 + 2 * (i : Int)
            obstacleSpacing := max 170 (270 - 9 * (i : ℚ)) } := by
  refine ⟨rfl, ?_⟩
  rw [buildLevels_getElem? i hi]
  unfold levelDefOf
  congr 2
  · ring
  · ring
  · ring
  · congr 1; ring

/-- C11 at a concrete input: the last level, index 9. -/
theorem buildLevels_catalog_witness :
    (9 : Nat) < 10 ∧ buildLevels.length = 10
      ∧ buildLevels[9]? = some
          { length := 3200 + 450 * ((9 : Nat) : ℚ)
            bullSpeedBonus := 18 * ((9 : Nat) : ℚ)
            obstacleCount := 10 + 2 * ((9 : Nat) : Int)
            obstacleSpacing := max 170 (270 - 9 * ((9 : Nat) : ℚ)) } :=
  ⟨by decide, buildLevels_catalog 9 (by decide)⟩

theorem levels_getD_bonus (i : Nat) (hi : i < 10) :
    (levels.getD i {}).length = 3200 + 450 * (i : ℚ)
      ∧ (levels.getD i {}).bullSpeedBonus = 18 * (i : ℚ) := by
  rw [levels_getD i hi]
  constructor
  · show (3200 : ℚ) + (i : ℚ) * 450 = _
    ring
  · show (i : ℚ) * 18 = _
    ring

theorem levels_getElem? (i : Nat) (hi : i < 10) : levels[i]? = some (levelDefOf i) := by
  interval_cases i <;> rfl

theorem clampInt_eq_min_max (v : Int) {lo hi : Int} (h : lo ≤ hi) :
    clampInt v lo hi = min (max v lo) hi := by
  unfold clampInt
  split
  · rename_i h1
    rw [max_eq_right (le_of_lt h1), min_eq_left h]
  · rename_i h1
    rw [max_eq_left (not_lt.mp h1)]
    split
    · rename_i h2
      rw [min_eq_right (le_of_lt h2)]
    · rename_i h2
      rw [min_eq_left (not_lt.mp h2)]

/-- C18 (level index clamping): for every integer `idx`, `startLevel(idx)`
sets `levelIndex = min(max(idx, 0), 9)`, which is a valid index of the
catalog (the lookup `levels[levelIndex]` is in range), and
`goalX = 3200 + 450·levelIndex`, chaser speed `= 260 + 18·levelIndex`. -/
theorem startLevel_clamps_index (s : GameScene) (idx : Int) (rnd : Nat → ℚ) :
    (s.startLevel idx rnd).levelIndex = min (max idx 0) 9
      ∧ 0 ≤ (s.startLevel idx rnd).levelIndex
      ∧ (s.startLevel idx rnd).levelIndex.toNat < levels.length
      ∧ levels[(s.startLevel idx rnd).levelIndex.toNat]? =
          some (levelDefOf (s.startLevel idx rnd).levelIndex.toNat)
      ∧ (s.startLevel idx rnd).goalX = 3200 + 450 * ((s.startLevel idx rnd).levelIndex : ℚ)
      ∧ (s.startLevel idx rnd).bullSpeed = 260 + 18 * ((s.startLevel idx rnd).levelIndex : ℚ) := by
  obtain ⟨hl, -, hg, -, -, -, -, -, -, hb, -⟩ := startLevel_fields s idx rnd
  obtain ⟨h0, h9⟩ := clampInt_bounds idx (show (0 : Int) ≤ 9 by decide)
  have hn : (clampInt idx 0 9).toNat < 10 := by omega
  have hcast : (((clampInt idx 0 9).toNat : Nat) : ℚ) = ((clampInt idx 0 9 : Int) : ℚ) := by
    have : (((clampInt idx 0 9).toNat : Nat) : Int) = clampInt idx 0 9 := Int.toNat_of_nonneg h0
    exact_mod_cast this
  obtain ⟨hlen, hbon⟩ := levels_getD_bonus _ hn
  rw [hl]
  refine ⟨clampInt_eq_min_max idx (by decide), h0, ?_, levels_getElem? _ hn, ?_, ?_⟩
  · rw [levels_length]; exact hn
  · rw [hg, hlen, hcast]
  · rw [hb, hbon, hcast]
    rfl

/-! ## Jump rule and jump flag (C14, C15) -/

theorem inputHorizontal_jump (s : GameScene) :
    (s.inputHorizontal).jumpPressed = s.jumpPressed ∧ (s.inputHorizontal).vy = s.vy := by
  unfold GameScene.inputHorizontal
  dsimp only
  split <;> split <;> exact ⟨rfl, rfl⟩

theorem inputDuck_jump (s : GameScene) :
    (s.inputDuck).jumpPressed = s.jumpPressed ∧ (s.inputDuck).vy = s.vy
      ∧ (s.inputDuck).onGround = s.onGround := by
  unfold GameScene.inputDuck
  split
  · split <;> exact ⟨rfl, rfl, rfl⟩
  · split
    · split <;> exact ⟨rfl, rfl, rfl⟩
    · exact ⟨rfl, rfl, rfl⟩

/-- The duck transition enters the duck whenever the duck intent is held on the ground. -/
theorem inputDuck_of_held (s : GameScene) (h : (s.duckHeld && s.onGround) = true) :
    (s.inputDuck).ducking = true := by
  unfold GameScene.inputDuck
  rw [if_pos h]
  split
  · rfl
  · rename_i hd
    simpa using hd

/-- C14 (jump rule): `applyInput` sets `vy` to the jump velocity −900 and
clears `onGround` exactly when the jump flag is set, the player is grounded
and the player is not ducking after the call's own duck transition;
otherwise it leaves `vy` and `onGround` as they were.  In particular an
airborne player does not jump again, a ducking player does not jump, and a
duck and a jump requested together on the ground give the duck only. -/
theorem applyInput_jump_rule (s : GameScene) :
    jumpVelocity = -900
      ∧ (s.applyInput).vy =
          (if s.jumpPressed && s.onGround && !(s.applyInput).ducking then jumpVelocity else s.vy)
      ∧ (s.applyInput).onGround =
          (if s.jumpPressed && s.onGround && !(s.applyInput).ducking then false else s.onGround)
      ∧ (s.onGround = false → (s.applyInput).vy = s.vy ∧ (s.applyInput).onGround = false)
      ∧ ((s.applyInput).ducking = true →
          (s.applyInput).vy = s.vy ∧ (s.applyInput).onGround = s.onGround)
      ∧ (s.duckHeld = true → s.onGround = true →
          (s.applyInput).ducking = true ∧ (s.applyInput).vy = s.vy
            ∧ (s.applyInput).onGround = true) := by
  have hd : (s.applyInput).ducking = ((s.inputHorizontal).inputDuck).ducking := inputJump_ducking _
  obtain ⟨hj1, hv1⟩ := inputHorizontal_jump s
  obtain ⟨-, hdh, hg1, -⟩ := inputHorizontal_ducking s
  obtain ⟨hj2, hv2, hg2⟩ := inputDuck_jump s.inputHorizontal
  have hvy : (s.applyInput).vy =
      (if s.jumpPressed && s.onGround && !(s.applyInput).ducking then jumpVelocity else s.vy) := by
    rw [hd, ← hj1, ← hg1, ← hj2, ← hg2, ← hv1, ← hv2]
    unfold GameScene.applyInput GameScene.inputJump
    split <;> rfl
  have hon : (s.applyInput).onGround =
      (if s.jumpPressed && s.onGround && !(s.applyInput).ducking then false else s.onGround) := by
    rw [hd, ← hj1, ← hg1, ← hj2, ← hg2]
    unfold GameScene.applyInput GameScene.inputJump
    split <;> rfl
  refine ⟨rfl, hvy, hon, ?_, ?_, ?_⟩
  · intro h
    rw [hvy, hon, h]
    simp
  · intro h
    rw [hvy, hon, h]
    simp
  · intro h1 h2
    have hdk : (s.applyInput).ducking = true := by
      rw [hd]
      apply inputDuck_of_held
      rw [hdh, hg1, h1, h2]
      rfl
    rw [hvy, hon, hdk, h2]
    simp

/-- C14 at a concrete input: duck held and jump pressed on the ground give
the duck and no jump. -/
theorem applyInput_jump_rule_witness :
    duckJump.duckHeld = true ∧ duckJump.onGround = true ∧ duckJump.jumpPressed = true
      ∧ (duckJump.applyInput).ducking = true ∧ (duckJump.applyInput).vy = duckJump.vy
      ∧ (duckJump.applyInput).onGround = true :=
  ⟨rfl, rfl, rfl, (applyInput_jump_rule duckJump).2.2.2.2.2 rfl rfl⟩

/-- C15 (one-shot jump flag): a non-repeat key-down of Up, W or Space sets
`jumpPressed`, and `update` ends with `jumpPressed = false` for every state
and frame time, waiting or not, caught or not, jump performed or not. -/
theorem jump_flag_one_shot (s : GameScene) (dt : ℚ) (rs : Option (Int × Int)) (rnd : Nat → ℚ) :
    (s.handleEvent (Event.keyDown Keycode.SDLK_UP false) rs rnd).jumpPressed = true
      ∧ (s.handleEvent (Event.keyDown Keycode.SDLK_w false) rs rnd).jumpPressed = true
      ∧ (s.handleEvent (Event.keyDown Keycode.SDLK_SPACE false) rs rnd).jumpPressed = true
      ∧ (s.update dt rs rnd).jumpPressed = false := by
  refine ⟨?_, ?_, ?_, ?_⟩
  · rw [handleEvent_keyDown]; rfl
  · rw [handleEvent_keyDown]; rfl
  · rw [handleEvent_keyDown]; rfl
  · cases hw : s.waitingForEnter
    · rw [update_of_running s dt rs rnd hw]
    · rw [update_of_waiting s dt rs rnd hw]

/-! ## Zoom and world-to-screen transform (C19, C20) -/

theorem clampF_of_ge (v : ℚ) {lo hi : ℚ} (h : lo ≤ hi) (hv : hi ≤ v) : clampF v lo hi = hi := by
  unfold clampF
  rw [if_neg (not_lt.mpr (le_trans h hv))]
  split
  · rfl
  · linarith

theorem clampF_of_mem (v : ℚ) {lo hi : ℚ} (h1 : lo ≤ v) (h2 : v ≤ hi) : clampF v lo hi = v := by
  unfold clampF
  rw [if_neg (not_lt.mpr h1), if_neg (not_lt.mpr h2)]

/-- The conversion of the height and the product with 0.25f are exact below
`2 ^ 24`. -/
theorem quarter_exact (m : Int) (h1 : 1 ≤ m) (h2 : m < 2 ^ 24) :
    f32 (f32 (m : ℚ) * (1 / 4)) = (m : ℚ) / 4 := by
  have hm : |m| < 2 ^ 24 := by rw [abs_of_pos (by omega)]; exact h2
  rw [f32_intCast m hm]
  have := f32_of_grid m 2 (by norm_num) hm
  rw [show (m : ℚ) * (1 / 4) = (m : ℚ) / 2 ^ 2 by ring, this]
  norm_num

/-- The zoom `refreshZoomFromViewport` computes is the quotient
`0.25·max(1, h) / 92` rounded once and clamped. -/
theorem computedZoom_eq (m : Int) (h1 : 1 ≤ m) :
    clampF (f32 (f32 (f32 (m : ℚ) * (1 / 4)) / 92)) (1 / 2) (7 / 2)
      = clampF (f32 ((m : ℚ) / 4 / 92)) (1 / 2) (7 / 2) := by
  by_cases h2 : m < 2 ^ 24
  · rw [quarter_exact m h1 h2]
  · have hm : (2 : ℚ) ^ 24 ≤ (m : ℚ) := by exact_mod_cast not_lt.mp h2
    have ha : (m : ℚ) / 2 ≤ f32 (m : ℚ) := f32_half_le _ (by linarith)
    have hb : f32 (m : ℚ) * (1 / 4) / 2 ≤ f32 (f32 (m : ℚ) * (1 / 4)) :=
      f32_half_le _ (by linarith)
    have hc : f32 (f32 (m : ℚ) * (1 / 4)) / 92 / 2 ≤ f32 (f32 (f32 (m : ℚ) * (1 / 4)) / 92) :=
      f32_half_le _ (by linarith)
    have hd : (m : ℚ) / 4 / 92 / 2 ≤ f32 ((m : ℚ) / 4 / 92) := f32_half_le _ (by linarith)
    rw [clampF_of_ge _ (by norm_num) (by linarith), clampF_of_ge _ (by norm_num) (by linarith)]


theorem zoomScale_eq (s : GameScene) (w h : Int) :
    (s.refreshZoomFromViewport w h).zoomScale
      = clampF (f32 (((max 1 h : Int) : ℚ) / 4 / 92)) (1 / 2) (7 / 2) := by
  show clampF (f32 (f32 (f32 ((max 1 h : Int) : ℚ) * targetPlayerScreenRatio)
    / max 1 playerStandHeight)) (1 / 2) (7 / 2) = _
  have hb : max (1 : ℚ) playerStandHeight = 92 := by norm_num [playerStandHeight]
  rw [hb]
  unfold targetPlayerScreenRatio
  exact computedZoom_eq _ (le_max_left 1 h)

/-- C19 (zoom clamp), amended: for every viewport height `h`, zero and
negative included, `refreshZoomFromViewport` sets `zoomScale` to the
quotient `0.25·max(1, h) / 92` rounded to binary32 and clamped to
`[0.5, 3.5]`, so `zoomScale` lies in `[0.5, 3.5]`.  Whenever the rounded
quotient is not clamped, `h` lies in `184..1288`, the product
`92·zoomScale` is within `h / 2 ^ 26` of `h / 4` (one part in `2 ^ 24`), and
the height `toScreenRect` gives a rectangle of the standing player height
92, which is that product rounded, is within `h / 2 ^ 24` of `h / 4`. -/
theorem refreshZoom_clamp (s : GameScene) (w h : Int) :
    (s.refreshZoomFromViewport w h).zoomScale
        = clampF (f32 (((max 1 h : Int) : ℚ) / 4 / 92)) (1 / 2) (7 / 2)
      ∧ 1 / 2 ≤ (s.refreshZoomFromViewport w h).zoomScale
      ∧ (s.refreshZoomFromViewport w h).zoomScale ≤ 7 / 2
      ∧ (1 / 2 ≤ f32 (((max 1 h : Int) : ℚ) / 4 / 92) →
          f32 (((max 1 h : Int) : ℚ) / 4 / 92) ≤ 7 / 2 →
          184 ≤ h ∧ h ≤ 1288
            ∧ |playerStandHeight * (s.refreshZoomFromViewport w h).zoomScale - (h : ℚ) / 4|
                ≤ (h : ℚ) / 2 ^ 26
            ∧ |((s.refreshZoomFromViewport w h).toScreenRect32 { h := playerStandHeight }).h
                - (h : ℚ) / 4| ≤ (h : ℚ) / 2 ^ 24) := by
  have hz := zoomScale_eq s w h
  obtain ⟨hlo, hhi⟩ := clampF_bounds (f32 (((max 1 h : Int) : ℚ) / 4 / 92))
    (show (1 / 2 : ℚ) ≤ 7 / 2 by norm_num)
  refine ⟨hz, by rw [hz]; exact hlo, by rw [hz]; exact hhi, ?_⟩
  intro h1 h2
  have hm1 : (1 : ℚ) ≤ ((max 1 h : Int) : ℚ) := by exact_mod_cast le_max_left 1 h
  obtain ⟨hl, hu⟩ := f32_between (((max 1 h : Int) : ℚ) / 4 / 92)
    (le_trans (by norm_num) (show (1 : ℚ) / 368 ≤ _ by linarith))
  have hge : (183 : ℚ) < ((max 1 h : Int) : ℚ) := by
    by_contra hc
    have hc := not_lt.mp hc
    have : ((max 1 h : Int) : ℚ) / 4 / 92 + ((max 1 h : Int) : ℚ) / 4 / 92 / 2 ^ 24 < 1 / 2 := by
      have : ((max 1 h : Int) : ℚ) / 4 / 92 + ((max 1 h : Int) : ℚ) / 4 / 92 / 2 ^ 24
          = ((max 1 h : Int) : ℚ) * ((1 + 1 / 2 ^ 24) / 368) := by ring
      rw [this]
      calc ((max 1 h : Int) : ℚ) * ((1 + 1 / 2 ^ 24) / 368)
          ≤ 183 * ((1 + 1 / 2 ^ 24) / 368) := by gcongr
        _ < 1 / 2 := by norm_num
    linarith
  have hle : ((max 1 h : Int) : ℚ) < 1289 := by
    by_contra hc
    have hc := not_lt.mp hc
    have : 7 / 2 < ((max 1 h : Int) : ℚ) / 4 / 92 - ((max 1 h : Int) : ℚ) / 4 / 92 / 2 ^ 24 := by
      have : ((max 1 h : Int) : ℚ) / 4 / 92 - ((max 1 h : Int) : ℚ) / 4 / 92 / 2 ^ 24
          = ((max 1 h : Int) : ℚ) * ((1 - 1 / 2 ^ 24) / 368) := by ring
      rw [this]
      calc (7 / 2 : ℚ) < 1289 * ((1 - 1 / 2 ^ 24) / 368) := by norm_num
        _ ≤ ((max 1 h : Int) : ℚ) * ((1 - 1 / 2 ^ 24) / 368) := by gcongr
    linarith
  have hge2 : (183 : Int) < max 1 h := by exact_mod_cast hge
  have hle2 : max 1 h < (1289 : Int) := by exact_mod_cast hle
  have hmax : (max 1 h : Int) = h := by
    rcases max_cases 1 h with ⟨e, _⟩ | ⟨e, _⟩
    · rw [e] at hge2; omega
    · exact e
  rw [hmax] at hge2 hle2 hl hu h1 h2 hz
  have hzv : (s.refreshZoomFromViewport w h).zoomScale = f32 ((h : ℚ) / 4 / 92) := by
    rw [hz, clampF_of_mem _ h1 h2]
  have hpos : (0 : ℚ) < (h : ℚ) := by
    have : (183 : ℚ) < (h : ℚ) := by exact_mod_cast hge2
    linarith
  have hA : |playerStandHeight * (s.refreshZoomFromViewport w h).zoomScale - (h : ℚ) / 4|
      ≤ (h : ℚ) / 2 ^ 26 := by
    rw [hzv, abs_le]
    unfold playerStandHeight
    constructor
    · have : (h : ℚ) / 4 / 92 / 2 ^ 24 * 92 = (h : ℚ) / 2 ^ 26 := by ring
      linarith
    · have : (h : ℚ) / 4 / 92 / 2 ^ 24 * 92 = (h : ℚ) / 2 ^ 26 := by ring
      linarith
  refine ⟨by omega, by omega, hA, ?_⟩
  show |f32 (playerStandHeight * (s.refreshZoomFromViewport w h).zoomScale) - (h : ℚ) / 4| ≤ _
  generalize playerStandHeight * (s.refreshZoomFromViewport w h).zoomScale = P at hA ⊢
  rw [abs_le] at hA
  have hP : (1 : ℚ) ≤ P := by
    have : (183 : ℚ) < (h : ℚ) := by exact_mod_cast hge2
    have : (h : ℚ) / 2 ^ 26 ≤ (h : ℚ) / 8 := by
      apply div_le_div_of_nonneg_left (le_of_lt hpos) (by norm_num) (by norm_num)
    linarith [hA.1]
  obtain ⟨pl, pu⟩ := f32_between P (le_trans (by norm_num) hP)
  have e1 : P / 2 ^ 24 ≤ ((h : ℚ) / 4 + (h : ℚ) / 2 ^ 26) / 2 ^ 24 := by
    apply div_le_div_of_nonneg_right _ (by norm_num)
    linarith [hA.2]
  have e2 : ((h : ℚ) / 4 + (h : ℚ) / 2 ^ 26) / 2 ^ 24 + (h : ℚ) / 2 ^ 26 ≤ (h : ℚ) / 2 ^ 24 := by
    have : ((h : ℚ) / 4 + (h : ℚ) / 2 ^ 26) / 2 ^ 24 + (h : ℚ) / 2 ^ 26
        = (h : ℚ) * ((1 / 4 + 1 / 2 ^ 26) / 2 ^ 24 + 1 / 2 ^ 26) := by ring
    rw [this, div_eq_mul_one_div (h : ℚ) (2 ^ 24)]
    apply mul_le_mul_of_nonneg_left _ (le_of_lt hpos)
    norm_num
  rw [abs_le]
  constructor <;> linarith [hA.1, hA.2]


theorem f32_zoom_186 : f32 (((max 1 186 : Int) : ℚ) / 4 / 92) = 8479789 / 16777216 := by
  have h := f32_of_scaled (((max 1 186 : Int) : ℚ) / 4 / 92) 24 8479789 (by norm_num)
    (by norm_num [abs_of_nonneg]) (by norm_num [abs_of_nonneg]) (by norm_num [abs_lt])
  rw [h]
  norm_num

theorem f32_height_186 :
    f32 (playerStandHeight * (8479789 / 16777216)) = 12189697 / 262144 := by
  have h := f32_of_scaled (playerStandHeight * (8479789 / 16777216)) 18 12189697 (by norm_num)
    (by norm_num [abs_of_nonneg, playerStandHeight])
    (by norm_num [abs_of_nonneg, playerStandHeight])
    (by norm_num [abs_lt, playerStandHeight])
  rw [h]
  norm_num

theorem f32_zoom_540 : f32 (((max 1 540 : Int) : ℚ) / 4 / 92) = 6154685 / 4194304 := by
  have h := f32_of_scaled (((max 1 540 : Int) : ℚ) / 4 / 92) 23 12309370 (by norm_num)
    (by norm_num [abs_of_nonneg]) (by norm_num [abs_of_nonneg]) (by norm_num [abs_lt])
  rw [h]
  norm_num

/-- C19 as stated fails in binary32: for a viewport 186 high the quotient
`46.5 / 92` is not a binary32 value; `zoomScale` becomes `8479789 / 2 ^ 24`,
which is not clamped and is not `clamp(0.25·186 / 92, 0.5, 3.5)`; the product
`92·zoomScale` is not `186 / 4`, and the height of the standing player on
screen is `12189697 / 2 ^ 18 = 46.5000038...`, not `46.5`. -/
theorem standing_height_off_quarter :
    (keyHeldRight.refreshZoomFromViewport 960 186).zoomScale = 8479789 / 16777216
      ∧ (1 / 2 : ℚ) < 8479789 / 16777216 ∧ (8479789 / 16777216 : ℚ) < 7 / 2
      ∧ (keyHeldRight.refreshZoomFromViewport 960 186).zoomScale
          ≠ clampF ((1 / 4) * ((max 1 186 : Int) : ℚ) / 92) (1 / 2) (7 / 2)
      ∧ playerStandHeight * (keyHeldRight.refreshZoomFromViewport 960 186).zoomScale
          ≠ ((186 : Int) : ℚ) / 4
      ∧ ((keyHeldRight.refreshZoomFromViewport 960 186).toScreenRect32
          { h := playerStandHeight }).h = 12189697 / 262144
      ∧ ((keyHeldRight.refreshZoomFromViewport 960 186).toScreenRect32
          { h := playerStandHeight }).h ≠ ((186 : Int) : ℚ) / 4 := by
  have hz : (keyHeldRight.refreshZoomFromViewport 960 186).zoomScale = 8479789 / 16777216 := by
    rw [zoomScale_eq, f32_zoom_186]
    norm_num [clampF]
  have hh : ((keyHeldRight.refreshZoomFromViewport 960 186).toScreenRect32
      { h := playerStandHeight }).h = 12189697 / 262144 := by
    show f32 (playerStandHeight * (keyHeldRight.refreshZoomFromViewport 960 186).zoomScale) = _
    rw [hz, f32_height_186]
  refine ⟨hz, by norm_num, by norm_num, ?_, ?_, hh, ?_⟩
  · rw [hz]; norm_num [clampF]
  · rw [hz]; norm_num [playerStandHeight]
  · rw [hh]; norm_num

/-- C19 at a concrete input: a viewport 540 high gives the zoom
`6154685 / 2 ^ 22` (the quotient `135 / 92` rounded), not clamped, and a
standing player within `540 / 2 ^ 24` of 135 high on screen. -/
theorem refreshZoom_clamp_witness :
    (keyHeldRight.refreshZoomFromViewport 960 540).zoomScale = 6154685 / 4194304
      ∧ |((keyHeldRight.refreshZoomFromViewport 960 540).toScreenRect32
          { h := playerStandHeight }).h - ((540 : Int) : ℚ) / 4| ≤ ((540 : Int) : ℚ) / 2 ^ 24 := by
  have h := refreshZoom_clamp keyHeldRight 960 540
  refine ⟨?_, (h.2.2.2 (by rw [f32_zoom_540]; norm_num) (by rw [f32_zoom_540]; norm_num)).2.2.2⟩
  rw [h.1, f32_zoom_540]
  norm_num [clampF]

/-- A rectangle of binary32 height standing on the world ground line is
drawn at the rounded difference of `screenGroundY` and its height on screen. -/
theorem toScreenRect32_ground_y (s : GameScene) (world : FRect) (hr : f32 world.h = world.h)
    (hb : world.y + world.h = groundY) :
    (s.toScreenRect32 world).y = f32 (s.screenGroundY - (s.toScreenRect32 world).h) := by
  show f32 (s.screenGroundY + f32 (f32 (world.y - groundY) * s.zoomScale))
    = f32 (s.screenGroundY - f32 (world.h * s.zoomScale))
  have e : world.y - groundY = -world.h := by linarith
  rw [e, f32_neg, hr, neg_mul, f32_neg, sub_eq_add_neg]

/-- C20 (world-to-screen transform), amended: `toScreenRect` returns the
binary32 values of `(world.x − camX)·zoomScale`,
`screenGroundY + (world.y − groundY)·zoomScale`, `world.w·zoomScale` and
`world.h·zoomScale`, every operation rounded, with the one scale
`zoomScale` on both axes; the width and the height are within one part in
`2 ^ 24` (or `2 ^ (-150)`) of the exact products.  A rectangle of binary32
height whose bottom edge is on the world ground line is drawn at
`y = fl(screenGroundY − h)`, `h` being its height on screen, so its bottom
edge `y + h` is within one part in `2 ^ 24` of `screenGroundY − h` (or
`2 ^ (-150)`) of `screenGroundY`. -/
theorem toScreenRect_transform (s : GameScene) (world : FRect) :
    (s.toScreenRect32 world).x = f32 (f32 (world.x - s.camX) * s.zoomScale)
      ∧ (s.toScreenRect32 world).y
          = f32 (s.screenGroundY + f32 (f32 (world.y - groundY) * s.zoomScale))
      ∧ (s.toScreenRect32 world).w = f32 (world.w * s.zoomScale)
      ∧ (s.toScreenRect32 world).h = f32 (world.h * s.zoomScale)
      ∧ |(s.toScreenRect32 world).w - (s.toScreenRect world).w|
          ≤ max (|(s.toScreenRect world).w| / 2 ^ 24) (1 / 2 ^ 150)
      ∧ |(s.toScreenRect32 world).h - (s.toScreenRect world).h|
          ≤ max (|(s.toScreenRect world).h| / 2 ^ 24) (1 / 2 ^ 150)
      ∧ (f32 world.h = world.h → world.y + world.h = groundY →
          (s.toScreenRect32 world).y = f32 (s.screenGroundY - (s.toScreenRect32 world).h)
            ∧ |(s.toScreenRect32 world).y + (s.toScreenRect32 world).h - s.screenGroundY|
                ≤ max (|s.screenGroundY - (s.toScreenRect32 world).h| / 2 ^ 24)
                    (1 / 2 ^ 150)) := by
  refine ⟨rfl, rfl, rfl, rfl, f32_err_abs _, f32_err_abs _, ?_⟩
  intro hr hb
  have hy := toScreenRect32_ground_y s world hr hb
  refine ⟨hy, ?_⟩
  rw [hy]
  have := f32_err_abs (s.screenGroundY - (s.toScreenRect32 world).h)
  have e : f32 (s.screenGroundY - (s.toScreenRect32 world).h) + (s.toScreenRect32 world).h
      - s.screenGroundY
      = f32 (s.screenGroundY - (s.toScreenRect32 world).h)
        - (s.screenGroundY - (s.toScreenRect32 world).h) := by ring
  rw [e]
  exact this

theorem narrowView_zoom : narrowView.zoomScale = 10303399 / 8388608 := by
  have h : f32 (((max 1 452 : Int) : ℚ) / 4 / 92) = 10303399 / 8388608 := by
    have h := f32_of_scaled (((max 1 452 : Int) : ℚ) / 4 / 92) 23 10303399 (by norm_num)
      (by norm_num [abs_of_nonneg]) (by norm_num [abs_of_nonneg]) (by norm_num [abs_lt])
    rw [h]
    norm_num
  unfold narrowView
  rw [zoomScale_eq, h]
  norm_num [clampF]

theorem narrowView_ground : narrowView.screenGroundY = 13626245 / 32768 := by
  have hv : f32 ((max 1 452 : Int) : ℚ) = 452 := by
    have := f32_intCast 452 (by norm_num)
    simpa using this
  have hp : f32 (452 * (5368709 / 67108864)) = 9479127 / 262144 := by
    have h := f32_of_scaled (452 * (5368709 / 67108864)) 18 9479127 (by norm_num)
      (by norm_num [abs_of_nonneg]) (by norm_num [abs_of_nonneg]) (by norm_num [abs_lt])
    rw [h]
    norm_num
  have hm : max (36 : ℚ) (9479127 / 262144) = 9479127 / 262144 := by norm_num
  have hg : f32 (452 - 9479127 / 262144) = 13626245 / 32768 := by
    have h := f32_of_scaled (452 - 9479127 / 262144) 15 13626245 (by norm_num)
      (by norm_num [abs_of_nonneg]) (by norm_num [abs_of_nonneg]) (by norm_num [abs_lt])
    rw [h]
    norm_num
  show clampF (f32 (f32 ((max 1 452 : Int) : ℚ)
    - max 36 (f32 (f32 ((max 1 452 : Int) : ℚ) * f32 (8 / 100))))) 0
    (f32 ((max 1 452 : Int) : ℚ)) = _
  rw [hv, f32_swipe_literal, hp, hm, hg]
  norm_num [clampF]

theorem narrowView_bull_h :
    (narrowView.toScreenRect32 keyHeldRight.bull).h = 4990709 / 65536 := by
  show f32 (62 * narrowView.zoomScale) = _
  rw [narrowView_zoom]
  have h := f32_of_scaled (62 * (10303399 / 8388608)) 17 9981418 (by norm_num)
    (by norm_num [abs_of_nonneg]) (by norm_num [abs_of_nonneg]) (by norm_num [abs_lt])
  rw [h]
  norm_num

theorem bull_height_binary32 : f32 keyHeldRight.bull.h = keyHeldRight.bull.h := by
  show f32 62 = 62
  have := f32_intCast 62 (by norm_num)
  simpa using this

theorem narrowView_bull_y :
    (narrowView.toScreenRect32 keyHeldRight.bull).y = 5565445 / 16384 := by
  have hy := toScreenRect32_ground_y narrowView keyHeldRight.bull bull_height_binary32
    (by norm_num [keyHeldRight, groundY])
  rw [hy, narrowView_bull_h, narrowView_ground]
  have h := f32_of_tie (13626245 / 32768 - 4990709 / 65536) 15 11130890 (by norm_num)
    (by norm_num [abs_of_nonneg]) (by norm_num [abs_of_nonneg]) (by norm_num [abs_eq]) (by decide)
  rw [h]
  norm_num


/-- C20 as stated fails in binary32: in a viewport 452 high
(`zoomScale = 10303399 / 2 ^ 23`, `screenGroundY = 13626245 / 2 ^ 15 =
415.83999...`) the chaser's rectangle, whose bottom edge is on the world
ground line, is drawn with `y + h = 27252489 / 2 ^ 16`, not
`screenGroundY`; the float sum `y + h` is `415.83996...`, not
`screenGroundY` either. -/
theorem ground_edge_off_screen_ground :
    keyHeldRight.bull.y + keyHeldRight.bull.h = groundY
      ∧ narrowView.screenGroundY = 13626245 / 32768
      ∧ (narrowView.toScreenRect32 keyHeldRight.bull).y = 5565445 / 16384
      ∧ (narrowView.toScreenRect32 keyHeldRight.bull).h = 4990709 / 65536
      ∧ (narrowView.toScreenRect32 keyHeldRight.bull).y
          + (narrowView.toScreenRect32 keyHeldRight.bull).h ≠ narrowView.screenGroundY
      ∧ f32 ((narrowView.toScreenRect32 keyHeldRight.bull).y
          + (narrowView.toScreenRect32 keyHeldRight.bull).h) = 3406561 / 8192
      ∧ f32 ((narrowView.toScreenRect32 keyHeldRight.bull).y
          + (narrowView.toScreenRect32 keyHeldRight.bull).h) ≠ narrowView.screenGroundY := by
  have hs : f32 ((narrowView.toScreenRect32 keyHeldRight.bull).y
      + (narrowView.toScreenRect32 keyHeldRight.bull).h) = 3406561 / 8192 := by
    rw [narrowView_bull_y, narrowView_bull_h]
    have h := f32_of_tie (5565445 / 16384 + 4990709 / 65536) 15 13626244 (by norm_num)
      (by norm_num [abs_of_nonneg]) (by norm_num [abs_of_nonneg]) (by norm_num [abs_eq])
      (by decide)
    rw [h]
    norm_num
  refine ⟨by norm_num [keyHeldRight, groundY], narrowView_ground, narrowView_bull_y,
    narrowView_bull_h, ?_, hs, ?_⟩
  · rw [narrowView_bull_y, narrowView_bull_h, narrowView_ground]
    norm_num
  · rw [hs, narrowView_ground]
    norm_num

/-- C20 at a concrete input: the chaser's rectangle in the viewport 452
high. -/
theorem toScreenRect_transform_witness :
    f32 keyHeldRight.bull.h = keyHeldRight.bull.h
      ∧ keyHeldRight.bull.y + keyHeldRight.bull.h = groundY
      ∧ |(narrowView.toScreenRect32 keyHeldRight.bull).y
          + (narrowView.toScreenRect32 keyHeldRight.bull).h - narrowView.screenGroundY|
          ≤ max (|narrowView.screenGroundY - (narrowView.toScreenRect32 keyHeldRight.bull).h|
              / 2 ^ 24) (1 / 2 ^ 150) :=
  ⟨bull_height_binary32, by norm_num [keyHeldRight, groundY],
    ((toScreenRect_transform narrowView keyHeldRight.bull).2.2.2.2.2.2 bull_height_binary32
      (by norm_num [keyHeldRight, groundY])).2⟩

/-! ## Reachable states (C13, C17) -/

theorem SameWorld.same (s : GameScene) : SameWorld s s := by
  constructor <;> rfl

theorem SameWorld.chain {s t u : GameScene} (h₁ : SameWorld s t) (h₂ : SameWorld t u) :
    SameWorld s u := by
  constructor
  · exact h₂.player.trans h₁.player
  · exact h₂.vx.trans h₁.vx
  · exact h₂.vy.trans h₁.vy
  · exact h₂.onGround.trans h₁.onGround
  · exact h₂.ducking.trans h₁.ducking
  · exact h₂.bull.trans h₁.bull
  · exact h₂.bullSpeed.trans h₁.bullSpeed
  · exact h₂.obstacles.trans h₁.obstacles
  · exact h₂.levelIndex.trans h₁.levelIndex
  · exact h₂.waitingForEnter.trans h₁.waitingForEnter
  · exact h₂.goalX.trans h₁.goalX
  · exact h₂.camX.trans h₁.camX
  · exact h₂.overlayText.trans h₁.overlayText
  · exact h₂.hudLevelText.trans h₁.hudLevelText

theorem clearTouchHeld_sameWorld (s : GameScene) : SameWorld s (clearTouchHeld s) := by
  rw [clearTouchHeld_eq]
  constructor <;> rfl

theorem keyDown_sameWorld (s : GameScene) (sym : Keycode) (rnd : Nat → ℚ)
    (h : sym ≠ Keycode.SDLK_RETURN ∨ s.waitingForEnter = false) :
    SameWorld s (s.keyDown sym rnd) := by
  cases sym
  case SDLK_RETURN =>
    rcases h with h | h
    · exact absurd rfl h
    · show SameWorld s (if s.waitingForEnter then _ else s)
      rw [h]
      exact SameWorld.same s
  all_goals constructor <;> rfl

theorem keyUp_sameWorld (s : GameScene) (sym : Keycode) : SameWorld s (s.keyUp sym) := by
  cases sym <;> constructor <;> rfl

theorem pointerDown_sameWorld (s : GameScene) (e : Event) (rs : Option (Int × Int)) :
    SameWorld s (s.pointerDown e rs) := by
  unfold GameScene.pointerDown
  dsimp only
  rw [clearTouchHeld_eq]
  split <;> constructor <;> rfl

theorem pointerMove_sameWorld (s : GameScene) (e : Event) (rs : Option (Int × Int)) :
    SameWorld s (s.pointerMove e rs) := by
  unfold GameScene.pointerMove
  dsimp only
  split <;> split <;> (try split) <;> constructor <;> rfl

theorem pointerUp_sameWorld (s : GameScene) : SameWorld s s.pointerUp := by
  unfold GameScene.pointerUp
  rw [clearTouchHeld_eq]
  constructor <;> rfl

theorem handleEvent_parts (s : GameScene) (e : Event) (rs : Option (Int × Int))
    (rnd : Nat → ℚ) :
    s.handleEvent e rs rnd = ((s.keyDownPart e rnd).keyUpPart e).pointerPart e rs := rfl

theorem keyUpPart_sameWorld (s : GameScene) (e : Event) : SameWorld s (s.keyUpPart e) := by
  cases e with
  | keyUp sym => exact keyUp_sameWorld s sym
  | _ => exact SameWorld.same s

theorem pointerPart_sameWorld (s : GameScene) (e : Event) (rs : Option (Int × Int)) :
    SameWorld s (s.pointerPart e rs) := by
  unfold GameScene.pointerPart
  dsimp only
  have h3 : SameWorld s (if isPointerDown e then s.pointerDown e rs else s) := by
    split
    · exact pointerDown_sameWorld s e rs
    · exact SameWorld.same s
  generalize (if isPointerDown e then s.pointerDown e rs else s) = s3 at h3 ⊢
  have h4 : SameWorld s
      (if s3.gestureActive && isPointerMove e then s3.pointerMove e rs else s3) := by
    split
    · exact h3.chain (pointerMove_sameWorld s3 e rs)
    · exact h3
  generalize (if s3.gestureActive && isPointerMove e then s3.pointerMove e rs else s3) = s4
    at h4 ⊢
  split
  · exact h4.chain (pointerUp_sameWorld s4)
  · exact h4

/-- An event is either the confirm key in a waiting scene, which starts a
level, or it leaves the simulation members alone. -/
theorem handleEvent_cases (s : GameScene) (e : Event) (rs : Option (Int × Int))
    (rnd : Nat → ℚ) :
    (∃ idx : Int, s.handleEvent e rs rnd = s.startLevel idx rnd)
      ∨ SameWorld s (s.handleEvent e rs rnd) := by
  by_cases hc : e = Event.keyDown Keycode.SDLK_RETURN false ∧ s.waitingForEnter = true
  · left
    obtain ⟨he, hw⟩ := hc
    rw [he, handleEvent_keyDown]
    show ∃ idx : Int, (if s.waitingForEnter then _ else s) = _
    rw [if_pos hw]
    split
    · exact ⟨_, rfl⟩
    · exact ⟨_, rfl⟩
  · right
    rw [handleEvent_parts]
    have h1 : SameWorld s (s.keyDownPart e rnd) := by
      cases e with
      | keyDown sym rep =>
        cases rep
        · apply keyDown_sameWorld
          by_cases hs : sym = Keycode.SDLK_RETURN
          · right
            cases hw : s.waitingForEnter
            · rfl
            · exact absurd ⟨by rw [hs], hw⟩ hc
          · exact Or.inl hs
        · exact SameWorld.same s
      | _ => exact SameWorld.same s
    exact (h1.chain (keyUpPart_sameWorld _ e)).chain (pointerPart_sameWorld _ e rs)

/-- Well-formedness only reads the level, the player, the chaser's size and
the obstacles. -/
theorem WellFormed.of_fields {s t : GameScene} (h : WellFormed s)
    (h1 : t.levelIndex = s.levelIndex) (h2 : t.goalX = s.goalX)
    (h3 : t.bullSpeed = s.bullSpeed) (h4 : t.player = s.player) (h5 : t.ducking = s.ducking)
    (h6 : t.bull.w = s.bull.w ∧ t.bull.h = s.bull.h) (h7 : t.obstacles = s.obstacles) :
    WellFormed t := by
  constructor
  · rw [h1]; exact h.levelIndex_lo
  · rw [h1]; exact h.levelIndex_hi
  · rw [h1, h2]; exact h.goalX
  · rw [h1, h3]; exact h.bullSpeed
  · rw [h4]; exact h.width
  · rw [h4, h5]; exact h.height
  · rw [h4]; exact h.feet
  · rw [h4]; exact h.left
  · rw [h6.1, h6.2]; exact h.bullSize
  · rw [h7]; exact h.obstacles

theorem WellFormed.of_sameWorld {s t : GameScene} (h : WellFormed s) (hst : SameWorld s t) :
    WellFormed t :=
  h.of_fields hst.levelIndex hst.goalX hst.bullSpeed hst.player hst.ducking
    ⟨by rw [hst.bull], by rw [hst.bull]⟩ hst.obstacles

theorem generateCandidate_generated (d : LevelDef) (rnd : Nat → ℚ) (st : GenState)
    (hx : 630 ≤ generateCursor d rnd st) : Generated (generateCandidate d rnd st) := by
  unfold generateCandidate
  dsimp only
  split
  · exact ⟨hx, Or.inl ⟨rfl, rfl, rfl, by norm_num [groundY]⟩⟩
  · exact ⟨hx, Or.inr ⟨rfl, rfl, rfl, by norm_num [groundY]⟩⟩

theorem generateLoop_generated (d : LevelDef) (rnd : Nat → ℚ) (hsp : 170 ≤ d.obstacleSpacing)
    (hr : ∀ i, 0 ≤ rnd i) (n : Nat) :
    ∀ st : GenState, 520 ≤ st.x → (∀ o ∈ st.obstacles, Generated o) →
      ∀ o ∈ (generateLoop d rnd n st).obstacles, Generated o := by
  induction n with
  | zero => intro st _ ho; exact ho
  | succ n ih =>
    intro st hx ho
    have hc := generateCursor_lower d rnd st hr
    apply ih (generateStep d rnd st)
    · show 520 ≤ generateCursor d rnd st
      linarith
    · intro o' ho'
      unfold generateStep at ho'
      dsimp only at ho'
      split at ho'
      · rcases List.mem_append.mp ho' with hm | hm
        · exact ho o' hm
        · rw [List.mem_singleton.mp hm]
          exact generateCandidate_generated d rnd st (by linarith)
      · exact ho o' ho'

theorem startLevel_wellFormed (s : GameScene) (idx : Int) (rnd : Nat → ℚ)
    (hr : ∀ i, 0 ≤ rnd i) (hw : s.player.w = 44) (hb : s.bull.w = 86 ∧ s.bull.h = 62) :
    WellFormed (s.startLevel idx rnd) := by
  obtain ⟨hl, -, hg, hp, -, -, -, hdk, hbull, hsp, -, hobs, -⟩ := startLevel_fields s idx rnd
  obtain ⟨h0, h9⟩ := clampInt_bounds idx (show (0 : Int) ≤ 9 by decide)
  have hn : (clampInt idx 0 9).toNat < 10 := by omega
  have hcast : (((clampInt idx 0 9).toNat : Nat) : ℚ) = ((clampInt idx 0 9 : Int) : ℚ) := by
    have : (((clampInt idx 0 9).toNat : Nat) : Int) = clampInt idx 0 9 := Int.toNat_of_nonneg h0
    exact_mod_cast this
  obtain ⟨hlen, hbon⟩ := levels_getD_bonus _ hn
  constructor
  · rw [hl]; exact h0
  · rw [hl]; exact h9
  · rw [hg, hl, hlen, hcast]
  · rw [hsp, hl, hbon, hcast]; rfl
  · rw [hp]; exact hw
  · rw [hp, hdk]; rfl
  · rw [hp]
    show groundY - 92 + 92 ≤ groundY
    linarith
  · rw [hp]
    show (30 : ℚ) ≤ 120
    norm_num
  · rw [hbull]; exact hb
  · rw [hobs]
    exact generateLoop_generated _ rnd (levels_getD_spacing _) hr _ genStart
      (by show (520 : ℚ) ≤ 520; exact le_refl _)
      (fun o ho => absurd ho (List.not_mem_nil o))

theorem init_wellFormed (rnd : Nat → ℚ) (hr : ∀ i, 0 ≤ rnd i) :
    WellFormed (GameScene.init rnd) := by
  unfold GameScene.init
  exact startLevel_wellFormed _ 0 rnd hr rfl ⟨rfl, rfl⟩

theorem applyInput_duck_cases (s : GameScene) :
    ((s.applyInput).ducking = s.ducking ∧ (s.applyInput).player = s.player)
      ∨ (s.ducking = false ∧ (s.applyInput).ducking = true ∧ (s.applyInput).player.h = 56)
      ∨ (s.ducking = true ∧ (s.applyInput).ducking = false ∧ (s.applyInput).player.h = 92) := by
  unfold GameScene.applyInput
  rw [inputJump_player, inputJump_ducking]
  have h := (inputDuck_cases s.inputHorizontal).2
  rw [inputHorizontal_player, (inputHorizontal_ducking s).1] at h
  exact h

theorem applyInput_height (s : GameScene) (h : s.player.h = if s.ducking then 56 else 92) :
    (s.applyInput).player.h = if (s.applyInput).ducking then 56 else 92 := by
  rcases applyInput_duck_cases s with ⟨hd, hp⟩ | ⟨-, hd, hh⟩ | ⟨-, hd, hh⟩
  · rw [hd, hp]; exact h
  · rw [hd, hh]; rfl
  · rw [hd, hh]; rfl

theorem movePlayer_ducking (s : GameScene) (dt : ℚ) :
    (s.movePlayer dt).ducking = (s.applyInput).ducking := by
  unfold GameScene.movePlayer
  rw [(worldGround_player _).2.1, resolvePlayer_eq]
  generalize s.applyInput = a
  rfl

theorem inputs_bull (s : GameScene) : (s.applyInput).bull = s.bull := by
  have h1 : (s.inputHorizontal).bull = s.bull := by
    unfold GameScene.inputHorizontal
    dsimp only
    split <;> split <;> rfl
  have h2 : ∀ a : GameScene, (a.inputDuck).bull = a.bull := by
    intro a
    unfold GameScene.inputDuck
    split
    · split <;> rfl
    · split
      · split <;> rfl
      · rfl
  have h3 : ∀ a : GameScene, (a.inputJump).bull = a.bull := by
    intro a
    unfold GameScene.inputJump
    split <;> rfl
  unfold GameScene.applyInput
  rw [h3, h2, h1]

theorem worldGround_bull (s : GameScene) : (s.worldGround).bull = s.bull := by
  unfold GameScene.worldGround
  dsimp only
  split <;> rfl

theorem movePlayer_bull (s : GameScene) (dt : ℚ) : (s.movePlayer dt).bull = s.bull := by
  unfold GameScene.movePlayer
  rw [worldGround_bull, resolvePlayer_eq]
  have h := inputs_bull s
  generalize s.applyInput = a at h ⊢
  exact h

/-- After the floor clamp the feet are on or above the ground line, and feet
exactly on the line come with `vy = 0` and `onGround`. -/
theorem worldGround_feet (s : GameScene) :
    (s.worldGround).player.y + (s.worldGround).player.h ≤ groundY
      ∧ ((s.worldGround).player.y + (s.worldGround).player.h = groundY →
          (s.worldGround).vy = 0 ∧ (s.worldGround).onGround = true) := by
  unfold GameScene.worldGround
  dsimp only
  split
  · refine ⟨?_, fun _ => ⟨rfl, rfl⟩⟩
    show groundY - s.player.h + s.player.h ≤ groundY
    linarith
  · rename_i h
    have h' : s.player.y < groundY - s.player.h := not_le.mp h
    refine ⟨by linarith, fun he => ?_⟩
    exfalso
    linarith

theorem movePlayer_feet (s : GameScene) (dt : ℚ) :
    (s.movePlayer dt).player.y + (s.movePlayer dt).player.h ≤ groundY
      ∧ ((s.movePlayer dt).player.y + (s.movePlayer dt).player.h = groundY →
          (s.movePlayer dt).vy = 0 ∧ (s.movePlayer dt).onGround = true) :=
  worldGround_feet _

theorem resolveXStep_left (dk : Bool) (vx : ℚ) (p : FRect) (o : Obstacle) (ho : Generated o)
    (hw : p.w = 44) (hx : 30 ≤ p.x) : 30 ≤ (resolveXStep dk vx p o).x := by
  obtain ⟨hox, hshape⟩ := ho
  have how : 0 ≤ o.rect.w := by
    rcases hshape with ⟨-, h, -, -⟩ | ⟨-, h, -, -⟩ <;> rw [h] <;> norm_num
  unfold resolveXStep
  split
  · exact hx
  · split
    · exact hx
    · split
      · show 30 ≤ o.rect.x - p.w
        rw [hw]; linarith
      · show 30 ≤ o.rect.x + o.rect.w
        linarith

theorem foldl_resolveXStep_left (dk : Bool) (vx : ℚ) (l : List Obstacle)
    (hl : ∀ o ∈ l, Generated o) :
    ∀ p : FRect, p.w = 44 → 30 ≤ p.x → 30 ≤ (l.foldl (resolveXStep dk vx) p).x := by
  induction l with
  | nil => intro p _ hx; exact hx
  | cons o l ih =>
    intro p hw hx
    rw [List.foldl_cons]
    apply ih (fun o' ho' => hl o' (List.mem_cons_of_mem _ ho'))
    · rw [(resolveXStep_spec dk vx p o).2.1]; exact hw
    · exact resolveXStep_left dk vx p o (hl o (List.mem_cons_self _ _)) hw hx

theorem moveX_left (s : GameScene) (dt : ℚ) (hw : s.player.w = 44)
    (hl : ∀ o ∈ s.obstacles, Generated o) : 30 ≤ (s.moveX dt).player.x := by
  unfold GameScene.moveX
  dsimp only
  have h0 : (30 : ℚ) ≤ (if s.player.x + s.vx * dt < 30 then
        ({ x := 30, y := s.player.y, w := s.player.w, h := s.player.h } : FRect)
      else { x := s.player.x + s.vx * dt, y := s.player.y, w := s.player.w, h := s.player.h }).x := by
    split
    · exact le_refl _
    · rename_i h; exact not_lt.mp h
  have hw0 : (if s.player.x + s.vx * dt < 30 then
        ({ x := 30, y := s.player.y, w := s.player.w, h := s.player.h } : FRect)
      else { x := s.player.x + s.vx * dt, y := s.player.y, w := s.player.w, h := s.player.h }).w
      = 44 := by
    split <;> exact hw
  split
  · exact foldl_resolveXStep_left s.ducking s.vx s.obstacles hl _ hw0 h0
  · exact h0

theorem movePlayer_x (s : GameScene) (dt : ℚ) :
    (s.movePlayer dt).player.x = (((s.applyInput).integrate dt).moveX dt).player.x := by
  unfold GameScene.movePlayer
  rw [(worldGround_player _).1, resolvePlayer_eq]
  generalize s.applyInput = a
  have h := (moveY_keeps ((a.integrate dt).moveX dt) dt a.player.y (a.player.y + a.player.h)).1
  split
  · exact h
  · exact h

theorem movePlayer_left (s : GameScene) (dt : ℚ) (hw : s.player.w = 44)
    (hl : ∀ o ∈ s.obstacles, Generated o) : 30 ≤ (s.movePlayer dt).player.x := by
  rw [movePlayer_x]
  apply moveX_left
  · show (s.applyInput).player.w = 44
    rw [(applyInput_feet s).2.2]; exact hw
  · show ∀ o ∈ (s.applyInput).obstacles, Generated o
    rw [(applyInput_sameRun s).obstacles]; exact hl

/-- The movement of a tick keeps a state well formed. -/
theorem moveWorld_wellFormed (s : GameScene) (dt : ℚ) (h : WellFormed s) :
    WellFormed (s.moveWorld dt) := by
  have hrun := moveWorld_sameRun s dt
  have hsize := movePlayer_size s dt
  have hduck := movePlayer_ducking s dt
  have hfeet := (movePlayer_feet s dt).1
  have hleft := movePlayer_left s dt h.width h.obstacles
  have hbull := movePlayer_bull s dt
  have hheight := applyInput_height s h.height
  unfold GameScene.moveWorld at hrun ⊢
  generalize s.movePlayer dt = m at hrun hsize hduck hfeet hleft hbull ⊢
  constructor
  · rw [hrun.levelIndex]; exact h.levelIndex_lo
  · rw [hrun.levelIndex]; exact h.levelIndex_hi
  · rw [hrun.levelIndex, hrun.goalX]; exact h.goalX
  · rw [hrun.levelIndex, hrun.bullSpeed]; exact h.bullSpeed
  · show m.player.w = 44
    rw [hsize.1]; exact h.width
  · show m.player.h = if m.ducking then 56 else 92
    rw [hsize.2, hduck]; exact hheight
  · exact hfeet
  · exact hleft
  · show m.bull.w = 86 ∧ m.bull.h = 62
    rw [hbull]; exact h.bullSize
  · rw [hrun.obstacles]; exact h.obstacles

theorem syncViewportMetrics_sameWorld (s : GameScene) (rs : Option (Int × Int)) :
    SameWorld s (s.syncViewportMetrics rs) := by
  constructor <;> rfl

theorem checkGoalReached_wellFormed (s : GameScene) (h : WellFormed s) :
    WellFormed s.checkGoalReached := by
  unfold GameScene.checkGoalReached
  split
  · exact h.of_fields rfl rfl rfl rfl rfl ⟨rfl, rfl⟩ rfl
  · exact h

theorem checkCaught_wellFormed (s : GameScene) (rnd : Nat → ℚ) (hr : ∀ i, 0 ≤ rnd i)
    (h : WellFormed s) : WellFormed (s.checkCaught rnd) := by
  unfold GameScene.checkCaught GameScene.restartLevel
  split
  · exact startLevel_wellFormed s _ rnd hr h.width h.bullSize
  · exact h

theorem update_wellFormed (s : GameScene) (dt : ℚ) (rs : Option (Int × Int)) (rnd : Nat → ℚ)
    (hr : ∀ i, 0 ≤ rnd i) (h : WellFormed s) : WellFormed (s.update dt rs rnd) := by
  have hs : WellFormed (s.syncViewportMetrics rs) :=
    h.of_sameWorld (syncViewportMetrics_sameWorld s rs)
  cases hw : s.waitingForEnter
  · rw [update_of_running s dt rs rnd hw]
    have hg := checkGoalReached_wellFormed _
      (checkCaught_wellFormed _ rnd hr (moveWorld_wellFormed _ dt hs))
    exact hg.of_fields rfl rfl rfl rfl rfl ⟨rfl, rfl⟩ rfl
  · rw [update_of_waiting s dt rs rnd hw]
    exact hs.of_fields rfl rfl rfl rfl rfl ⟨rfl, rfl⟩ rfl

theorem handleEvent_wellFormed (s : GameScene) (e : Event) (rs : Option (Int × Int))
    (rnd : Nat → ℚ) (hr : ∀ i, 0 ≤ rnd i) (h : WellFormed s) :
    WellFormed (s.handleEvent e rs rnd) := by
  rcases handleEvent_cases s e rs rnd with ⟨idx, he⟩ | hsame
  · rw [he]
    exact startLevel_wellFormed s idx rnd hr h.width h.bullSize
  · exact h.of_sameWorld hsame

/-- Every reachable state is well formed. -/
theorem reachable_wellFormed (s : GameScene) (h : Reachable s) : WellFormed s := by
  induction h with
  | init rnd hd => exact init_wellFormed rnd (fun i => (hd i).1)
  | event s e rs rnd hd _ ih => exact handleEvent_wellFormed s e rs rnd (fun i => (hd i).1) ih
  | tick s dt rs rnd hd _ ih => exact update_wellFormed s dt rs rnd (fun i => (hd i).1) ih

/-- A caught tick ends in the start state of the level. -/
theorem update_of_caught (s : GameScene) (dt : ℚ) (rs : Option (Int × Int)) (rnd : Nat → ℚ)
    (hw : s.waitingForEnter = false)
    (hc : ((s.syncViewportMetrics rs).moveWorld dt).caught = true) :
    s.update dt rs rnd =
      { (((s.syncViewportMetrics rs).moveWorld dt).startLevel
          ((s.syncViewportMetrics rs).moveWorld dt).levelIndex rnd) with jumpPressed := false } := by
  rw [update_of_running s dt rs rnd hw, checkCaught_of_caught _ rnd hc]
  obtain ⟨-, -, hg, hp, -⟩ := startLevel_fields ((s.syncViewportMetrics rs).moveWorld dt)
    ((s.syncViewportMetrics rs).moveWorld dt).levelIndex rnd
  rw [checkGoalReached_of_short]
  rw [hp, hg]
  have := levels_getD_length_ge
    (clampInt ((s.syncViewportMetrics rs).moveWorld dt).levelIndex 0 9).toNat
  show (120 : ℚ) < _
  linarith

/-- A tick without catch ends with the moved player. -/
theorem update_of_free (s : GameScene) (dt : ℚ) (rs : Option (Int × Int)) (rnd : Nat → ℚ)
    (hw : s.waitingForEnter = false)
    (hc : ((s.syncViewportMetrics rs).moveWorld dt).caught = false) :
    (s.update dt rs rnd).player = (s.movePlayer dt).player
      ∧ (s.update dt rs rnd).ducking = (s.movePlayer dt).ducking
      ∧ (s.update dt rs rnd).obstacles = s.obstacles
      ∧ (s.update dt rs rnd).onGround = (s.movePlayer dt).onGround
      ∧ (s.update dt rs rnd).vy = (s.movePlayer dt).vy
      ∧ (s.update dt rs rnd).vx = (s.movePlayer dt).vx := by
  rw [update_of_running s dt rs rnd hw, checkCaught_of_free _ rnd hc]
  obtain ⟨hgp, -, -, -, -, -, -, hgvx, hgvy, hgg, hgd, hgo⟩ :=
    checkGoalReached_sameMove ((s.syncViewportMetrics rs).moveWorld dt)
  obtain ⟨hmp, hmd, hmo, hmg, hmvy, hmvx, -⟩ := moveWorld_sync s dt rs
  exact ⟨hgp.trans hmp, hgd.trans hmd, hgo.trans hmo, hgg.trans hmg, hgvy.trans hmvy,
    hgvx.trans hmvx⟩

/-- C13 (floor safety): after every non-waiting update tick, from any state
and for any frame time, the player's feet are on or above the world ground
line, and feet exactly on the line come with `vy = 0` and `onGround`; and
`player.y + player.h ≤ groundY` holds in every reachable state. -/
theorem floor_safety :
    (∀ (s : GameScene) (dt : ℚ) (rs : Option (Int × Int)) (rnd : Nat → ℚ),
      s.waitingForEnter = false →
        (s.update dt rs rnd).player.y + (s.update dt rs rnd).player.h ≤ groundY
          ∧ ((s.update dt rs rnd).player.y + (s.update dt rs rnd).player.h = groundY →
              (s.update dt rs rnd).vy = 0 ∧ (s.update dt rs rnd).onGround = true))
    ∧ (∀ s : GameScene, Reachable s → s.player.y + s.player.h ≤ groundY) := by
  refine ⟨?_, fun s hs => (reachable_wellFormed s hs).feet⟩
  intro s dt rs rnd hw
  cases hc : ((s.syncViewportMetrics rs).moveWorld dt).caught
  · obtain ⟨hp, -, -, hg, hvy, -⟩ := update_of_free s dt rs rnd hw hc
    rw [hp, hg, hvy]
    exact movePlayer_feet s dt
  · rw [update_of_caught s dt rs rnd hw hc]
    obtain ⟨-, -, -, hp, -, hvy, hon, -⟩ :=
      startLevel_fields ((s.syncViewportMetrics rs).moveWorld dt)
        ((s.syncViewportMetrics rs).moveWorld dt).levelIndex rnd
    show (GameScene.startLevel _ _ _).player.y + (GameScene.startLevel _ _ _).player.h ≤ groundY
      ∧ ((GameScene.startLevel _ _ _).player.y + (GameScene.startLevel _ _ _).player.h = groundY →
          (GameScene.startLevel _ _ _).vy = 0 ∧ (GameScene.startLevel _ _ _).onGround = true)
    rw [hp, hvy, hon]
    refine ⟨?_, fun _ => ⟨rfl, rfl⟩⟩
    show groundY - 92 + 92 ≤ groundY
    linarith

theorem rndHalf_draws : Draws rndHalf := by
  intro i
  constructor <;> norm_num [rndHalf]

/-- C13 at concrete inputs: one tick of the key-held scene, and the state
after the first tick of a fresh scene. -/
theorem floor_safety_witness :
    (keyHeldRight.update (1 / 64) none rndHalf).player.y
        + (keyHeldRight.update (1 / 64) none rndHalf).player.h ≤ groundY
      ∧ ((GameScene.init rndHalf).update (1 / 64) none rndHalf).player.y
        + ((GameScene.init rndHalf).update (1 / 64) none rndHalf).player.h ≤ groundY :=
  ⟨(floor_safety.1 keyHeldRight (1 / 64) none rndHalf rfl).1,
    floor_safety.2 _ (Reachable.tick _ (1 / 64) none rndHalf rndHalf_draws
      (Reachable.init rndHalf rndHalf_draws))⟩

theorem handleEvent_ducking (s : GameScene) (e : Event) (rs : Option (Int × Int))
    (rnd : Nat → ℚ) (h : s.ducking = false) : (s.handleEvent e rs rnd).ducking = false := by
  rcases handleEvent_cases s e rs rnd with ⟨idx, he⟩ | hsame
  · rw [he]
    exact (startLevel_fields s idx rnd).2.2.2.2.2.2.2.1
  · rw [hsame.ducking]; exact h

theorem applyInput_enters_duck (s : GameScene) (h : s.ducking = false)
    (ha : (s.applyInput).ducking = true) : s.onGround = true ∧ s.duckHeld = true := by
  unfold GameScene.applyInput at ha
  rw [inputJump_ducking] at ha
  obtain ⟨hd, hdh, hg, -⟩ := inputHorizontal_ducking s
  unfold GameScene.inputDuck at ha
  rw [hd, hdh, hg, h] at ha
  by_cases hc : (s.duckHeld && s.onGround) = true
  · simp only [Bool.and_eq_true] at hc
    exact ⟨hc.2, hc.1⟩
  · rw [if_neg hc] at ha
    simp only [Bool.false_eq_true, if_false] at ha
    rw [hd] at ha
    rw [h] at ha
    exact absurd ha (by decide)

/-- C17 (height invariant): in every reachable state `player.h` is 92 when
`ducking` is false and 56 when it is true, and only then; `applyInput` sets
`ducking` only when it starts with `onGround` (and the duck intent held),
`handleEvent` never sets it, and `update` sets it only through the
`applyInput` of a non-waiting tick that starts grounded. -/
theorem height_invariant :
    (∀ s : GameScene, Reachable s →
      (s.player.h = if s.ducking then 56 else 92)
        ∧ (s.player.h = 92 ↔ s.ducking = false) ∧ (s.player.h = 56 ↔ s.ducking = true))
    ∧ (∀ s : GameScene, s.ducking = false → (s.applyInput).ducking = true →
        s.onGround = true ∧ s.duckHeld = true)
    ∧ (∀ (s : GameScene) (e : Event) (rs : Option (Int × Int)) (rnd : Nat → ℚ),
        s.ducking = false → (s.handleEvent e rs rnd).ducking = false)
    ∧ (∀ (s : GameScene) (dt : ℚ) (rs : Option (Int × Int)) (rnd : Nat → ℚ),
        s.ducking = false → (s.update dt rs rnd).ducking = true →
          s.waitingForEnter = false ∧ s.onGround = true ∧ s.duckHeld = true
            ∧ (s.applyInput).ducking = true) := by
  refine ⟨?_, applyInput_enters_duck, handleEvent_ducking, ?_⟩
  · intro s hs
    have hh := (reachable_wellFormed s hs).height
    refine ⟨hh, ?_, ?_⟩
    · cases hd : s.ducking <;> rw [hd] at hh <;> rw [hh] <;> norm_num
    · cases hd : s.ducking <;> rw [hd] at hh <;> rw [hh] <;> norm_num
  · intro s dt rs rnd hd hu
    cases hw : s.waitingForEnter
    · cases hc : ((s.syncViewportMetrics rs).moveWorld dt).caught
      · obtain ⟨-, hdk, -⟩ := update_of_free s dt rs rnd hw hc
        rw [hdk, movePlayer_ducking] at hu
        obtain ⟨h1, h2⟩ := applyInput_enters_duck s hd hu
        exact ⟨rfl, h1, h2, hu⟩
      · rw [update_of_caught s dt rs rnd hw hc] at hu
        have hf := (startLevel_fields ((s.syncViewportMetrics rs).moveWorld dt)
          ((s.syncViewportMetrics rs).moveWorld dt).levelIndex rnd).2.2.2.2.2.2.2.1
        have hu' : (GameScene.startLevel ((s.syncViewportMetrics rs).moveWorld dt)
          ((s.syncViewportMetrics rs).moveWorld dt).levelIndex rnd).ducking = true := hu
        rw [hf] at hu'
        exact absurd hu' (by decide)
    · rw [update_of_waiting s dt rs rnd hw] at hu
      have hu' : s.ducking = true := hu
      rw [hd] at hu'
      exact absurd hu' (by decide)

/-- C17 at a concrete input: a fresh scene, duck key down, one tick. -/
theorem height_invariant_witness :
    ((((GameScene.init rndHalf).handleEvent (Event.keyDown Keycode.SDLK_DOWN false) none
        rndHalf).update (1 / 64) none rndHalf).player.h
      = if (((GameScene.init rndHalf).handleEvent (Event.keyDown Keycode.SDLK_DOWN false) none
          rndHalf).update (1 / 64) none rndHalf).ducking then 56 else 92) :=
  (height_invariant.1 _
    (Reachable.tick _ (1 / 64) none rndHalf rndHalf_draws
      (Reachable.event _ (Event.keyDown Keycode.SDLK_DOWN false) none rndHalf rndHalf_draws
        (Reachable.init rndHalf rndHalf_draws)))).1

/-! ## Unobstructed running and stand-up clearance (C12, C16) -/

theorem handleEvent_keyUp (s : GameScene) (sym : Keycode) (rs : Option (Int × Int))
    (rnd : Nat → ℚ) :
    s.handleEvent (Event.keyUp sym) rs rnd = s.keyUp sym := by
  simp [GameScene.handleEvent, isPointerDown, isPointerMove, isPointerUp]

theorem handleEvent_of_pointerMove (s : GameScene) (e : Event) (rs : Option (Int × Int))
    (rnd : Nat → ℚ) (h : isPointerMove e = true) :
    s.handleEvent e rs rnd = if s.gestureActive then s.pointerMove e rs else s := by
  cases e <;> simp_all [GameScene.handleEvent, isPointerDown, isPointerMove, isPointerUp]

/-- C21 (key release against a gesture hold), as the code behaves: from every
state in which a pointer gesture is active and owns the right hold
(`gestureActive`, `touchRunHeld` and `rightHeld` all true), a key-down of a
right key (Right arrow or D, repeat or not) followed by the key-up of that
key ends with `rightHeld = false`, while the gesture is still active and
still tagged as owning the hold.  The key-up clears the single `rightHeld`
flag whoever set it, so the gesture hold does not survive the key release. -/
theorem key_release_drops_gesture_hold (s : GameScene) (sym : Keycode) (rep : Bool)
    (rs₁ rs₂ : Option (Int × Int)) (rnd₁ rnd₂ : Nat → ℚ)
    (hg : s.gestureActive = true) (ht : s.touchRunHeld = true) (_hr : s.rightHeld = true)
    (hk : sym = Keycode.SDLK_RIGHT ∨ sym = Keycode.SDLK_d) :
    ((s.handleEvent (Event.keyDown sym rep) rs₁ rnd₁).handleEvent
        (Event.keyUp sym) rs₂ rnd₂).rightHeld = false
      ∧ ((s.handleEvent (Event.keyDown sym rep) rs₁ rnd₁).handleEvent
        (Event.keyUp sym) rs₂ rnd₂).gestureActive = true
      ∧ ((s.handleEvent (Event.keyDown sym rep) rs₁ rnd₁).handleEvent
        (Event.keyUp sym) rs₂ rnd₂).touchRunHeld = true := by
  rw [handleEvent_keyUp]
  rcases hk with rfl | rfl <;> cases rep <;>
    simp [GameScene.handleEvent, isPointerDown, isPointerMove, isPointerUp, GameScene.keyDown,
      GameScene.keyUp, hg, ht]

/-- C21 at a concrete input: a finger is down and owns the right hold, the
Right arrow is pressed and released; the right intent is lost although the
finger is still down. -/
theorem key_release_drops_gesture_hold_witness :
    gestureHeld.gestureActive = true ∧ gestureHeld.touchRunHeld = true
      ∧ gestureHeld.rightHeld = true
      ∧ ((gestureHeld.handleEvent (Event.keyDown Keycode.SDLK_RIGHT false) none
          rndHalf).handleEvent (Event.keyUp Keycode.SDLK_RIGHT) none rndHalf).rightHeld = false :=
  ⟨rfl, rfl, rfl,
    (key_release_drops_gesture_hold gestureHeld Keycode.SDLK_RIGHT false none none rndHalf rndHalf
      rfl rfl rfl (Or.inl rfl)).1⟩

/-- C22 as stated fails: after key-down Left arrow, key-down A and key-up of
A alone, the left intent is false although the Left arrow is still held. -/
theorem second_key_release_clears_left :
    (((keyHeldRight.handleEvent (Event.keyDown Keycode.SDLK_LEFT false) none rndHalf).handleEvent
        (Event.keyDown Keycode.SDLK_a false) none rndHalf).handleEvent
        (Event.keyUp Keycode.SDLK_a) none rndHalf).leftHeld = false := by
  rw [handleEvent_keyUp]
  rfl

/-- C22 (level-triggered holds), amended: each of the intents left, right and
duck is one flag that follows the last event of either of its two keys.  A
non-repeat key-down of either key sets it and a key-up of either key clears
it, whichever other key is still held; a repeat key-down changes nothing;
and a key event of any other key, the confirm key apart, leaves the intent
as it was. -/
theorem key_holds_follow_last_event (s : GameScene) (rs : Option (Int × Int)) (rnd : Nat → ℚ) :
    (∀ sym, sym = Keycode.SDLK_LEFT ∨ sym = Keycode.SDLK_a →
        (s.handleEvent (Event.keyDown sym false) rs rnd).leftHeld = true
          ∧ (s.handleEvent (Event.keyUp sym) rs rnd).leftHeld = false)
      ∧ (∀ sym, sym = Keycode.SDLK_RIGHT ∨ sym = Keycode.SDLK_d →
        (s.handleEvent (Event.keyDown sym false) rs rnd).rightHeld = true
          ∧ (s.handleEvent (Event.keyUp sym) rs rnd).rightHeld = false)
      ∧ (∀ sym, sym = Keycode.SDLK_DOWN ∨ sym = Keycode.SDLK_s →
        (s.handleEvent (Event.keyDown sym false) rs rnd).duckHeld = true
          ∧ (s.handleEvent (Event.keyUp sym) rs rnd).duckHeld = false)
      ∧ (∀ sym, (s.handleEvent (Event.keyDown sym true) rs rnd) = s)
      ∧ (∀ sym, sym ≠ Keycode.SDLK_RETURN → sym ≠ Keycode.SDLK_LEFT → sym ≠ Keycode.SDLK_a →
        (s.handleEvent (Event.keyDown sym false) rs rnd).leftHeld = s.leftHeld
          ∧ (s.handleEvent (Event.keyUp sym) rs rnd).leftHeld = s.leftHeld)
      ∧ (∀ sym, sym ≠ Keycode.SDLK_RETURN → sym ≠ Keycode.SDLK_RIGHT → sym ≠ Keycode.SDLK_d →
        (s.handleEvent (Event.keyDown sym false) rs rnd).rightHeld = s.rightHeld
          ∧ (s.handleEvent (Event.keyUp sym) rs rnd).rightHeld = s.rightHeld)
      ∧ (∀ sym, sym ≠ Keycode.SDLK_RETURN → sym ≠ Keycode.SDLK_DOWN → sym ≠ Keycode.SDLK_s →
        (s.handleEvent (Event.keyDown sym false) rs rnd).duckHeld = s.duckHeld
          ∧ (s.handleEvent (Event.keyUp sym) rs rnd).duckHeld = s.duckHeld) := by
  simp only [handleEvent_keyDown, handleEvent_keyUp]
  refine ⟨?_, ?_, ?_, ?_, ?_, ?_, ?_⟩
  · rintro sym (rfl | rfl) <;> exact ⟨rfl, rfl⟩
  · rintro sym (rfl | rfl) <;> exact ⟨rfl, rfl⟩
  · rintro sym (rfl | rfl) <;> exact ⟨rfl, rfl⟩
  · intro sym
    simp [GameScene.handleEvent, isPointerDown, isPointerMove, isPointerUp]
  · intro sym h₁ h₂ h₃
    cases sym <;>
      first | exact absurd rfl h₁ | exact absurd rfl h₂ | exact absurd rfl h₃ | exact ⟨rfl, rfl⟩
  · intro sym h₁ h₂ h₃
    cases sym <;>
      first | exact absurd rfl h₁ | exact absurd rfl h₂ | exact absurd rfl h₃ | exact ⟨rfl, rfl⟩
  · intro sym h₁ h₂ h₃
    cases sym <;>
      first | exact absurd rfl h₁ | exact absurd rfl h₂ | exact absurd rfl h₃ | exact ⟨rfl, rfl⟩

/-- C22 at a concrete input: the Left arrow sets the left intent, and the
key-up of A clears it. -/
theorem key_holds_follow_last_event_witness :
    (keyHeldRight.handleEvent (Event.keyDown Keycode.SDLK_LEFT false) none rndHalf).leftHeld = true
      ∧ ((keyHeldRight.handleEvent (Event.keyDown Keycode.SDLK_LEFT false) none
          rndHalf).handleEvent (Event.keyUp Keycode.SDLK_a) none rndHalf).leftHeld = false :=
  ⟨((key_holds_follow_last_event keyHeldRight none rndHalf).1 Keycode.SDLK_LEFT (Or.inl rfl)).1,
    ((key_holds_follow_last_event _ none rndHalf).1 Keycode.SDLK_a (Or.inr rfl)).2⟩

/-! ## Swipes and pointer-down (C23, C24) -/

/-- The intents and the swipe latch after the body of the pointer-move
branch. -/
theorem pointerMove_intents (s : GameScene) (e : Event) (rs : Option (Int × Int)) :
    let t := s.pointerMove e rs
    let reg : Prop := s.gestureSwiped = false ∧ swipeThreshold rs ≤ |s.swipeDy e rs|
    t.leftHeld = s.leftHeld ∧ t.rightHeld = s.rightHeld ∧ t.touchRunHeld = s.touchRunHeld
      ∧ t.gestureSwiped = (s.gestureSwiped || decide (swipeThreshold rs ≤ |s.swipeDy e rs|))
      ∧ t.jumpPressed = (s.jumpPressed || decide (reg ∧ s.swipeDy e rs < 0))
      ∧ t.duckHeld = (s.duckHeld || decide (reg ∧ ¬ s.swipeDy e rs < 0))
      ∧ t.touchDuckHeld = (s.touchDuckHeld || decide (reg ∧ ¬ s.swipeDy e rs < 0)) := by
  unfold GameScene.pointerMove swipeThreshold GameScene.swipeDy
  dsimp only
  generalize max swipeThresholdPx _ = T
  split <;> (try dsimp only) <;>
    generalize f32 ((getInputPosPixels32 e _ _).2 - s.gestureStartY) = D <;>
    by_cases h1 : T ≤ |D| <;> by_cases h2 : D < 0 <;> cases hs : s.gestureSwiped <;>
    simp [h1, h2, hs]

/-- Without a game object the threshold is 48: the product `0.08f * 540.0f`
rounds to `11324621 / 2 ^ 18 = 43.2000007...`. -/
theorem swipeThreshold_none : swipeThreshold none = 48 := by
  have h1 : f32 ((540 : Int) : ℚ) = 540 := by
    have := f32_intCast 540 (by norm_num)
    simpa using this
  have h2 : f32 (5368709 / 67108864 * 540) = 11324621 / 262144 := by
    have h := f32_of_scaled (5368709 / 67108864 * 540) 18 11324621 (by norm_num)
      (by norm_num [abs_of_nonneg]) (by norm_num [abs_of_nonneg]) (by norm_num [abs_lt])
    rw [h]
    norm_num
  show max swipeThresholdPx (f32 (f32 (8 / 100) * f32 ((540 : Int) : ℚ))) = 48
  rw [f32_swipe_literal, h1, h2]
  norm_num [swipeThresholdPx]

/-- In a viewport 720 high the threshold is the float product
`0.08f * 720.0f = 7549747 / 2 ^ 17 = 57.5999984...`, below `0.08 · 720`. -/
theorem swipeThreshold_tall : swipeThreshold (some (1280, 720)) = 7549747 / 131072 := by
  have h1 : f32 ((720 : Int) : ℚ) = 720 := by
    have := f32_intCast 720 (by norm_num)
    simpa using this
  have h2 : f32 (5368709 / 67108864 * 720) = 7549747 / 131072 := by
    have h := f32_of_scaled (5368709 / 67108864 * 720) 18 15099494 (by norm_num)
      (by norm_num [abs_of_nonneg]) (by norm_num [abs_of_nonneg]) (by norm_num [abs_lt])
    rw [h]
    norm_num
  show max swipeThresholdPx (f32 (f32 (8 / 100) * f32 ((720 : Int) : ℚ))) = _
  rw [f32_swipe_literal, h1, h2]
  norm_num [swipeThresholdPx]

theorem swipeDy_down : gestureHeld.swipeDy (Event.mouseMotion 200 148) none = 48 := by
  show f32 (f32 ((148 : Int) : ℚ) - 100) = 48
  rw [f32_intCast 148 (by norm_num)]
  have e : ((148 : Int) : ℚ) - 100 = ((48 : Int) : ℚ) := by norm_num
  rw [e, f32_intCast 48 (by norm_num)]
  norm_num

theorem swipeDy_up : gestureHeld.swipeDy (Event.mouseMotion 200 40) none = -60 := by
  show f32 (f32 ((40 : Int) : ℚ) - 100) = -60
  rw [f32_intCast 40 (by norm_num)]
  have e : ((40 : Int) : ℚ) - 100 = ((-60 : Int) : ℚ) := by norm_num
  rw [e, f32_intCast (-60) (by norm_num)]
  norm_num

theorem swipeDy_tall :
    gestureTall.swipeDy (Event.mouseMotion 200 100) (some (1280, 720)) = 7549747 / 131072 := by
  show f32 (f32 ((100 : Int) : ℚ) - 5557453 / 131072) = _
  rw [f32_intCast 100 (by norm_num)]
  have e : ((100 : Int) : ℚ) - 5557453 / 131072 = ((7549747 : Int) : ℚ) / 2 ^ 17 := by norm_num
  rw [e, f32_of_grid 7549747 17 (by norm_num) (by norm_num)]
  norm_num


/-- C23 as stated fails at the threshold itself: with a viewport 540 high
the threshold is `max(48, 0.08f·540) = 48`; a mouse move to 48 pixels below
the gesture start gives `|dy| = 48`, which does not exceed the threshold
(neither the stated `max(48, 0.08·viewportHeight)` nor the one the code
computes), and the code registers a downward swipe. -/
theorem swipe_registers_at_threshold :
    gestureHeld.gestureActive = true ∧ gestureHeld.gestureSwiped = false
      ∧ gestureHeld.viewportH = 540
      ∧ swipeThreshold none = 48
      ∧ gestureHeld.swipeDy (Event.mouseMotion 200 148) none = 48
      ∧ ¬ (max 48 (8 / 100 * (gestureHeld.viewportH : ℚ)) < |(148 : ℚ) - gestureHeld.gestureStartY|)
      ∧ ¬ (swipeThreshold none < |gestureHeld.swipeDy (Event.mouseMotion 200 148) none|)
      ∧ (gestureHeld.handleEvent (Event.mouseMotion 200 148) none rndHalf).gestureSwiped = true
      ∧ (gestureHeld.handleEvent (Event.mouseMotion 200 148) none rndHalf).duckHeld = true := by
  rw [handleEvent_of_pointerMove gestureHeld (Event.mouseMotion 200 148) none rndHalf rfl]
  obtain ⟨-, -, -, h₁, -, h₂, -⟩ := pointerMove_intents gestureHeld (Event.mouseMotion 200 148) none
  refine ⟨rfl, rfl, rfl, swipeThreshold_none, swipeDy_down, ?_, ?_, ?_, ?_⟩
  · norm_num [gestureHeld]
  · rw [swipeThreshold_none, swipeDy_down]
    norm_num
  · rw [if_pos (show gestureHeld.gestureActive = true from rfl), h₁, swipeThreshold_none,
      swipeDy_down]
    norm_num [gestureHeld]
  · rw [if_pos (show gestureHeld.gestureActive = true from rfl), h₂, swipeThreshold_none,
      swipeDy_down]
    norm_num [gestureHeld]

/-- C23 (swipe classification), amended: a pointer-move event when no gesture
is active changes nothing.  During an active gesture it registers a swipe
(the latch `gestureSwiped` goes from false to true) if and only if no swipe
has been registered yet and `|dy|` is at least the threshold, where `dy` is
the float difference `curY − startY` of line 307 and the threshold is
`max(48, 0.08f·(float)rh)` of line 310, the product rounded to binary32 and
`rh` the render height the handler reads (540 without a game, and the new
`viewportH` when positive).  A registered upward swipe (`dy < 0`) sets the
jump flag and leaves the duck hold and its gesture tag alone; a registered
downward swipe sets the duck hold and its gesture tag and leaves the jump
flag alone; a move that registers no swipe leaves the jump flag, the duck
hold, its tag and the latch alone; and no move changes the left hold, the
right hold or the run tag. -/
theorem swipe_classification (s : GameScene) (e : Event) (rs : Option (Int × Int))
    (rnd : Nat → ℚ) (hm : isPointerMove e = true) :
    (s.gestureActive = false → s.handleEvent e rs rnd = s)
      ∧ (s.gestureActive = true →
        ((s.gestureSwiped = false ∧ (s.handleEvent e rs rnd).gestureSwiped = true)
            ↔ (s.gestureSwiped = false ∧ swipeThreshold rs ≤ |s.swipeDy e rs|))
          ∧ (s.handleEvent e rs rnd).leftHeld = s.leftHeld
          ∧ (s.handleEvent e rs rnd).rightHeld = s.rightHeld
          ∧ (s.handleEvent e rs rnd).touchRunHeld = s.touchRunHeld
          ∧ (s.gestureSwiped = false → swipeThreshold rs ≤ |s.swipeDy e rs| →
              s.swipeDy e rs < 0 →
              (s.handleEvent e rs rnd).jumpPressed = true
                ∧ (s.handleEvent e rs rnd).duckHeld = s.duckHeld
                ∧ (s.handleEvent e rs rnd).touchDuckHeld = s.touchDuckHeld)
          ∧ (s.gestureSwiped = false → swipeThreshold rs ≤ |s.swipeDy e rs| →
              0 ≤ s.swipeDy e rs →
              (s.handleEvent e rs rnd).duckHeld = true
                ∧ (s.handleEvent e rs rnd).touchDuckHeld = true
                ∧ (s.handleEvent e rs rnd).jumpPressed = s.jumpPressed)
          ∧ (s.gestureSwiped = true ∨ |s.swipeDy e rs| < swipeThreshold rs →
              (s.handleEvent e rs rnd).jumpPressed = s.jumpPressed
                ∧ (s.handleEvent e rs rnd).duckHeld = s.duckHeld
                ∧ (s.handleEvent e rs rnd).touchDuckHeld = s.touchDuckHeld
                ∧ (s.handleEvent e rs rnd).gestureSwiped = s.gestureSwiped)) := by
  rw [handleEvent_of_pointerMove s e rs rnd hm]
  refine ⟨fun h => by rw [h]; rfl, fun h => ?_⟩
  rw [h, if_pos rfl]
  obtain ⟨h₁, h₂, h₃, h₄, h₅, h₆, h₇⟩ := pointerMove_intents s e rs
  refine ⟨?_, h₁, h₂, h₃, ?_, ?_, ?_⟩
  · rw [h₄]
    constructor
    · rintro ⟨hs, ht⟩
      rw [hs] at ht
      exact ⟨hs, by simpa using ht⟩
    · rintro ⟨hs, ht⟩
      exact ⟨hs, by simp [hs, ht]⟩
  · intro hs ht hd
    rw [h₅, h₆, h₇]
    simp [hs, ht, hd]
  · intro hs ht hd
    rw [h₅, h₆, h₇]
    simp [hs, ht, not_lt.mpr hd]
  · intro hn
    rw [h₄, h₅, h₆, h₇]
    rcases hn with hs | hlt
    · simp [hs]
    · simp [not_le.mpr hlt]

/-- C23 at concrete inputs: during the gesture that began at height 100 the
mouse moves up to height 40; the displacement 60 reaches the threshold 48
and the jump flag is set.  In a viewport 720 high the threshold is the float
product `0.08f·720 = 57.5999984...`; a move by exactly that much, less than
`0.08·720 = 57.6`, registers a downward swipe. -/
theorem swipe_classification_witness :
    (isPointerMove (Event.mouseMotion 200 40) = true ∧ gestureHeld.gestureActive = true
      ∧ (gestureHeld.handleEvent (Event.mouseMotion 200 40) none rndHalf).jumpPressed = true)
    ∧ (gestureTall.gestureActive = true ∧ gestureTall.gestureSwiped = false
      ∧ swipeThreshold (some (1280, 720)) = 7549747 / 131072
      ∧ gestureTall.swipeDy (Event.mouseMotion 200 100) (some (1280, 720)) = 7549747 / 131072
      ∧ (7549747 / 131072 : ℚ) < 8 / 100 * 720
      ∧ (gestureTall.handleEvent (Event.mouseMotion 200 100) (some (1280, 720))
          rndHalf).gestureSwiped = true
      ∧ (gestureTall.handleEvent (Event.mouseMotion 200 100) (some (1280, 720))
          rndHalf).duckHeld = true) := by
  have ht : swipeThreshold (some (1280, 720))
      ≤ |gestureTall.swipeDy (Event.mouseMotion 200 100) (some (1280, 720))| := by
    rw [swipeThreshold_tall, swipeDy_tall]
    exact le_abs_self _
  refine ⟨⟨rfl, rfl, ?_⟩, rfl, rfl, swipeThreshold_tall, swipeDy_tall, by norm_num, ?_, ?_⟩
  · refine (((swipe_classification gestureHeld (Event.mouseMotion 200 40) none rndHalf rfl).2
      rfl).2.2.2.2.1 rfl ?_ ?_).1
    · rw [swipeThreshold_none, swipeDy_up]
      norm_num
    · rw [swipeDy_up]
      norm_num
  · exact (((swipe_classification gestureTall (Event.mouseMotion 200 100) (some (1280, 720))
      rndHalf rfl).2 rfl).1.mpr ⟨rfl, ht⟩).2
  · exact (((swipe_classification gestureTall (Event.mouseMotion 200 100) (some (1280, 720))
      rndHalf rfl).2 rfl).2.2.2.2.2.1 rfl ht (by rw [swipeDy_tall]; norm_num)).1

theorem generateLoop_succ (d : LevelDef) (rnd : Nat → ℚ) (n : Nat) :
    ∀ st : GenState,
      generateLoop d rnd (n + 1) st = generateStep d rnd (generateLoop d rnd n st) := by
  induction n with
  | zero => intro st; rfl
  | succ n ih => intro st; exact ih (generateStep d rnd st)

/-- The literal `0.45f` is `7549747 / 2 ^ 24`, a little below 45/100. -/
theorem f32_kind_literal : f32 (45 / 100) = 7549747 / 16777216 := by
  have h := f32_of_scaled (45 / 100) 25 15099494 (by norm_num)
    (by norm_num [abs_of_nonneg]) (by norm_num [abs_of_nonneg]) (by norm_num [abs_lt])
  rw [h]
  norm_num

theorem f32_kind_literal_reduced : f32 (9 / 20) = 7549747 / 16777216 := by
  rw [show (9 : ℚ) / 20 = 45 / 100 by norm_num]
  exact f32_kind_literal

theorem generated_right_of (o : Obstacle) (h : Generated o) : 74 < o.rect.x := by
  have := h.1
  linarith

/-- C29 (world-left boundary): every reachable state has `player.x ≥ 30`, so
`player.x ≥ 30` holds at the end of every update tick from a reachable
state, for every frame time, render size and draw stream.  Every obstacle of
a reachable state, and every obstacle `generateObstacles` places for a
catalog level from draws in `[0, 1]`, starts right of `x = 74`; so no step
of the horizontal push-out takes a player of width 44 at or right of the
boundary to the left of it, and the horizontal phase of a tick ends at or
right of the boundary. -/
theorem world_left_boundary :
    (∀ s : GameScene, Reachable s → 30 ≤ s.player.x)
      ∧ (∀ (s : GameScene) (dt : ℚ) (rs : Option (Int × Int)) (rnd : Nat → ℚ),
          Reachable s → Draws rnd → 30 ≤ (s.update dt rs rnd).player.x)
      ∧ (∀ s : GameScene, Reachable s → ∀ o ∈ s.obstacles, 74 < o.rect.x)
      ∧ (∀ (i : Nat) (rnd : Nat → ℚ), i < 10 → Draws rnd →
          ∀ o ∈ generateObstacles (levels.getD i {}) rnd, 74 < o.rect.x)
      ∧ (∀ (s : GameScene) (dk : Bool) (vx : ℚ) (p : FRect), Reachable s →
          p.w = 44 → 30 ≤ p.x → ∀ o ∈ s.obstacles, 30 ≤ (resolveXStep dk vx p o).x)
      ∧ (∀ (s : GameScene) (dt : ℚ), Reachable s →
          30 ≤ (((s.applyInput).integrate dt).moveX dt).player.x) := by
  refine ⟨fun s hs => (reachable_wellFormed s hs).left, ?_, ?_, ?_, ?_, ?_⟩
  · intro s dt rs rnd hs hd
    exact (reachable_wellFormed _ (Reachable.tick s dt rs rnd hd hs)).left
  · intro s hs o ho
    exact generated_right_of o ((reachable_wellFormed s hs).obstacles o ho)
  · intro i rnd hi hd o ho
    have hw := startLevel_wellFormed (GameScene.init rnd) (i : Int) rnd (fun j => (hd j).1)
      (init_wellFormed rnd (fun j => (hd j).1)).width
      (init_wellFormed rnd (fun j => (hd j).1)).bullSize
    obtain ⟨-, -, -, -, -, -, -, -, -, -, -, hobs, -⟩ :=
      startLevel_fields (GameScene.init rnd) (i : Int) rnd
    have hc : (clampInt (i : Int) 0 9).toNat = i := by
      rw [clampInt_of_mem (by omega) (by omega)]
      exact Int.toNat_ofNat i
    rw [hc] at hobs
    apply generated_right_of
    apply hw.obstacles
    rw [hobs]
    exact ho
  · intro s dk vx p hs hw hx o ho
    exact resolveXStep_left dk vx p o ((reachable_wellFormed s hs).obstacles o ho) hw hx
  · intro s dt hs
    have hwf := reachable_wellFormed s hs
    apply moveX_left
    · show (s.applyInput).player.w = 44
      rw [(applyInput_feet s).2.2]; exact hwf.width
    · show ∀ o ∈ (s.applyInput).obstacles, Generated o
      rw [(applyInput_sameRun s).obstacles]; exact hwf.obstacles

/-- C29 at a concrete input: a fresh scene, the Left arrow goes down, and a
tick of half a second follows. -/
theorem world_left_boundary_witness :
    30 ≤ (((GameScene.init rndHalf).handleEvent (Event.keyDown Keycode.SDLK_LEFT false) none
      rndHalf).update (1 / 2) none rndHalf).player.x :=
  world_left_boundary.1 _ (Reachable.tick _ (1 / 2) none rndHalf rndHalf_draws
    (Reachable.event _ _ none rndHalf rndHalf_draws (Reachable.init rndHalf rndHalf_draws)))

/-- C30 (frozen simulation): while `waitingForEnter` is true, `update` leaves
the player rectangle, `vx`, `vy`, `onGround`, `ducking`, the chaser rectangle
and speed, `camX`, `goalX`, `levelIndex`, the obstacle list and the held
intents `leftHeld`, `rightHeld`, `duckHeld` unchanged, for every frame time,
render size and draw stream; it stays waiting and clears `jumpPressed`.  The
whole state after the tick is the state before it with `jumpPressed` cleared
and the four viewport metrics refreshed. -/
theorem frozen_simulation (s : GameScene) (dt : ℚ) (rs : Option (Int × Int)) (rnd : Nat → ℚ)
    (hw : s.waitingForEnter = true) :
    (s.update dt rs rnd).player = s.player
      ∧ (s.update dt rs rnd).vx = s.vx ∧ (s.update dt rs rnd).vy = s.vy
      ∧ (s.update dt rs rnd).onGround = s.onGround ∧ (s.update dt rs rnd).ducking = s.ducking
      ∧ (s.update dt rs rnd).bull = s.bull ∧ (s.update dt rs rnd).bullSpeed = s.bullSpeed
      ∧ (s.update dt rs rnd).camX = s.camX ∧ (s.update dt rs rnd).goalX = s.goalX
      ∧ (s.update dt rs rnd).levelIndex = s.levelIndex
      ∧ (s.update dt rs rnd).obstacles = s.obstacles
      ∧ (s.update dt rs rnd).leftHeld = s.leftHeld ∧ (s.update dt rs rnd).rightHeld = s.rightHeld
      ∧ (s.update dt rs rnd).duckHeld = s.duckHeld
      ∧ (s.update dt rs rnd).waitingForEnter = true
      ∧ (s.update dt rs rnd).jumpPressed = false
      ∧ s.update dt rs rnd =
          { s with
            viewportW := (s.update dt rs rnd).viewportW
            viewportH := (s.update dt rs rnd).viewportH
            zoomScale := (s.update dt rs rnd).zoomScale
            screenGroundY := (s.update dt rs rnd).screenGroundY
            jumpPressed := false } := by
  rw [update_of_waiting s dt rs rnd hw]
  exact ⟨rfl, rfl, rfl, rfl, rfl, rfl, rfl, rfl, rfl, rfl, rfl, rfl, rfl, rfl, hw, rfl, rfl⟩

/-- C30 at a concrete input: the waiting scene after the last level, a tick
of half a second. -/
theorem frozen_simulation_witness :
    waitingLast.waitingForEnter = true
      ∧ (waitingLast.update (1 / 2) none rndHalf).player = waitingLast.player
      ∧ (waitingLast.update (1 / 2) none rndHalf).jumpPressed = false :=
  have h := frozen_simulation waitingLast (1 / 2) none rndHalf rfl
  ⟨rfl, h.1, h.2.2.2.2.2.2.2.2.2.2.2.2.2.2.2.1⟩

/-! ## Vertical classification (C27) -/

theorem levelDefOf_spacing (i : Nat) (hi : i < 10) :
    (levelDefOf i).obstacleSpacing = 270 - 9 * (i : ℚ) := by
  have h : (i : ℚ) ≤ 9 := by exact_mod_cast Nat.le_of_lt_succ hi
  show max (170 : ℚ) (270 - (i : ℚ) * 9) = _
  rw [max_eq_right (by linarith)]
  ring

/-- C31 (monotone difficulty): for all level indices `i < j < 10` the catalog
has `length(i) < length(j)`, `bullSpeedBonus(i) < bullSpeedBonus(j)`,
`obstacleCount(i) < obstacleCount(j)` and
`obstacleSpacing(i) > obstacleSpacing(j)`; and for every catalog level the
170 floor on the spacing does not bind: `obstacleSpacing(i) = 270 − 9·i`,
which is above 170. -/
theorem monotone_difficulty :
    (∀ i j : Nat, i < j → j < 10 →
        (levels.getD i {}).length < (levels.getD j {}).length
          ∧ (levels.getD i {}).bullSpeedBonus < (levels.getD j {}).bullSpeedBonus
          ∧ (levels.getD i {}).obstacleCount < (levels.getD j {}).obstacleCount
          ∧ (levels.getD i {}).obstacleSpacing > (levels.getD j {}).obstacleSpacing)
      ∧ (∀ i : Nat, i < 10 →
          (levels.getD i {}).obstacleSpacing = 270 - 9 * (i : ℚ)
            ∧ 170 < (levels.getD i {}).obstacleSpacing) := by
  constructor
  · intro i j hij hj
    have hi : i < 10 := lt_trans hij hj
    have hq : (i : ℚ) < (j : ℚ) := by exact_mod_cast hij
    have hz : (i : Int) < (j : Int) := by exact_mod_cast hij
    rw [levels_getD i hi, levels_getD j hj]
    refine ⟨?_, ?_, ?_, ?_⟩
    · show (3200 : ℚ) + (i : ℚ) * 450 < 3200 + (j : ℚ) * 450
      linarith
    · show (i : ℚ) * 18 < (j : ℚ) * 18
      linarith
    · show (10 : Int) + (i : Int) * 2 < 10 + (j : Int) * 2
      omega
    · rw [levelDefOf_spacing i hi, levelDefOf_spacing j hj]
      show 270 - 9 * (j : ℚ) < 270 - 9 * (i : ℚ)
      linarith
  · intro i hi
    have h : (i : ℚ) ≤ 9 := by exact_mod_cast Nat.le_of_lt_succ hi
    rw [levels_getD i hi, levelDefOf_spacing i hi]
    exact ⟨rfl, by linarith⟩

/-- C31 at a concrete input: levels 2 and 7. -/
theorem monotone_difficulty_witness :
    (levels.getD 2 {}).length < (levels.getD 7 {}).length
      ∧ (levels.getD 2 {}).bullSpeedBonus < (levels.getD 7 {}).bullSpeedBonus
      ∧ (levels.getD 2 {}).obstacleCount < (levels.getD 7 {}).obstacleCount
      ∧ (levels.getD 2 {}).obstacleSpacing > (levels.getD 7 {}).obstacleSpacing :=
  monotone_difficulty.1 2 7 (by decide) (by decide)

/-! ## The chaser stays behind (C32) -/

theorem generateLoop_x_succ (d : LevelDef) (rnd : Nat → ℚ) (k : Nat) :
    (generateLoop d rnd (k + 1) genStart).x = (generateCandidateAt d rnd k).rect.x := by
  rw [generateLoop_succ]
  unfold generateCandidateAt
  rw [generateCandidate_x]
  rfl

theorem keyDown_return (s : GameScene) (rnd : Nat → ℚ) (hw : s.waitingForEnter = true) :
    s.keyDown Keycode.SDLK_RETURN rnd =
      if s.levelIndex + 1 ≥ 10 then s.startLevel 0 rnd else s.startLevel (s.levelIndex + 1) rnd := by
  show (if s.waitingForEnter then _ else s) = _
  rw [if_pos hw, levels_length]
  rfl

theorem checkGoalReached_of_goal (s : GameScene) (hw : s.waitingForEnter = false)
    (hg : s.goalX ≤ s.player.x) :
    s.checkGoalReached =
      { s with
        waitingForEnter := true
        overlayText :=
          if s.levelIndex + 2 ≤ 10 then "Press ENTER to begin Level " ++ toString (s.levelIndex + 2)
          else "Press ENTER to restart" } := by
  unfold GameScene.checkGoalReached
  rw [if_pos (by simp [hg, hw]), levels_length]
  simp

theorem startLevel_hud (s : GameScene) (idx : Int) (rnd : Nat → ℚ) :
    (s.startLevel idx rnd).hudLevelText
      = "Level " ++ toString (clampInt idx 0 9 + 1) ++ " / " ++ toString (10 : Int) := by
  unfold GameScene.startLevel
  rw [clearTouchHeld_eq]
  rfl

theorem begin_ne_restart (k : Int) (h0 : 0 ≤ k) (h8 : k ≤ 8) :
    "Press ENTER to begin Level " ++ toString (k + 2) ≠ "Press ENTER to restart" := by
  interval_cases k <;> decide

/-- C35 (overlay agrees with the level transition): when the goal is reached
at level index `k` in `0..9` (not waiting, `player.x ≥ goalX`),
`checkGoalReached` sets `waitingForEnter` and keeps `levelIndex`.  For
`k < 9` the overlay text is "Press ENTER to begin Level n" with `n = k + 2`,
the Return key then starts level index `k + 1`, and the HUD text of that
level is "Level n / 10" with the same `n`.  For `k = 9` the overlay text is
"Press ENTER to restart" and Return starts level index 0.  The restart text
appears exactly when `k = 9` and the begin text exactly when `k < 9`. -/
theorem overlay_matches_transition (s : GameScene) (rs : Option (Int × Int)) (rnd : Nat → ℚ)
    (h0 : 0 ≤ s.levelIndex) (h9 : s.levelIndex ≤ 9)
    (hw : s.waitingForEnter = false) (hg : s.goalX ≤ s.player.x) :
    (s.checkGoalReached).waitingForEnter = true
      ∧ (s.checkGoalReached).levelIndex = s.levelIndex
      ∧ (s.levelIndex < 9 →
          (s.checkGoalReached).overlayText
              = "Press ENTER to begin Level " ++ toString (s.levelIndex + 2)
            ∧ ((s.checkGoalReached).handleEvent (Event.keyDown Keycode.SDLK_RETURN false)
                rs rnd).levelIndex = s.levelIndex + 1
            ∧ ((s.checkGoalReached).handleEvent (Event.keyDown Keycode.SDLK_RETURN false)
                rs rnd).hudLevelText
              = "Level " ++ toString (s.levelIndex + 2) ++ " / " ++ toString (10 : Int))
      ∧ (s.levelIndex = 9 →
          (s.checkGoalReached).overlayText = "Press ENTER to restart"
            ∧ ((s.checkGoalReached).handleEvent (Event.keyDown Keycode.SDLK_RETURN false)
                rs rnd).levelIndex = 0)
      ∧ ((s.checkGoalReached).overlayText = "Press ENTER to restart" ↔ s.levelIndex = 9)
      ∧ ((s.checkGoalReached).overlayText
            = "Press ENTER to begin Level " ++ toString (s.levelIndex + 2) ↔ s.levelIndex < 9) := by
  have hc := checkGoalReached_of_goal s hw hg
  have hwt : (s.checkGoalReached).waitingForEnter = true := by rw [hc]
  have hli : (s.checkGoalReached).levelIndex = s.levelIndex := by rw [hc]
  have hov : (s.checkGoalReached).overlayText
      = if s.levelIndex + 2 ≤ 10 then "Press ENTER to begin Level " ++ toString (s.levelIndex + 2)
        else "Press ENTER to restart" := by rw [hc]
  have hret := keyDown_return s.checkGoalReached rnd hwt
  rw [hli] at hret
  refine ⟨hwt, hli, ?_, ?_, ?_, ?_⟩
  · intro hlt
    rw [handleEvent_keyDown, hret, if_neg (by omega), hov, if_pos (by omega)]
    refine ⟨rfl, ?_, ?_⟩
    · rw [(startLevel_fields _ _ rnd).1, clampInt_of_mem (by omega) (by omega)]
    · rw [startLevel_hud, clampInt_of_mem (by omega) (by omega)]
      have : s.levelIndex + 1 + 1 = s.levelIndex + 2 := by ring
      rw [this]
  · intro h
    rw [handleEvent_keyDown, hret, if_pos (by omega), hov, if_neg (by omega)]
    refine ⟨rfl, ?_⟩
    rw [(startLevel_fields _ _ rnd).1]
    rfl
  · rw [hov]
    constructor
    · intro h
      by_contra hne
      have hlt : s.levelIndex ≤ 8 := by omega
      rw [if_pos (by omega)] at h
      exact begin_ne_restart s.levelIndex h0 hlt h
    · intro h
      rw [if_neg (by omega)]
  · rw [hov]
    constructor
    · intro h
      by_contra hne
      have h9' : s.levelIndex = 9 := by omega
      rw [if_neg (by omega), h9'] at h
      exact absurd h (by decide)
    · intro h
      rw [if_pos (by omega)]

/-- C35 at a concrete input: the goal of level 0 is reached. -/
theorem overlay_matches_transition_witness :
    (0 : Int) ≤ atGoal.levelIndex ∧ atGoal.levelIndex ≤ 9
      ∧ atGoal.waitingForEnter = false ∧ atGoal.goalX ≤ atGoal.player.x
      ∧ (atGoal.checkGoalReached).overlayText = "Press ENTER to begin Level 2" := by
  have hg : atGoal.goalX ≤ atGoal.player.x := by norm_num [atGoal, nearGoal]
  refine ⟨by decide, by decide, rfl, hg, ?_⟩
  have h := (overlay_matches_transition atGoal none rndHalf (by decide) (by decide) rfl
    hg).2.2.1 (by decide)
  exact h.1

/-! ## Resolution index of the options scene (C36) -/

theorem resIndex_cases (s : OptionsScene) (h0 : 0 ≤ s.m_resIndex) (h4 : s.m_resIndex ≤ 4) :
    s.m_resIndex = 0 ∨ s.m_resIndex = 1 ∨ s.m_resIndex = 2 ∨ s.m_resIndex = 3
      ∨ s.m_resIndex = 4 := by
  omega

theorem cycleResolution_index (s : OptionsScene) (delta : Int)
    (h0 : 0 ≤ s.m_resIndex) (h4 : s.m_resIndex ≤ 4) (hd : delta = 1 ∨ delta = -1) :
    0 ≤ (s.cycleResolution delta).m_resIndex ∧ (s.cycleResolution delta).m_resIndex ≤ 4
      ∧ (s.m_game = true →
          (s.cycleResolution delta).m_resIndex = (s.m_resIndex + 5 + delta) % 5)
      ∧ (s.m_game = false → s.cycleResolution delta = s) := by
  unfold OptionsScene.cycleResolution
  cases hg : s.m_game
  · exact ⟨h0, h4, fun h => absurd h (by decide), fun _ => rfl⟩
  · rcases hd with rfl | rfl <;> rcases resIndex_cases s h0 h4 with h | h | h | h | h <;>
      simp [h, RES_COUNT] <;> decide

theorem cycleResolution_inRange (s : OptionsScene) (delta : Int) (hd : delta = 1 ∨ delta = -1)
    (h : ResIndexInRange s) : ResIndexInRange (s.cycleResolution delta) :=
  ⟨(cycleResolution_index s delta h.1 h.2 hd).1, (cycleResolution_index s delta h.1 h.2 hd).2.1⟩

theorem executeAction_inRange (s : OptionsScene) (a : PointerAction)
    (h : ResIndexInRange s) : ResIndexInRange (s.executeAction a) := by
  cases a
  · exact h
  · exact h
  · exact cycleResolution_inRange s (-1) (Or.inr rfl) h
  · exact cycleResolution_inRange s 1 (Or.inl rfl) h
  · exact h

theorem handlePointerEvent_inRange (s : OptionsScene) (e : OptionsEvent) (rs : Int × Int)
    (h : ResIndexInRange s) : ResIndexInRange (s.handlePointerEvent e rs) := by
  unfold OptionsScene.handlePointerEvent
  dsimp only
  split
  · exact h
  · split
    · exact h
    · split_ifs <;>
        first
          | exact h
          | exact executeAction_inRange _ _ h

theorem keyDown_inRange (s : OptionsScene) (sym : OptionsKeycode)
    (h : ResIndexInRange s) : ResIndexInRange (s.keyDown sym) := by
  cases sym
  · exact h
  · exact cycleResolution_inRange s 1 (Or.inl rfl) h
  · exact cycleResolution_inRange s 1 (Or.inl rfl) h
  · exact cycleResolution_inRange s (-1) (Or.inr rfl) h
  · exact h
  · exact h

theorem optionsHandleEvent_inRange (s : OptionsScene) (e : OptionsEvent) (rs : Int × Int)
    (h : ResIndexInRange s) : ResIndexInRange (s.handleEvent e rs) := by
  unfold OptionsScene.handleEvent
  split
  · exact h
  · apply handlePointerEvent_inRange
    cases e with
    | keyDown sym rep =>
      cases rep
      · exact keyDown_inRange s sym h
      · exact h
    | _ => exact h

theorem optionsReachable_inRange (s : OptionsScene) (h : OptionsReachable s) :
    ResIndexInRange s := by
  induction h with
  | init game => exact ⟨le_refl _, show (0 : Int) ≤ 4 by decide⟩
  | event s e rs hs ih => exact optionsHandleEvent_inRange s e rs ih
  | tick s dt hs ih => exact ih
  | cycle s delta hd hs ih => exact cycleResolution_inRange s delta hd ih

theorem reads_inBounds (s : OptionsScene) (h : ResIndexInRange s) :
    (s.applyResolutionAtIndex).isSome = true ∧ (s.presetLabel).isSome = true := by
  unfold OptionsScene.applyResolutionAtIndex OptionsScene.presetLabel
  rcases resIndex_cases s h.1 h.2 with h | h | h | h | h <;> rw [h] <;> exact ⟨rfl, rfl⟩

theorem cycleResolution_round_trip (s : OptionsScene) (h : ResIndexInRange s) :
    (s.cycleResolution 1).cycleResolution (-1) = s
      ∧ (s.cycleResolution (-1)).cycleResolution 1 = s := by
  obtain ⟨g, i, d, a⟩ := s
  have hi := resIndex_cases ⟨g, i, d, a⟩ h.1 h.2
  cases g
  · exact ⟨rfl, rfl⟩
  · rcases hi with h | h | h | h | h <;> (simp only at h; subst h; exact ⟨rfl, rfl⟩)

theorem optionsHandleEvent_keyDown (s : OptionsScene) (sym : OptionsKeycode) (rs : Int × Int)
    (hg : s.m_game = true) :
    s.handleEvent (OptionsEvent.keyDown sym false) rs = s.keyDown sym := by
  unfold OptionsScene.handleEvent
  rw [if_neg (by simp [hg])]
  rfl

/-- C36 (resolution index stays in range): in every state of the options
scene that follows the constructor (`m_resIndex = 0`) through `handleEvent`,
`update` and `cycleResolution(±1)` calls, `m_resIndex` lies in `0..4`, so the
reads `m_resolutions[m_resIndex]` and `m_resLabels[m_resIndex]` are inside
the tables.  From an index in `0..4`, `cycleResolution(delta)` with `delta`
1 or −1 stays in `0..4` and, with a game object, gives
`(m_resIndex + 5 + delta) mod 5`: forward wraps 4 to 0, backward wraps 0 to
4, and `cycleResolution(+1)` followed by `cycleResolution(−1)` restores the
state.  With a game object the keys R and Right are `cycleResolution(+1)` and
Left is `cycleResolution(−1)`; the pointer actions `ResNext` and `ResPrev`
are `cycleResolution(+1)` and `cycleResolution(−1)`. -/
theorem resolution_index_in_range :
    (∀ s : OptionsScene, OptionsReachable s →
        0 ≤ s.m_resIndex ∧ s.m_resIndex ≤ 4
          ∧ (s.applyResolutionAtIndex).isSome = true ∧ (s.presetLabel).isSome = true)
      ∧ (∀ (s : OptionsScene) (delta : Int), (delta = 1 ∨ delta = -1) →
          0 ≤ s.m_resIndex → s.m_resIndex ≤ 4 →
          0 ≤ (s.cycleResolution delta).m_resIndex ∧ (s.cycleResolution delta).m_resIndex ≤ 4
            ∧ (s.m_game = true →
                (s.cycleResolution delta).m_resIndex = (s.m_resIndex + 5 + delta) % 5))
      ∧ (∀ s : OptionsScene, s.m_game = true → s.m_resIndex = 4 →
          (s.cycleResolution 1).m_resIndex = 0)
      ∧ (∀ s : OptionsScene, s.m_game = true → s.m_resIndex = 0 →
          (s.cycleResolution (-1)).m_resIndex = 4)
      ∧ (∀ s : OptionsScene, 0 ≤ s.m_resIndex → s.m_resIndex ≤ 4 →
          (s.cycleResolution 1).cycleResolution (-1) = s)
      ∧ (∀ (s : OptionsScene) (rs : Int × Int), s.m_game = true →
          s.handleEvent (OptionsEvent.keyDown OptionsKeycode.SDLK_r false) rs
              = s.cycleResolution 1
            ∧ s.handleEvent (OptionsEvent.keyDown OptionsKeycode.SDLK_RIGHT false) rs
              = s.cycleResolution 1
            ∧ s.handleEvent (OptionsEvent.keyDown OptionsKeycode.SDLK_LEFT false) rs
              = s.cycleResolution (-1))
      ∧ (∀ s : OptionsScene,
          s.executeAction PointerAction.ResNext = s.cycleResolution 1
            ∧ s.executeAction PointerAction.ResPrev = s.cycleResolution (-1)) := by
  refine ⟨?_, ?_, ?_, ?_, ?_, ?_, fun s => ⟨rfl, rfl⟩⟩
  · intro s hs
    have h := optionsReachable_inRange s hs
    exact ⟨h.1, h.2, (reads_inBounds s h).1, (reads_inBounds s h).2⟩
  · intro s delta hd h0 h4
    have h := cycleResolution_index s delta h0 h4 hd
    exact ⟨h.1, h.2.1, h.2.2.1⟩
  · intro s hg h
    rw [(cycleResolution_index s 1 (by omega) (by omega) (Or.inl rfl)).2.2.1 hg, h]
    decide
  · intro s hg h
    rw [(cycleResolution_index s (-1) (by omega) (by omega) (Or.inr rfl)).2.2.1 hg, h]
    decide
  · intro s h0 h4
    exact (cycleResolution_round_trip s ⟨h0, h4⟩).1
  · intro s rs hg
    exact ⟨optionsHandleEvent_keyDown s _ rs hg, optionsHandleEvent_keyDown s _ rs hg,
      optionsHandleEvent_keyDown s _ rs hg⟩

/-- C36 at a concrete input: from the constructor's state the Left key wraps
the index to 4, and the key R that follows keeps it in range. -/
theorem resolution_index_in_range_witness :
    ((((OptionsScene.init true).handleEvent
        (OptionsEvent.keyDown OptionsKeycode.SDLK_LEFT false) (1280, 720)).handleEvent
        (OptionsEvent.keyDown OptionsKeycode.SDLK_r false) (1280, 720)).m_resIndex ≤ 4)
      ∧ ((OptionsScene.init true).handleEvent
        (OptionsEvent.keyDown OptionsKeycode.SDLK_LEFT false) (1280, 720)).m_resIndex = 4 := by
  refine ⟨(resolution_index_in_range.1 _ (OptionsReachable.event _ _ _
    (OptionsReachable.event _ _ _ (OptionsReachable.init true)))).2.1, ?_⟩
  rfl

/-! ## The two camera transforms (C37) -/

theorem roundEven_mono {q r : ℚ} (h : q ≤ r) : roundEven q ≤ roundEven r := by
  by_contra hc
  have hc : roundEven r + 1 ≤ roundEven q := by omega
  have hc2 : (roundEven r : ℚ) + 1 ≤ roundEven q := by exact_mod_cast hc
  have e1 := roundEven_err q
  have e2 := roundEven_err r
  rw [abs_le] at e1 e2
  have hqr : q = r := by linarith [e1.1, e1.2, e2.1, e2.2]
  subst hqr
  omega

theorem f32_nonneg {q : ℚ} (h : 0 ≤ q) : 0 ≤ f32 q := by
  unfold f32
  have hp : (0 : ℚ) < 2 ^ ulpExp q := by positivity
  have : roundEven 0 ≤ roundEven (q / 2 ^ ulpExp q) := roundEven_mono (by positivity)
  rw [show roundEven 0 = 0 by simpa using roundEven_intCast 0] at this
  have : (0 : ℚ) ≤ roundEven (q / 2 ^ ulpExp q) := by exact_mod_cast this
  positivity

theorem ulpExp_mono {q r : ℚ} (hq : 0 < q) (h : q ≤ r) : ulpExp q ≤ ulpExp r := by
  unfold ulpExp
  have : Int.log 2 |q| ≤ Int.log 2 |r| := by
    apply Int.log_mono_right (by rw [abs_pos]; exact ne_of_gt hq)
    rw [abs_of_pos hq, abs_of_pos (lt_of_lt_of_le hq h)]
    exact h
  have := max_le_max this (le_refl (-126 : Int))
  omega

/-- the scaled value is below `2 ^ 24` -/
theorem scaled_lt (q : ℚ) (hq : 0 < q) : q / 2 ^ ulpExp q < 2 ^ 24 := by
  have hp : (0 : ℚ) < 2 ^ ulpExp q := by positivity
  rw [div_lt_iff₀ hp]
  have h1 : q < ((2 : Nat) : ℚ) ^ (Int.log 2 q + 1) := Int.lt_zpow_succ_log_self (by norm_num) q
  have h2 : Int.log 2 q + 1 ≤ ulpExp q + 24 := by
    unfold ulpExp
    rw [abs_of_pos hq]
    have := le_max_left (Int.log 2 q) (-126)
    omega
  have h3 : ((2 : Nat) : ℚ) ^ (Int.log 2 q + 1) ≤ ((2 : Nat) : ℚ) ^ (ulpExp q + 24) :=
    zpow_le_zpow_right₀ (by norm_num) h2
  calc q < ((2 : Nat) : ℚ) ^ (Int.log 2 q + 1) := h1
    _ ≤ ((2 : Nat) : ℚ) ^ (ulpExp q + 24) := h3
    _ = 2 ^ 24 * 2 ^ ulpExp q := by
        push_cast
        rw [zpow_add₀ (by norm_num)]
        norm_num
        ring

/-- in the normal range the scaled value is at least `2 ^ 23` -/
theorem scaled_ge (q : ℚ) (hq : 0 < q) (hn : -149 < ulpExp q) : 2 ^ 23 ≤ q / 2 ^ ulpExp q := by
  have hp : (0 : ℚ) < 2 ^ ulpExp q := by positivity
  rw [le_div_iff₀ hp]
  have hu : ulpExp q = Int.log 2 q - 23 := by
    unfold ulpExp at hn ⊢
    rw [abs_of_pos hq] at hn ⊢
    rcases le_total (Int.log 2 q) (-126) with h | h
    · rw [max_eq_right h] at hn; omega
    · rw [max_eq_left h]
  have h1 : ((2 : Nat) : ℚ) ^ Int.log 2 q ≤ q := Int.zpow_log_le_self (by norm_num) hq
  rw [hu]
  calc (2 : ℚ) ^ 23 * 2 ^ (Int.log 2 q - 23) = ((2 : Nat) : ℚ) ^ Int.log 2 q := by
        push_cast
        rw [zpow_sub₀ (by norm_num)]
        norm_num
        field_simp
    _ ≤ q := h1

theorem f32_mono_pos {q r : ℚ} (hq : 0 < q) (h : q ≤ r) : f32 q ≤ f32 r := by
  have hr : 0 < r := lt_of_lt_of_le hq h
  have he := ulpExp_mono hq h
  rcases eq_or_lt_of_le he with e | e
  · unfold f32
    rw [e]
    have hp : (0 : ℚ) < 2 ^ ulpExp r := by positivity
    have : roundEven (q / 2 ^ ulpExp r) ≤ roundEven (r / 2 ^ ulpExp r) :=
      roundEven_mono (by gcongr)
    have : (roundEven (q / 2 ^ ulpExp r) : ℚ) ≤ roundEven (r / 2 ^ ulpExp r) := by
      exact_mod_cast this
    gcongr
  · have hn : -149 < ulpExp r := lt_of_le_of_lt (ulpExp_ge q) e
    have a := scaled_lt q hq
    have b := scaled_ge r hr hn
    have a1 : roundEven (q / 2 ^ ulpExp q) ≤ roundEven (((2 ^ 24 : Int) : ℚ)) :=
      roundEven_mono (by push_cast; exact le_of_lt a)
    rw [roundEven_intCast] at a1
    have b1 : roundEven (((2 ^ 23 : Int) : ℚ)) ≤ roundEven (r / 2 ^ ulpExp r) :=
      roundEven_mono (by push_cast; exact b)
    rw [roundEven_intCast] at b1
    have a2 : (roundEven (q / 2 ^ ulpExp q) : ℚ) ≤ 2 ^ 24 := by exact_mod_cast a1
    have b2 : (2 : ℚ) ^ 23 ≤ roundEven (r / 2 ^ ulpExp r) := by exact_mod_cast b1
    unfold f32
    have hp : (0 : ℚ) < 2 ^ ulpExp q := by positivity
    have hp2 : (0 : ℚ) < 2 ^ ulpExp r := by positivity
    have hle : (2 : ℚ) ^ (ulpExp q + 1) ≤ 2 ^ ulpExp r :=
      zpow_le_zpow_right₀ (by norm_num) (by omega)
    calc (roundEven (q / 2 ^ ulpExp q) : ℚ) * 2 ^ ulpExp q ≤ 2 ^ 24 * 2 ^ ulpExp q := by gcongr
      _ = 2 ^ 23 * 2 ^ (ulpExp q + 1) := by rw [zpow_add₀ (by norm_num)]; ring
      _ ≤ 2 ^ 23 * 2 ^ ulpExp r := by gcongr
      _ ≤ (roundEven (r / 2 ^ ulpExp r) : ℚ) * 2 ^ ulpExp r := by gcongr

/-- Rounding to binary32 is monotone. -/
theorem f32_mono {q r : ℚ} (h : q ≤ r) : f32 q ≤ f32 r := by
  rcases lt_trichotomy 0 q with hq | hq | hq
  · exact f32_mono_pos hq h
  · subst hq
    rw [f32_zero]
    exact f32_nonneg h
  · rcases lt_trichotomy 0 r with hr | hr | hr
    · have a : f32 q ≤ 0 := by
        have := f32_nonneg (show 0 ≤ -q by linarith)
        rw [f32_neg] at this
        linarith
      exact le_trans a (f32_nonneg (le_of_lt hr))
    · subst hr
      rw [f32_zero]
      have := f32_nonneg (show 0 ≤ -q by linarith)
      rw [f32_neg] at this
      linarith
    · have := f32_mono_pos (show 0 < -r by linarith) (show -r ≤ -q by linarith)
      rw [f32_neg, f32_neg] at this
      linarith

/-- The integer significand of a rounded value has at most 24 bits, the
value `2 ^ 24` included. -/
theorem roundEven_scaled_le (q : ℚ) : |roundEven (q / 2 ^ ulpExp q)| ≤ 2 ^ 24 := by
  have key : ∀ r : ℚ, 0 < r → roundEven (r / 2 ^ ulpExp r) ≤ 2 ^ 24 := by
    intro r hr
    have a := scaled_lt r hr
    have a1 : roundEven (r / 2 ^ ulpExp r) ≤ roundEven (((2 ^ 24 : Int) : ℚ)) :=
      roundEven_mono (by push_cast; exact le_of_lt a)
    rwa [roundEven_intCast] at a1
  have nonneg : ∀ r : ℚ, 0 ≤ r → 0 ≤ roundEven (r / 2 ^ ulpExp r) := by
    intro r hr
    have : roundEven 0 ≤ roundEven (r / 2 ^ ulpExp r) := roundEven_mono (by positivity)
    rwa [show roundEven 0 = 0 by simpa using roundEven_intCast 0] at this
  rcases lt_trichotomy 0 q with hq | hq | hq
  · rw [abs_of_nonneg (nonneg q (le_of_lt hq))]
    exact key q hq
  · subst hq
    simp [show roundEven 0 = 0 by simpa using roundEven_intCast 0]
  · have h1 := key (-q) (by linarith)
    have h2 := nonneg (-q) (by linarith)
    rw [ulpExp_neg, neg_div, roundEven_neg] at h1 h2
    rw [abs_of_nonpos (by omega)]
    exact h1

theorem f32_of_int_zpow_lt (n e : Int) (he : -149 ≤ e) (hn : |n| < 2 ^ 24) :
    f32 ((n : ℚ) * 2 ^ e) = (n : ℚ) * 2 ^ e := by
  by_cases h0 : n = 0
  · subst h0; simp [f32_zero]
  have hp : (0 : ℚ) < 2 ^ e := by positivity
  have hq : (0 : ℚ) < |(n : ℚ) * 2 ^ e| := by
    rw [abs_pos]; exact mul_ne_zero (by exact_mod_cast h0) (ne_of_gt hp)
  have hlt : |(n : ℚ) * 2 ^ e| < ((2 : Nat) : ℚ) ^ ((24 : Int) + e) := by
    rw [abs_mul, abs_of_pos hp, zpow_add₀ (by norm_num)]
    have : |(n : ℚ)| < 2 ^ 24 := by exact_mod_cast hn
    push_cast
    have h24 : ((2 : ℚ) ^ (24 : Int)) = 2 ^ 24 := by norm_cast
    rw [h24]
    gcongr
  have hlog : Int.log 2 |(n : ℚ) * 2 ^ e| < 24 + e :=
    (Int.lt_zpow_iff_log_lt (by norm_num) hq).mp hlt
  have hu : ulpExp ((n : ℚ) * 2 ^ e) ≤ e := by
    unfold ulpExp
    have : max (Int.log 2 |(n : ℚ) * 2 ^ e|) (-126) ≤ 23 + e := max_le (by omega) (by omega)
    omega
  obtain ⟨j, hj⟩ : ∃ j : Nat, ulpExp ((n : ℚ) * 2 ^ e) = e - j :=
    ⟨(e - ulpExp ((n : ℚ) * 2 ^ e)).toNat, by omega⟩
  unfold f32
  rw [hj]
  have h2 : ((2 : ℚ) ^ (e - (j : Int))) = 2 ^ e / 2 ^ j := by
    rw [zpow_sub₀ (by norm_num), zpow_natCast]
  have hx : (n : ℚ) * 2 ^ e / 2 ^ (e - (j : Int)) = ((n * 2 ^ j : Int) : ℚ) := by
    rw [h2]; push_cast; field_simp; ring
  rw [hx, roundEven_intCast, h2]
  push_cast; field_simp; ring

/-- Every value `n · 2 ^ e` with a significand of at most 24 bits and an
exponent in range is a binary32 value. -/
theorem f32_of_int_zpow (n e : Int) (he : -149 ≤ e) (hn : |n| ≤ 2 ^ 24) :
    f32 ((n : ℚ) * 2 ^ e) = (n : ℚ) * 2 ^ e := by
  rcases lt_or_eq_of_le hn with h | h
  · exact f32_of_int_zpow_lt n e he h
  · have h2 : (n : ℚ) * 2 ^ e = ((n / 2 : Int) : ℚ) * 2 ^ (e + 1) := by
      have hd : n = 2 * (n / 2) := by
        rcases abs_eq (by norm_num : (0 : Int) ≤ 2 ^ 24) |>.mp h with g | g <;> rw [g] <;> norm_num
      rw [zpow_add₀ (by norm_num)]
      conv_lhs => rw [hd]
      push_cast
      ring
    rw [h2]
    exact f32_of_int_zpow_lt (n / 2) (e + 1) (by omega) (by
      rcases abs_eq (by norm_num : (0 : Int) ≤ 2 ^ 24) |>.mp h with g | g <;> rw [g] <;> norm_num)

/-- Rounding is idempotent: a rounded value is a binary32 value. -/
theorem f32_f32 (q : ℚ) : f32 (f32 q) = f32 q := by
  have := f32_of_int_zpow (roundEven (q / 2 ^ ulpExp q)) (ulpExp q) (ulpExp_ge q)
    (roundEven_scaled_le q)
  exact this

/-- A binary32 value is its 24-bit significand times a power of two. -/
theorem f32_form (a : ℚ) (ha : f32 a = a) :
    ∃ n : Int, a = (n : ℚ) * 2 ^ ulpExp a ∧ |n| ≤ 2 ^ 24 :=
  ⟨roundEven (a / 2 ^ ulpExp a), by conv_lhs => rw [← ha, f32], roundEven_scaled_le a⟩

theorem ulpExp_nonpos (a : ℚ) (h : |a| < 2 ^ 24) : ulpExp a ≤ 0 := by
  unfold ulpExp
  by_cases h0 : a = 0
  · subst h0; simp [Int.log]
  have hq : 0 < |a| := abs_pos.mpr h0
  have hlt : |a| < ((2 : Nat) : ℚ) ^ (24 : Int) := by
    have h24 : (((2 : Nat) : ℚ) ^ (24 : Int)) = 2 ^ 24 := by norm_cast
    rw [h24]; exact h
  have hlog : Int.log 2 |a| < 24 := (Int.lt_zpow_iff_log_lt (by norm_num) hq).mp hlt
  have : max (Int.log 2 |a|) (-126) ≤ 23 := max_le (by omega) (by omega)
  omega

/-- Subtracting a whole number from a larger binary32 value below `2 ^ 24`
is exact. -/
theorem f32_sub_nat (a : ℚ) (c : Nat) (ha : f32 a = a) (h1 : (c : ℚ) ≤ a) (h2 : a < 2 ^ 24) :
    f32 (a - c) = a - c := by
  have hc0 : (0 : ℚ) ≤ c := Nat.cast_nonneg c
  have ha0 : 0 ≤ a := le_trans hc0 h1
  obtain ⟨n, hn, hb⟩ := f32_form a ha
  have hu := ulpExp_nonpos a (by rw [abs_of_nonneg ha0]; exact h2)
  have hge := ulpExp_ge a
  obtain ⟨k, hk⟩ : ∃ k : Nat, ulpExp a = -(k : Int) := ⟨(-ulpExp a).toNat, by omega⟩
  rw [hk] at hn
  have hp : (0 : ℚ) < 2 ^ (-(k : Int)) := by positivity
  have e1 : a - c = ((n - c * 2 ^ k : Int) : ℚ) * 2 ^ (-(k : Int)) := by
    push_cast
    rw [sub_mul, ← hn, zpow_neg, zpow_natCast]
    field_simp
  rw [e1]
  apply f32_of_int_zpow _ _ (by omega)
  have hn0 : (0 : ℚ) ≤ ((n - c * 2 ^ k : Int) : ℚ) := by
    have : 0 ≤ a - c := by linarith
    rw [e1] at this
    exact nonneg_of_mul_nonneg_left this hp
  have hn0' : (0 : Int) ≤ n - c * 2 ^ k := by exact_mod_cast hn0
  rw [abs_of_nonneg hn0']
  have : (0 : Int) ≤ c * 2 ^ k := by positivity
  have := le_abs_self n
  omega

/-- Adding a whole number to a binary32 value of `[256, 512)` is exact while
the sum stays below 512. -/
theorem f32_add_nat_512 (a : ℚ) (c : Nat) (ha : f32 a = a) (h1 : 256 ≤ a) (h2 : a + c < 512) :
    f32 (a + c) = a + c := by
  have hc0 : (0 : ℚ) ≤ c := Nat.cast_nonneg c
  obtain ⟨n, hn, hb⟩ := f32_form a ha
  have hu : ulpExp a = 8 - 23 := ulpExp_of_bounds a 8 (by norm_num)
    (by rw [abs_of_nonneg (by linarith)]; norm_num; linarith)
    (by rw [abs_of_nonneg (by linarith)]; norm_num; linarith)
  rw [hu] at hn
  have e1 : a + c = ((n + c * 2 ^ 15 : Int) : ℚ) / 2 ^ 15 := by
    push_cast
    rw [hn]
    norm_num
    ring
  rw [e1]
  apply f32_of_grid _ 15 (by norm_num)
  have hq : (((n + c * 2 ^ 15 : Int) : ℚ)) < 2 ^ 24 := by
    have : ((n + c * 2 ^ 15 : Int) : ℚ) / 2 ^ 15 < 512 := by rw [← e1]; exact h2
    rw [div_lt_iff₀ (by norm_num)] at this
    linarith [this]
  have hq0 : (0 : ℚ) ≤ ((n + c * 2 ^ 15 : Int) : ℚ) := by
    have : (0 : ℚ) ≤ ((n + c * 2 ^ 15 : Int) : ℚ) / 2 ^ 15 := by rw [← e1]; linarith
    rwa [le_div_iff₀ (by norm_num), zero_mul] at this
  have a1 : (n + c * 2 ^ 15 : Int) < 2 ^ 24 := by exact_mod_cast hq
  have a2 : (0 : Int) ≤ n + c * 2 ^ 15 := by exact_mod_cast hq0
  rw [abs_of_nonneg a2]
  exact a1

/-- Below `2 ^ 14` the rounding error is at most `2 ^ (-10)`. -/
theorem f32_near (q : ℚ) (h : |q| ≤ 16384) : |f32 q - q| ≤ 1 / 1024 := by
  refine le_trans (f32_err_abs q) (max_le ?_ (by norm_num))
  rw [div_le_iff₀ (by norm_num)]
  norm_num
  linarith

/-! ## The binary32 tick: the rounded overlap test -/

theorem AABB32_false_iff (a b : FRect) :
    AABB32 a b = false ↔
      (f32 (a.x + a.w) ≤ b.x ∨ f32 (b.x + b.w) ≤ a.x
        ∨ f32 (a.y + a.h) ≤ b.y ∨ f32 (b.y + b.h) ≤ a.y) := by
  unfold AABB32
  simp only [Bool.not_eq_false', Bool.or_eq_true, decide_eq_true_eq]
  tauto

theorem AABB32_true_iff (a b : FRect) :
    AABB32 a b = true ↔
      (b.x < f32 (a.x + a.w) ∧ a.x < f32 (b.x + b.w)
        ∧ b.y < f32 (a.y + a.h) ∧ a.y < f32 (b.y + b.h)) := by
  rw [← Bool.not_eq_false, AABB32_false_iff]
  simp only [not_or, not_le]

/-- A value at most a binary32 value rounds to at most that value. -/
theorem f32_le_of_le {q b : ℚ} (hb : f32 b = b) (h : q ≤ b) : f32 q ≤ b := by
  have := f32_mono h
  rwa [hb] at this

theorem le_f32_of_le {q b : ℚ} (hb : f32 b = b) (h : b ≤ q) : b ≤ f32 q := by
  have := f32_mono h
  rwa [hb] at this

theorem lt_of_lt_f32 {q b : ℚ} (hb : f32 b = b) (h : b < f32 q) : b < q := by
  by_contra hc
  exact absurd (f32_le_of_le hb (not_lt.mp hc)) (not_le.mpr h)

theorem lt_of_f32_lt {q b : ℚ} (hb : f32 b = b) (h : f32 q < b) : q < b := by
  by_contra hc
  exact absurd (le_f32_of_le hb (not_lt.mp hc)) (not_le.mpr h)

theorem f32_natCast (n : Nat) (h : n < 2 ^ 24) : f32 (n : ℚ) = n := by
  have := f32_intCast (n : Int) (by rw [abs_of_nonneg (by positivity)]; exact_mod_cast h)
  simpa using this

theorem f32_half_natCast (n : Nat) (h : n < 2 ^ 24) : f32 ((n : ℚ) / 2) = (n : ℚ) / 2 := by
  have := f32_of_grid (n : Int) 1 (by norm_num)
    (by rw [abs_of_nonneg (by positivity)]; exact_mod_cast h)
  simpa using this

/-! ## The binary32 tick: horizontal resolution -/

/-- A box that the rounded test finds clear of `j` at `p.x`, and that was
clear of it at `x0` (on the left in exact arithmetic), is clear of it at every
position between the two, unless `j` fits between `x0` and the moved
position `xm`. -/
theorem clear_between_x32 (p j : FRect) (x0 xm x1 : ℚ) (hj : f32 j.x = j.x)
    (hstart : x0 + p.w ≤ j.x ∨ f32 (j.x + j.w) ≤ x0
      ∨ f32 (p.y + p.h) ≤ j.y ∨ f32 (j.y + j.h) ≤ p.y)
    (hclear : AABB32 p j = false)
    (hbetween : (x0 ≤ x1 ∧ x1 ≤ p.x ∧ p.x ≤ xm) ∨ (xm ≤ p.x ∧ p.x ≤ x1 ∧ x1 ≤ x0))
    (hfit1 : ¬ (x0 + p.w ≤ j.x ∧ f32 (j.x + j.w) ≤ xm))
    (hfit2 : ¬ (f32 (j.x + j.w) ≤ x0 ∧ f32 (xm + p.w) ≤ j.x)) :
    AABB32 { p with x := x1 } j = false := by
  rw [AABB32_false_iff] at hclear ⊢
  show f32 (x1 + p.w) ≤ j.x ∨ f32 (j.x + j.w) ≤ x1 ∨ f32 (p.y + p.h) ≤ j.y ∨ f32 (j.y + j.h) ≤ p.y
  rcases hclear with h | h | h | h
  · rcases hbetween with ⟨b1, b2, b3⟩ | ⟨b1, b2, b3⟩
    · exact Or.inl (le_trans (f32_mono (by linarith)) h)
    · rcases hstart with g | g | g | g
      · exact Or.inl (f32_le_of_le hj (by linarith))
      · exact absurd ⟨g, le_trans (f32_mono (by linarith)) h⟩ hfit2
      · exact Or.inr (Or.inr (Or.inl g))
      · exact Or.inr (Or.inr (Or.inr g))
  · rcases hbetween with ⟨b1, b2, b3⟩ | ⟨b1, b2, b3⟩
    · rcases hstart with g | g | g | g
      · exact absurd ⟨g, le_trans h b3⟩ hfit1
      · exact Or.inr (Or.inl (le_trans g b1))
      · exact Or.inr (Or.inr (Or.inl g))
      · exact Or.inr (Or.inr (Or.inr g))
    · exact Or.inr (Or.inl (le_trans h b2))
  · exact Or.inr (Or.inr (Or.inl h))
  · exact Or.inr (Or.inr (Or.inr h))

/-- One step of the horizontal loop in binary32 moves the player back
towards the position `x0` it had before the move, if it was clear of the
obstacle there, and leaves it clear of the obstacle. -/
theorem resolveXStep32_towards (dk : Bool) (vx : ℚ) (p : FRect) (o : Obstacle) (x0 xm : ℚ)
    (hw : p.w = 44) (ho : f32 o.rect.x = o.rect.x) (hox : 44 ≤ o.rect.x) (hxm : xm ≤ 16000)
    (hdir : (0 < vx ∧ x0 ≤ p.x ∧ p.x ≤ xm) ∨ (vx < 0 ∧ xm ≤ p.x ∧ p.x ≤ x0))
    (hstart : isSolidForPlayer o dk = true →
      x0 + p.w ≤ o.rect.x ∨ f32 (o.rect.x + o.rect.w) ≤ x0
        ∨ f32 (p.y + p.h) ≤ o.rect.y ∨ f32 (o.rect.y + o.rect.h) ≤ p.y) :
    ∃ x1, resolveXStep32 dk vx p o = { p with x := x1 }
      ∧ ((x0 ≤ x1 ∧ x1 ≤ p.x) ∨ (p.x ≤ x1 ∧ x1 ≤ x0))
      ∧ (isSolidForPlayer o dk = true → AABB32 ({ p with x := x1 } : FRect) o.rect = false) := by
  have hsame : (x0 ≤ p.x ∧ p.x ≤ p.x) ∨ (p.x ≤ p.x ∧ p.x ≤ x0) := by
    rcases hdir with ⟨_, h, _⟩ | ⟨_, _, h⟩
    · exact Or.inl ⟨h, le_refl _⟩
    · exact Or.inr ⟨le_refl _, h⟩
  by_cases hsolid : isSolidForPlayer o dk = true
  swap
  · refine ⟨p.x, ?_, hsame, fun hs => absurd hs hsolid⟩
    unfold resolveXStep32
    rw [if_pos (by simpa using hsolid)]
  by_cases hA : AABB32 p o.rect = true
  swap
  · refine ⟨p.x, ?_, hsame, fun _ => by simpa using hA⟩
    unfold resolveXStep32
    rw [if_neg (by simp [hsolid]), if_pos (by simpa using hA)]
  have hA' := hA
  rw [AABB32_true_iff] at hA'
  obtain ⟨a1, a2, a3, a4⟩ := hA'
  unfold resolveXStep32
  rw [if_neg (by simp [hsolid]), if_neg (by simp [hA])]
  rcases hdir with ⟨hv, hx, hxm'⟩ | ⟨hv, hxm', hx⟩
  · rw [if_pos hv]
    -- the obstacle is ahead: the player is put against its left edge
    have hlt : o.rect.x < p.x + p.w := lt_of_lt_f32 ho a1
    have hsmall : o.rect.x < 2 ^ 24 := by
      rw [hw] at hlt
      norm_num
      linarith
    have hex : f32 (o.rect.x - p.w) = o.rect.x - p.w := by
      rw [hw]
      have := f32_sub_nat o.rect.x 44 ho (by norm_num; exact hox) hsmall
      simpa using this
    rw [hex]
    refine ⟨o.rect.x - p.w, rfl, Or.inl ⟨?_, by linarith⟩, fun _ => ?_⟩
    · rcases hstart hsolid with g | g | g | g
      · linarith
      · exact absurd (le_trans g hx) (not_le.mpr a2)
      · exact absurd g (not_le.mpr a3)
      · exact absurd g (not_le.mpr a4)
    · rw [AABB32_false_iff]
      left
      show f32 (o.rect.x - p.w + p.w) ≤ o.rect.x
      rw [show o.rect.x - p.w + p.w = o.rect.x by ring, ho]
  · rw [if_neg (not_lt.mpr (le_of_lt hv))]
    refine ⟨f32 (o.rect.x + o.rect.w), rfl, Or.inr ⟨le_of_lt a2, ?_⟩, fun _ => ?_⟩
    · rcases hstart hsolid with g | g | g | g
      · have : f32 (p.x + p.w) ≤ o.rect.x := f32_le_of_le ho (by linarith)
        exact absurd this (not_le.mpr a1)
      · exact g
      · exact absurd g (not_le.mpr a3)
      · exact absurd g (not_le.mpr a4)
    · rw [AABB32_false_iff]
      right; left
      exact le_refl _

/-- The horizontal loop in binary32: the player stays between the position
`x0` before the move and the moved position `xm`, and ends clear of every
solid obstacle of the list. -/
theorem foldl_resolveXStep32_inv (dk : Bool) (vx x0 xm y h : ℚ) (hxm : xm ≤ 16000)
    (hdir : (0 < vx ∧ x0 ≤ xm) ∨ (vx < 0 ∧ xm ≤ x0)) (l : List Obstacle) :
    ∀ p : FRect, p.y = y → p.w = 44 → p.h = h →
      ((x0 ≤ p.x ∧ p.x ≤ xm) ∨ (xm ≤ p.x ∧ p.x ≤ x0)) →
      (∀ o ∈ l, isSolidForPlayer o dk = true → FitsNotX x0 xm y 44 h o.rect) →
      (l.foldl (resolveXStep32 dk vx) p).y = y
      ∧ (l.foldl (resolveXStep32 dk vx) p).w = 44
      ∧ (l.foldl (resolveXStep32 dk vx) p).h = h
      ∧ ((x0 ≤ (l.foldl (resolveXStep32 dk vx) p).x ∧ (l.foldl (resolveXStep32 dk vx) p).x ≤ xm)
        ∨ (xm ≤ (l.foldl (resolveXStep32 dk vx) p).x ∧ (l.foldl (resolveXStep32 dk vx) p).x ≤ x0))
      ∧ (∀ j : FRect, FitsNotX x0 xm y 44 h j → AABB32 p j = false →
          AABB32 (l.foldl (resolveXStep32 dk vx) p) j = false)
      ∧ (∀ o ∈ l, isSolidForPlayer o dk = true →
          AABB32 (l.foldl (resolveXStep32 dk vx) p) o.rect = false) := by
  induction l with
  | nil =>
    intro p hy hw hh hr _
    exact ⟨hy, hw, hh, hr, fun _ _ hc => hc, fun o ho => absurd ho (List.not_mem_nil o)⟩
  | cons o l ih =>
    intro p hy hw hh hr H
    rw [List.foldl_cons]
    have hd : (0 < vx ∧ x0 ≤ p.x ∧ p.x ≤ xm) ∨ (vx < 0 ∧ xm ≤ p.x ∧ p.x ≤ x0) := by
      rcases hdir with ⟨hv, hx⟩ | ⟨hv, hx⟩
      · refine Or.inl ⟨hv, ?_⟩
        rcases hr with ⟨a, b⟩ | ⟨a, b⟩
        · exact ⟨a, b⟩
        · exact ⟨by linarith, by linarith⟩
      · refine Or.inr ⟨hv, ?_⟩
        rcases hr with ⟨a, b⟩ | ⟨a, b⟩
        · exact ⟨by linarith, by linarith⟩
        · exact ⟨a, b⟩
    by_cases hsolid : isSolidForPlayer o dk = true
    swap
    · -- not solid: the step leaves the player
      have hstep : resolveXStep32 dk vx p o = p := by
        unfold resolveXStep32
        rw [if_pos (by simpa using hsolid)]
      rw [hstep]
      obtain ⟨i1, i2, i3, i4, i5, i6⟩ := ih p hy hw hh hr
        (fun o' ho' => H o' (List.mem_cons_of_mem _ ho'))
      refine ⟨i1, i2, i3, i4, i5, ?_⟩
      intro o' ho' hs'
      rcases List.mem_cons.mp ho' with rfl | hm
      · exact absurd hs' hsolid
      · exact i6 o' hm hs'
    obtain ⟨fo1, fo2, fo3, fo4, fo5⟩ := H o (List.mem_cons_self _ _) hsolid
    obtain ⟨x1, hx1, hb, hoc⟩ := resolveXStep32_towards dk vx p o x0 xm hw fo1 fo2 hxm hd
      (fun _ => by rw [hy, hw, hh]; exact fo3)
    rw [hx1]
    have hbet : (x0 ≤ x1 ∧ x1 ≤ p.x ∧ p.x ≤ xm) ∨ (xm ≤ p.x ∧ p.x ≤ x1 ∧ x1 ≤ x0) := by
      rcases hd with ⟨hv, c, d⟩ | ⟨hv, c, d⟩
      · rcases hb with ⟨a, b⟩ | ⟨a, b⟩
        · exact Or.inl ⟨a, b, d⟩
        · exact Or.inl ⟨by linarith, by linarith, d⟩
      · rcases hb with ⟨a, b⟩ | ⟨a, b⟩
        · exact Or.inr ⟨c, by linarith, by linarith⟩
        · exact Or.inr ⟨c, a, b⟩
    have hr1 : (x0 ≤ ({ p with x := x1 } : FRect).x ∧ ({ p with x := x1 } : FRect).x ≤ xm)
        ∨ (xm ≤ ({ p with x := x1 } : FRect).x ∧ ({ p with x := x1 } : FRect).x ≤ x0) := by
      show (x0 ≤ x1 ∧ x1 ≤ xm) ∨ (xm ≤ x1 ∧ x1 ≤ x0)
      rcases hbet with ⟨a, b, c⟩ | ⟨a, b, c⟩
      · exact Or.inl ⟨a, by linarith⟩
      · exact Or.inr ⟨by linarith, c⟩
    have hstep : ∀ j : FRect, FitsNotX x0 xm y 44 h j → AABB32 p j = false →
        AABB32 ({ p with x := x1 } : FRect) j = false := by
      intro j ⟨j1, _, j3, j4, j5⟩ hc
      exact clear_between_x32 p j x0 xm x1 j1 (by rw [hy, hw, hh]; exact j3) hc hbet
        (by rw [hw]; exact j4) (by rw [hw]; exact j5)
    obtain ⟨i1, i2, i3, i4, i5, i6⟩ := ih { p with x := x1 } hy hw hh hr1
      (fun o' ho' => H o' (List.mem_cons_of_mem _ ho'))
    refine ⟨i1, i2, i3, i4, fun j hs hc => i5 j hs (hstep j hs hc), ?_⟩
    intro o' ho' hs'
    rcases List.mem_cons.mp ho' with rfl | hm
    · exact i5 o'.rect ⟨fo1, fo2, fo3, fo4, fo5⟩ (hoc hsolid)
    · exact i6 o' hm hs'

/-! ## The binary32 tick: vertical resolution -/

/-- The sums the vertical loop forms with a generated obstacle are whole or
half numbers: none of them is rounded. -/
theorem generated_exact (o : Obstacle) (hg : Generated o) (h : ℚ) (hh : h = 56 ∨ h = 92) :
    f32 o.rect.y = o.rect.y ∧ f32 (o.rect.y + 1 / 2) = o.rect.y + 1 / 2
      ∧ f32 (o.rect.y + 2) = o.rect.y + 2 ∧ f32 (o.rect.y - h) = o.rect.y - h
      ∧ f32 (o.rect.y + o.rect.h) = o.rect.y + o.rect.h
      ∧ f32 (o.rect.y + o.rect.h - 1 / 2) = o.rect.y + o.rect.h - 1 / 2
      ∧ 414 ≤ o.rect.y + o.rect.h ∧ 0 ≤ o.rect.h := by
  have n1 : ∀ n : Nat, n < 2 ^ 24 → f32 (n : ℚ) = n := f32_natCast
  have n2 : ∀ n : Nat, n < 2 ^ 24 → f32 ((n : ℚ) / 2) = (n : ℚ) / 2 := f32_half_natCast
  rcases hg.2 with ⟨-, -, e1, e2⟩ | ⟨-, -, e1, e2⟩ <;> rcases hh with e3 | e3 <;>
    rw [e1, e2, e3] <;> norm_num
  · exact ⟨by simpa using n1 390 (by norm_num), by simpa using n2 781 (by norm_num),
      by simpa using n1 392 (by norm_num), by simpa using n1 334 (by norm_num),
      by simpa using n1 414 (by norm_num), by simpa using n2 827 (by norm_num)⟩
  · exact ⟨by simpa using n1 390 (by norm_num), by simpa using n2 781 (by norm_num),
      by simpa using n1 392 (by norm_num), by simpa using n1 298 (by norm_num),
      by simpa using n1 414 (by norm_num), by simpa using n2 827 (by norm_num)⟩
  · exact ⟨by simpa using n1 412 (by norm_num), by simpa using n2 825 (by norm_num),
      by simpa using n1 414 (by norm_num), by simpa using n1 356 (by norm_num),
      by simpa using n1 460 (by norm_num), by simpa using n2 919 (by norm_num)⟩
  · exact ⟨by simpa using n1 412 (by norm_num), by simpa using n2 825 (by norm_num),
      by simpa using n1 414 (by norm_num), by simpa using n1 320 (by norm_num),
      by simpa using n1 460 (by norm_num), by simpa using n2 919 (by norm_num)⟩

/-- A box the rounded test finds clear of `j` stays clear of it when it is
lifted, unless `j` lies wholly above it. -/
theorem clear_between_y32 (p j : FRect) (y1 yU prevBottom : ℚ)
    (hj : FitsNotY p.x p.w prevBottom yU j) (hclear : AABB32 p j = false)
    (hle : y1 ≤ p.y) (hU : p.y ≤ yU) :
    AABB32 { p with y := y1 } j = false := by
  rw [AABB32_false_iff] at hclear ⊢
  show f32 (p.x + p.w) ≤ j.x ∨ f32 (j.x + j.w) ≤ p.x ∨ f32 (y1 + p.h) ≤ j.y ∨ f32 (j.y + j.h) ≤ y1
  rcases hclear with h | h | h | h
  · exact Or.inl h
  · exact Or.inr (Or.inl h)
  · exact Or.inr (Or.inr (Or.inl (le_trans (f32_mono (by linarith)) h)))
  · rcases hj.1 with g | g | g
    · exact Or.inl g
    · exact Or.inr (Or.inl g)
    · exact absurd ⟨g, le_trans h hU⟩ hj.2

/-- One step of the vertical loop in binary32, for a falling player that was
clear of the obstacle before the move: an overlapped obstacle is landed on,
and the step ends clear of it. -/
theorem resolveYStep32_down (dk : Bool) (prevY prevBottom V h : ℚ) (st : YState) (o : Obstacle)
    (hV : 0 < V) (hh : st.player.h = h) (hh2 : h = 56 ∨ h = 92) (hg : Generated o)
    (hvy : st.vy = V ∨ st.vy = 0)
    (hstart : isSolidForPlayer o dk = true →
      f32 (st.player.x + st.player.w) ≤ o.rect.x ∨ f32 (o.rect.x + o.rect.w) ≤ st.player.x
        ∨ prevBottom ≤ o.rect.y) :
    ∃ (y1 v : ℚ) (g : Bool),
      resolveYStep32 dk prevY prevBottom st o
          = { player := { st.player with y := y1 }, vy := v, onGround := g }
        ∧ (v = V ∨ v = 0) ∧ y1 ≤ st.player.y
        ∧ (isSolidForPlayer o dk = true →
            AABB32 ({ st.player with y := y1 } : FRect) o.rect = false) := by
  by_cases hsolid : isSolidForPlayer o dk = true
  swap
  · refine ⟨st.player.y, st.vy, st.onGround, ?_, hvy, le_refl _, fun hs => absurd hs hsolid⟩
    unfold resolveYStep32
    rw [if_pos (by simpa using hsolid)]
  by_cases hA : AABB32 st.player o.rect = true
  swap
  · refine ⟨st.player.y, st.vy, st.onGround, ?_, hvy, le_refl _, fun _ => by simpa using hA⟩
    unfold resolveYStep32
    rw [if_neg (by simp [hsolid]), if_pos (by simpa using hA)]
  have hA' := hA
  rw [AABB32_true_iff] at hA'
  obtain ⟨a1, a2, a3, a4⟩ := hA'
  obtain ⟨e1, e2, e3, e4, -, -, -, -⟩ := generated_exact o hg h hh2
  have hpb : prevBottom ≤ o.rect.y := by
    rcases hstart hsolid with g | g | g
    · exact absurd g (not_le.mpr a1)
    · exact absurd g (not_le.mpr a2)
    · exact g
  have hlt : o.rect.y < st.player.y + st.player.h := lt_of_lt_f32 e1 a3
  have hc1 : AABB32 ({ st.player with y := o.rect.y - h } : FRect) o.rect = false := by
    rw [AABB32_false_iff]
    refine Or.inr (Or.inr (Or.inl ?_))
    show f32 (o.rect.y - h + st.player.h) ≤ o.rect.y
    rw [hh, show o.rect.y - h + h = o.rect.y by ring, e1]
  unfold resolveYStep32
  rw [if_neg (by simp [hsolid]), if_neg (by simp [hA])]
  dsimp only
  have e4' : f32 (o.rect.y - st.player.h) = o.rect.y - h := by rw [hh, e4]
  rw [e4']
  rcases hvy with e | e
  · rw [e, if_pos hV, if_pos (by
      simp only [Bool.and_eq_true, decide_eq_true_eq]
      rw [e2]
      exact ⟨by linarith, le_of_lt a3⟩)]
    exact ⟨o.rect.y - h, 0, true, rfl, Or.inr rfl, by linarith, fun _ => hc1⟩
  · rw [e, if_neg (lt_irrefl 0), if_neg (lt_irrefl 0), if_pos (by rw [e3]; linarith)]
    exact ⟨o.rect.y - h, 0, true, rfl, Or.inr rfl, by linarith, fun _ => hc1⟩

/-- The vertical loop in binary32 for a falling player: it never rises above
the moved position `yU` and ends clear of every solid obstacle of the list. -/
theorem foldl_resolveYStep32_inv (dk : Bool) (prevY prevBottom V x h yU : ℚ) (hV : 0 < V)
    (hh2 : h = 56 ∨ h = 92) (l : List Obstacle) :
    ∀ st : YState, st.player.x = x → st.player.w = 44 → st.player.h = h →
      (st.vy = V ∨ st.vy = 0) → st.player.y ≤ yU →
      (∀ o ∈ l, Generated o ∧
        (isSolidForPlayer o dk = true → FitsNotY x 44 prevBottom yU o.rect)) →
      (l.foldl (resolveYStep32 dk prevY prevBottom) st).player.x = x
      ∧ (l.foldl (resolveYStep32 dk prevY prevBottom) st).player.w = 44
      ∧ (l.foldl (resolveYStep32 dk prevY prevBottom) st).player.h = h
      ∧ (l.foldl (resolveYStep32 dk prevY prevBottom) st).player.y ≤ yU
      ∧ (∀ j : FRect, FitsNotY x 44 prevBottom yU j → AABB32 st.player j = false →
          AABB32 (l.foldl (resolveYStep32 dk prevY prevBottom) st).player j = false)
      ∧ (∀ o ∈ l, isSolidForPlayer o dk = true →
          AABB32 (l.foldl (resolveYStep32 dk prevY prevBottom) st).player o.rect = false) := by
  induction l with
  | nil =>
    intro st hx hw hh _ hU _
    exact ⟨hx, hw, hh, hU, fun _ _ hc => hc, fun o ho => absurd ho (List.not_mem_nil o)⟩
  | cons o l ih =>
    intro st hx hw hh hvy hU H
    rw [List.foldl_cons]
    obtain ⟨hgen, hfit⟩ := H o (List.mem_cons_self _ _)
    obtain ⟨y1, v, g, hstep, hv, hle, hoc⟩ := resolveYStep32_down dk prevY prevBottom V h st o hV hh
      hh2 hgen hvy (fun hs => by rw [hx, hw]; exact (hfit hs).1)
    rw [hstep]
    have hkeep : ∀ j : FRect, FitsNotY x 44 prevBottom yU j → AABB32 st.player j = false →
        AABB32 ({ st.player with y := y1 } : FRect) j = false := by
      intro j hj hc
      exact clear_between_y32 st.player j y1 yU prevBottom (by rw [hx, hw]; exact hj) hc hle hU
    obtain ⟨i1, i2, i3, i4, i5, i6⟩ := ih
      { player := { st.player with y := y1 }, vy := v, onGround := g } hx hw hh hv
      (by show y1 ≤ yU; linarith) (fun o' ho' => H o' (List.mem_cons_of_mem _ ho'))
    refine ⟨i1, i2, i3, i4, fun j hj hc => i5 j hj (hkeep j hj hc), ?_⟩
    intro o' ho' hs'
    rcases List.mem_cons.mp ho' with rfl | hm
    · exact i5 o'.rect (hfit hs') (hoc hs')
    · exact i6 o' hm hs'

theorem resolveYStep32_of_clear (dk : Bool) (a b : ℚ) (st : YState) (o : Obstacle)
    (h : isSolidForPlayer o dk = true → AABB32 st.player o.rect = false) :
    resolveYStep32 dk a b st o = st := by
  unfold resolveYStep32
  by_cases hs : isSolidForPlayer o dk = true
  · rw [if_neg (by simp [hs]), if_pos (by simp [h hs])]
  · rw [if_pos (by simpa using hs)]

theorem foldl_resolveYStep32_of_clear (dk : Bool) (a b : ℚ) (st : YState) (l : List Obstacle)
    (h : ∀ o ∈ l, isSolidForPlayer o dk = true → AABB32 st.player o.rect = false) :
    l.foldl (resolveYStep32 dk a b) st = st := by
  induction l with
  | nil => rfl
  | cons o l ih =>
    rw [List.foldl_cons, resolveYStep32_of_clear dk a b st o (h o (List.mem_cons_self _ _))]
    exact ih (fun o' ho' => h o' (List.mem_cons_of_mem _ ho'))

/-! ## The binary32 tick: the player phases clear the player -/

theorem moveX32_eq (b : GameScene) (dt : ℚ) :
    (b.moveX32 dt).player =
      if b.vx ≠ 0 then b.obstacles.foldl (resolveXStep32 b.ducking b.vx) (b.xMoved32 dt)
      else b.xMoved32 dt := rfl

theorem moveY32_eq (b : GameScene) (dt a c : ℚ) :
    (b.moveY32 dt a c).player
        = (b.obstacles.foldl (resolveYStep32 b.ducking a c)
            { player := b.yMoved32 dt, vy := b.vy, onGround := false }).player
      ∧ (b.moveY32 dt a c).vy
        = (b.obstacles.foldl (resolveYStep32 b.ducking a c)
            { player := b.yMoved32 dt, vy := b.vy, onGround := false }).vy
      ∧ (b.moveY32 dt a c).onGround
        = (b.obstacles.foldl (resolveYStep32 b.ducking a c)
            { player := b.yMoved32 dt, vy := b.vy, onGround := false }).onGround := by
  unfold GameScene.moveY32 GameScene.yMoved32
  dsimp only
  exact ⟨rfl, rfl, rfl⟩

theorem xMoved32_size (b : GameScene) (dt : ℚ) :
    (b.xMoved32 dt).w = b.player.w ∧ (b.xMoved32 dt).h = b.player.h
      ∧ (b.xMoved32 dt).y = b.player.y := by
  unfold GameScene.xMoved32
  dsimp only
  split <;> exact ⟨rfl, rfl, rfl⟩

/-- The moved position in binary32, for a player at or right of the left
boundary whose position is a binary32 value: it lies on the side of the old
position the velocity points to, at or right of the rounded sum. -/
theorem xMoved32_between (b : GameScene) (dt : ℚ) (hdt : 0 ≤ dt) (hx : 30 ≤ b.player.x)
    (hxr : f32 b.player.x = b.player.x) :
    (b.vx = 0 → (b.xMoved32 dt).x = b.player.x)
      ∧ (0 < b.vx → b.player.x ≤ (b.xMoved32 dt).x)
      ∧ (b.vx < 0 → (b.xMoved32 dt).x ≤ b.player.x)
      ∧ f32 (b.player.x + f32 (b.vx * dt)) ≤ (b.xMoved32 dt).x
      ∧ (b.xMoved32 dt).x ≤ max b.player.x (f32 (b.player.x + f32 (b.vx * dt))) := by
  have hpos : 0 ≤ b.vx → b.player.x ≤ f32 (b.player.x + f32 (b.vx * dt)) := by
    intro hp
    have : 0 ≤ f32 (b.vx * dt) := f32_nonneg (mul_nonneg hp hdt)
    exact le_f32_of_le hxr (by linarith)
  have hneg : b.vx ≤ 0 → f32 (b.player.x + f32 (b.vx * dt)) ≤ b.player.x := by
    intro hn
    have h1 : f32 (b.vx * dt) ≤ 0 := by
      have := f32_mono (mul_nonpos_of_nonpos_of_nonneg hn hdt)
      rwa [f32_zero] at this
    exact f32_le_of_le hxr (by linarith)
  unfold GameScene.xMoved32
  dsimp only
  split
  · rename_i hc
    have hc' : f32 (b.player.x + f32 (b.vx * dt)) < 30 := hc
    refine ⟨fun h0 => ?_, fun hp => ?_, fun _ => hx, le_of_lt hc', le_trans hx (le_max_left _ _)⟩
    · have := hpos (le_of_eq h0.symm)
      linarith
    · have := hpos (le_of_lt hp)
      linarith
  · refine ⟨fun h0 => ?_, fun hp => hpos (le_of_lt hp), fun hn => hneg (le_of_lt hn),
      le_refl _, le_max_right _ _⟩
    exact le_antisymm (hneg (le_of_eq h0)) (hpos (le_of_eq h0.symm))

/-- An obstacle at least one unit wider than the computed displacement
leaves room for, cannot fit between the old and the moved position of the
player: the two roundings of the move amount to less than one unit. -/
theorem fits_of_margin (x0 m xm jx jw : ℚ) (hx0 : 30 ≤ x0) (hx1 : x0 ≤ 8192)
    (hjw0 : 0 ≤ jw) (hjw : jw ≤ 140) (hm : |m| + 1 ≤ 44 + jw)
    (hxm1 : f32 (x0 + m) ≤ xm) (hxm2 : xm ≤ max x0 (f32 (x0 + m))) :
    ¬ (x0 + 44 ≤ jx ∧ f32 (jx + jw) ≤ xm) ∧ ¬ (f32 (jx + jw) ≤ x0 ∧ f32 (xm + 44) ≤ jx) := by
  have hm1 : m ≤ |m| := le_abs_self m
  have hm2 : -|m| ≤ m := neg_abs_le m
  have n1 := f32_near (x0 + m) (by rw [abs_le]; constructor <;> linarith)
  rw [abs_le] at n1
  have hxmU : xm ≤ x0 + 43 + jw + 1 / 1024 := by
    refine le_trans hxm2 (max_le (by linarith) (by linarith [n1.2]))
  constructor
  · rintro ⟨g1, g2⟩
    have n2 := f32_near (x0 + 44 + jw) (by rw [abs_le]; constructor <;> linarith)
    rw [abs_le] at n2
    have := f32_mono (show x0 + 44 + jw ≤ jx + jw by linarith)
    linarith [n2.1]
  · rintro ⟨g1, g2⟩
    have hxmL : x0 + m - 1 / 1024 ≤ xm := by linarith [n1.1]
    have n2 := f32_near (x0 + m - 1 / 1024 + 44) (by rw [abs_le]; constructor <;> linarith)
    rw [abs_le] at n2
    have h1 := f32_mono (show x0 + m - 1 / 1024 + 44 ≤ xm + 44 by linarith)
    have hjx : x0 + m + 44 - 2 / 1024 ≤ jx := by linarith [n2.1]
    have hlt : jx + jw < x0 + 1 / 2 := by
      by_contra hc
      have n3 := f32_near (x0 + 1 / 2) (by rw [abs_le]; constructor <;> linarith)
      rw [abs_le] at n3
      have := f32_mono (not_lt.mp hc)
      linarith [n3.1]
    linarith

/-- The horizontal phase of a binary32 tick without horizontal tunnelling:
the player keeps `y`, `w`, `h` and ends clear of every solid obstacle by the
rounded test. -/
theorem moveX32_clear (b : GameScene) (dt : ℚ) (hdt : 0 ≤ dt) (hw : b.player.w = 44)
    (hx : 30 ≤ b.player.x) (hx2 : b.player.x ≤ 8192) (hxr : f32 b.player.x = b.player.x)
    (H : ∀ o ∈ b.obstacles, f32 o.rect.x = o.rect.x ∧ 44 ≤ o.rect.x ∧ 0 ≤ o.rect.w
      ∧ o.rect.w ≤ 140 ∧ |f32 (b.vx * dt)| + 1 ≤ 44 + o.rect.w
      ∧ (isSolidForPlayer o b.ducking = true →
          b.player.x + 44 ≤ o.rect.x ∨ f32 (o.rect.x + o.rect.w) ≤ b.player.x
            ∨ f32 (b.player.y + b.player.h) ≤ o.rect.y
            ∨ f32 (o.rect.y + o.rect.h) ≤ b.player.y)) :
    (b.moveX32 dt).player.y = b.player.y ∧ (b.moveX32 dt).player.w = 44
      ∧ (b.moveX32 dt).player.h = b.player.h
      ∧ ∀ o ∈ b.obstacles, isSolidForPlayer o b.ducking = true →
          AABB32 (b.moveX32 dt).player o.rect = false := by
  obtain ⟨sw, sh, sy⟩ := xMoved32_size b dt
  obtain ⟨h0, hpos, hneg, hlo, hhi⟩ := xMoved32_between b dt hdt hx hxr
  rw [moveX32_eq]
  by_cases hv : b.vx = 0
  · rw [if_neg (by simpa using hv)]
    refine ⟨sy, sw.trans hw, sh, fun o ho hs => ?_⟩
    obtain ⟨o1, -, -, -, -, o6⟩ := H o ho
    rw [AABB32_false_iff, sw, sh, sy, h0 hv, hw]
    rcases o6 hs with g | g | g | g
    · exact Or.inl (f32_le_of_le o1 g)
    · exact Or.inr (Or.inl g)
    · exact Or.inr (Or.inr (Or.inl g))
    · exact Or.inr (Or.inr (Or.inr g))
  · rw [if_pos hv]
    by_cases hne : b.obstacles = []
    · rw [hne]
      exact ⟨sy, sw.trans hw, sh, fun o ho => absurd ho (List.not_mem_nil o)⟩
    obtain ⟨o0, ho0⟩ := List.exists_mem_of_ne_nil _ hne
    obtain ⟨-, -, -, q4, q5, -⟩ := H o0 ho0
    have hm1 : f32 (b.vx * dt) ≤ |f32 (b.vx * dt)| := le_abs_self _
    have hm2 : -|f32 (b.vx * dt)| ≤ f32 (b.vx * dt) := neg_abs_le _
    have n1 := f32_near (b.player.x + f32 (b.vx * dt)) (by rw [abs_le]; constructor <;> linarith)
    rw [abs_le] at n1
    have hxm : (b.xMoved32 dt).x ≤ 16000 :=
      le_trans hhi (max_le (by linarith) (by linarith [n1.2]))
    have hdir : (0 < b.vx ∧ b.player.x ≤ (b.xMoved32 dt).x)
        ∨ (b.vx < 0 ∧ (b.xMoved32 dt).x ≤ b.player.x) := by
      rcases lt_or_gt_of_ne hv with hn | hp
      · exact Or.inr ⟨hn, hneg hn⟩
      · exact Or.inl ⟨hp, hpos hp⟩
    have hr : (b.player.x ≤ (b.xMoved32 dt).x ∧ (b.xMoved32 dt).x ≤ (b.xMoved32 dt).x)
        ∨ ((b.xMoved32 dt).x ≤ (b.xMoved32 dt).x ∧ (b.xMoved32 dt).x ≤ b.player.x) := by
      rcases hdir with ⟨_, h⟩ | ⟨_, h⟩
      · exact Or.inl ⟨h, le_refl _⟩
      · exact Or.inr ⟨le_refl _, h⟩
    obtain ⟨i1, i2, i3, -, -, i6⟩ := foldl_resolveXStep32_inv b.ducking b.vx b.player.x
      (b.xMoved32 dt).x b.player.y b.player.h hxm hdir b.obstacles (b.xMoved32 dt) sy
      (sw.trans hw) sh hr
      (fun o ho hs => by
        obtain ⟨o1, o2, o3, o4, o5, o6⟩ := H o ho
        obtain ⟨f1, f2⟩ := fits_of_margin b.player.x (f32 (b.vx * dt)) (b.xMoved32 dt).x
          o.rect.x o.rect.w hx hx2 o3 o4 o5 hlo hhi
        exact ⟨o1, o2, o6 hs, f1, f2⟩)
    exact ⟨i1, i2, i3, i6⟩

/-- An obstacle at least one unit higher than the computed fall leaves room
for cannot lie wholly between the feet before the move and the head after it. -/
theorem fits_of_fall (y0 h m prevBottom : ℚ) (o : Obstacle) (hg : Generated o)
    (hh2 : h = 56 ∨ h = 92) (hpb : prevBottom = f32 (y0 + h))
    (hm : |m| + 1 ≤ h + o.rect.h) :
    ¬ (prevBottom ≤ o.rect.y ∧ f32 (o.rect.y + o.rect.h) ≤ f32 (y0 + m)) := by
  obtain ⟨-, e2, -, -, e5, e6, -, -⟩ := generated_exact o hg h hh2
  rintro ⟨g1, g2⟩
  rw [e5] at g2
  have h1 : y0 + h < o.rect.y + 1 / 2 := by
    by_contra hc
    have := le_f32_of_le e2 (not_lt.mp hc)
    rw [← hpb] at this
    linarith
  have h2 : o.rect.y + o.rect.h - 1 / 2 < y0 + m := by
    by_contra hc
    have := f32_le_of_le e6 (not_lt.mp hc)
    linarith
  have := le_abs_self m
  linarith

/-- The vertical phase and the floor clamp of a binary32 tick without
vertical tunnelling, for a player the rounded test finds clear of every solid
obstacle: it ends clear of every solid obstacle. -/
theorem settle32_clear (c : GameScene) (dt : ℚ) (hdt : 0 ≤ dt) (hw : c.player.w = 44)
    (hh2 : c.player.h = 56 ∨ c.player.h = 92) (hfeet : c.player.y + c.player.h ≤ groundY)
    (hyr : f32 c.player.y = c.player.y)
    (H : ∀ o ∈ c.obstacles, Generated o ∧ |f32 (c.vy * dt)| + 1 ≤ c.player.h + o.rect.h
      ∧ (isSolidForPlayer o c.ducking = true → AABB32 c.player o.rect = false)) :
    ∀ o ∈ c.obstacles, isSolidForPlayer o c.ducking = true →
      AABB32 ((c.moveY32 dt c.player.y (f32 (c.player.y + c.player.h))).worldGround32).player
        o.rect = false := by
  -- the start of every solid obstacle: beside the player or under its feet
  have hstart : ∀ o ∈ c.obstacles, isSolidForPlayer o c.ducking = true →
      f32 (c.player.x + 44) ≤ o.rect.x ∨ f32 (o.rect.x + o.rect.w) ≤ c.player.x
        ∨ f32 (c.player.y + c.player.h) ≤ o.rect.y := by
    intro o ho hs
    obtain ⟨hg, -, hc⟩ := H o ho
    have hc := hc hs
    rw [AABB32_false_iff, hw] at hc
    obtain ⟨-, -, -, -, e5, -, e7, -⟩ := generated_exact o hg c.player.h hh2
    rcases hc with g | g | g | g
    · exact Or.inl g
    · exact Or.inr (Or.inl g)
    · exact Or.inr (Or.inr g)
    · rw [e5] at g
      have : c.player.h ≥ 56 := by rcases hh2 with e | e <;> linarith
      unfold groundY at hfeet
      linarith
  have hnobelow : ∀ o ∈ c.obstacles, ¬ f32 (o.rect.y + o.rect.h) ≤ c.player.y := by
    intro o ho g
    obtain ⟨hg, -, -⟩ := H o ho
    obtain ⟨-, -, -, -, e5, -, e7, -⟩ := generated_exact o hg c.player.h hh2
    rw [e5] at g
    have : c.player.h ≥ 56 := by rcases hh2 with e | e <;> linarith
    unfold groundY at hfeet
    linarith
  obtain ⟨hmy, -, -⟩ := moveY32_eq c dt c.player.y (f32 (c.player.y + c.player.h))
  have hwg : ∀ t : GameScene, (t.worldGround32).player =
      if t.player.y ≥ f32 (groundY - t.player.h) then
        { t.player with y := f32 (groundY - t.player.h) } else t.player := by
    intro t
    unfold GameScene.worldGround32
    dsimp only
    split <;> rfl
  rw [hwg, hmy]
  have hym : c.yMoved32 dt = { c.player with y := f32 (c.player.y + f32 (c.vy * dt)) } := rfl
  rw [hym]
  generalize hpc : c.player = pc at hw hh2 hfeet hyr H hstart hnobelow ⊢
  generalize hV : c.vy = V at H ⊢
  rcases lt_or_le 0 V with hpos | hnp
  · -- falling
    have hm0 : 0 ≤ f32 (V * dt) := f32_nonneg (mul_nonneg (le_of_lt hpos) hdt)
    obtain ⟨i1, i2, i3, i4, -, i6⟩ := foldl_resolveYStep32_inv c.ducking pc.y (f32 (pc.y + pc.h)) V
      pc.x pc.h (f32 (pc.y + f32 (V * dt))) hpos hh2 c.obstacles
      { player := { pc with y := f32 (pc.y + f32 (V * dt)) }, vy := V, onGround := false }
      rfl hw rfl (Or.inl rfl) (le_refl _)
      (fun o ho => ⟨(H o ho).1, fun hs =>
        ⟨hstart o ho hs, fits_of_fall pc.y pc.h (f32 (V * dt)) _ o (H o ho).1 hh2 rfl (H o ho).2.1⟩⟩)
    generalize (c.obstacles.foldl (resolveYStep32 c.ducking pc.y (f32 (pc.y + pc.h)))
      { player := { pc with y := f32 (pc.y + f32 (V * dt)) }, vy := V, onGround := false }).player
      = pr at i1 i2 i3 i4 i6 ⊢
    intro o ho hs
    split
    · rename_i hfl
      exact clear_between_y32 pr o.rect _ (f32 (pc.y + f32 (V * dt))) (f32 (pc.y + pc.h))
        (by rw [i1, i2]
            exact ⟨hstart o ho hs,
              fits_of_fall pc.y pc.h (f32 (V * dt)) _ o (H o ho).1 hh2 rfl (H o ho).2.1⟩)
        (i6 o ho hs) hfl i4
    · exact i6 o ho hs
  · -- rising or at rest: the player only moves away from what is under it
    have hm0 : f32 (V * dt) ≤ 0 := by
      have := f32_mono (mul_nonpos_of_nonpos_of_nonneg hnp hdt)
      rwa [f32_zero] at this
    have hy1 : f32 (pc.y + f32 (V * dt)) ≤ pc.y := f32_le_of_le hyr (by linarith)
    have hclr : ∀ o ∈ c.obstacles, isSolidForPlayer o c.ducking = true →
        AABB32 ({ pc with y := f32 (pc.y + f32 (V * dt)) } : FRect) o.rect = false := by
      intro o ho hs
      rw [AABB32_false_iff]
      show f32 (pc.x + pc.w) ≤ o.rect.x ∨ f32 (o.rect.x + o.rect.w) ≤ pc.x
        ∨ f32 (f32 (pc.y + f32 (V * dt)) + pc.h) ≤ o.rect.y
        ∨ f32 (o.rect.y + o.rect.h) ≤ f32 (pc.y + f32 (V * dt))
      rw [hw]
      rcases hstart o ho hs with g | g | g
      · exact Or.inl g
      · exact Or.inr (Or.inl g)
      · exact Or.inr (Or.inr (Or.inl (le_trans (f32_mono (by linarith)) g)))
    rw [foldl_resolveYStep32_of_clear c.ducking pc.y (f32 (pc.y + pc.h))
      { player := { pc with y := f32 (pc.y + f32 (V * dt)) }, vy := V, onGround := false }
      c.obstacles hclr]
    intro o ho hs
    split
    · rename_i hfl
      exact clear_between_y32 ({ pc with y := f32 (pc.y + f32 (V * dt)) } : FRect) o.rect _ pc.y
        (f32 (pc.y + pc.h))
        (by show FitsNotY pc.x pc.w _ _ _
            rw [hw]
            exact ⟨hstart o ho hs, fun g => hnobelow o ho g.2⟩)
        (hclr o ho hs) hfl hy1
    · exact hclr o ho hs

theorem inputHorizontal32_keeps (s : GameScene) :
    (s.inputHorizontal32).player = s.player ∧ (s.inputHorizontal32).ducking = s.ducking
      ∧ (s.inputHorizontal32).duckHeld = s.duckHeld ∧ (s.inputHorizontal32).onGround = s.onGround
      ∧ (s.inputHorizontal32).obstacles = s.obstacles ∧ (s.inputHorizontal32).vy = s.vy
      ∧ (s.inputHorizontal32).jumpPressed = s.jumpPressed := by
  unfold GameScene.inputHorizontal32
  cases h1 : s.leftHeld <;> cases h2 : s.rightHeld <;> simp [h1, h2]

theorem inputJump_obstacles (s : GameScene) : (s.inputJump).obstacles = s.obstacles := by
  unfold GameScene.inputJump
  split <;> rfl

theorem inputJump_vx (s : GameScene) : (s.inputJump).vx = s.vx := by
  unfold GameScene.inputJump
  split <;> rfl

/-- The duck transition in binary32 from a well-formed player on the grid:
the obstacles, `x` and `w` stay, the height is 56 or 92, the feet stay on or
above the ground line, the new `y` is a binary32 value, and the player is
clear, by the rounded test, of every obstacle that is solid for the new duck
state. -/
theorem inputDuck32_ready (s : GameScene)
    (hh : s.player.h = if s.ducking then 56 else 92)
    (hfeet : s.player.y + s.player.h ≤ groundY) (hy : f32 s.player.y = s.player.y)
    (hgen : ∀ o ∈ s.obstacles, Generated o)
    (hpre : ∀ o ∈ s.obstacles, isSolidForPlayer o s.ducking = true →
      AABB32 s.player o.rect = false) :
    (s.inputDuck32).obstacles = s.obstacles ∧ (s.inputDuck32).player.x = s.player.x
      ∧ (s.inputDuck32).player.w = s.player.w
      ∧ ((s.inputDuck32).player.h = 56 ∨ (s.inputDuck32).player.h = 92)
      ∧ (s.inputDuck32).player.y + (s.inputDuck32).player.h ≤ groundY
      ∧ f32 (s.inputDuck32).player.y = (s.inputDuck32).player.y
      ∧ (s.inputDuck32).vx = s.vx ∧ (s.inputDuck32).vy = s.vy
      ∧ ∀ o ∈ s.obstacles, isSolidForPlayer o (s.inputDuck32).ducking = true →
          AABB32 (s.inputDuck32).player o.rect = false := by
  have hsame : s.player.h = 56 ∨ s.player.h = 92 := by
    rw [hh]; split
    · exact Or.inl rfl
    · exact Or.inr rfl
  have e36 : f32 (36 : ℚ) = 36 := by simpa using f32_natCast 36 (by norm_num)
  unfold groundY at hfeet ⊢
  unfold GameScene.inputDuck32
  split
  · split
    · -- the player enters the duck
      rename_i hd
      have hd' : s.ducking = false := by simpa using hd
      rw [hd'] at hh hpre
      simp only [if_false, Bool.false_eq_true] at hh
      have e1 : f32 (s.player.h - 56) = 36 := by rw [hh]; norm_num; exact e36
      have ey : s.player.y ≤ f32 (s.player.y + 36) := le_f32_of_le hy (by linarith)
      refine ⟨rfl, rfl, rfl, Or.inl rfl, ?_, ?_, rfl, rfl, ?_⟩
      · show f32 (s.player.y + f32 (s.player.h - 56)) + 56 ≤ 460
        rw [e1]
        have := f32_le_of_le (show f32 (404 : ℚ) = 404 by simpa using f32_natCast 404 (by norm_num))
          (show s.player.y + 36 ≤ 404 by linarith)
        linarith
      · show f32 (f32 (s.player.y + f32 (s.player.h - 56))) = _
        exact f32_f32 _
      · intro o ho hs
        have h0 := hpre o ho (isSolidForPlayer_mono o false hs)
        rw [AABB32_false_iff] at h0 ⊢
        show f32 (s.player.x + s.player.w) ≤ o.rect.x ∨ f32 (o.rect.x + o.rect.w) ≤ s.player.x
          ∨ f32 (f32 (s.player.y + f32 (s.player.h - 56)) + 56) ≤ o.rect.y
          ∨ f32 (o.rect.y + o.rect.h) ≤ f32 (s.player.y + f32 (s.player.h - 56))
        rw [e1]
        rcases h0 with h | h | h | h
        · exact Or.inl h
        · exact Or.inr (Or.inl h)
        · refine Or.inr (Or.inr (Or.inl ?_))
          rw [hh] at h
          rcases le_or_lt 256 s.player.y with hb | hs
          · have := f32_add_nat_512 s.player.y 36 hy hb (by norm_num; linarith)
            norm_num at this
            rw [this, show s.player.y + 36 + 56 = s.player.y + 92 by ring]
            exact h
          · have t1 := f32_le_of_le
              (show f32 (292 : ℚ) = 292 by simpa using f32_natCast 292 (by norm_num))
              (show s.player.y + 36 ≤ 292 by linarith)
            have t2 := f32_le_of_le
              (show f32 (348 : ℚ) = 348 by simpa using f32_natCast 348 (by norm_num))
              (show f32 (s.player.y + 36) + 56 ≤ 348 by linarith)
            have : 390 ≤ o.rect.y := by
              rcases (hgen o ho).2 with ⟨-, -, -, e⟩ | ⟨-, -, -, e⟩ <;> linarith
            linarith
        · exact Or.inr (Or.inr (Or.inr (le_trans h ey)))
    · exact ⟨rfl, rfl, rfl, hsame, hfeet, hy, rfl, rfl, hpre⟩
  · split
    · rename_i hd
      rw [hd] at hh
      simp only [if_true] at hh
      split
      · -- the player stands up: the test found its box clear
        rename_i hb
        have hb' : s.standBlocked32 = false := by simpa using hb
        have e1 : f32 ((92 : ℚ) - s.player.h) = 36 := by rw [hh]; norm_num; exact e36
        refine ⟨rfl, rfl, rfl, Or.inr rfl, ?_, ?_, rfl, rfl, ?_⟩
        · show f32 (s.player.y - f32 (92 - s.player.h)) + 92 ≤ 460
          rw [e1]
          have := f32_le_of_le
            (show f32 (368 : ℚ) = 368 by simpa using f32_natCast 368 (by norm_num))
            (show s.player.y - 36 ≤ 368 by linarith)
          linarith
        · show f32 (f32 (s.player.y - f32 (92 - s.player.h))) = _
          exact f32_f32 _
        · intro o ho _
          unfold GameScene.standBlocked32 at hb'
          rw [List.any_eq_false] at hb'
          have := hb' o ho
          rw [isSolidForPlayer_standing, Bool.true_and] at this
          simpa using this
      · exact ⟨rfl, rfl, rfl, hsame, hfeet, hy, rfl, rfl, by rw [hd] at hpre; rw [hd]; exact hpre⟩
    · exact ⟨rfl, rfl, rfl, hsame, hfeet, hy, rfl, rfl, hpre⟩

/-- The state after `applyInput` in binary32, from a well-formed state on the
grid whose player the rounded test finds clear of every solid obstacle. -/
theorem applyInput32_ready (s : GameScene) (hwf : WellFormed s)
    (hy : f32 s.player.y = s.player.y)
    (hpre : ∀ o ∈ s.obstacles, isSolidForPlayer o s.ducking = true →
      AABB32 s.player o.rect = false) :
    (s.applyInput32).obstacles = s.obstacles ∧ (s.applyInput32).player.x = s.player.x
      ∧ (s.applyInput32).player.w = 44
      ∧ ((s.applyInput32).player.h = 56 ∨ (s.applyInput32).player.h = 92)
      ∧ (s.applyInput32).player.y + (s.applyInput32).player.h ≤ groundY
      ∧ f32 (s.applyInput32).player.y = (s.applyInput32).player.y
      ∧ ∀ o ∈ s.obstacles, isSolidForPlayer o (s.applyInput32).ducking = true →
          AABB32 (s.applyInput32).player o.rect = false := by
  obtain ⟨k1, k2, -, -, k5, -, -⟩ := inputHorizontal32_keeps s
  obtain ⟨d1, d2, d3, d4, d5, d6, -, -, d9⟩ := inputDuck32_ready s.inputHorizontal32
    (by rw [k1, k2]; exact hwf.height) (by rw [k1]; exact hwf.feet) (by rw [k1]; exact hy)
    (by rw [k5]; exact hwf.obstacles) (by rw [k1, k2, k5]; exact hpre)
  unfold GameScene.applyInput32
  rw [inputJump_player, inputJump_ducking, inputJump_obstacles]
  rw [k1] at d2 d3
  rw [k5] at d1 d9
  exact ⟨d1, d2, d3.trans hwf.width, d4, d5, d6, d9⟩

theorem worldGround32_keeps (s : GameScene) :
    (s.worldGround32).ducking = s.ducking ∧ (s.worldGround32).obstacles = s.obstacles
      ∧ (s.worldGround32).bull = s.bull ∧ (s.worldGround32).bullSpeed = s.bullSpeed
      ∧ (s.worldGround32).player.x = s.player.x ∧ (s.worldGround32).player.w = s.player.w
      ∧ (s.worldGround32).player.h = s.player.h := by
  unfold GameScene.worldGround32
  dsimp only
  split <;> exact ⟨rfl, rfl, rfl, rfl, rfl, rfl, rfl⟩

theorem resolvePlayer32_eq (s : GameScene) (dt : ℚ) :
    s.resolvePlayer32 dt =
      (((s.applyInput32).integrate32 dt).moveX32 dt).moveY32 dt (s.applyInput32).player.y
        (f32 ((s.applyInput32).player.y + (s.applyInput32).player.h)) := by
  generalize ha : s.applyInput32 = a
  unfold GameScene.resolvePlayer32
  rw [ha]
  rfl

theorem movePlayer32_keeps (s : GameScene) (dt : ℚ) :
    (s.movePlayer32 dt).ducking = (s.applyInput32).ducking
      ∧ (s.movePlayer32 dt).obstacles = (s.applyInput32).obstacles
      ∧ (s.movePlayer32 dt).bull = (s.applyInput32).bull
      ∧ (s.movePlayer32 dt).bullSpeed = (s.applyInput32).bullSpeed := by
  unfold GameScene.movePlayer32
  obtain ⟨w1, w2, w3, w4, -, -, -⟩ := worldGround32_keeps (s.resolvePlayer32 dt)
  rw [w1, w2, w3, w4, resolvePlayer32_eq]
  generalize s.applyInput32 = a
  exact ⟨rfl, rfl, rfl, rfl⟩

/-- The movement of the player in binary32, without tunnelling: from a
well-formed state on the grid whose player the rounded test finds clear of
every solid obstacle, with no overlap hidden by the rounding of the player's
right edge, the player ends clear of every solid obstacle. -/
theorem movePlayer32_clear (s : GameScene) (dt : ℚ) (hwf : WellFormed s) (hg : OnGrid s)
    (hxmax : s.player.x ≤ 8192) (hdt : 0 ≤ dt)
    (hpre : ∀ o ∈ s.obstacles, isSolidForPlayer o s.ducking = true →
      AABB32 s.player o.rect = false)
    (hedge : ∀ o ∈ s.obstacles, f32 (s.player.x + s.player.w) ≤ o.rect.x →
      s.player.x + s.player.w ≤ o.rect.x)
    (hrun : ∀ o ∈ s.obstacles,
      |f32 ((s.applyInput32).vx * dt)| + 1 ≤ (s.applyInput32).player.w + o.rect.w)
    (hfall : ∀ o ∈ s.obstacles,
      |f32 (((s.applyInput32).integrate32 dt).vy * dt)| + 1
        ≤ (s.applyInput32).player.h + o.rect.h) :
    ∀ o ∈ s.obstacles, isSolidForPlayer o (s.movePlayer32 dt).ducking = true →
      AABB32 (s.movePlayer32 dt).player o.rect = false := by
  obtain ⟨a1, a2, a3, a4, a5, a6, a7⟩ := applyInput32_ready s hwf hg.playerY hpre
  rw [(movePlayer32_keeps s dt).1]
  unfold GameScene.movePlayer32
  rw [resolvePlayer32_eq]
  rw [a3] at hrun
  have hw := hwf.width
  rw [hw] at hedge
  generalize s.applyInput32 = a at a1 a2 a3 a4 a5 a6 a7 hrun hfall ⊢
  have hgenw : ∀ o ∈ s.obstacles, 0 ≤ o.rect.w ∧ o.rect.w ≤ 140 := by
    intro o ho
    rcases (hwf.obstacles o ho).2 with ⟨-, e, -, -⟩ | ⟨-, e, -, -⟩ <;> rw [e] <;> norm_num
  obtain ⟨cy, cw, ch, cclear⟩ := moveX32_clear (a.integrate32 dt) dt hdt a3
    (by show 30 ≤ a.player.x; rw [a2]; exact hwf.left)
    (by show a.player.x ≤ 8192; rw [a2]; exact hxmax)
    (by show f32 a.player.x = a.player.x; rw [a2]; exact hg.playerX)
    (fun o ho => by
      have ho' : o ∈ s.obstacles := by rw [← a1]; exact ho
      refine ⟨hg.obstacles o ho', by linarith [(hwf.obstacles o ho').1], (hgenw o ho').1,
        (hgenw o ho').2, hrun o ho', fun hs => ?_⟩
      have hc := a7 o ho' hs
      rw [AABB32_false_iff, a2, a3] at hc
      show a.player.x + 44 ≤ o.rect.x ∨ f32 (o.rect.x + o.rect.w) ≤ a.player.x
        ∨ f32 (a.player.y + a.player.h) ≤ o.rect.y ∨ f32 (o.rect.y + o.rect.h) ≤ a.player.y
      rw [a2]
      rcases hc with g | g | g | g
      · exact Or.inl (hedge o ho' g)
      · exact Or.inr (Or.inl g)
      · exact Or.inr (Or.inr (Or.inl g))
      · exact Or.inr (Or.inr (Or.inr g)))
  have cy' : ((a.integrate32 dt).moveX32 dt).player.y = a.player.y := cy
  have ch' : ((a.integrate32 dt).moveX32 dt).player.h = a.player.h := ch
  have cclear' : ∀ o ∈ a.obstacles, isSolidForPlayer o a.ducking = true →
      AABB32 ((a.integrate32 dt).moveX32 dt).player o.rect = false := cclear
  have key := settle32_clear ((a.integrate32 dt).moveX32 dt) dt hdt cw
    (by rw [ch']; exact a4) (by rw [cy', ch']; exact a5) (by rw [cy']; exact a6)
    (fun o ho => by
      have ho' : o ∈ s.obstacles := by rw [← a1]; exact ho
      refine ⟨hwf.obstacles o ho', ?_, fun hs => cclear' o ho hs⟩
      rw [ch']
      exact hfall o ho')
  rw [cy', ch'] at key
  intro o ho hs
  exact key o (show o ∈ a.obstacles by rw [a1]; exact ho) hs

/-! ## Resolver post-condition (C2) -/

theorem inputHorizontal32_withView (s : GameScene) (w h : Int) (z g : ℚ) :
    (s.withView w h z g).inputHorizontal32 = (s.inputHorizontal32).withView w h z g := by
  unfold GameScene.inputHorizontal32 GameScene.withView
  dsimp only
  split <;> split <;> rfl

theorem inputDuck32_withView (s : GameScene) (w h : Int) (z g : ℚ) :
    (s.withView w h z g).inputDuck32 = (s.inputDuck32).withView w h z g := by
  unfold GameScene.inputDuck32
  have h1 : (s.withView w h z g).duckHeld = s.duckHeld := rfl
  have h2 : (s.withView w h z g).onGround = s.onGround := rfl
  have h3 : (s.withView w h z g).ducking = s.ducking := rfl
  have h4 : (s.withView w h z g).standBlocked32 = s.standBlocked32 := rfl
  rw [h1, h2, h3, h4]
  split
  · split <;> rfl
  · split
    · split <;> rfl
    · rfl

theorem applyInput32_withView (s : GameScene) (w h : Int) (z g : ℚ) :
    (s.withView w h z g).applyInput32 = (s.applyInput32).withView w h z g := by
  unfold GameScene.applyInput32
  rw [inputHorizontal32_withView, inputDuck32_withView, inputJump_withView]

theorem worldGround32_withView (s : GameScene) (w h : Int) (z g : ℚ) :
    (s.withView w h z g).worldGround32 = (s.worldGround32).withView w h z g := by
  unfold GameScene.worldGround32
  have h1 : (s.withView w h z g).player = s.player := rfl
  dsimp only
  rw [h1]
  split <;> rfl

/-- The player phases of the binary32 tick do not read the viewport metrics. -/
theorem movePlayer32_withView (s : GameScene) (dt : ℚ) (w h : Int) (z g : ℚ) :
    (s.withView w h z g).movePlayer32 dt = (s.movePlayer32 dt).withView w h z g := by
  unfold GameScene.movePlayer32
  rw [resolvePlayer32_eq, resolvePlayer32_eq, applyInput32_withView]
  generalize s.applyInput32 = a
  have hp : (a.withView w h z g).player = a.player := rfl
  have h1 : (a.withView w h z g).integrate32 dt = (a.integrate32 dt).withView w h z g := rfl
  have h2 : ∀ b : GameScene, (b.withView w h z g).moveX32 dt = (b.moveX32 dt).withView w h z g :=
    fun _ => rfl
  have h3 : ∀ (b : GameScene) (p q : ℚ),
      (b.withView w h z g).moveY32 dt p q = (b.moveY32 dt p q).withView w h z g := fun _ _ _ => rfl
  rw [hp, h1, h2, h3, worldGround32_withView]

/-- What the movement part of a binary32 tick leaves of the player, the
chaser and the obstacles does not depend on the viewport sync. -/
theorem moveWorld32_sync (s : GameScene) (dt : ℚ) (rs : Option (Int × Int)) :
    ((s.syncViewportMetrics rs).moveWorld32 dt).player = (s.movePlayer32 dt).player
      ∧ ((s.syncViewportMetrics rs).moveWorld32 dt).ducking = (s.movePlayer32 dt).ducking
      ∧ ((s.syncViewportMetrics rs).moveWorld32 dt).obstacles = (s.movePlayer32 dt).obstacles
      ∧ ((s.syncViewportMetrics rs).moveWorld32 dt).onGround = (s.movePlayer32 dt).onGround
      ∧ ((s.syncViewportMetrics rs).moveWorld32 dt).vy = (s.movePlayer32 dt).vy
      ∧ ((s.syncViewportMetrics rs).moveWorld32 dt).bull = ((s.movePlayer32 dt).bullChase32 dt).bull
      ∧ ((s.syncViewportMetrics rs).moveWorld32 dt).levelIndex = (s.movePlayer32 dt).levelIndex := by
  obtain ⟨w, h, z, g, hs⟩ := syncViewportMetrics_eq_withView s rs
  rw [hs]
  unfold GameScene.moveWorld32
  rw [movePlayer32_withView]
  generalize s.movePlayer32 dt = m
  exact ⟨rfl, rfl, rfl, rfl, rfl, rfl, rfl⟩

theorem resolveXStep32_keeps (dk : Bool) (vx : ℚ) (p : FRect) (o : Obstacle) :
    (resolveXStep32 dk vx p o).y = p.y ∧ (resolveXStep32 dk vx p o).w = p.w
      ∧ (resolveXStep32 dk vx p o).h = p.h := by
  unfold resolveXStep32
  split
  · exact ⟨rfl, rfl, rfl⟩
  · split
    · exact ⟨rfl, rfl, rfl⟩
    · split <;> exact ⟨rfl, rfl, rfl⟩

theorem foldl_resolveXStep32_keeps (dk : Bool) (vx : ℚ) (l : List Obstacle) :
    ∀ p : FRect, (l.foldl (resolveXStep32 dk vx) p).y = p.y
      ∧ (l.foldl (resolveXStep32 dk vx) p).w = p.w
      ∧ (l.foldl (resolveXStep32 dk vx) p).h = p.h := by
  induction l with
  | nil => intro p; exact ⟨rfl, rfl, rfl⟩
  | cons o l ih =>
    intro p
    obtain ⟨h1, h2, h3⟩ := resolveXStep32_keeps dk vx p o
    obtain ⟨i1, i2, i3⟩ := ih (resolveXStep32 dk vx p o)
    exact ⟨i1.trans h1, i2.trans h2, i3.trans h3⟩

theorem resolveYStep32_keeps (dk : Bool) (a b : ℚ) (st : YState) (o : Obstacle) :
    (resolveYStep32 dk a b st o).player.x = st.player.x
      ∧ (resolveYStep32 dk a b st o).player.w = st.player.w
      ∧ (resolveYStep32 dk a b st o).player.h = st.player.h := by
  unfold resolveYStep32
  dsimp only
  split
  · exact ⟨rfl, rfl, rfl⟩
  · split
    · exact ⟨rfl, rfl, rfl⟩
    · split
      · split <;> exact ⟨rfl, rfl, rfl⟩
      · split
        · split <;> exact ⟨rfl, rfl, rfl⟩
        · split <;> exact ⟨rfl, rfl, rfl⟩

theorem foldl_resolveYStep32_keeps (dk : Bool) (a b : ℚ) (l : List Obstacle) :
    ∀ st : YState, (l.foldl (resolveYStep32 dk a b) st).player.x = st.player.x
      ∧ (l.foldl (resolveYStep32 dk a b) st).player.w = st.player.w
      ∧ (l.foldl (resolveYStep32 dk a b) st).player.h = st.player.h := by
  induction l with
  | nil => intro st; exact ⟨rfl, rfl, rfl⟩
  | cons o l ih =>
    intro st
    obtain ⟨h1, h2, h3⟩ := resolveYStep32_keeps dk a b st o
    obtain ⟨i1, i2, i3⟩ := ih (resolveYStep32 dk a b st o)
    exact ⟨i1.trans h1, i2.trans h2, i3.trans h3⟩

theorem moveX32_keeps (s : GameScene) (dt : ℚ) :
    (s.moveX32 dt).player.y = s.player.y ∧ (s.moveX32 dt).player.w = s.player.w
      ∧ (s.moveX32 dt).player.h = s.player.h := by
  obtain ⟨sw, sh, sy⟩ := xMoved32_size s dt
  rw [moveX32_eq]
  split
  · obtain ⟨h1, h2, h3⟩ := foldl_resolveXStep32_keeps s.ducking s.vx s.obstacles (s.xMoved32 dt)
    exact ⟨h1.trans sy, h2.trans sw, h3.trans sh⟩
  · exact ⟨sy, sw, sh⟩

theorem moveY32_keeps (s : GameScene) (dt a b : ℚ) :
    (s.moveY32 dt a b).player.x = s.player.x ∧ (s.moveY32 dt a b).player.w = s.player.w
      ∧ (s.moveY32 dt a b).player.h = s.player.h := by
  rw [(moveY32_eq s dt a b).1]
  exact foldl_resolveYStep32_keeps s.ducking a b s.obstacles _

/-- The movement of a binary32 tick never changes the player's width, and
its height only in `applyInput`. -/
theorem movePlayer32_size (s : GameScene) (dt : ℚ) :
    (s.movePlayer32 dt).player.w = (s.applyInput32).player.w
      ∧ (s.movePlayer32 dt).player.h = (s.applyInput32).player.h := by
  unfold GameScene.movePlayer32
  obtain ⟨-, -, -, -, -, w6, w7⟩ := worldGround32_keeps (s.resolvePlayer32 dt)
  rw [w6, w7, resolvePlayer32_eq]
  generalize s.applyInput32 = a
  obtain ⟨-, hx2, hx3⟩ := moveX32_keeps (a.integrate32 dt) dt
  obtain ⟨-, hy2, hy3⟩ := moveY32_keeps ((a.integrate32 dt).moveX32 dt) dt a.player.y
    (f32 (a.player.y + a.player.h))
  exact ⟨hy2.trans hx2, hy3.trans hx3⟩

theorem update32_of_running (s : GameScene) (dt : ℚ) (rs : Option (Int × Int)) (rnd : Nat → ℚ)
    (hw : s.waitingForEnter = false) :
    s.update32 dt rs rnd =
      { ((((s.syncViewportMetrics rs).moveWorld32 dt).checkCaught32 rnd).checkGoalReached) with
        jumpPressed := false } := by
  unfold GameScene.update32
  have : (s.syncViewportMetrics rs).waitingForEnter = false := hw
  simp only [this]
  rfl

theorem checkCaught32_of_free (s : GameScene) (rnd : Nat → ℚ) (h : s.caught32 = false) :
    s.checkCaught32 rnd = s := by
  unfold GameScene.checkCaught32
  rw [h]
  rfl

theorem checkCaught32_of_caught (s : GameScene) (rnd : Nat → ℚ) (h : s.caught32 = true) :
    s.checkCaught32 rnd = s.startLevel s.levelIndex rnd := by
  unfold GameScene.checkCaught32
  rw [h]
  rfl

/-- The start state is clear, by the rounded test, of every obstacle of its
fresh layout. -/
theorem startLevel_clear32 (s : GameScene) (idx : Int) (rnd : Nat → ℚ) (hw : s.player.w = 44)
    (hr : ∀ i, 0 ≤ rnd i) :
    ∀ o ∈ (s.startLevel idx rnd).obstacles,
      AABB32 (s.startLevel idx rnd).player o.rect = false := by
  obtain ⟨-, -, -, hp, -, -, -, -, -, -, -, hobs, -⟩ := startLevel_fields s idx rnd
  rw [hp, hobs]
  intro o ho
  have hlow := (generateLoop_lower _ rnd (levels_getD_spacing _) hr _ genStart
    (by show (520 : ℚ) ≤ 520; exact le_refl _)
    (fun o ho => absurd ho (List.not_mem_nil o))).2 o ho
  rw [AABB32_false_iff]
  left
  show f32 ((120 : ℚ) + s.player.w) ≤ o.rect.x
  rw [hw]
  norm_num
  rw [show f32 (164 : ℚ) = 164 by simpa using f32_natCast 164 (by norm_num)]
  linarith

/-- C2 (resolver post-condition), amended, for the tick as the machine
computes it (`update32`: every sum, difference and product rounded to
binary32).  In a non-waiting tick with `dt ≥ 0` from a well-formed state (the
player 44 wide and 56 or 92 high by its duck state, at `x ≥ 30` with its feet
on or above the ground line, every obstacle of one of the two generated
shapes; every reachable state is well formed) whose `player.x`, `player.y`
and obstacle positions `x` are binary32 values, with `player.x ≤ 8192`, whose
player overlaps, by the rounded test `AABB32` of lines 42-45, no obstacle
that is solid for its duck state, and whose rounded right edge hides no
overlap (for every obstacle `o`, `f32 (player.x + player.w) ≤ o.x` only if
`player.x + player.w ≤ o.x`), if the tick does not tunnel, that is, for every
obstacle `o` of the list the computed horizontal displacement `|f32 (vx·dt)|`
and the computed vertical displacement `|f32 (vy·dt)|`, with `vx` after
`applyInput` and `vy` after gravity, are at least one unit less than
`player.w + o.w` and `player.h + o.h`, then after the tick the player
overlaps, by the same rounded test, no obstacle that is solid for the
resulting duck state; also when the tick ends in a restart, for draws that
are not negative.  The obstacle list is arbitrary: any number of obstacles,
in any order, at any spacing. -/
theorem resolver_clear_without_tunnelling (s : GameScene) (dt : ℚ) (rs : Option (Int × Int))
    (rnd : Nat → ℚ) (hw : s.waitingForEnter = false) (hwf : WellFormed s) (hg : OnGrid s)
    (hxmax : s.player.x ≤ 8192) (hdt : 0 ≤ dt)
    (hpre : ∀ o ∈ s.obstacles, isSolidForPlayer o s.ducking = true →
      AABB32 s.player o.rect = false)
    (hedge : ∀ o ∈ s.obstacles, f32 (s.player.x + s.player.w) ≤ o.rect.x →
      s.player.x + s.player.w ≤ o.rect.x)
    (hrun : ∀ o ∈ s.obstacles,
      |f32 ((s.applyInput32).vx * dt)| + 1 ≤ (s.applyInput32).player.w + o.rect.w)
    (hfall : ∀ o ∈ s.obstacles,
      |f32 (((s.applyInput32).integrate32 dt).vy * dt)| + 1
        ≤ (s.applyInput32).player.h + o.rect.h)
    (hrnd : ∀ i, 0 ≤ rnd i) :
    ∀ o' ∈ (s.update32 dt rs rnd).obstacles,
      isSolidForPlayer o' (s.update32 dt rs rnd).ducking = true →
        AABB32 (s.update32 dt rs rnd).player o'.rect = false := by
  rw [update32_of_running s dt rs rnd hw]
  obtain ⟨hgp, -, -, -, -, -, -, -, -, -, hgd, hgo⟩ := checkGoalReached_sameMove
    (((s.syncViewportMetrics rs).moveWorld32 dt).checkCaught32 rnd)
  show ∀ o' ∈ (GameScene.checkGoalReached _).obstacles,
    isSolidForPlayer o' (GameScene.checkGoalReached _).ducking = true →
      AABB32 (GameScene.checkGoalReached _).player o'.rect = false
  rw [hgp, hgd, hgo]
  obtain ⟨hmp, hmd, hmo, -, -, -, -⟩ := moveWorld32_sync s dt rs
  have hobs : (s.movePlayer32 dt).obstacles = s.obstacles := by
    rw [(movePlayer32_keeps s dt).2.1]
    exact (applyInput32_ready s hwf hg.playerY hpre).1
  cases hc : ((s.syncViewportMetrics rs).moveWorld32 dt).caught32
  · rw [checkCaught32_of_free _ rnd hc, hmp, hmd, hmo, hobs]
    exact movePlayer32_clear s dt hwf hg hxmax hdt hpre hedge hrun hfall
  · rw [checkCaught32_of_caught _ rnd hc]
    intro o' ho' _
    refine startLevel_clear32 _ _ rnd ?_ hrnd o' ho'
    rw [hmp, (movePlayer32_size s dt).1]
    exact (applyInput32_ready s hwf hg.playerY hpre).2.2.1

/-! ## Landing idempotence (C3) -/

/-- With no input held and the player standing, `applyInput` only resets
`vx`, in binary32 too. -/
theorem applyInput32_idle (s : GameScene) (hduck : s.ducking = false)
    (hin : s.leftHeld = false ∧ s.rightHeld = false ∧ s.duckHeld = false
      ∧ s.jumpPressed = false) :
    s.applyInput32 = { s with vx := 0 } := by
  obtain ⟨hl, hr, hd, hj⟩ := hin
  have h1 : s.inputHorizontal32 = { s with vx := 0 } := by
    unfold GameScene.inputHorizontal32
    dsimp only
    rw [hl, hr]
    rfl
  have h2 : ({ s with vx := 0 } : GameScene).inputDuck32 = { s with vx := 0 } := by
    unfold GameScene.inputDuck32
    dsimp only
    rw [hd, hduck]
    rfl
  have h3 : ({ s with vx := 0 } : GameScene).inputJump = { s with vx := 0 } := by
    unfold GameScene.inputJump
    dsimp only
    rw [hj]
    rfl
  unfold GameScene.applyInput32
  rw [h1, h2, h3]

theorem resolveYStep32_of_away (dk : Bool) (a b : ℚ) (st : YState) (o : Obstacle)
    (h : f32 (st.player.x + st.player.w) ≤ o.rect.x ∨ f32 (o.rect.x + o.rect.w) ≤ st.player.x) :
    resolveYStep32 dk a b st o = st := by
  apply resolveYStep32_of_clear
  intro _
  rw [AABB32_false_iff]
  rcases h with h | h
  · exact Or.inl h
  · exact Or.inr (Or.inl h)

theorem foldl_resolveYStep32_away (dk : Bool) (a b : ℚ) (l : List Obstacle) (st : YState)
    (h : ∀ o ∈ l, f32 (st.player.x + st.player.w) ≤ o.rect.x
      ∨ f32 (o.rect.x + o.rect.w) ≤ st.player.x) :
    l.foldl (resolveYStep32 dk a b) st = st := by
  induction l with
  | nil => rfl
  | cons o l ih =>
    rw [List.foldl_cons, resolveYStep32_of_away dk a b st o (h o (List.mem_cons_self _ _))]
    exact ih (fun o' ho' => h o' (List.mem_cons_of_mem _ ho'))

/-- The vertical loop in binary32 for a player that fell from rest on top of
the generated obstacle `o` into `o`, every other obstacle being beside the
player by the rounded test: the player is put back on top of `o`, with
`vy = 0` and `onGround` set. -/
theorem landing_fold32 (dk : Bool) (l₁ l₂ : List Obstacle) (o : Obstacle) (p : FRect)
    (vy y0 : ℚ) (hg : Generated o) (hh : p.h = 56 ∨ p.h = 92)
    (hsolid : isSolidForPlayer o dk = true) (hvy : 0 < vy)
    (haway : ∀ o' ∈ l₁ ++ l₂, f32 (p.x + p.w) ≤ o'.rect.x ∨ f32 (o'.rect.x + o'.rect.w) ≤ p.x)
    (hrest : y0 + p.h = o.rect.y)
    (hxov : o.rect.x < f32 (p.x + p.w) ∧ p.x < f32 (o.rect.x + o.rect.w))
    (hpy : o.rect.y < f32 (p.y + p.h)) (hnt : p.y < f32 (o.rect.y + o.rect.h)) :
    (l₁ ++ o :: l₂).foldl (resolveYStep32 dk y0 (f32 (y0 + p.h)))
        { player := p, vy := vy, onGround := false }
      = { player := { p with y := o.rect.y - p.h }, vy := 0, onGround := true } := by
  obtain ⟨e1, e2, -, e4, -, -, -, -⟩ := generated_exact o hg p.h hh
  rw [List.foldl_append, List.foldl_cons]
  rw [foldl_resolveYStep32_away dk y0 (f32 (y0 + p.h)) l₁
    { player := p, vy := vy, onGround := false }
    (fun o' ho' => haway o' (List.mem_append_left _ ho'))]
  have hstep : resolveYStep32 dk y0 (f32 (y0 + p.h)) { player := p, vy := vy, onGround := false } o
      = { player := { p with y := o.rect.y - p.h }, vy := 0, onGround := true } := by
    have hA : AABB32 p o.rect = true := by
      rw [AABB32_true_iff]
      exact ⟨hxov.1, hxov.2, hpy, hnt⟩
    unfold resolveYStep32
    rw [if_neg (by simp [hsolid]), if_neg (by simp [hA])]
    dsimp only
    rw [if_pos hvy, if_pos (by
      simp only [Bool.and_eq_true, decide_eq_true_eq]
      rw [hrest, e1, e2]
      exact ⟨by linarith, le_of_lt hpy⟩), e4]
  rw [hstep]
  exact foldl_resolveYStep32_away dk y0 (f32 (y0 + p.h)) l₂
    { player := { p with y := o.rect.y - p.h }, vy := 0, onGround := true }
    (fun o' ho' => haway o' (List.mem_append_right _ ho'))

/-- The size of a fall from rest in binary32, for a tick of at least one
millisecond that does not carry the player past the obstacle: the computed
velocity is positive, the player moves by at least `2 ^ (-9)` and by less
than half a unit short of the room the obstacle leaves. -/
theorem fall_from_rest32 (dt room : ℚ) (hdt : 1 / 1000 ≤ dt)
    (hfall : gravity * dt * dt + 1 ≤ room) (hroom : room ≤ 140) :
    0 < f32 (0 + f32 (gravity * dt))
      ∧ 1 / 512 ≤ f32 (f32 (0 + f32 (gravity * dt)) * dt)
      ∧ f32 (f32 (0 + f32 (gravity * dt)) * dt) ≤ room - 1 + 1 / 256 := by
  unfold gravity at hfall ⊢
  have hdt0 : 0 < dt := lt_of_lt_of_le (by norm_num) hdt
  have hdt1 : dt ≤ 1 := by
    by_contra hc
    have : 1 < dt := not_le.mp hc
    nlinarith
  rw [zero_add, f32_f32]
  have e2 : f32 (2 : ℚ) = 2 := by simpa using f32_natCast 2 (by norm_num)
  have e512 : f32 ((1 : ℚ) / 512) = 1 / 512 := by
    have := f32_of_grid 1 9 (by norm_num) (by norm_num)
    simpa using this
  have hv2 : 2 ≤ f32 (2200 * dt) := le_f32_of_le e2 (by linarith)
  have nv := f32_near (2200 * dt) (by rw [abs_le]; constructor <;> linarith)
  rw [abs_le] at nv
  have hvU : f32 (2200 * dt) ≤ 2200 * dt + 1 / 1024 := by linarith [nv.2]
  have hprodL : 1 / 512 ≤ f32 (2200 * dt) * dt := by nlinarith
  have hprodU : f32 (2200 * dt) * dt ≤ room - 1 + 1 / 1024 := by nlinarith
  have nm := f32_near (f32 (2200 * dt) * dt) (by rw [abs_le]; constructor <;> linarith)
  rw [abs_le] at nm
  refine ⟨by linarith, le_f32_of_le e512 hprodL, by linarith [nm.2]⟩

theorem f32_add_512th (n : Nat) (h : n < 2 ^ 15) :
    f32 ((n : ℚ) + 1 / 512) = (n : ℚ) + 1 / 512 := by
  have := f32_of_grid ((n : Int) * 512 + 1) 9 (by norm_num)
    (by rw [abs_of_nonneg (by positivity)]
        have : (n : Int) < 2 ^ 15 := by exact_mod_cast h
        omega)
  have e : (((n : Int) * 512 + 1 : Int) : ℚ) / 2 ^ 9 = (n : ℚ) + 1 / 512 := by
    push_cast; norm_num; ring
  rw [e] at this
  exact this

/-- The player phases of an idle binary32 tick on top of an obstacle. -/
theorem movePlayer32_landing (s : GameScene) (dt : ℚ) (o : Obstacle) (l₁ l₂ : List Obstacle)
    (hwf : WellFormed s) (hg : OnGrid s) (hxmax : s.player.x ≤ 8192)
    (hobs : s.obstacles = l₁ ++ o :: l₂)
    (haway : ∀ o' ∈ l₁ ++ l₂,
      s.player.x + s.player.w ≤ o'.rect.x ∨ o'.rect.x + o'.rect.w ≤ s.player.x)
    (hrest : s.player.y + s.player.h = o.rect.y)
    (hxov : o.rect.x + 1 ≤ s.player.x + s.player.w ∧ s.player.x + 1 ≤ o.rect.x + o.rect.w)
    (hduck : s.ducking = false) (hvy : s.vy = 0)
    (hin : s.leftHeld = false ∧ s.rightHeld = false ∧ s.duckHeld = false
      ∧ s.jumpPressed = false)
    (hdt : 1 / 1000 ≤ dt) (hfall : gravity * dt * dt + 1 ≤ o.rect.h + s.player.h) :
    (s.movePlayer32 dt).onGround = true ∧ (s.movePlayer32 dt).player.y = s.player.y
      ∧ (s.movePlayer32 dt).player.x = s.player.x ∧ (s.movePlayer32 dt).player.w = s.player.w
      ∧ (s.movePlayer32 dt).bull = s.bull ∧ (s.movePlayer32 dt).bullSpeed = s.bullSpeed := by
  have ho : o ∈ s.obstacles := by rw [hobs]; exact List.mem_append_right _ (List.mem_cons_self _ _)
  have hgen := hwf.obstacles o ho
  have hh : s.player.h = 92 := by
    have := hwf.height
    rw [hduck] at this
    simpa using this
  have hw := hwf.width
  have hx := hwf.left
  have hsub : ∀ o' ∈ l₁ ++ l₂, o' ∈ s.obstacles := by
    intro o' ho'
    rw [hobs]
    rcases List.mem_append.mp ho' with h | h
    · exact List.mem_append_left _ h
    · exact List.mem_append_right _ (List.mem_cons_of_mem _ h)
  obtain ⟨e1, -, -, -, e5, e6, -, -⟩ := generated_exact o hgen 92 (Or.inr rfl)
  have hoh : o.rect.h ≤ 48 ∧ o.rect.w ≤ 140 ∧ 0 ≤ o.rect.w ∧ 630 ≤ o.rect.x := by
    rcases hgen.2 with ⟨-, e, f, -⟩ | ⟨-, e, f, -⟩ <;>
      exact ⟨by linarith, by linarith, by linarith, hgen.1⟩
  obtain ⟨hV, hmL, hmU⟩ := fall_from_rest32 dt (o.rect.h + 92) hdt (by rw [← hh]; exact hfall)
    (by linarith [hoh.1])
  generalize hVdef : f32 (0 + f32 (gravity * dt)) = V at hV hmL hmU
  -- the moved height: above the old one by a binary32 step, short of the underside
  have hy1L : s.player.y + 1 / 512 ≤ f32 (s.player.y + f32 (V * dt)) := by
    have hrep : f32 (s.player.y + 1 / 512) = s.player.y + 1 / 512 := by
      have hy : s.player.y = o.rect.y - 92 := by linarith
      rcases hgen.2 with ⟨-, -, -, e⟩ | ⟨-, -, -, e⟩ <;> rw [hy, e] <;> norm_num
      · have t := f32_add_512th 298 (by norm_num)
        norm_num at t
        exact t
      · have t := f32_add_512th 320 (by norm_num)
        norm_num at t
        exact t
    exact le_f32_of_le hrep (by linarith)
  have hy1U : f32 (s.player.y + f32 (V * dt)) ≤ o.rect.y + o.rect.h - 1 / 2 :=
    f32_le_of_le e6 (by linarith)
  have hpy : o.rect.y < f32 (f32 (s.player.y + f32 (V * dt)) + s.player.h) := by
    have hrep : f32 (o.rect.y + 1 / 512) = o.rect.y + 1 / 512 := by
      rcases hgen.2 with ⟨-, -, -, e⟩ | ⟨-, -, -, e⟩ <;> rw [e] <;> norm_num
      · have t := f32_add_512th 390 (by norm_num)
        norm_num at t
        exact t
      · have t := f32_add_512th 412 (by norm_num)
        norm_num at t
        exact t
    have := le_f32_of_le hrep
      (show o.rect.y + 1 / 512 ≤ f32 (s.player.y + f32 (V * dt)) + s.player.h by linarith)
    linarith
  -- the horizontal tests
  have n1 := f32_near (s.player.x + s.player.w) (by rw [hw, abs_le]; constructor <;> linarith)
  rw [abs_le] at n1
  have n2 := f32_near (s.player.x + 1) (by rw [abs_le]; constructor <;> linarith)
  rw [abs_le] at n2
  have hxov32 : o.rect.x < f32 (s.player.x + s.player.w)
      ∧ s.player.x < f32 (o.rect.x + o.rect.w) := by
    refine ⟨by linarith [n1.1, hxov.1], ?_⟩
    have := f32_mono hxov.2
    linarith [n2.1]
  have haway32 : ∀ o' ∈ l₁ ++ l₂, f32 (s.player.x + s.player.w) ≤ o'.rect.x
      ∨ f32 (o'.rect.x + o'.rect.w) ≤ s.player.x := by
    intro o' ho'
    rcases haway o' ho' with h | h
    · exact Or.inl (f32_le_of_le (hg.obstacles o' (hsub o' ho')) h)
    · exact Or.inr (f32_le_of_le hg.playerX h)
  unfold GameScene.movePlayer32
  rw [resolvePlayer32_eq, applyInput32_idle s hduck hin]
  have hmx : ((({ s with vx := 0 } : GameScene).integrate32 dt).moveX32 dt).player = s.player := by
    unfold GameScene.moveX32 GameScene.integrate32
    dsimp only
    rw [zero_mul, f32_zero, add_zero, hg.playerX]
    rw [if_neg (by simp), if_neg (not_lt.mpr hx)]
  have hmy : (((({ s with vx := 0 } : GameScene).integrate32 dt).moveX32 dt).moveY32 dt s.player.y
        (f32 (s.player.y + s.player.h)))
      = { ((({ s with vx := 0 } : GameScene).integrate32 dt).moveX32 dt) with
          player := { s.player with y := o.rect.y - s.player.h }, vy := 0, onGround := true } := by
    unfold GameScene.moveY32
    dsimp only
    rw [hmx]
    have hobs' : ((({ s with vx := 0 } : GameScene).integrate32 dt).moveX32 dt).obstacles
        = l₁ ++ o :: l₂ := hobs
    have hd' : ((({ s with vx := 0 } : GameScene).integrate32 dt).moveX32 dt).ducking = false :=
      hduck
    have hv' : ((({ s with vx := 0 } : GameScene).integrate32 dt).moveX32 dt).vy = V := by
      show f32 (s.vy + f32 (gravity * dt)) = _
      rw [hvy, hVdef]
    rw [hobs', hd', hv']
    have hfold := landing_fold32 false l₁ l₂ o
      { s.player with y := f32 (s.player.y + f32 (V * dt)) } V s.player.y hgen (Or.inr hh)
      (isSolidForPlayer_standing o) hV haway32 hrest hxov32 hpy
      (by show f32 (s.player.y + f32 (V * dt)) < f32 (o.rect.y + o.rect.h)
          rw [e5]; linarith)
    rw [hfold]
  rw [hmy]
  have hfloor : f32 (groundY - s.player.h) = 368 := by
    rw [hh]; norm_num [groundY]
    simpa using f32_natCast 368 (by norm_num)
  have htop : o.rect.y ≤ 412 := by
    rcases hgen.2 with ⟨-, -, -, e⟩ | ⟨-, -, -, e⟩ <;> linarith
  unfold GameScene.worldGround32
  dsimp only
  rw [hfloor, if_neg (by rw [hh]; intro h; linarith)]
  refine ⟨rfl, ?_, ?_, ?_, rfl, rfl⟩
  · show o.rect.y - s.player.h = s.player.y
    linarith
  · rfl
  · rfl

/-- A chaser that ends the tick one unit behind the player's left edge in
exact arithmetic does not catch the player in binary32: the three roundings
of its move and of the catch test amount to less than one unit. -/
theorem chaser_behind32 (B sp dt x : ℚ) (hx0 : 30 ≤ x) (hx1 : x ≤ 8192) (hxr : f32 x = x)
    (hsp0 : 0 ≤ sp) (hsp : sp ≤ 422) (hdt0 : 0 ≤ dt) (hdt1 : dt ≤ 1)
    (hbull : B + sp * dt + 86 + 1 ≤ x) :
    f32 (f32 (B + f32 (sp * dt)) + 86) < x ∧ x ≤ f32 (x + 8) := by
  have hp : 0 ≤ sp * dt := mul_nonneg hsp0 hdt0
  have hp2 : sp * dt ≤ 422 := by nlinarith
  have n1 := f32_near (sp * dt) (by rw [abs_le]; constructor <;> linarith)
  rw [abs_le] at n1
  have n2 := f32_near (x - 87 + 1 / 1024) (by rw [abs_le]; constructor <;> linarith)
  rw [abs_le] at n2
  have m2 := f32_mono (show B + f32 (sp * dt) ≤ x - 87 + 1 / 1024 by linarith [n1.2])
  have n3 := f32_near (x - 1 + 1 / 512) (by rw [abs_le]; constructor <;> linarith)
  rw [abs_le] at n3
  have m3 := f32_mono (show f32 (B + f32 (sp * dt)) + 86 ≤ x - 1 + 1 / 512 by linarith [n2.2])
  exact ⟨by linarith [n3.2], le_f32_of_le hxr (by linarith)⟩

/-- C3 (landing idempotence), amended, for the tick as the machine computes
it (`update32`: every sum, difference and product rounded to binary32).  In a
well-formed state whose `player.x`, `player.y` and obstacle positions `x` are
binary32 values, with `player.x ≤ 8192`, if the standing (not ducking) player
rests exactly on the top edge of an obstacle `o` of the list
(`player.y + player.h = o.y`), the horizontal ranges overlapping by at least
one unit, with `vy = 0` and no input held, every other obstacle of the list
is clear of the player's horizontal range, the frame time is at least
`1 / 1000` and short enough that the fall `gravity·dt²` is at least one unit
less than `o.h + player.h`, and the chaser ends the tick at least one unit
behind the player's left edge (so it does not catch the player), then one
non-waiting tick leaves `onGround = true` and `player.y` unchanged.  The
lower bound on `dt` is needed: below about `8.3e-5` s the sum
`player.y + vy·dt` rounds back to `player.y`, the overlap test finds nothing
and the tick ends with `onGround = false` (`restOnCourse_short32`). -/
theorem landing_idempotent (s : GameScene) (dt : ℚ) (rs : Option (Int × Int)) (rnd : Nat → ℚ)
    (o : Obstacle) (l₁ l₂ : List Obstacle)
    (hw : s.waitingForEnter = false) (hwf : WellFormed s) (hg : OnGrid s)
    (hxmax : s.player.x ≤ 8192)
    (hobs : s.obstacles = l₁ ++ o :: l₂)
    (haway : ∀ o' ∈ l₁ ++ l₂,
      s.player.x + s.player.w ≤ o'.rect.x ∨ o'.rect.x + o'.rect.w ≤ s.player.x)
    (hrest : s.player.y + s.player.h = o.rect.y)
    (hxov : o.rect.x + 1 ≤ s.player.x + s.player.w ∧ s.player.x + 1 ≤ o.rect.x + o.rect.w)
    (hduck : s.ducking = false) (hvy : s.vy = 0)
    (hin : s.leftHeld = false ∧ s.rightHeld = false ∧ s.duckHeld = false
      ∧ s.jumpPressed = false)
    (hdt : 1 / 1000 ≤ dt) (hfall : gravity * dt * dt + 1 ≤ o.rect.h + s.player.h)
    (hbull : s.bull.x + s.bullSpeed * dt + s.bull.w + 1 ≤ s.player.x) :
    (s.update32 dt rs rnd).onGround = true ∧ (s.update32 dt rs rnd).player.y = s.player.y := by
  obtain ⟨p1, p2, p3, p4, p5, p6⟩ := movePlayer32_landing s dt o l₁ l₂ hwf hg hxmax hobs haway hrest
    hxov hduck hvy hin hdt hfall
  obtain ⟨hmp, -, -, hmg, -, hmb, -⟩ := moveWorld32_sync s dt rs
  have hdt0 : 0 ≤ dt := le_trans (by norm_num) hdt
  have hdt1 : dt ≤ 1 := by
    have ho : o ∈ s.obstacles := by
      rw [hobs]; exact List.mem_append_right _ (List.mem_cons_self _ _)
    have hoh : o.rect.h ≤ 48 := by
      rcases (hwf.obstacles o ho).2 with ⟨-, -, f, -⟩ | ⟨-, -, f, -⟩ <;> linarith
    have hh : s.player.h ≤ 92 := by
      rw [hwf.height]; split <;> norm_num
    unfold gravity at hfall
    by_contra hc
    have : 1 < dt := not_le.mp hc
    nlinarith
  have hsp : 0 ≤ s.bullSpeed ∧ s.bullSpeed ≤ 422 := by
    have h1 : (0 : ℚ) ≤ (s.levelIndex : ℚ) := by exact_mod_cast hwf.levelIndex_lo
    have h2 : (s.levelIndex : ℚ) ≤ 9 := by exact_mod_cast hwf.levelIndex_hi
    rw [hwf.bullSpeed]
    constructor <;> linarith
  have hbw := hwf.bullSize.1
  rw [hbw] at hbull
  obtain ⟨c1, c2⟩ := chaser_behind32 s.bull.x s.bullSpeed dt s.player.x hwf.left hxmax hg.playerX
    hsp.1 hsp.2 hdt0 hdt1 hbull
  have hfree : ((s.syncViewportMetrics rs).moveWorld32 dt).caught32 = false := by
    unfold GameScene.caught32
    rw [hmp, hmb]
    have hb : ((s.movePlayer32 dt).bullChase32 dt).bull
        = { s.bull with x := f32 (s.bull.x + f32 (s.bullSpeed * dt)),
                        y := f32 (groundY - s.bull.h) } := by
      unfold GameScene.bullChase32
      rw [p5, p6]
    rw [hb, Bool.or_eq_false_iff]
    constructor
    · rw [AABB32_false_iff]
      left
      show f32 (f32 (s.bull.x + f32 (s.bullSpeed * dt)) + s.bull.w) ≤ (s.movePlayer32 dt).player.x
      rw [p3, hbw]
      exact le_of_lt c1
    · rw [decide_eq_false_iff_not, not_le]
      show f32 (f32 (s.bull.x + f32 (s.bullSpeed * dt)) + s.bull.w)
        < f32 ((s.movePlayer32 dt).player.x + 8)
      rw [p3, hbw]
      exact lt_of_lt_of_le c1 c2
  rw [update32_of_running s dt rs rnd hw, checkCaught32_of_free _ rnd hfree]
  obtain ⟨hgp, -, -, -, -, -, -, -, -, hgo, -, -⟩ := checkGoalReached_sameMove
    ((s.syncViewportMetrics rs).moveWorld32 dt)
  show (GameScene.checkGoalReached _).onGround = true
    ∧ (GameScene.checkGoalReached _).player.y = s.player.y
  rw [hgo, hgp, hmg, hmp]
  exact ⟨p1, p2⟩

/-! ## The level-0 course and the concrete ticks -/

theorem levelZeroCourse_shape : ∀ o ∈ levelZeroCourse,
    o.type = ObstacleType.JumpOver ∧ o.rect.w = 58 ∧ o.rect.h = 48 ∧ o.rect.y = 412
      ∧ 790 ≤ o.rect.x
      ∧ (o = blockAt 790 ∨ 1060 ≤ o.rect.x) := by
  intro o ho
  simp only [levelZeroCourse, List.mem_cons, List.mem_singleton, List.not_mem_nil, or_false] at ho
  rcases ho with rfl | rfl | rfl | rfl | rfl | rfl | rfl | rfl | rfl <;>
    refine ⟨rfl, rfl, rfl, rfl, ?_, ?_⟩ <;> norm_num [blockAt]

set_option maxRecDepth 8000 in
theorem levelZeroCourse_generated :
    generateObstacles (levels.getD 0 {}) rndHalf = levelZeroCourse := by
  norm_num [generateObstacles, generateRun, generateLoop, generateStep, generateCandidate,
    generateCursor, genStart, levels, buildLevels, levelDefOf, rndHalf, levelZeroCourse, blockAt,
    groundY, f32_kind_literal_reduced, List.range, List.range.loop]

theorem aboveCourse_wellFormed : WellFormed aboveCourse := by
  refine ⟨by decide, by decide, by norm_num [aboveCourse], by norm_num [aboveCourse], rfl, rfl,
    by norm_num [aboveCourse, groundY], by norm_num [aboveCourse], ⟨rfl, rfl⟩, ?_⟩
  intro o ho
  obtain ⟨ht, hw, hh, hy, hx, -⟩ := levelZeroCourse_shape o ho
  exact ⟨by linarith, Or.inr ⟨ht, hw, hh, hy⟩⟩

theorem restOnCourse_wellFormed : WellFormed restOnCourse := by
  refine ⟨by decide, by decide, by norm_num [restOnCourse], by norm_num [restOnCourse], rfl, rfl,
    by norm_num [restOnCourse, groundY], by norm_num [restOnCourse], ⟨rfl, rfl⟩, ?_⟩
  intro o ho
  obtain ⟨ht, hw, hh, hy, hx, -⟩ := levelZeroCourse_shape o ho
  exact ⟨by linarith, Or.inr ⟨ht, hw, hh, hy⟩⟩

theorem duckedOnCourse_wellFormed : WellFormed duckedOnCourse := by
  refine ⟨by decide, by decide, by norm_num [duckedOnCourse, restOnCourse],
    by norm_num [duckedOnCourse, restOnCourse], rfl, rfl,
    by norm_num [duckedOnCourse, groundY], by norm_num [duckedOnCourse], ⟨rfl, rfl⟩, ?_⟩
  intro o ho
  obtain ⟨ht, hw, hh, hy, hx, -⟩ := levelZeroCourse_shape o ho
  exact ⟨by linarith, Or.inr ⟨ht, hw, hh, hy⟩⟩

theorem runUp_wellFormed : WellFormed runUp := by
  refine ⟨by decide, by decide, by norm_num [runUp], by norm_num [runUp], rfl, rfl,
    by norm_num [runUp, groundY], by norm_num [runUp], ⟨rfl, rfl⟩, ?_⟩
  intro o ho
  obtain ⟨ht, hw, hh, hy, hx, -⟩ := levelZeroCourse_shape o ho
  exact ⟨by linarith, Or.inr ⟨ht, hw, hh, hy⟩⟩

theorem course_roundings :
    f32 (-420 : ℚ) = -420 ∧ f32 (0 : ℚ) = 0 ∧ f32 (275 / 33554432 : ℚ) = 275 / 33554432
      ∧ f32 (1 / 16384 : ℚ) = 1 / 16384 ∧ f32 (1 / 64 : ℚ) = 1 / 64
      ∧ f32 (65 / 4096 : ℚ) = 65 / 4096 ∧ f32 (1 / 16 : ℚ) = 1 / 16
      ∧ f32 (275 / 2048 : ℚ) = 275 / 2048 ∧ f32 (1 / 2 : ℚ) = 1 / 2
      ∧ f32 (275 / 512 : ℚ) = 275 / 512 ∧ f32 (65 / 16 : ℚ) = 65 / 16
      ∧ f32 (275 / 32 : ℚ) = 275 / 32 ∧ f32 (65 / 4 : ℚ) = 65 / 4 ∧ f32 (105 / 4 : ℚ) = 105 / 4
      ∧ f32 (275 / 8 : ℚ) = 275 / 8 ∧ f32 (36 : ℚ) = 36 ∧ f32 (130 : ℚ) = 130
      ∧ f32 (275 / 2 : ℚ) = 275 / 2 ∧ f32 (200 : ℚ) = 200 ∧ f32 (236 : ℚ) = 236
      ∧ f32 (292 : ℚ) = 292 ∧ f32 (320 : ℚ) = 320 ∧ f32 (10737418515 / 33554432 : ℚ) = 320
      ∧ f32 (164115 / 512 : ℚ) = 164115 / 512 ∧ f32 (356 : ℚ) = 356
      ∧ f32 (11945378067 / 33554432 : ℚ) = 356 ∧ f32 (182547 / 512 : ℚ) = 182547 / 512
      ∧ f32 (368 : ℚ) = 368 ∧ f32 (12051 / 32 : ℚ) = 12051 / 32 ∧ f32 (398 : ℚ) = 398
      ∧ f32 (1638465 / 4096 : ℚ) = 1638465 / 4096 ∧ f32 (404 : ℚ) = 404
      ∧ f32 (6465 / 16 : ℚ) = 6465 / 16 ∧ f32 (412 : ℚ) = 412 ∧ f32 (825 / 2 : ℚ) = 825 / 2
      ∧ f32 (211219 / 512 : ℚ) = 211219 / 512 ∧ f32 (13203 / 32 : ℚ) = 13203 / 32
      ∧ f32 (414 : ℚ) = 414 ∧ f32 (1665 / 4 : ℚ) = 1665 / 4 ∧ f32 (420 : ℚ) = 420
      ∧ f32 (919 / 2 : ℚ) = 919 / 2 ∧ f32 (460 : ℚ) = 460 ∧ f32 (14995 / 32 : ℚ) = 14995 / 32
      ∧ f32 (1990721 / 4096 : ℚ) = 1990721 / 4096 ∧ f32 (7841 / 16 : ℚ) = 7841 / 16
      ∧ f32 (2009 / 4 : ℚ) = 2009 / 4 ∧ f32 (530 : ℚ) = 530 ∧ f32 (550 : ℚ) = 550
      ∧ f32 (616 : ℚ) = 616 ∧ f32 (746 : ℚ) = 746 ∧ f32 (750 : ℚ) = 750 ∧ f32 (754 : ℚ) = 754
      ∧ f32 (3065 / 4 : ℚ) = 3065 / 4 ∧ f32 (780 : ℚ) = 780 ∧ f32 (784 : ℚ) = 784
      ∧ f32 (786 : ℚ) = 786 ∧ f32 (788 : ℚ) = 788 ∧ f32 (790 : ℚ) = 790
      ∧ f32 (3241 / 4 : ℚ) = 3241 / 4 ∧ f32 (824 : ℚ) = 824 ∧ f32 (842 : ℚ) = 842
      ∧ f32 (848 : ℚ) = 848 ∧ f32 (870 : ℚ) = 870 ∧ f32 (906 : ℚ) = 906 ∧ f32 (962 : ℚ) = 962
      ∧ f32 (1016 : ℚ) = 1016 ∧ f32 (1100 : ℚ) = 1100 ∧ f32 (1118 : ℚ) = 1118
      ∧ f32 (1286 : ℚ) = 1286 ∧ f32 (1388 : ℚ) = 1388 ∧ f32 (1556 : ℚ) = 1556
      ∧ f32 (1658 : ℚ) = 1658 ∧ f32 (1826 : ℚ) = 1826 ∧ f32 (1928 : ℚ) = 1928
      ∧ f32 (2096 : ℚ) = 2096 ∧ f32 (2198 : ℚ) = 2198 ∧ f32 (2366 : ℚ) = 2366
      ∧ f32 (2468 : ℚ) = 2468 ∧ f32 (2636 : ℚ) = 2636 ∧ f32 (2738 : ℚ) = 2738
      ∧ f32 (2906 : ℚ) = 2906 ∧ f32 (3008 : ℚ) = 3008 := by
  refine ⟨?_, ?_, ?_, ?_, ?_, ?_, ?_, ?_, ?_, ?_, ?_, ?_, ?_, ?_, ?_, ?_, ?_, ?_, ?_, ?_, ?_, ?_, ?_, ?_, ?_, ?_, ?_, ?_, ?_, ?_, ?_, ?_, ?_, ?_, ?_, ?_, ?_, ?_, ?_, ?_, ?_, ?_, ?_, ?_, ?_, ?_, ?_, ?_, ?_, ?_, ?_, ?_, ?_, ?_, ?_, ?_, ?_, ?_, ?_, ?_, ?_, ?_, ?_, ?_, ?_, ?_, ?_, ?_, ?_, ?_, ?_, ?_, ?_, ?_, ?_, ?_, ?_, ?_, ?_, ?_, ?_, ?_⟩
  · have h := f32_of_grid (-420) 0 (by norm_num) (by norm_num)
    norm_num at h
    exact h
  · exact f32_zero
  · have h := f32_of_grid (275) 25 (by norm_num) (by norm_num)
    norm_num at h
    exact h
  · have h := f32_of_grid (1) 14 (by norm_num) (by norm_num)
    norm_num at h
    exact h
  · have h := f32_of_grid (1) 6 (by norm_num) (by norm_num)
    norm_num at h
    exact h
  · have h := f32_of_grid (65) 12 (by norm_num) (by norm_num)
    norm_num at h
    exact h
  · have h := f32_of_grid (1) 4 (by norm_num) (by norm_num)
    norm_num at h
    exact h
  · have h := f32_of_grid (275) 11 (by norm_num) (by norm_num)
    norm_num at h
    exact h
  · have h := f32_of_grid (1) 1 (by norm_num) (by norm_num)
    norm_num at h
    exact h
  · have h := f32_of_grid (275) 9 (by norm_num) (by norm_num)
    norm_num at h
    exact h
  · have h := f32_of_grid (65) 4 (by norm_num) (by norm_num)
    norm_num at h
    exact h
  · have h := f32_of_grid (275) 5 (by norm_num) (by norm_num)
    norm_num at h
    exact h
  · have h := f32_of_grid (65) 2 (by norm_num) (by norm_num)
    norm_num at h
    exact h
  · have h := f32_of_grid (105) 2 (by norm_num) (by norm_num)
    norm_num at h
    exact h
  · have h := f32_of_grid (275) 3 (by norm_num) (by norm_num)
    norm_num at h
    exact h
  · simpa using f32_natCast 36 (by norm_num)
  · simpa using f32_natCast 130 (by norm_num)
  · have h := f32_of_grid (275) 1 (by norm_num) (by norm_num)
    norm_num at h
    exact h
  · simpa using f32_natCast 200 (by norm_num)
  · simpa using f32_natCast 236 (by norm_num)
  · simpa using f32_natCast 292 (by norm_num)
  · simpa using f32_natCast 320 (by norm_num)
  · have h := f32_of_scaled (10737418515 / 33554432) 15 10485760 (by norm_num)
      (by norm_num [abs_of_nonneg]) (by norm_num [abs_of_nonneg]) (by norm_num [abs_lt])
    rw [h]
    norm_num
  · have h := f32_of_grid (164115) 9 (by norm_num) (by norm_num)
    norm_num at h
    exact h
  · simpa using f32_natCast 356 (by norm_num)
  · have h := f32_of_scaled (11945378067 / 33554432) 15 11665408 (by norm_num)
      (by norm_num [abs_of_nonneg]) (by norm_num [abs_of_nonneg]) (by norm_num [abs_lt])
    rw [h]
    norm_num
  · have h := f32_of_grid (182547) 9 (by norm_num) (by norm_num)
    norm_num at h
    exact h
  · simpa using f32_natCast 368 (by norm_num)
  · have h := f32_of_grid (12051) 5 (by norm_num) (by norm_num)
    norm_num at h
    exact h
  · simpa using f32_natCast 398 (by norm_num)
  · have h := f32_of_grid (1638465) 12 (by norm_num) (by norm_num)
    norm_num at h
    exact h
  · simpa using f32_natCast 404 (by norm_num)
  · have h := f32_of_grid (6465) 4 (by norm_num) (by norm_num)
    norm_num at h
    exact h
  · simpa using f32_natCast 412 (by norm_num)
  · have h := f32_of_grid (825) 1 (by norm_num) (by norm_num)
    norm_num at h
    exact h
  · have h := f32_of_grid (211219) 9 (by norm_num) (by norm_num)
    norm_num at h
    exact h
  · have h := f32_of_grid (13203) 5 (by norm_num) (by norm_num)
    norm_num at h
    exact h
  · simpa using f32_natCast 414 (by norm_num)
  · have h := f32_of_grid (1665) 2 (by norm_num) (by norm_num)
    norm_num at h
    exact h
  · simpa using f32_natCast 420 (by norm_num)
  · have h := f32_of_grid (919) 1 (by norm_num) (by norm_num)
    norm_num at h
    exact h
  · simpa using f32_natCast 460 (by norm_num)
  · have h := f32_of_grid (14995) 5 (by norm_num) (by norm_num)
    norm_num at h
    exact h
  · have h := f32_of_grid (1990721) 12 (by norm_num) (by norm_num)
    norm_num at h
    exact h
  · have h := f32_of_grid (7841) 4 (by norm_num) (by norm_num)
    norm_num at h
    exact h
  · have h := f32_of_grid (2009) 2 (by norm_num) (by norm_num)
    norm_num at h
    exact h
  · simpa using f32_natCast 530 (by norm_num)
  · simpa using f32_natCast 550 (by norm_num)
  · simpa using f32_natCast 616 (by norm_num)
  · simpa using f32_natCast 746 (by norm_num)
  · simpa using f32_natCast 750 (by norm_num)
  · simpa using f32_natCast 754 (by norm_num)
  · have h := f32_of_grid (3065) 2 (by norm_num) (by norm_num)
    norm_num at h
    exact h
  · simpa using f32_natCast 780 (by norm_num)
  · simpa using f32_natCast 784 (by norm_num)
  · simpa using f32_natCast 786 (by norm_num)
  · simpa using f32_natCast 788 (by norm_num)
  · simpa using f32_natCast 790 (by norm_num)
  · have h := f32_of_grid (3241) 2 (by norm_num) (by norm_num)
    norm_num at h
    exact h
  · simpa using f32_natCast 824 (by norm_num)
  · simpa using f32_natCast 842 (by norm_num)
  · simpa using f32_natCast 848 (by norm_num)
  · simpa using f32_natCast 870 (by norm_num)
  · simpa using f32_natCast 906 (by norm_num)
  · simpa using f32_natCast 962 (by norm_num)
  · simpa using f32_natCast 1016 (by norm_num)
  · simpa using f32_natCast 1100 (by norm_num)
  · simpa using f32_natCast 1118 (by norm_num)
  · simpa using f32_natCast 1286 (by norm_num)
  · simpa using f32_natCast 1388 (by norm_num)
  · simpa using f32_natCast 1556 (by norm_num)
  · simpa using f32_natCast 1658 (by norm_num)
  · simpa using f32_natCast 1826 (by norm_num)
  · simpa using f32_natCast 1928 (by norm_num)
  · simpa using f32_natCast 2096 (by norm_num)
  · simpa using f32_natCast 2198 (by norm_num)
  · simpa using f32_natCast 2366 (by norm_num)
  · simpa using f32_natCast 2468 (by norm_num)
  · simpa using f32_natCast 2636 (by norm_num)
  · simpa using f32_natCast 2738 (by norm_num)
  · simpa using f32_natCast 2906 (by norm_num)
  · simpa using f32_natCast 3008 (by norm_num)

theorem wedged_roundings :
    f32 (-420 : ℚ) = -420 ∧ f32 (0 : ℚ) = 0 ∧ f32 (1 / 64 : ℚ) = 1 / 64
      ∧ f32 (275 / 512 : ℚ) = 275 / 512 ∧ f32 (65 / 16 : ℚ) = 65 / 16
      ∧ f32 (105 / 16 : ℚ) = 105 / 16 ∧ f32 (275 / 8 : ℚ) = 275 / 8 ∧ f32 (36 : ℚ) = 36
      ∧ f32 (298 : ℚ) = 298 ∧ f32 (334 : ℚ) = 334 ∧ f32 (368 : ℚ) = 368
      ∧ f32 (188691 / 512 : ℚ) = 188691 / 512 ∧ f32 (781 / 2 : ℚ) = 781 / 2 ∧ f32 (392 : ℚ) = 392
      ∧ f32 (398 : ℚ) = 398 ∧ f32 (404 : ℚ) = 404 ∧ f32 (6465 / 16 : ℚ) = 6465 / 16
      ∧ f32 (207123 / 512 : ℚ) = 207123 / 512 ∧ f32 (827 / 2 : ℚ) = 827 / 2 ∧ f32 (414 : ℚ) = 414
      ∧ f32 (420 : ℚ) = 420 ∧ f32 (460 : ℚ) = 460 ∧ f32 (235795 / 512 : ℚ) = 235795 / 512
      ∧ f32 (7841 / 16 : ℚ) = 7841 / 16 ∧ f32 (13369345 / 16384 : ℚ) = 13369345 / 16384
      ∧ f32 (1000 : ℚ) = 1000 ∧ f32 (16384001 / 16384 : ℚ) = 16384001 / 16384
      ∧ f32 (16491521 / 16384 : ℚ) = 16491521 / 16384 ∧ f32 (1008 : ℚ) = 1008
      ∧ f32 (16622593 / 16384 : ℚ) = 16622593 / 16384 ∧ f32 (1044 : ℚ) = 1044
      ∧ f32 (17104897 / 16384 : ℚ) = 1044 ∧ f32 (17212417 / 16384 : ℚ) = 16809 / 16
      ∧ f32 (1184 : ℚ) = 1184 := by
  refine ⟨?_, ?_, ?_, ?_, ?_, ?_, ?_, ?_, ?_, ?_, ?_, ?_, ?_, ?_, ?_, ?_, ?_, ?_, ?_, ?_, ?_, ?_, ?_, ?_, ?_, ?_, ?_, ?_, ?_, ?_, ?_, ?_, ?_, ?_⟩
  · have h := f32_of_grid (-420) 0 (by norm_num) (by norm_num)
    norm_num at h
    exact h
  · exact f32_zero
  · have h := f32_of_grid (1) 6 (by norm_num) (by norm_num)
    norm_num at h
    exact h
  · have h := f32_of_grid (275) 9 (by norm_num) (by norm_num)
    norm_num at h
    exact h
  · have h := f32_of_grid (65) 4 (by norm_num) (by norm_num)
    norm_num at h
    exact h
  · have h := f32_of_grid (105) 4 (by norm_num) (by norm_num)
    norm_num at h
    exact h
  · have h := f32_of_grid (275) 3 (by norm_num) (by norm_num)
    norm_num at h
    exact h
  · simpa using f32_natCast 36 (by norm_num)
  · simpa using f32_natCast 298 (by norm_num)
  · simpa using f32_natCast 334 (by norm_num)
  · simpa using f32_natCast 368 (by norm_num)
  · have h := f32_of_grid (188691) 9 (by norm_num) (by norm_num)
    norm_num at h
    exact h
  · have h := f32_of_grid (781) 1 (by norm_num) (by norm_num)
    norm_num at h
    exact h
  · simpa using f32_natCast 392 (by norm_num)
  · simpa using f32_natCast 398 (by norm_num)
  · simpa using f32_natCast 404 (by norm_num)
  · have h := f32_of_grid (6465) 4 (by norm_num) (by norm_num)
    norm_num at h
    exact h
  · have h := f32_of_grid (207123) 9 (by norm_num) (by norm_num)
    norm_num at h
    exact h
  · have h := f32_of_grid (827) 1 (by norm_num) (by norm_num)
    norm_num at h
    exact h
  · simpa using f32_natCast 414 (by norm_num)
  · simpa using f32_natCast 420 (by norm_num)
  · simpa using f32_natCast 460 (by norm_num)
  · have h := f32_of_grid (235795) 9 (by norm_num) (by norm_num)
    norm_num at h
    exact h
  · have h := f32_of_grid (7841) 4 (by norm_num) (by norm_num)
    norm_num at h
    exact h
  · have h := f32_of_grid (13369345) 14 (by norm_num) (by norm_num)
    norm_num at h
    exact h
  · simpa using f32_natCast 1000 (by norm_num)
  · have h := f32_of_grid (16384001) 14 (by norm_num) (by norm_num)
    norm_num at h
    exact h
  · have h := f32_of_grid (16491521) 14 (by norm_num) (by norm_num)
    norm_num at h
    exact h
  · simpa using f32_natCast 1008 (by norm_num)
  · have h := f32_of_grid (16622593) 14 (by norm_num) (by norm_num)
    norm_num at h
    exact h
  · simpa using f32_natCast 1044 (by norm_num)
  · have h := f32_of_tie (17104897 / 16384) 13 8552448 (by norm_num)
      (by norm_num [abs_of_nonneg]) (by norm_num [abs_of_nonneg]) (by norm_num [abs_of_nonneg])
      (by norm_num)
    rw [h]
    norm_num
  · have h := f32_of_tie (17212417 / 16384) 13 8606208 (by norm_num)
      (by norm_num [abs_of_nonneg]) (by norm_num [abs_of_nonneg]) (by norm_num [abs_of_nonneg])
      (by norm_num)
    rw [h]
    norm_num
  · simpa using f32_natCast 1184 (by norm_num)

theorem levelZeroCourse_onGrid : ∀ o ∈ levelZeroCourse, f32 o.rect.x = o.rect.x := by
  intro o ho
  simp only [levelZeroCourse, List.mem_cons, List.mem_singleton, List.not_mem_nil, or_false] at ho
  rcases ho with rfl | rfl | rfl | rfl | rfl | rfl | rfl | rfl | rfl
  · simpa [blockAt] using f32_natCast 790 (by norm_num)
  · simpa [blockAt] using f32_natCast 1060 (by norm_num)
  · simpa [blockAt] using f32_natCast 1330 (by norm_num)
  · simpa [blockAt] using f32_natCast 1600 (by norm_num)
  · simpa [blockAt] using f32_natCast 1870 (by norm_num)
  · simpa [blockAt] using f32_natCast 2140 (by norm_num)
  · simpa [blockAt] using f32_natCast 2410 (by norm_num)
  · simpa [blockAt] using f32_natCast 2680 (by norm_num)
  · simpa [blockAt] using f32_natCast 2950 (by norm_num)

theorem aboveCourse_onGrid : OnGrid aboveCourse :=
  ⟨by simpa [aboveCourse] using f32_natCast 780 (by norm_num),
    by simpa [aboveCourse] using f32_natCast 200 (by norm_num), levelZeroCourse_onGrid⟩

theorem runUp_onGrid : OnGrid runUp :=
  ⟨by simpa [runUp] using f32_natCast 740 (by norm_num),
    by simpa [runUp] using f32_natCast 368 (by norm_num), levelZeroCourse_onGrid⟩

theorem restOnCourse_onGrid : OnGrid restOnCourse :=
  ⟨by simpa [restOnCourse] using f32_natCast 780 (by norm_num),
    by simpa [restOnCourse] using f32_natCast 320 (by norm_num), levelZeroCourse_onGrid⟩

theorem duckedOnCourse_onGrid : OnGrid duckedOnCourse :=
  ⟨by simpa [duckedOnCourse, restOnCourse] using f32_natCast 780 (by norm_num),
    by simpa [duckedOnCourse, restOnCourse] using f32_natCast 356 (by norm_num),
    levelZeroCourse_onGrid⟩

/-- The duck transition when the duck input is released and nothing blocks
the standing rectangle: the player stands up, feet in place. -/
theorem inputDuck32_stand (s : GameScene) (h1 : s.duckHeld = false) (h2 : s.ducking = true)
    (h3 : s.standBlocked32 = false) :
    s.inputDuck32 =
      { s with ducking := false, player := { s.player with h := 92, y := s.standTest32.y } } := by
  unfold GameScene.inputDuck32
  rw [h1, h2, h3]
  rfl

/-- The catch test does not read the viewport metrics or the camera. -/
theorem caught32_sync (s : GameScene) (dt : ℚ) (rs : Option (Int × Int)) :
    ((s.syncViewportMetrics rs).moveWorld32 dt).caught32
      = ((s.movePlayer32 dt).bullChase32 dt).caught32 := by
  obtain ⟨hp, -, -, -, -, hb, -⟩ := moveWorld32_sync s dt rs
  unfold GameScene.caught32
  rw [hp, hb]
  rfl

/-- A running tick without a catch ends in the state of the player phases. -/
theorem update32_of_free (s : GameScene) (dt : ℚ) (rs : Option (Int × Int)) (rnd : Nat → ℚ)
    (hw : s.waitingForEnter = false)
    (hfree : ((s.movePlayer32 dt).bullChase32 dt).caught32 = false) :
    (s.update32 dt rs rnd).player = (s.movePlayer32 dt).player
      ∧ (s.update32 dt rs rnd).ducking = (s.movePlayer32 dt).ducking
      ∧ (s.update32 dt rs rnd).obstacles = (s.movePlayer32 dt).obstacles
      ∧ (s.update32 dt rs rnd).onGround = (s.movePlayer32 dt).onGround
      ∧ (s.update32 dt rs rnd).vy = (s.movePlayer32 dt).vy := by
  obtain ⟨hp, hd, ho, hg, hv, -, -⟩ := moveWorld32_sync s dt rs
  rw [update32_of_running s dt rs rnd hw,
    checkCaught32_of_free _ rnd ((caught32_sync s dt rs).trans hfree)]
  obtain ⟨gp, -, -, -, -, -, -, -, gv, gg, gd, go⟩ :=
    checkGoalReached_sameMove ((s.syncViewportMetrics rs).moveWorld32 dt)
  exact ⟨gp.trans hp, gd.trans hd, go.trans ho, gg.trans hg, gv.trans hv⟩

theorem aboveCourse_input32 : aboveCourse.applyInput32 = { aboveCourse with vx := 0 } :=
  applyInput32_idle aboveCourse rfl ⟨rfl, rfl, rfl, rfl⟩

theorem restOnCourse_input32 : restOnCourse.applyInput32 = { restOnCourse with vx := 0 } :=
  applyInput32_idle restOnCourse rfl ⟨rfl, rfl, rfl, rfl⟩

set_option maxRecDepth 8000 in
theorem runUp_input32 : runUp.applyInput32 = { runUp with vx := 420 } := by
  obtain ⟨r0, r1, r2, r3, r4, r5, r6, r7, r8, r9, r10, r11, r12, r13, r14, r15,
    r16, r17, r18, r19, r20, r21, r22, r23, r24, r25, r26, r27, r28, r29, r30, r31,
    r32, r33, r34, r35, r36, r37, r38, r39, r40, r41, r42, r43, r44, r45, r46, r47,
    r48, r49, r50, r51, r52, r53, r54, r55, r56, r57, r58, r59, r60, r61, r62, r63,
    r64, r65, r66, r67, r68, r69, r70, r71, r72, r73, r74, r75, r76, r77, r78, r79,
    r80, r81⟩ := course_roundings
  norm_num [GameScene.applyInput32, GameScene.inputHorizontal32, GameScene.inputDuck32,
    GameScene.inputJump, runUp, moveSpeed,
    r0, r1, r2, r3, r4, r5, r6, r7, r8, r9, r10, r11, r12, r13, r14, r15,
    r16, r17, r18, r19, r20, r21, r22, r23, r24, r25, r26, r27, r28, r29, r30, r31,
    r32, r33, r34, r35, r36, r37, r38, r39, r40, r41, r42, r43, r44, r45, r46, r47,
    r48, r49, r50, r51, r52, r53, r54, r55, r56, r57, r58, r59, r60, r61, r62, r63,
    r64, r65, r66, r67, r68, r69, r70, r71, r72, r73, r74, r75, r76, r77, r78, r79,
    r80, r81]

set_option maxRecDepth 8000 in
theorem duckedOnCourse_input32 :
    duckedOnCourse.applyInput32 =
      { duckedOnCourse with
        ducking := false, player := { x := 780, y := 320, w := 44, h := 92 } } := by
  obtain ⟨r0, r1, r2, r3, r4, r5, r6, r7, r8, r9, r10, r11, r12, r13, r14, r15,
    r16, r17, r18, r19, r20, r21, r22, r23, r24, r25, r26, r27, r28, r29, r30, r31,
    r32, r33, r34, r35, r36, r37, r38, r39, r40, r41, r42, r43, r44, r45, r46, r47,
    r48, r49, r50, r51, r52, r53, r54, r55, r56, r57, r58, r59, r60, r61, r62, r63,
    r64, r65, r66, r67, r68, r69, r70, r71, r72, r73, r74, r75, r76, r77, r78, r79,
    r80, r81⟩ := course_roundings
  have hb : (duckedOnCourse.inputHorizontal32).standBlocked32 = false := by
    norm_num [GameScene.inputHorizontal32, GameScene.standBlocked32, GameScene.standTest32, AABB32,
      isSolidForPlayer, duckedOnCourse, restOnCourse, levelZeroCourse, blockAt,
      r0, r1, r2, r3, r4, r5, r6, r7, r8, r9, r10, r11, r12, r13, r14, r15,
      r16, r17, r18, r19, r20, r21, r22, r23, r24, r25, r26, r27, r28, r29, r30, r31,
      r32, r33, r34, r35, r36, r37, r38, r39, r40, r41, r42, r43, r44, r45, r46, r47,
      r48, r49, r50, r51, r52, r53, r54, r55, r56, r57, r58, r59, r60, r61, r62, r63,
      r64, r65, r66, r67, r68, r69, r70, r71, r72, r73, r74, r75, r76, r77, r78, r79,
      r80, r81]
  unfold GameScene.applyInput32
  rw [inputDuck32_stand _ rfl rfl hb]
  norm_num [GameScene.inputHorizontal32, GameScene.inputJump, GameScene.standTest32,
    duckedOnCourse, restOnCourse,
    r0, r1, r2, r3, r4, r5, r6, r7, r8, r9, r10, r11, r12, r13, r14, r15,
    r16, r17, r18, r19, r20, r21, r22, r23, r24, r25, r26, r27, r28, r29, r30, r31,
    r32, r33, r34, r35, r36, r37, r38, r39, r40, r41, r42, r43, r44, r45, r46, r47,
    r48, r49, r50, r51, r52, r53, r54, r55, r56, r57, r58, r59, r60, r61, r62, r63,
    r64, r65, r66, r67, r68, r69, r70, r71, r72, r73, r74, r75, r76, r77, r78, r79,
    r80, r81]

set_option maxRecDepth 8000 in
theorem wedged_input32 :
    wedged.applyInput32 =
      { wedged with
        vx := 420, ducking := false
        player := { x := 16384001 / 16384, y := 368, w := 44, h := 92 } } := by
  obtain ⟨r0, r1, r2, r3, r4, r5, r6, r7, r8, r9, r10, r11, r12, r13, r14, r15,
    r16, r17, r18, r19, r20, r21, r22, r23, r24, r25, r26, r27, r28, r29, r30, r31,
    r32, r33⟩ := wedged_roundings
  have hb : (wedged.inputHorizontal32).standBlocked32 = false := by
    norm_num [GameScene.inputHorizontal32, GameScene.standBlocked32, GameScene.standTest32, AABB32,
      isSolidForPlayer, wedged, moveSpeed,
      r0, r1, r2, r3, r4, r5, r6, r7, r8, r9, r10, r11, r12, r13, r14, r15,
      r16, r17, r18, r19, r20, r21, r22, r23, r24, r25, r26, r27, r28, r29, r30, r31,
      r32, r33]
  unfold GameScene.applyInput32
  rw [inputDuck32_stand _ rfl rfl hb]
  norm_num [GameScene.inputHorizontal32, GameScene.inputJump, GameScene.standTest32,
    wedged, moveSpeed,
    r0, r1, r2, r3, r4, r5, r6, r7, r8, r9, r10, r11, r12, r13, r14, r15,
    r16, r17, r18, r19, r20, r21, r22, r23, r24, r25, r26, r27, r28, r29, r30, r31,
    r32, r33]

set_option maxRecDepth 8000 in
/-- The player phases of the binary32 tick of `1 / 2` from `aboveCourse`: the fall
crosses the first block between two overlap tests and the floor clamp lifts
the player into it. -/
theorem aboveCourse_move32 :
    (aboveCourse.movePlayer32 (1 / 2)).player = { x := 780, y := 368, w := 44, h := 92 }
      ∧ (aboveCourse.movePlayer32 (1 / 2)).ducking = false
      ∧ (aboveCourse.movePlayer32 (1 / 2)).obstacles = levelZeroCourse
      ∧ (aboveCourse.movePlayer32 (1 / 2)).onGround = true
      ∧ (aboveCourse.movePlayer32 (1 / 2)).vy = 0
      ∧ ((aboveCourse.movePlayer32 (1 / 2)).bullChase32 (1 / 2)).caught32 = false := by
  obtain ⟨r0, r1, r2, r3, r4, r5, r6, r7, r8, r9, r10, r11, r12, r13, r14, r15,
    r16, r17, r18, r19, r20, r21, r22, r23, r24, r25, r26, r27, r28, r29, r30, r31,
    r32, r33, r34, r35, r36, r37, r38, r39, r40, r41, r42, r43, r44, r45, r46, r47,
    r48, r49, r50, r51, r52, r53, r54, r55, r56, r57, r58, r59, r60, r61, r62, r63,
    r64, r65, r66, r67, r68, r69, r70, r71, r72, r73, r74, r75, r76, r77, r78, r79,
    r80, r81⟩ := course_roundings
  simp only [GameScene.movePlayer32, GameScene.resolvePlayer32, aboveCourse_input32]
  norm_num [GameScene.integrate32, GameScene.moveX32, GameScene.moveY32,
    GameScene.worldGround32, GameScene.bullChase32, GameScene.caught32,
    AABB32, groundY, gravity, moveSpeed, resolveXStep32, resolveYStep32, isSolidForPlayer, aboveCourse, levelZeroCourse, blockAt,
    r0, r1, r2, r3, r4, r5, r6, r7, r8, r9, r10, r11, r12, r13, r14, r15,
    r16, r17, r18, r19, r20, r21, r22, r23, r24, r25, r26, r27, r28, r29, r30, r31,
    r32, r33, r34, r35, r36, r37, r38, r39, r40, r41, r42, r43, r44, r45, r46, r47,
    r48, r49, r50, r51, r52, r53, r54, r55, r56, r57, r58, r59, r60, r61, r62, r63,
    r64, r65, r66, r67, r68, r69, r70, r71, r72, r73, r74, r75, r76, r77, r78, r79,
    r80, r81]

set_option maxRecDepth 8000 in
/-- The player phases of the binary32 tick of `1 / 16` from `runUp`: the run is
stopped at the left edge of the first block. -/
theorem runUp_move32 :
    (runUp.movePlayer32 (1 / 16)).player = { x := 746, y := 368, w := 44, h := 92 }
      ∧ (runUp.movePlayer32 (1 / 16)).ducking = false
      ∧ (runUp.movePlayer32 (1 / 16)).obstacles = levelZeroCourse
      ∧ (runUp.movePlayer32 (1 / 16)).onGround = true
      ∧ (runUp.movePlayer32 (1 / 16)).vy = 0
      ∧ ((runUp.movePlayer32 (1 / 16)).bullChase32 (1 / 16)).caught32 = false := by
  obtain ⟨r0, r1, r2, r3, r4, r5, r6, r7, r8, r9, r10, r11, r12, r13, r14, r15,
    r16, r17, r18, r19, r20, r21, r22, r23, r24, r25, r26, r27, r28, r29, r30, r31,
    r32, r33, r34, r35, r36, r37, r38, r39, r40, r41, r42, r43, r44, r45, r46, r47,
    r48, r49, r50, r51, r52, r53, r54, r55, r56, r57, r58, r59, r60, r61, r62, r63,
    r64, r65, r66, r67, r68, r69, r70, r71, r72, r73, r74, r75, r76, r77, r78, r79,
    r80, r81⟩ := course_roundings
  simp only [GameScene.movePlayer32, GameScene.resolvePlayer32, runUp_input32]
  norm_num [GameScene.integrate32, GameScene.moveX32, GameScene.moveY32,
    GameScene.worldGround32, GameScene.bullChase32, GameScene.caught32,
    AABB32, groundY, gravity, moveSpeed, resolveXStep32, resolveYStep32, isSolidForPlayer, runUp, levelZeroCourse, blockAt,
    r0, r1, r2, r3, r4, r5, r6, r7, r8, r9, r10, r11, r12, r13, r14, r15,
    r16, r17, r18, r19, r20, r21, r22, r23, r24, r25, r26, r27, r28, r29, r30, r31,
    r32, r33, r34, r35, r36, r37, r38, r39, r40, r41, r42, r43, r44, r45, r46, r47,
    r48, r49, r50, r51, r52, r53, r54, r55, r56, r57, r58, r59, r60, r61, r62, r63,
    r64, r65, r66, r67, r68, r69, r70, r71, r72, r73, r74, r75, r76, r77, r78, r79,
    r80, r81]

set_option maxRecDepth 8000 in
/-- The player phases of the binary32 tick of `1 / 2` from `restOnCourse`: the
player drops through the block to the ground line. -/
theorem restOnCourse_drop32 :
    (restOnCourse.movePlayer32 (1 / 2)).player = { x := 780, y := 368, w := 44, h := 92 }
      ∧ (restOnCourse.movePlayer32 (1 / 2)).ducking = false
      ∧ (restOnCourse.movePlayer32 (1 / 2)).obstacles = levelZeroCourse
      ∧ (restOnCourse.movePlayer32 (1 / 2)).onGround = true
      ∧ (restOnCourse.movePlayer32 (1 / 2)).vy = 0
      ∧ ((restOnCourse.movePlayer32 (1 / 2)).bullChase32 (1 / 2)).caught32 = false := by
  obtain ⟨r0, r1, r2, r3, r4, r5, r6, r7, r8, r9, r10, r11, r12, r13, r14, r15,
    r16, r17, r18, r19, r20, r21, r22, r23, r24, r25, r26, r27, r28, r29, r30, r31,
    r32, r33, r34, r35, r36, r37, r38, r39, r40, r41, r42, r43, r44, r45, r46, r47,
    r48, r49, r50, r51, r52, r53, r54, r55, r56, r57, r58, r59, r60, r61, r62, r63,
    r64, r65, r66, r67, r68, r69, r70, r71, r72, r73, r74, r75, r76, r77, r78, r79,
    r80, r81⟩ := course_roundings
  simp only [GameScene.movePlayer32, GameScene.resolvePlayer32, restOnCourse_input32]
  norm_num [GameScene.integrate32, GameScene.moveX32, GameScene.moveY32,
    GameScene.worldGround32, GameScene.bullChase32, GameScene.caught32,
    AABB32, groundY, gravity, moveSpeed, resolveXStep32, resolveYStep32, isSolidForPlayer, restOnCourse, levelZeroCourse, blockAt,
    r0, r1, r2, r3, r4, r5, r6, r7, r8, r9, r10, r11, r12, r13, r14, r15,
    r16, r17, r18, r19, r20, r21, r22, r23, r24, r25, r26, r27, r28, r29, r30, r31,
    r32, r33, r34, r35, r36, r37, r38, r39, r40, r41, r42, r43, r44, r45, r46, r47,
    r48, r49, r50, r51, r52, r53, r54, r55, r56, r57, r58, r59, r60, r61, r62, r63,
    r64, r65, r66, r67, r68, r69, r70, r71, r72, r73, r74, r75, r76, r77, r78, r79,
    r80, r81]

set_option maxRecDepth 8000 in
/-- The player phases of the binary32 tick of `2 ^ (-14)` from `restOnCourse`: the
fall `f32 (vy·dt) = 275 / 2 ^ 25` is below half a unit in the last place of
320, the sum `player.y + vy·dt` rounds back to 320, the overlap test finds
nothing and the landing branch is not taken. -/
theorem restOnCourse_short32 :
    (restOnCourse.movePlayer32 (1 / 16384)).player = { x := 780, y := 320, w := 44, h := 92 }
      ∧ (restOnCourse.movePlayer32 (1 / 16384)).ducking = false
      ∧ (restOnCourse.movePlayer32 (1 / 16384)).obstacles = levelZeroCourse
      ∧ (restOnCourse.movePlayer32 (1 / 16384)).onGround = false
      ∧ (restOnCourse.movePlayer32 (1 / 16384)).vy = 275 / 2048
      ∧ ((restOnCourse.movePlayer32 (1 / 16384)).bullChase32 (1 / 16384)).caught32 = false := by
  obtain ⟨r0, r1, r2, r3, r4, r5, r6, r7, r8, r9, r10, r11, r12, r13, r14, r15,
    r16, r17, r18, r19, r20, r21, r22, r23, r24, r25, r26, r27, r28, r29, r30, r31,
    r32, r33, r34, r35, r36, r37, r38, r39, r40, r41, r42, r43, r44, r45, r46, r47,
    r48, r49, r50, r51, r52, r53, r54, r55, r56, r57, r58, r59, r60, r61, r62, r63,
    r64, r65, r66, r67, r68, r69, r70, r71, r72, r73, r74, r75, r76, r77, r78, r79,
    r80, r81⟩ := course_roundings
  simp only [GameScene.movePlayer32, GameScene.resolvePlayer32, restOnCourse_input32]
  norm_num [GameScene.integrate32, GameScene.moveX32, GameScene.moveY32,
    GameScene.worldGround32, GameScene.bullChase32, GameScene.caught32,
    AABB32, groundY, gravity, moveSpeed, resolveXStep32, resolveYStep32, isSolidForPlayer, restOnCourse, levelZeroCourse, blockAt,
    r0, r1, r2, r3, r4, r5, r6, r7, r8, r9, r10, r11, r12, r13, r14, r15,
    r16, r17, r18, r19, r20, r21, r22, r23, r24, r25, r26, r27, r28, r29, r30, r31,
    r32, r33, r34, r35, r36, r37, r38, r39, r40, r41, r42, r43, r44, r45, r46, r47,
    r48, r49, r50, r51, r52, r53, r54, r55, r56, r57, r58, r59, r60, r61, r62, r63,
    r64, r65, r66, r67, r68, r69, r70, r71, r72, r73, r74, r75, r76, r77, r78, r79,
    r80, r81]

set_option maxRecDepth 8000 in
/-- The player phases of the binary32 tick of `1 / 64` from `duckedOnCourse`: the
player stands up, feet in place. -/
theorem duckedOnCourse_stand32 :
    (duckedOnCourse.movePlayer32 (1 / 64)).player = { x := 780, y := 320, w := 44, h := 92 }
      ∧ (duckedOnCourse.movePlayer32 (1 / 64)).ducking = false
      ∧ (duckedOnCourse.movePlayer32 (1 / 64)).obstacles = levelZeroCourse
      ∧ (duckedOnCourse.movePlayer32 (1 / 64)).onGround = true
      ∧ (duckedOnCourse.movePlayer32 (1 / 64)).vy = 0
      ∧ ((duckedOnCourse.movePlayer32 (1 / 64)).bullChase32 (1 / 64)).caught32 = false := by
  obtain ⟨r0, r1, r2, r3, r4, r5, r6, r7, r8, r9, r10, r11, r12, r13, r14, r15,
    r16, r17, r18, r19, r20, r21, r22, r23, r24, r25, r26, r27, r28, r29, r30, r31,
    r32, r33, r34, r35, r36, r37, r38, r39, r40, r41, r42, r43, r44, r45, r46, r47,
    r48, r49, r50, r51, r52, r53, r54, r55, r56, r57, r58, r59, r60, r61, r62, r63,
    r64, r65, r66, r67, r68, r69, r70, r71, r72, r73, r74, r75, r76, r77, r78, r79,
    r80, r81⟩ := course_roundings
  simp only [GameScene.movePlayer32, GameScene.resolvePlayer32, duckedOnCourse_input32]
  norm_num [GameScene.integrate32, GameScene.moveX32, GameScene.moveY32,
    GameScene.worldGround32, GameScene.bullChase32, GameScene.caught32,
    AABB32, groundY, gravity, moveSpeed, resolveXStep32, resolveYStep32, isSolidForPlayer, duckedOnCourse, restOnCourse, levelZeroCourse, blockAt,
    r0, r1, r2, r3, r4, r5, r6, r7, r8, r9, r10, r11, r12, r13, r14, r15,
    r16, r17, r18, r19, r20, r21, r22, r23, r24, r25, r26, r27, r28, r29, r30, r31,
    r32, r33, r34, r35, r36, r37, r38, r39, r40, r41, r42, r43, r44, r45, r46, r47,
    r48, r49, r50, r51, r52, r53, r54, r55, r56, r57, r58, r59, r60, r61, r62, r63,
    r64, r65, r66, r67, r68, r69, r70, r71, r72, r73, r74, r75, r76, r77, r78, r79,
    r80, r81]

set_option maxRecDepth 8000 in
/-- The player phases of the binary32 tick of `1 / 64` from `wedged`: the player
stands up, runs into the second bar and is pushed back to `x = 1000`, one
unit in the last place inside the first bar. -/
theorem wedged_move32 :
    (wedged.movePlayer32 (1 / 64)).player = { x := 1000, y := 368, w := 44, h := 92 }
      ∧ (wedged.movePlayer32 (1 / 64)).ducking = false
      ∧ (wedged.movePlayer32 (1 / 64)).obstacles = wedged.obstacles
      ∧ (wedged.movePlayer32 (1 / 64)).onGround = true
      ∧ (wedged.movePlayer32 (1 / 64)).vy = 0
      ∧ ((wedged.movePlayer32 (1 / 64)).bullChase32 (1 / 64)).caught32 = false := by
  obtain ⟨r0, r1, r2, r3, r4, r5, r6, r7, r8, r9, r10, r11, r12, r13, r14, r15,
    r16, r17, r18, r19, r20, r21, r22, r23, r24, r25, r26, r27, r28, r29, r30, r31,
    r32, r33⟩ := wedged_roundings
  simp only [GameScene.movePlayer32, GameScene.resolvePlayer32, wedged_input32]
  norm_num [GameScene.integrate32, GameScene.moveX32, GameScene.moveY32,
    GameScene.worldGround32, GameScene.bullChase32, GameScene.caught32,
    AABB32, groundY, gravity, moveSpeed, resolveXStep32, resolveYStep32, isSolidForPlayer, wedged,
    r0, r1, r2, r3, r4, r5, r6, r7, r8, r9, r10, r11, r12, r13, r14, r15,
    r16, r17, r18, r19, r20, r21, r22, r23, r24, r25, r26, r27, r28, r29, r30, r31,
    r32, r33]

/-! ## Resolver post-condition and landing idempotence at concrete inputs (C2, C3) -/

/-- C2 fails as stated: on the level-0 layout drawn without jitter the
player is in the air above the first block, clear of every obstacle, and a
long frame (`dt = 1 / 2`) carries it through the block without overlap at
either end of the step; the floor clamp then lifts it back to the ground
line, into the block.  After the tick, computed in binary32, the player
overlaps the solid block. -/
theorem resolver_overlap_after_floor_clamp :
    aboveCourse.obstacles = generateObstacles (levels.getD 0 {}) rndHalf
      ∧ WellFormed aboveCourse
      ∧ aboveCourse.waitingForEnter = false
      ∧ (∀ o ∈ aboveCourse.obstacles, AABB32 aboveCourse.player o.rect = false)
      ∧ blockAt 790 ∈ (aboveCourse.update32 (1 / 2) none rndHalf).obstacles
      ∧ isSolidForPlayer (blockAt 790) (aboveCourse.update32 (1 / 2) none rndHalf).ducking = true
      ∧ (aboveCourse.update32 (1 / 2) none rndHalf).player = { x := 780, y := 368, w := 44, h := 92 }
      ∧ AABB32 (aboveCourse.update32 (1 / 2) none rndHalf).player (blockAt 790).rect = true := by
  obtain ⟨m1, m2, m3, -, -, m6⟩ := aboveCourse_move32
  obtain ⟨u1, u2, u3, -, -⟩ := update32_of_free aboveCourse (1 / 2) none rndHalf rfl m6
  rw [u1, u2, u3, m1, m2, m3]
  refine ⟨levelZeroCourse_generated.symm, aboveCourse_wellFormed, rfl, ?_,
    List.mem_cons_self _ _, by simp [isSolidForPlayer, blockAt], rfl, ?_⟩
  · intro o ho
    obtain ⟨-, -, -, hy, -, -⟩ := levelZeroCourse_shape o ho
    have e : f32 ((200 : ℚ) + 92) = 292 := by
      have h := f32_natCast 292 (by norm_num)
      norm_num at h ⊢
      exact h
    rw [AABB32_false_iff]
    right; right; left
    show f32 ((200 : ℚ) + 92) ≤ o.rect.y
    rw [e, hy]
    norm_num
  · have e1 : f32 ((780 : ℚ) + 44) = 824 := by
      have h := f32_natCast 824 (by norm_num)
      norm_num at h ⊢
      exact h
    have e2 : f32 ((790 : ℚ) + 58) = 848 := by
      have h := f32_natCast 848 (by norm_num)
      norm_num at h ⊢
      exact h
    have e3 : f32 ((368 : ℚ) + 92) = 460 := by
      have h := f32_natCast 460 (by norm_num)
      norm_num at h ⊢
      exact h
    have e4 : f32 ((412 : ℚ) + 48) = 460 := by
      have h := f32_natCast 460 (by norm_num)
      norm_num at h ⊢
      exact h
    rw [AABB32_true_iff]
    show (790 : ℚ) < f32 (780 + 44) ∧ (780 : ℚ) < f32 (790 + 58)
      ∧ (412 : ℚ) < f32 (368 + 92) ∧ (368 : ℚ) < f32 (412 + 48)
    rw [e1, e2, e3, e4]
    norm_num

theorem wedged_wellFormed : WellFormed wedged := by
  refine ⟨by decide, by decide, by norm_num [wedged], by norm_num [wedged], rfl, rfl,
    by norm_num [wedged, groundY], by norm_num [wedged], ⟨rfl, rfl⟩, ?_⟩
  intro o ho
  simp only [wedged, List.mem_cons, List.mem_singleton, List.not_mem_nil, or_false] at ho
  rcases ho with rfl | rfl
  · exact ⟨by norm_num, Or.inl ⟨rfl, rfl, rfl, rfl⟩⟩
  · exact ⟨by norm_num, Or.inl ⟨rfl, rfl, rfl, rfl⟩⟩

set_option maxRecDepth 8000 in
/-- The edge hypothesis of the amended C2 is needed.  In `wedged` the ducked
player is between two bars: its left edge is on the right edge of the first,
and its right edge is one unit in the last place (`2 ^ (-14)`) inside the
second, which the rounded sum `player.x + player.w = 1044` hides from the
overlap test.  Every other hypothesis of the amended statement holds.  The
tick stands the player up (the stand-up check uses the rounded test), runs it
into the second bar and pushes it back to `x = 1044 − 44 = 1000`, inside the
first bar: after the tick the overlap test of the code itself reports the
player and the first bar overlapping. -/
theorem rounded_edge_hides_overlap :
    WellFormed wedged ∧ OnGrid wedged ∧ wedged.waitingForEnter = false
      ∧ wedged.player.x ≤ 8192
      ∧ (∀ o ∈ wedged.obstacles, AABB32 wedged.player o.rect = false)
      ∧ (∀ o ∈ wedged.obstacles,
          |f32 ((wedged.applyInput32).vx * (1 / 64))| + 1
            ≤ (wedged.applyInput32).player.w + o.rect.w)
      ∧ (∀ o ∈ wedged.obstacles,
          |f32 (((wedged.applyInput32).integrate32 (1 / 64)).vy * (1 / 64))| + 1
            ≤ (wedged.applyInput32).player.h + o.rect.h)
      ∧ ∃ o ∈ (wedged.update32 (1 / 64) none rndHalf).obstacles,
          isSolidForPlayer o (wedged.update32 (1 / 64) none rndHalf).ducking = true
            ∧ AABB32 (wedged.update32 (1 / 64) none rndHalf).player o.rect = true := by
  obtain ⟨m1, m2, m3, -, -, m6⟩ := wedged_move32
  obtain ⟨u1, u2, u3, -, -⟩ := update32_of_free wedged (1 / 64) none rndHalf rfl m6
  rw [u1, u2, u3, m1, m2, m3, wedged_input32]
  obtain ⟨r0, r1, r2, r3, r4, r5, r6, r7, r8, r9, r10, r11, r12, r13, r14, r15,
    r16, r17, r18, r19, r20, r21, r22, r23, r24, r25, r26, r27, r28, r29, r30, r31,
    r32, r33⟩ := wedged_roundings
  have g1 : f32 ((14090241 : ℚ) / 16384) = 14090241 / 16384 := by
    have h := f32_of_grid 14090241 14 (by norm_num) (by norm_num)
    norm_num at h ⊢
    exact h
  refine ⟨wedged_wellFormed, ⟨?_, ?_, ?_⟩, rfl, by norm_num [wedged], ?_, ?_, ?_, ?_⟩
  · norm_num [wedged, r0, r1, r2, r3, r4, r5, r6, r7, r8, r9, r10, r11, r12, r13, r14, r15,
      r16, r17, r18, r19, r20, r21, r22, r23, r24, r25, r26, r27, r28, r29, r30, r31,
      r32, r33]
  · norm_num [wedged, r0, r1, r2, r3, r4, r5, r6, r7, r8, r9, r10, r11, r12, r13, r14, r15,
      r16, r17, r18, r19, r20, r21, r22, r23, r24, r25, r26, r27, r28, r29, r30, r31,
      r32, r33]
  · intro o ho
    simp only [wedged, List.mem_cons, List.mem_singleton, List.not_mem_nil, or_false] at ho
    rcases ho with rfl | rfl <;>
      norm_num [g1, r0, r1, r2, r3, r4, r5, r6, r7, r8, r9, r10, r11, r12, r13, r14, r15,
        r16, r17, r18, r19, r20, r21, r22, r23, r24, r25, r26, r27, r28, r29, r30, r31,
        r32, r33]
  · intro o ho
    simp only [wedged, List.mem_cons, List.mem_singleton, List.not_mem_nil, or_false] at ho
    rcases ho with rfl | rfl <;>
      norm_num [AABB32, wedged, r0, r1, r2, r3, r4, r5, r6, r7, r8, r9, r10, r11, r12, r13, r14, r15,
        r16, r17, r18, r19, r20, r21, r22, r23, r24, r25, r26, r27, r28, r29, r30, r31,
        r32, r33]
  · intro o ho
    simp only [wedged, List.mem_cons, List.mem_singleton, List.not_mem_nil, or_false] at ho
    rcases ho with rfl | rfl <;>
      norm_num [abs_of_nonneg, r0, r1, r2, r3, r4, r5, r6, r7, r8, r9, r10, r11, r12, r13, r14, r15,
        r16, r17, r18, r19, r20, r21, r22, r23, r24, r25, r26, r27, r28, r29, r30, r31,
        r32, r33]
  · intro o ho
    simp only [wedged, List.mem_cons, List.mem_singleton, List.not_mem_nil, or_false] at ho
    rcases ho with rfl | rfl <;>
      norm_num [GameScene.integrate32, gravity, wedged, abs_of_nonneg, r0, r1, r2, r3, r4, r5, r6, r7, r8, r9, r10, r11, r12, r13, r14, r15,
        r16, r17, r18, r19, r20, r21, r22, r23, r24, r25, r26, r27, r28, r29, r30, r31,
        r32, r33]
  · refine ⟨_, List.mem_cons_self _ _, by simp [isSolidForPlayer], ?_⟩
    norm_num [AABB32, r0, r1, r2, r3, r4, r5, r6, r7, r8, r9, r10, r11, r12, r13, r14, r15,
      r16, r17, r18, r19, r20, r21, r22, r23, r24, r25, r26, r27, r28, r29, r30, r31,
      r32, r33]

/-- C2 amended, at a concrete input: on the level-0 layout drawn without
jitter the player runs into the first block during a tick of `1 / 16` and is
pushed back to its left edge, `x = 790 − 44`. -/
theorem resolver_clear_without_tunnelling_witness :
    runUp.obstacles = generateObstacles (levels.getD 0 {}) rndHalf
      ∧ WellFormed runUp ∧ OnGrid runUp
      ∧ blockAt 790 ∈ (runUp.update32 (1 / 16) none rndHalf).obstacles
      ∧ isSolidForPlayer (blockAt 790) (runUp.update32 (1 / 16) none rndHalf).ducking = true
      ∧ AABB32 (runUp.update32 (1 / 16) none rndHalf).player (blockAt 790).rect = false
      ∧ (runUp.update32 (1 / 16) none rndHalf).player = { x := 746, y := 368, w := 44, h := 92 } :=
  have hu := update32_of_free runUp (1 / 16) none rndHalf rfl runUp_move32.2.2.2.2.2
  have hmem : blockAt 790 ∈ (runUp.update32 (1 / 16) none rndHalf).obstacles := by
    rw [hu.2.2.1, runUp_move32.2.2.1]
    exact List.mem_cons_self _ _
  have hsolid : isSolidForPlayer (blockAt 790) (runUp.update32 (1 / 16) none rndHalf).ducking
      = true := by simp [isSolidForPlayer, blockAt]
  have e1 : f32 ((740 : ℚ) + 44) = 784 := by
    have h := f32_natCast 784 (by norm_num)
    norm_num at h ⊢
    exact h
  have e2 : f32 ((420 : ℚ) * (1 / 16)) = 105 / 4 := by
    have h := f32_of_grid 105 2 (by norm_num) (by norm_num)
    norm_num at h ⊢
    exact h
  have e3 : f32 ((0 : ℚ) + f32 (2200 * (1 / 16))) = 275 / 2 := by
    have h := f32_of_grid 275 1 (by norm_num) (by norm_num)
    norm_num at h ⊢
    rw [h, h]
  have e4 : f32 ((275 : ℚ) / 2 * (1 / 16)) = 275 / 32 := by
    have h := f32_of_grid 275 5 (by norm_num) (by norm_num)
    norm_num at h ⊢
    exact h
  ⟨levelZeroCourse_generated.symm, runUp_wellFormed, runUp_onGrid, hmem, hsolid,
    resolver_clear_without_tunnelling runUp (1 / 16) none rndHalf rfl runUp_wellFormed runUp_onGrid
      (by norm_num [runUp]) (by norm_num)
      (fun o ho _ => by
        obtain ⟨-, -, -, -, hx, -⟩ := levelZeroCourse_shape o ho
        rw [AABB32_false_iff]
        left
        show f32 ((740 : ℚ) + 44) ≤ o.rect.x
        rw [e1]
        linarith)
      (fun o ho _ => by
        obtain ⟨-, -, -, -, hx, -⟩ := levelZeroCourse_shape o ho
        show (740 : ℚ) + 44 ≤ o.rect.x
        linarith)
      (fun o ho => by
        obtain ⟨-, hw, -, -, -, -⟩ := levelZeroCourse_shape o ho
        rw [runUp_input32, hw]
        show |f32 ((420 : ℚ) * (1 / 16))| + 1 ≤ 44 + 58
        rw [e2]
        norm_num [abs_of_nonneg])
      (fun o ho => by
        obtain ⟨-, -, hh, -, -, -⟩ := levelZeroCourse_shape o ho
        rw [runUp_input32, hh]
        show |f32 (f32 ((0 : ℚ) + f32 (2200 * (1 / 16))) * (1 / 16))| + 1 ≤ 92 + 48
        rw [e3, e4]
        norm_num [abs_of_nonneg])
      (fun _ => by norm_num [rndHalf])
      (blockAt 790) hmem hsolid,
    hu.1.trans runUp_move32.1⟩

/-- C3 fails as stated, in three ways, on the level-0 layout drawn without
jitter; each tick is computed in binary32.  First, the standing player rests
on top of the first block with no input and `vy = 0`, and a long frame
(`dt = 1 / 2`) drops it through the block to the ground line: `y` changes
from 320 to 368.  Second, the player rests ducked on the block with the duck
input released, and a short tick (`dt = 1 / 64`) stands it up: the feet stay
but `y` changes from 356 to 320.  Third, from the first state a very short
tick (`dt = 2 ^ (-14)`) adds a fall of `275 / 2 ^ 25` that rounds away:
`y` stays 320, the overlap test finds nothing, and the tick ends with
`onGround = false` and `vy = 275 / 2048`. -/
theorem landing_moves_player :
    (restOnCourse.obstacles = generateObstacles (levels.getD 0 {}) rndHalf
      ∧ WellFormed restOnCourse
      ∧ restOnCourse.player.y + restOnCourse.player.h = (blockAt 790).rect.y
      ∧ blockAt 790 ∈ restOnCourse.obstacles
      ∧ isSolidForPlayer (blockAt 790) restOnCourse.ducking = true
      ∧ (blockAt 790).rect.x < restOnCourse.player.x + restOnCourse.player.w
      ∧ restOnCourse.player.x < (blockAt 790).rect.x + (blockAt 790).rect.w
      ∧ restOnCourse.vy = 0 ∧ restOnCourse.leftHeld = false ∧ restOnCourse.rightHeld = false
      ∧ restOnCourse.duckHeld = false ∧ restOnCourse.jumpPressed = false
      ∧ ((restOnCourse.syncViewportMetrics none).moveWorld32 (1 / 2)).caught32 = false
      ∧ restOnCourse.player.y = 320
      ∧ (restOnCourse.update32 (1 / 2) none rndHalf).player.y = 368)
    ∧ (WellFormed duckedOnCourse
      ∧ duckedOnCourse.player.y + duckedOnCourse.player.h = (blockAt 790).rect.y
      ∧ blockAt 790 ∈ duckedOnCourse.obstacles
      ∧ isSolidForPlayer (blockAt 790) duckedOnCourse.ducking = true
      ∧ duckedOnCourse.vy = 0 ∧ duckedOnCourse.leftHeld = false
      ∧ duckedOnCourse.rightHeld = false
      ∧ duckedOnCourse.duckHeld = false ∧ duckedOnCourse.jumpPressed = false
      ∧ ((duckedOnCourse.syncViewportMetrics none).moveWorld32 (1 / 64)).caught32 = false
      ∧ duckedOnCourse.player.y = 356
      ∧ (duckedOnCourse.update32 (1 / 64) none rndHalf).player.y = 320)
    ∧ (((restOnCourse.syncViewportMetrics none).moveWorld32 (1 / 16384)).caught32 = false
      ∧ (restOnCourse.update32 (1 / 16384) none rndHalf).onGround = false
      ∧ (restOnCourse.update32 (1 / 16384) none rndHalf).player.y = 320
      ∧ (restOnCourse.update32 (1 / 16384) none rndHalf).vy = 275 / 2048) := by
  obtain ⟨a1, -, -, -, -, a6⟩ := restOnCourse_drop32
  obtain ⟨b1, -, -, -, -, b6⟩ := duckedOnCourse_stand32
  obtain ⟨c1, -, -, c4, c5, c6⟩ := restOnCourse_short32
  obtain ⟨ua, -, -, -, -⟩ := update32_of_free restOnCourse (1 / 2) none rndHalf rfl a6
  obtain ⟨ub, -, -, -, -⟩ := update32_of_free duckedOnCourse (1 / 64) none rndHalf rfl b6
  obtain ⟨uc, -, -, uc4, uc5⟩ := update32_of_free restOnCourse (1 / 16384) none rndHalf rfl c6
  refine ⟨⟨levelZeroCourse_generated.symm, restOnCourse_wellFormed, by norm_num [restOnCourse, blockAt],
      List.mem_cons_self _ _, by simp [isSolidForPlayer, blockAt, restOnCourse],
      by norm_num [restOnCourse, blockAt], by norm_num [restOnCourse, blockAt],
      rfl, rfl, rfl, rfl, rfl, (caught32_sync _ _ _).trans a6, rfl, ?_⟩,
    ⟨duckedOnCourse_wellFormed, by norm_num [duckedOnCourse, blockAt],
      List.mem_cons_self _ _, by simp [isSolidForPlayer, blockAt, duckedOnCourse],
      rfl, rfl, rfl, rfl, rfl, (caught32_sync _ _ _).trans b6, rfl, ?_⟩,
    (caught32_sync _ _ _).trans c6, uc4.trans c4, ?_, uc5.trans c5⟩
  · rw [ua, a1]
  · rw [ub, b1]
  · rw [uc, c1]

/-- C3 amended, at a concrete input: on the level-0 layout drawn without
jitter the player rests on the first block; one tick of `1 / 64`. -/
theorem landing_idempotent_witness :
    restOnCourse.obstacles = generateObstacles (levels.getD 0 {}) rndHalf
      ∧ WellFormed restOnCourse ∧ OnGrid restOnCourse
      ∧ restOnCourse.player.y + restOnCourse.player.h = (blockAt 790).rect.y
      ∧ (restOnCourse.update32 (1 / 64) none rndHalf).onGround = true
      ∧ (restOnCourse.update32 (1 / 64) none rndHalf).player.y = 320 :=
  ⟨levelZeroCourse_generated.symm, restOnCourse_wellFormed, restOnCourse_onGrid,
    by norm_num [restOnCourse, blockAt],
    landing_idempotent restOnCourse (1 / 64) none rndHalf (blockAt 790) []
      [blockAt 1060, blockAt 1330, blockAt 1600, blockAt 1870, blockAt 2140, blockAt 2410,
        blockAt 2680, blockAt 2950]
      rfl restOnCourse_wellFormed restOnCourse_onGrid (by norm_num [restOnCourse]) rfl
      (fun o' ho' => by
        have hm : o' ∈ levelZeroCourse := List.mem_cons_of_mem _ ho'
        obtain ⟨-, -, -, -, -, h⟩ := levelZeroCourse_shape o' hm
        rcases h with rfl | h
        · exfalso
          simp only [List.nil_append, List.mem_cons, List.mem_singleton, List.not_mem_nil,
            or_false] at ho'
          rcases ho' with h | h | h | h | h | h | h | h <;>
            · have := congrArg (fun o => o.rect.x) h
              norm_num [blockAt] at this
        · left
          show (780 : ℚ) + 44 ≤ o'.rect.x
          linarith)
      (by norm_num [restOnCourse, blockAt])
      ⟨by norm_num [restOnCourse, blockAt], by norm_num [restOnCourse, blockAt]⟩
      rfl rfl ⟨rfl, rfl, rfl, rfl⟩
      (by norm_num)
      (by norm_num [restOnCourse, blockAt, gravity])
      (by norm_num [restOnCourse])⟩

end BullRun
